import Mathlib

/-!
# mbos-wvs: request hashing, task queue, worker and executor

A shallow embedding of the Go sources of `lzjever/mbos-wvs`:

* `internal/core/idempotency.go`: `sortedJSON`, `ComputeRequestHash`;
* `internal/core/task.go`, `errors.go`, `workspace.go`: statuses, error codes;
* `internal/api/*_handler.go`: the submission handlers and `CancelTask`;
* `internal/worker/worker.go`, `dispatch.go`: `Run`, `executeWithLock`,
  `dispatch`, `onSuccess`, `failTask`;
* `internal/executor/quiesce.go`, `snapshot_create.go`, `set_current.go`,
  `init_workspace.go`, `snapshot_drop.go`, `switch.go`, `clone.go`, `server.go`;
* `internal/api/response.go`: `WriteError`;
* `cmd/wvs-worker/main.go`, `internal/executorclient/client.go`: the context
  of the executor call.

Go byte strings that hold text are Lean `String`s (UTF-8 text; code-point
order on `String` data is the byte order `sort.Strings` uses).  Library
code the repository calls (`encoding/json`, `path/filepath`, `crypto/sha256`,
the database driver, the operating system) is not part of the repository: its
results are either modelled after the library documentation (`json.Marshal`,
`filepath.Clean`, `filepath.Join`) or supplied as inputs.
-/

namespace Wvs

/-! ## JSON documents as `encoding/json` sees them -/

/-- A syntactically valid JSON value as the decoder of `encoding/json` sees
it.  Every node records `src`, the bytes it was parsed from (what a
`json.RawMessage` holding that node contains).  Object members are kept in
document order, duplicates included.  A number carries `f64`: the text
`json.Marshal` writes for the `float64` the literal decodes to, or `none`
when the literal is out of the `float64` range (`strconv.ParseFloat` reports
an error and `Unmarshal` into `interface{}` fails). -/
inductive JSON where
  | null (src : String)
  | bool (src : String) (b : Bool)
  | num (src : String) (f64 : Option String)
  | str (src : String) (s : String)
  | arr (src : String) (items : List JSON)
  | obj (src : String) (members : List (String × JSON))

/-- The bytes a node was parsed from. -/
def JSON.src : JSON → String
  | .null s => s
  | .bool s _ => s
  | .num s _ => s
  | .str s _ => s
  | .arr s _ => s
  | .obj s _ => s

/-- A request body handed to `sortedJSON`: bytes that are not valid JSON, or
a valid document. -/
inductive Body where
  | invalid (data : String)
  | valid (doc : JSON)

/-- The bytes of a body. -/
def Body.data : Body → String
  | .invalid d => d
  | .valid doc => doc.src

/-- Order of `sort.Strings`: bytewise lexicographic, which on UTF-8 text is
the lexicographic order of the code points. -/
def keyLE (a b : String) : Prop := a.data ≤ b.data

instance keyLE.decidable : DecidableRel keyLE :=
  fun a b => inferInstanceAs (Decidable (a.data ≤ b.data))

/-- The result of `sort.Strings` on a list of keys. -/
def sortStrings (keys : List String) : List String :=
  keys.insertionSort keyLE

/-- Keys of the Go map built by assigning the members in document order. -/
def mapKeys {α : Type} (members : List (String × α)) : List String :=
  (members.map Prod.fst).dedup

/-- Value stored under `k` in the Go map built by assigning the members in
document order: a later member overwrites an earlier one. -/
def mapGet {α : Type} (members : List (String × α)) (k : String) : Option α :=
  (members.reverse.find? (fun m => m.1 == k)).map Prod.snd

/-- Lower-case hexadecimal digit. -/
def hexDigit (n : Nat) : Char :=
  if n < 10 then Char.ofNat (48 + n) else Char.ofNat (87 + n)

/-- The escape `encoding/json` writes for one character of a string
(`appendString` with HTML escaping on, as `json.Marshal` uses it; Go 1.22 and
later, which write backspace and form feed in their short form). -/
def escapeChar (c : Char) : String :=
  if c = '"' then "\\\""
  else if c = '\\' then "\\\\"
  else if c = '\n' then "\\n"
  else if c = '\r' then "\\r"
  else if c = '\t' then "\\t"
  else if c.toNat = 8 then "\\b"
  else if c.toNat = 12 then "\\f"
  else if c.toNat < 32 ∨ c = '<' ∨ c = '>' ∨ c = '&' then
    "\\u00" ++ String.mk [hexDigit (c.toNat / 16), hexDigit (c.toNat % 16)]
  else if c.toNat = 8232 then "\\u2028"
  else if c.toNat = 8233 then "\\u2029"
  else String.mk [c]

/-- The text `json.Marshal` writes for a Go string. -/
def quote (s : String) : String :=
  "\"" ++ String.join (s.data.map escapeChar) ++ "\""

/-- Text of an object: the keys of the map sorted, each followed by a colon
and the text of its value, separated by commas, in braces.  Both the loop of
`sortedJSON` and `json.Marshal` of a Go map write this shape. -/
def encodeObject (entries : List (String × String)) : String :=
  "\x7b" ++ ",".intercalate
    ((sortStrings (mapKeys entries)).map
      (fun k => quote k ++ ":" ++ (mapGet entries k).getD "")) ++ "\x7d"

mutual
/-- Whether `json.Unmarshal` into `interface{}` succeeds on a valid document:
it fails exactly when some number literal is out of the `float64` range. -/
def JSON.decodes : JSON → Bool
  | .null _ => true
  | .bool _ _ => true
  | .num _ f => f.isSome
  | .str _ _ => true
  | .arr _ items => decodesList items
  | .obj _ members => decodesMembers members
/-- All elements of an array decode. -/
def decodesList : List JSON → Bool
  | [] => true
  | x :: xs => x.decodes && decodesList xs
/-- All member values of an object decode. -/
def decodesMembers : List (String × JSON) → Bool
  | [] => true
  | (_, v) :: ms => v.decodes && decodesMembers ms
end

mutual
/-- The text `json.Marshal` writes for the `interface{}` value decoded from a
document: compact, maps with sorted keys, arrays in order. -/
def JSON.marshal : JSON → String
  | .null _ => "null"
  | .bool _ b => if b then "true" else "false"
  | .num _ f => f.getD ""
  | .str _ s => quote s
  | .arr _ items => "[" ++ ",".intercalate (marshalList items) ++ "]"
  | .obj _ members => encodeObject (marshalMembers members)
/-- Texts of the elements of an array. -/
def marshalList : List JSON → List String
  | [] => []
  | x :: xs => x.marshal :: marshalList xs
/-- Texts of the member values of an object, under their keys. -/
def marshalMembers : List (String × JSON) → List (String × String)
  | [] => []
  | (k, v) :: ms => (k, v.marshal) :: marshalMembers ms
end

mutual
/-- Embedding of `sortedJSON` on a valid document.  `json.Unmarshal` into
`map[string]json.RawMessage` succeeds on an object and, leaving the map nil,
on `null`; on every other value it fails and the value is decoded into
`interface{}` and marshalled again, or returned as it is when that decoding
fails.  The recursive call is made on every member and the map then selects
the value of each key, which is the same text as selecting first. -/
def sortedJSONDoc : JSON → String
  | .null _ => encodeObject []
  | .obj _ members => encodeObject (sortedMembers members)
  | .bool s b => if (JSON.bool s b).decodes then (JSON.bool s b).marshal else s
  | .num s f => if (JSON.num s f).decodes then (JSON.num s f).marshal else s
  | .str s x => if (JSON.str s x).decodes then (JSON.str s x).marshal else s
  | .arr s items => if (JSON.arr s items).decodes then (JSON.arr s items).marshal else s
/-- The recursive calls of `sortedJSON` on the members of an object. -/
def sortedMembers : List (String × JSON) → List (String × String)
  | [] => []
  | (k, v) :: ms => (k, sortedJSONDoc v) :: sortedMembers ms
end

/-- Embedding of `sortedJSON`: bytes that are not valid JSON fail both
`Unmarshal` calls and are returned as they are. -/
def sortedJSON : Body → String
  | .invalid data => data
  | .valid doc => sortedJSONDoc doc

/-- The bytes `ComputeRequestHash` writes into the SHA-256 state: the sorted
body, the method, the path, with nothing in between. -/
def hashInput (body : Body) (method path : String) : String :=
  sortedJSON body ++ method ++ path

/-- Embedding of `ComputeRequestHash`; `sha256hex` stands for
`fmt.Sprintf("%x", sha256.Sum(...))` of `crypto/sha256`. -/
def ComputeRequestHash (sha256hex : String → String) (body : Body)
    (method path : String) : String :=
  sha256hex (hashInput body method path)


mutual
/-- No object of the document, at any depth, has two members with the same
key. -/
def JSON.distinctKeys : JSON → Bool
  | .null _ => true
  | .bool _ _ => true
  | .num _ _ => true
  | .str _ _ => true
  | .arr _ items => distinctKeysList items
  | .obj _ members =>
      decide ((members.map Prod.fst).Nodup) && distinctKeysMembers members
/-- Key uniqueness in every element of an array. -/
def distinctKeysList : List JSON → Bool
  | [] => true
  | x :: xs => x.distinctKeys && distinctKeysList xs
/-- Key uniqueness in every member value of an object. -/
def distinctKeysMembers : List (String × JSON) → Bool
  | [] => true
  | (_, v) :: ms => v.distinctKeys && distinctKeysMembers ms
end

/-- The document `b` is obtained from `a` by permuting the members of
objects at any nesting depth, inside arrays as well; the source bytes of the
nodes are free, the decoded scalars are kept.  The rules `arrCons` and
`objCons` carry the relation through the elements of an array and the
members of an object one position at a time. -/
inductive KeyPerm : JSON → JSON → Prop
  | null (s t : String) : KeyPerm (.null s) (.null t)
  | bool (s t : String) (b : Bool) : KeyPerm (.bool s b) (.bool t b)
  | num (s t : String) (f : Option String) : KeyPerm (.num s f) (.num t f)
  | str (s t : String) (x : String) : KeyPerm (.str s x) (.str t x)
  | arrNil (s t : String) : KeyPerm (.arr s []) (.arr t [])
  | arrCons {a b : JSON} {xs ys : List JSON} (s t u v : String) :
      KeyPerm a b → KeyPerm (.arr s xs) (.arr t ys) →
      KeyPerm (.arr u (a :: xs)) (.arr v (b :: ys))
  | objNil (s t : String) : KeyPerm (.obj s []) (.obj t [])
  | objCons {a b : JSON} {ms ns : List (String × JSON)} (s t u v k : String) :
      KeyPerm a b → KeyPerm (.obj s ms) (.obj t ns) →
      KeyPerm (.obj u ((k, a) :: ms)) (.obj v ((k, b) :: ns))
  | objPerm {ms ns : List (String × JSON)} (s t : String) :
      ms.Perm ns → KeyPerm (.obj s ms) (.obj t ns)
  | trans {a b c : JSON} : KeyPerm a b → KeyPerm b c → KeyPerm a c

/-- Elements of an array node, empty for other nodes. -/
def JSON.elems : JSON → List JSON
  | .arr _ items => items
  | _ => []

/-- Members of an object node, empty for other nodes. -/
def JSON.membersOf : JSON → List (String × JSON)
  | .obj _ members => members
  | _ => []


/-! ## Core types (`internal/core`) -/

/-- Go `core.TaskOp`, a string. -/
abbrev TaskOp := String

/-- `core.OpInitWorkspace`. -/
def OpInitWorkspace : TaskOp := "init_workspace"
/-- `core.OpSnapshotCreate`. -/
def OpSnapshotCreate : TaskOp := "snapshot_create"
/-- `core.OpSnapshotDrop`. -/
def OpSnapshotDrop : TaskOp := "snapshot_drop"
/-- `core.OpSetCurrent`. -/
def OpSetCurrent : TaskOp := "set_current"

/-- Go `core.TaskStatus`: the six status strings the code writes. -/
inductive TaskStatus where
  | TaskPending
  | TaskRunning
  | TaskSucceeded
  | TaskFailed
  | TaskCanceled
  | TaskDead
deriving DecidableEq

/-- Go `core.WorkspaceState`. -/
inductive WorkspaceState where
  | WorkspaceProvisioning
  | WorkspaceActive
  | WorkspaceInitFailed
  | WorkspaceDisabled
deriving DecidableEq

open TaskStatus WorkspaceState

/-- Go `core.ErrorCode`, a string. -/
abbrev ErrorCode := String

/-- `core.ErrBadRequest`. -/
def ErrBadRequest : ErrorCode := "WVS_BAD_REQUEST"
/-- `core.ErrNotFound`. -/
def ErrNotFound : ErrorCode := "WVS_NOT_FOUND"
/-- `core.ErrConflictLocked`. -/
def ErrConflictLocked : ErrorCode := "WVS_CONFLICT_LOCKED"
/-- `core.ErrConflictIdempotent`. -/
def ErrConflictIdempotent : ErrorCode := "WVS_CONFLICT_IDEMPOTENT_MISMATCH"
/-- `core.ErrConflictExists`. -/
def ErrConflictExists : ErrorCode := "WVS_CONFLICT_EXISTS"
/-- `core.ErrConflictSnapshotInUse`. -/
def ErrConflictSnapshotInUse : ErrorCode := "WVS_CONFLICT_SNAPSHOT_IN_USE"
/-- `core.ErrGone`. -/
def ErrGone : ErrorCode := "WVS_GONE"
/-- `core.ErrPreconditionFailed`. -/
def ErrPreconditionFailed : ErrorCode := "WVS_PRECONDITION_FAILED"
/-- `core.ErrInternal`. -/
def ErrInternal : ErrorCode := "WVS_INTERNAL"
/-- `core.ErrExecutorError`. -/
def ErrExecutorError : ErrorCode := "WVS_EXECUTOR_ERROR"
/-- `core.ErrExecutorTimeout`. -/
def ErrExecutorTimeout : ErrorCode := "WVS_EXECUTOR_TIMEOUT"

/-- Embedding of `ErrorCode.HTTPStatus`. -/
def HTTPStatus (e : ErrorCode) : Nat :=
  if e = ErrBadRequest then 400
  else if e = ErrNotFound then 404
  else if e = ErrConflictLocked ∨ e = ErrConflictIdempotent ∨ e = ErrConflictExists
      ∨ e = ErrConflictSnapshotInUse then 409
  else if e = ErrGone then 410
  else if e = ErrPreconditionFailed then 412
  else if e = ErrExecutorError then 502
  else if e = ErrExecutorTimeout then 504
  else 500

/-! ## Rows of the store (`store.WvsTask`, `store.WvsWorkspace`,
`store.WvsSnapshot`) -/

/-- A row of `wvs.tasks`.  `Params` is the decoded `map[string]string` the
handlers marshal and the worker unmarshals; times are instants of the
database clock; `Attempt` and `MaxAttempts` are `int32` columns (no overflow
arises: an attempt only grows by one per lease). -/
structure WvsTask where
  TaskID : String
  Wsid : String
  Op : TaskOp
  Status : TaskStatus
  IdempotencyKey : String
  RequestHash : String
  CreatedAt : Nat
  StartedAt : Option Nat
  EndedAt : Option Nat
  Attempt : Int
  MaxAttempts : Int
  NextRunAt : Nat
  TimeoutSeconds : Int
  CancelRequested : Bool
  Params : List (String × String)
  Result : Option String
  Error : Option String
deriving DecidableEq

/-- A row of `wvs.workspaces`; `CurrentSnapshotID` is a nullable text
(`pgtype.Text`, `none` when not valid). -/
structure WvsWorkspace where
  Wsid : String
  RootPath : String
  Owner : String
  State : WorkspaceState
  CurrentSnapshotID : Option String
  CurrentPath : String
  CreatedAt : Nat
  UpdatedAt : Nat
deriving DecidableEq

/-- A row of `wvs.snapshots`. -/
structure WvsSnapshot where
  SnapshotID : String
  Wsid : String
  FsPath : String
  Message : Option String
  CreatedAt : Nat
  DeletedAt : Option Nat
deriving DecidableEq

/-- A row of the audit log written by the handlers. -/
structure AuditEvent where
  Wsid : String
  Action : String
  TaskID : Option String
deriving DecidableEq

/-- The tables of the store. -/
structure DB where
  tasks : List WvsTask
  workspaces : List WvsWorkspace
  snapshots : List WvsSnapshot
  audit : List AuditEvent
deriving DecidableEq

/-- Embedding of `Task.IsTerminal` and `isTerminalStatus`. -/
def isTerminalStatus (status : TaskStatus) : Bool :=
  match status with
  | TaskSucceeded | TaskCanceled | TaskDead => true
  | _ => false

/-- Embedding of `Task.IsRetryable`. -/
def WvsTask.IsRetryable (t : WvsTask) : Bool :=
  t.Status = TaskFailed ∧ t.Attempt < t.MaxAttempts

/-- Go map index `params[k]`: the empty string when the key is absent. -/
def paramGet (params : List (String × String)) (k : String) : String :=
  (mapGet params k).getD ""

/-- Embedding of `textFromString`: the empty string becomes a null text. -/
def textFromString (s : String) : Option String :=
  if s = "" then none else some s

/-! ## Queries of the store

The generated query code (`internal/store`, produced from SQL files) is not
among the sources: only its callers and `store_test.go` are.  The queries are
modelled from the specification, from the schema in `store_test.go` and from
the way the callers use their results. -/

/-- Modelled from the spec: the query `GetTaskByIdempotencyKey` (generated
store code is missing); it returns the row with the given (`wsid`, `op`,
`idempotency_key`), if any. -/
def GetTaskByIdempotencyKey (db : DB) (wsid : String) (op : TaskOp) (key : String) :
    Option WvsTask :=
  db.tasks.find? (fun t => t.Wsid = wsid ∧ t.Op = op ∧ t.IdempotencyKey = key)

/-- Modelled from the spec: the query `GetTask` (generated store code is
missing); the row with the given `task_id`. -/
def GetTask (db : DB) (taskID : String) : Option WvsTask :=
  db.tasks.find? (fun t => t.TaskID = taskID)

/-- Modelled from the spec: the query `GetWorkspace` (generated store code is
missing); the row with the given `wsid`. -/
def GetWorkspace (db : DB) (wsid : String) : Option WvsWorkspace :=
  db.workspaces.find? (fun w => w.Wsid = wsid)

/-- Modelled from the spec: the query `GetSnapshot` (generated store code is
missing); the row with the given `snapshot_id`. -/
def GetSnapshot (db : DB) (snapshotID : String) : Option WvsSnapshot :=
  db.snapshots.find? (fun s => s.SnapshotID = snapshotID)

/-- Arguments of `CreateTask` (`store.CreateTaskParams`). -/
structure CreateTaskParams where
  TaskID : String
  Wsid : String
  Op : TaskOp
  IdempotencyKey : String
  RequestHash : String
  Params : List (String × String)
  MaxAttempts : Int
  TimeoutSeconds : Int
deriving DecidableEq

/-- Modelled from the spec: the query `CreateTask` (generated store code is
missing).  "Insert a new row at status=PENDING, attempt=0, `next_run_at` =
now"; the insert fails, changing nothing, when the primary key `task_id` or
the unique (`wsid`, `op`, `idempotency_key`) is taken or the workspace row
the task refers to does not exist. -/
def CreateTask (db : DB) (now : Nat) (p : CreateTaskParams) : Option (DB × WvsTask) :=
  if (GetTask db p.TaskID).isSome
      ∨ (GetTaskByIdempotencyKey db p.Wsid p.Op p.IdempotencyKey).isSome
      ∨ (GetWorkspace db p.Wsid).isNone then none
  else
    let t : WvsTask :=
      { TaskID := p.TaskID, Wsid := p.Wsid, Op := p.Op, Status := TaskPending,
        IdempotencyKey := p.IdempotencyKey, RequestHash := p.RequestHash,
        CreatedAt := now, StartedAt := none, EndedAt := none, Attempt := 0,
        MaxAttempts := p.MaxAttempts, NextRunAt := now,
        TimeoutSeconds := p.TimeoutSeconds, CancelRequested := false,
        Params := p.Params, Result := none, Error := none }
    some ({ db with tasks := db.tasks ++ [t] }, t)

/-- Modelled from the spec: the query `CreateWorkspace` (generated store code
is missing).  The row is created in PROVISIONING with no current snapshot;
the insert fails when `wsid` (primary key) or `root_path` (unique) is
taken. -/
def CreateWorkspaceRow (db : DB) (now : Nat) (wsid rootPath owner currentPath : String) :
    Option (DB × WvsWorkspace) :=
  if db.workspaces.any (fun w => w.Wsid = wsid ∨ w.RootPath = rootPath) then none
  else
    let w : WvsWorkspace :=
      { Wsid := wsid, RootPath := rootPath, Owner := owner,
        State := WorkspaceProvisioning, CurrentSnapshotID := none,
        CurrentPath := currentPath, CreatedAt := now, UpdatedAt := now }
    some ({ db with workspaces := db.workspaces ++ [w] }, w)

/-- Modelled from the spec: the query `UpdateWorkspaceState` (generated store
code is missing); sets `state` of the row with the given `wsid`. -/
def UpdateWorkspaceState (db : DB) (now : Nat) (wsid : String) (state : WorkspaceState) : DB :=
  { db with workspaces := db.workspaces.map (fun w =>
      if w.Wsid = wsid then { w with State := state, UpdatedAt := now } else w) }

/-- Modelled from the spec: the query `UpdateWorkspaceCurrent` (generated
store code is missing): "atomic set of `current_snapshot_id` +
`current_path`". -/
def UpdateWorkspaceCurrent (db : DB) (now : Nat) (wsid : String)
    (currentSnapshotID : Option String) (currentPath : String) : DB :=
  { db with workspaces := db.workspaces.map (fun w =>
      if w.Wsid = wsid then
        { w with CurrentSnapshotID := currentSnapshotID, CurrentPath := currentPath,
                 UpdatedAt := now }
      else w) }

/-- Modelled from the spec: the query `CountActiveTasks` (generated store
code is missing); the tasks of the workspace that are not in a terminal
status. -/
def CountActiveTasks (db : DB) (wsid : String) : Nat :=
  (db.tasks.filter (fun t => t.Wsid = wsid ∧ ¬ isTerminalStatus t.Status)).length

/-- Modelled from the spec: the query `DisableWorkspace` (generated store code
is missing): "disable (guarded by zero active tasks)"; it returns the
disabled row, or fails when there is no such workspace or it has active
tasks. -/
def DisableWorkspaceRow (db : DB) (now : Nat) (wsid : String) : Option (DB × WvsWorkspace) :=
  match GetWorkspace db wsid with
  | none => none
  | some w =>
    if CountActiveTasks db wsid = 0 then
      some (UpdateWorkspaceState db now wsid WorkspaceDisabled,
            { w with State := WorkspaceDisabled, UpdatedAt := now })
    else none

/-- Modelled from the spec: the query `CreateSnapshot` (generated store code
is missing): inserts the snapshot row, not deleted; fails when the primary
key `snapshot_id` is taken. -/
def CreateSnapshotRow (db : DB) (now : Nat) (snapshotID wsid fsPath : String)
    (message : Option String) : Option DB :=
  if (GetSnapshot db snapshotID).isSome then none
  else
    some { db with snapshots := db.snapshots ++
      [{ SnapshotID := snapshotID, Wsid := wsid, FsPath := fsPath, Message := message,
         CreatedAt := now, DeletedAt := none }] }

/-- Modelled from the spec: the query `MarkSnapshotDeleted` (generated store
code is missing): sets `deleted_at` of the snapshot row. -/
def MarkSnapshotDeleted (db : DB) (now : Nat) (snapshotID : String) : DB :=
  { db with snapshots := db.snapshots.map (fun s =>
      if s.SnapshotID = snapshotID then { s with DeletedAt := some now } else s) }

/-- Modelled from the spec: the query `IsSnapshotReferencedByTasks` (generated
store code is missing): "is this snapshot referenced by any non-terminal task
on this workspace", the worker using it to "re-test that the target snapshot
is not referenced by any non-terminal task other than this one".  The call
in the source passes the workspace and the snapshot only; `self` identifies
the calling task that the spec excludes. -/
def IsSnapshotReferencedByTasks (db : DB) (self wsid snapshotID : String) : Bool :=
  db.tasks.any (fun t => t.Wsid = wsid ∧ ¬ isTerminalStatus t.Status ∧ t.TaskID ≠ self
    ∧ paramGet t.Params "snapshot_id" = snapshotID)

/-- Rows `DequeueTask` may lease at time `now`: "`status ∈ {PENDING} ∪ {FAILED
where attempt < max_attempts}`, `next_run_at ≤ now`, `cancel_requested =
false`". -/
def dequeueEligible (now : Nat) (t : WvsTask) : Bool :=
  (t.Status = TaskPending ∨ (t.Status = TaskFailed ∧ t.Attempt < t.MaxAttempts))
    ∧ t.NextRunAt ≤ now ∧ t.CancelRequested = false

/-- Whether `a` comes no later than `b` in the order "(`next_run_at`,
`created_at`)" of `DequeueTask`. -/
def dequeueBefore (a b : WvsTask) : Bool :=
  a.NextRunAt < b.NextRunAt ∨ (a.NextRunAt = b.NextRunAt ∧ a.CreatedAt ≤ b.CreatedAt)

/-- First row of a list in the order of `dequeueBefore`. -/
def dequeueFirst : List WvsTask → Option WvsTask
  | [] => none
  | t :: ts =>
    match dequeueFirst ts with
    | none => some t
    | some u => if dequeueBefore t u then some t else some u

/-- The row `DequeueTask` writes for the row `t` it leases: "set
status=RUNNING, `started_at`=now, `attempt`=`attempt`+1". -/
def leaseRow (now : Nat) (t : WvsTask) : WvsTask :=
  { t with Status := TaskRunning, StartedAt := some now, Attempt := t.Attempt + 1 }

/-- Modelled from the spec: the query `DequeueTask` (generated store code is
missing): "select and transition one row where ..., ordered by
(`next_run_at`, `created_at`); set status=RUNNING, `started_at`=now,
`attempt`=`attempt`+1; return the full row.  If none qualifies, fail with
NO_TASK." -/
def DequeueTask (db : DB) (now : Nat) : Option (DB × WvsTask) :=
  match dequeueFirst (db.tasks.filter (dequeueEligible now)) with
  | none => none
  | some t =>
    some ({ db with tasks := db.tasks.map (fun u =>
              if u.TaskID = t.TaskID then leaseRow now u else u) }, leaseRow now t)

/-- Modelled from the spec: the query `CompleteTask` (generated store code is
missing): "Complete sets status=SUCCEEDED|CANCELED, `ended_at`=now, `result`
or `error`". -/
def CompleteTask (db : DB) (now : Nat) (taskID : String) (status : TaskStatus)
    (result error : Option String) : DB :=
  { db with tasks := db.tasks.map (fun t =>
      if t.TaskID = taskID then
        { t with Status := status, EndedAt := some now, Result := result, Error := error }
      else t) }

/-- Modelled from the spec: the query `FailTask` (generated store code is
missing): "Fail sets status=FAILED, `ended_at`=now, `error` set, and
schedules a retry: `next_run_at` = now + backoff(attempt)"; `delay` is the
random backoff drawn for this call. -/
def FailTask (db : DB) (now delay : Nat) (taskID : String) (error : String) : DB :=
  { db with tasks := db.tasks.map (fun t =>
      if t.TaskID = taskID then
        { t with Status := TaskFailed, EndedAt := some now, Error := some error,
                 NextRunAt := now + delay }
      else t) }

/-- Modelled from the spec: the query `MarkTaskDead` (generated store code is
missing): "Mark-dead is Fail without rescheduling and sets status=DEAD". -/
def MarkTaskDead (db : DB) (now : Nat) (taskID : String) (error : String) : DB :=
  { db with tasks := db.tasks.map (fun t =>
      if t.TaskID = taskID then
        { t with Status := TaskDead, EndedAt := some now, Error := some error }
      else t) }

/-- Modelled from the spec: the query `CancelPendingTask` (generated store
code is missing): "If current status=PENDING, transition to CANCELED
directly"; it fails, changing nothing, when no PENDING row has the id. -/
def CancelPendingTask (db : DB) (now : Nat) (taskID : String) : Option DB :=
  if db.tasks.any (fun t => t.TaskID = taskID ∧ t.Status = TaskPending) then
    some { db with tasks := db.tasks.map (fun t =>
      if t.TaskID = taskID ∧ t.Status = TaskPending then
        { t with Status := TaskCanceled, EndedAt := some now }
      else t) }
  else none

/-- Modelled from the spec: the query `RequestCancelRunningTask` (generated
store code is missing): "If RUNNING, set `cancel_requested=true` only"; it
fails, changing nothing, when no RUNNING row has the id. -/
def RequestCancelRunningTask (db : DB) (taskID : String) : Option DB :=
  if db.tasks.any (fun t => t.TaskID = taskID ∧ t.Status = TaskRunning) then
    some { db with tasks := db.tasks.map (fun t =>
      if t.TaskID = taskID ∧ t.Status = TaskRunning then
        { t with CancelRequested := true }
      else t) }
  else none

/-- The insert of `writeAudit`; its result is ignored by every caller. -/
def writeAudit (db : DB) (wsid action : String) (taskID : Option String) : DB :=
  { db with audit := db.audit ++ [{ Wsid := wsid, Action := action, TaskID := taskID }] }

/-! ## HTTP handlers (`internal/api`) -/

/-- What a handler writes: `WriteAccepted` (202 with the task id),
`WriteError` (the status of the code) or `WriteJSON` with status 200. -/
inductive Response where
  | accepted (taskID : String)
  | error (code : ErrorCode) (message : String)
  | okWorkspace (ws : WvsWorkspace)
  | okDeleted
  | okNoop (currentSnapshot currentPath : String)
  | okTask (task : WvsTask)
deriving DecidableEq

/-- Status code of a response. -/
def Response.status : Response → Nat
  | .accepted _ => 202
  | .error code _ => HTTPStatus code
  | _ => 200

/-- The `task_id` a response carries, if it is a 202. -/
def Response.taskID? : Response → Option String
  | .accepted id => some id
  | _ => none

/-- The zero value of `store.WvsTask`, which a query that finds no row (or
fails) leaves in its result. -/
def zeroTask : WvsTask :=
  { TaskID := "", Wsid := "", Op := "", Status := TaskPending, IdempotencyKey := "",
    RequestHash := "", CreatedAt := 0, StartedAt := none, EndedAt := none, Attempt := 0,
    MaxAttempts := 0, NextRunAt := 0, TimeoutSeconds := 0, CancelRequested := false,
    Params := [], Result := none, Error := none }

/-- A JSON string node as `json.Marshal` writes it. -/
def strNode (s : String) : JSON := .str (quote s) s

/-- An object node as `json.Marshal` writes it, members in the given order. -/
def objNode (members : List (String × String)) : JSON :=
  .obj ("\x7b" ++ ",".intercalate (members.map (fun m => quote m.1 ++ ":" ++ quote m.2)) ++ "\x7d")
    (members.map (fun m => (m.1, strNode m.2)))

/-- `api.CreateWorkspaceRequest`. -/
structure CreateWorkspaceRequest where
  WSID : String
  RootPath : String
  Owner : String
deriving DecidableEq

/-- `json.Marshal` of a `CreateWorkspaceRequest`. -/
def CreateWorkspaceRequest.marshal (req : CreateWorkspaceRequest) : Body :=
  .valid (objNode [("wsid", req.WSID), ("root_path", req.RootPath), ("owner", req.Owner)])

/-- `json.Marshal` of a `CreateSnapshotRequest` (`message` has `omitempty`). -/
def marshalCreateSnapshotRequest (message : String) : Body :=
  .valid (objNode (if message = "" then [] else [("message", message)]))

/-- `json.Marshal` of a `SetCurrentRequest` and of the one-entry map
`DropSnapshot` hashes. -/
def marshalSnapshotID (snapshotID : String) : Body :=
  .valid (objNode [("snapshot_id", snapshotID)])

/-- Embedding of `API.CreateWorkspace`.  `idempotencyKey` is the header
(empty when absent), `body` the decoded request (`none` when decoding
fails), `taskID` the value `core.NewID()` returns. -/
def CreateWorkspace (sha256hex : String → String) (db : DB) (now : Nat) (taskID : String)
    (idempotencyKey : String) (body : Option CreateWorkspaceRequest) : DB × Response :=
  if idempotencyKey = "" then
    (db, .error ErrBadRequest "Idempotency-Key header required")
  else match body with
  | none => (db, .error ErrBadRequest "invalid request body")
  | some req =>
    if req.WSID = "" ∨ req.RootPath = "" ∨ req.Owner = "" then
      (db, .error ErrBadRequest "wsid, root_path, and owner are required")
    else
      let requestHash := ComputeRequestHash sha256hex req.marshal "POST" "/v1/workspaces"
      let existingTask := (GetTaskByIdempotencyKey db req.WSID OpInitWorkspace idempotencyKey).getD zeroTask
      if existingTask.TaskID ≠ "" then
        if existingTask.RequestHash = requestHash then
          (db, .accepted existingTask.TaskID)
        else (db, .error ErrConflictIdempotent "idempotency key mismatch")
      else
        match CreateWorkspaceRow db now req.WSID req.RootPath req.Owner req.RootPath with
        | none => (db, .error ErrInternal "failed to create workspace")
        | some (db₁, _) =>
          match CreateTask db₁ now
              { TaskID := taskID, Wsid := req.WSID, Op := OpInitWorkspace,
                IdempotencyKey := idempotencyKey, RequestHash := requestHash,
                Params := [("owner", req.Owner)], MaxAttempts := 5, TimeoutSeconds := 300 } with
          | none => (db₁, .error ErrInternal "failed to create task")
          | some (db₂, _) =>
            (writeAudit db₂ req.WSID "workspace.create" (some taskID), .accepted taskID)

/-- Embedding of `API.RetryInit`; `idempotencyKey` and `taskID` are the two
values `core.NewID()` returns. -/
def RetryInit (sha256hex : String → String) (db : DB) (now : Nat)
    (idempotencyKey taskID : String) (wsid : String) : DB × Response :=
  match GetWorkspace db wsid with
  | none => (db, .error ErrNotFound "workspace not found")
  | some ws =>
    if ws.State ≠ WorkspaceInitFailed then
      (db, .error ErrPreconditionFailed "workspace is not in INIT_FAILED state")
    else
      let db₁ := UpdateWorkspaceState db now wsid WorkspaceProvisioning
      let requestHash := ComputeRequestHash sha256hex (.valid (objNode [("owner", ws.Owner)]))
        "POST" ("/v1/workspaces/" ++ wsid ++ "/retry-init")
      match CreateTask db₁ now
          { TaskID := taskID, Wsid := wsid, Op := OpInitWorkspace,
            IdempotencyKey := idempotencyKey, RequestHash := requestHash,
            Params := [("owner", ws.Owner)], MaxAttempts := 5, TimeoutSeconds := 300 } with
      | none => (db₁, .error ErrInternal "failed to create task")
      | some (db₂, _) => (db₂, .accepted taskID)

/-- Embedding of `API.DisableWorkspace`. -/
def DisableWorkspace (db : DB) (now : Nat) (wsid : String) : DB × Response :=
  match GetWorkspace db wsid with
  | none => (db, .error ErrNotFound "workspace not found")
  | some ws =>
    if ws.State = WorkspaceDisabled then (db, .okWorkspace ws)
    else if CountActiveTasks db wsid > 0 then
      (db, .error ErrConflictLocked "workspace has active tasks")
    else
      match DisableWorkspaceRow db now wsid with
      | none => (db, .error ErrInternal "failed to disable workspace")
      | some (db₁, ws₁) => (writeAudit db₁ wsid "workspace.disable" none, .okWorkspace ws₁)

/-- Embedding of `API.CreateSnapshot`.  `message` is the field of the decoded
request (a decoding error is ignored by the handler); `taskID` and
`snapshotID` are the two values `core.NewID()` returns. -/
def CreateSnapshot (sha256hex : String → String) (db : DB) (now : Nat)
    (taskID snapshotID : String) (wsid idempotencyKey message : String) : DB × Response :=
  match GetWorkspace db wsid with
  | none => (db, .error ErrNotFound "workspace not found")
  | some ws =>
    if ws.State = WorkspaceDisabled then (db, .error ErrGone "workspace is disabled")
    else if idempotencyKey = "" then
      (db, .error ErrBadRequest "Idempotency-Key header required")
    else
      let requestHash := ComputeRequestHash sha256hex (marshalCreateSnapshotRequest message)
        "POST" ("/v1/workspaces/" ++ wsid ++ "/snapshots")
      let existingTask := (GetTaskByIdempotencyKey db wsid OpSnapshotCreate idempotencyKey).getD zeroTask
      if existingTask.TaskID ≠ "" then
        if existingTask.RequestHash = requestHash then
          (db, .accepted existingTask.TaskID)
        else (db, .error ErrConflictIdempotent "idempotency key mismatch")
      else
        match CreateTask db now
            { TaskID := taskID, Wsid := wsid, Op := OpSnapshotCreate,
              IdempotencyKey := idempotencyKey, RequestHash := requestHash,
              Params := [("snapshot_id", snapshotID), ("message", message)],
              MaxAttempts := 5, TimeoutSeconds := 300 } with
        | none => (db, .error ErrInternal "failed to create task")
        | some (db₁, _) =>
          (writeAudit db₁ wsid "snapshot.create" (some taskID), .accepted taskID)

/-- Embedding of `API.DropSnapshot`; `taskID` is the value `core.NewID()`
returns. -/
def DropSnapshot (sha256hex : String → String) (db : DB) (now : Nat) (taskID : String)
    (wsid snapshotID idempotencyKey : String) : DB × Response :=
  match GetWorkspace db wsid with
  | none => (db, .error ErrNotFound "workspace not found")
  | some ws =>
    if ws.State = WorkspaceDisabled then (db, .error ErrGone "workspace is disabled")
    else match GetSnapshot db snapshotID with
    | none => (db, .error ErrNotFound "snapshot not found")
    | some snap =>
      if snap.DeletedAt.isSome then (db, .okDeleted)
      else if ws.CurrentSnapshotID = some snapshotID then
        (db, .error ErrConflictSnapshotInUse "cannot drop current snapshot")
      else if idempotencyKey = "" then
        (db, .error ErrBadRequest "Idempotency-Key header required")
      else
        let requestHash := ComputeRequestHash sha256hex (marshalSnapshotID snapshotID)
          "DELETE" ("/v1/workspaces/" ++ wsid ++ "/snapshots/" ++ snapshotID)
        let existingTask := (GetTaskByIdempotencyKey db wsid OpSnapshotDrop idempotencyKey).getD zeroTask
        if existingTask.TaskID ≠ "" then
          if existingTask.RequestHash = requestHash then
            (db, .accepted existingTask.TaskID)
          else (db, .error ErrConflictIdempotent "idempotency key mismatch")
        else
          match CreateTask db now
              { TaskID := taskID, Wsid := wsid, Op := OpSnapshotDrop,
                IdempotencyKey := idempotencyKey, RequestHash := requestHash,
                Params := [("snapshot_id", snapshotID)],
                MaxAttempts := 5, TimeoutSeconds := 300 } with
          | none => (db, .error ErrInternal "failed to create task")
          | some (db₁, _) =>
            (writeAudit db₁ wsid "snapshot.drop" (some taskID), .accepted taskID)

/-- Embedding of `API.SetCurrent`.  `body` is the `snapshot_id` of the decoded
request (`none` when decoding fails); `taskID` is the value `core.NewID()`
returns and `newLiveID` the eight characters cut from a fresh UUID. -/
def SetCurrent (sha256hex : String → String) (db : DB) (now : Nat)
    (taskID newLiveID : String) (wsid idempotencyKey : String) (body : Option String) :
    DB × Response :=
  match GetWorkspace db wsid with
  | none => (db, .error ErrNotFound "workspace not found")
  | some ws =>
    if ws.State = WorkspaceDisabled then (db, .error ErrGone "workspace is disabled")
    else if idempotencyKey = "" then
      (db, .error ErrBadRequest "Idempotency-Key header required")
    else match body with
    | none => (db, .error ErrBadRequest "invalid request body")
    | some snapshotID =>
      if snapshotID = "" then (db, .error ErrBadRequest "snapshot_id required")
      else match GetSnapshot db snapshotID with
      | none => (db, .error ErrNotFound "snapshot not found")
      | some snap =>
        if snap.DeletedAt.isSome then (db, .error ErrNotFound "snapshot not found")
        else if ws.CurrentSnapshotID = some snapshotID then
          (db, .okNoop snapshotID ws.CurrentPath)
        else
          let requestHash := ComputeRequestHash sha256hex (marshalSnapshotID snapshotID)
            "POST" ("/v1/workspaces/" ++ wsid ++ "/current:set")
          let existingTask := (GetTaskByIdempotencyKey db wsid OpSetCurrent idempotencyKey).getD zeroTask
          if existingTask.TaskID ≠ "" then
            if existingTask.RequestHash = requestHash then
              (db, .accepted existingTask.TaskID)
            else (db, .error ErrConflictIdempotent "idempotency key mismatch")
          else
            match CreateTask db now
                { TaskID := taskID, Wsid := wsid, Op := OpSetCurrent,
                  IdempotencyKey := idempotencyKey, RequestHash := requestHash,
                  Params := [("snapshot_id", snapshotID), ("new_live_id", newLiveID)],
                  MaxAttempts := 5, TimeoutSeconds := 300 } with
            | none => (db, .error ErrInternal "failed to create task")
            | some (db₁, _) =>
              (writeAudit db₁ wsid "current.set" (some taskID), .accepted taskID)

/-- Embedding of `API.CancelTask`. -/
def CancelTask (db : DB) (now : Nat) (taskID : String) : DB × Response :=
  match GetTask db taskID with
  | none => (db, .error ErrNotFound "task not found")
  | some task =>
    if isTerminalStatus task.Status then (db, .okTask task)
    else if task.Status = TaskPending then
      match CancelPendingTask db now taskID with
      | none => (db, .error ErrInternal "failed to cancel task")
      | some db₁ =>
        (writeAudit db₁ task.Wsid "task.cancel" (some taskID),
         .okTask { task with Status := TaskCanceled })
    else
      match RequestCancelRunningTask db taskID with
      | none => (db, .error ErrInternal "failed to request cancel")
      | some db₁ =>
        (writeAudit db₁ task.Wsid "task.cancel" (some taskID),
         .okTask { task with CancelRequested := true })

/-! ## Worker (`internal/worker`) -/

/-- Arguments of the executor RPC (`pb.ExecuteTaskRequest`); `Op` is the op
string whose wire value `opMap` holds. -/
structure ExecuteTaskRequest where
  TaskId : String
  Wsid : String
  Op : TaskOp
  Params : List (String × String)
deriving DecidableEq

/-- Answer of the executor RPC (`pb.ExecuteTaskResponse`); `Results` is `none`
for a nil map. -/
structure ExecuteTaskResponse where
  Success : Bool
  Results : Option (List (String × String))
  ErrorCode : String
  ErrorMessage : String
deriving DecidableEq

/-- What a worker issues while it handles one leased task: writes on the
store, in the order of the calls, and the executor RPC.  A write made inside
the lock transaction is listed only on the path where the transaction
commits (on every other path the deferred rollback undoes it). -/
inductive Effect where
  | CompleteTask (taskID : String) (status : TaskStatus) (result error : Option String)
  | FailTask (taskID : String) (error : String)
  | MarkTaskDead (taskID : String) (error : String)
  | UpdateWorkspaceState (wsid : String) (state : WorkspaceState)
  | CreateSnapshot (snapshotID wsid fsPath : String) (message : Option String)
  | UpdateWorkspaceCurrent (wsid : String) (currentSnapshotID : Option String)
      (currentPath : String)
  | MarkSnapshotDeleted (snapshotID : String)
  | ExecuteTask (req : ExecuteTaskRequest)
deriving DecidableEq

/-- What the surroundings of a worker decide while it handles one task:
failures of the transaction, of the lock and of the queries whose error the
code tests, and the outcome of the executor RPC (a transport error or the
response). -/
structure WorkerEnv where
  beginErr : Option String
  lockErr : Option String
  referencedErr : Bool
  markDeletedErr : Option String
  commitErr : Option String
  getWorkspaceErr : Bool
  rpc : Except String ExecuteTaskResponse

/-- `json.Marshal` of a `map[string]string` (keys sorted); `none` is the nil
map, written `null`. -/
def marshalStringMap : Option (List (String × String)) → String
  | none => "null"
  | some m => encodeObject (m.map (fun e => (e.1, quote e.2)))

/-- The JSON the worker stores as the error of a task. -/
def errorJSON (msg : String) : String :=
  marshalStringMap (some [("error", msg)])

/-- Embedding of `Worker.failTask`: the store calls it issues. -/
def failTask (task : WvsTask) (taskErr : String) : List Effect :=
  if task.Attempt ≥ task.MaxAttempts then
    .MarkTaskDead task.TaskID (errorJSON taskErr) ::
      (if task.Op = OpInitWorkspace then
        [.UpdateWorkspaceState task.Wsid WorkspaceInitFailed]
      else [])
  else [.FailTask task.TaskID (errorJSON taskErr)]

/-- Go map index on a possibly nil map. -/
def resultGet (results : Option (List (String × String))) (k : String) : String :=
  paramGet (results.getD []) k

/-- Embedding of `Worker.onSuccess`: the store calls it issues. -/
def onSuccess (task : WvsTask) (results : Option (List (String × String))) : List Effect :=
  (if task.Op = OpInitWorkspace then
    [.UpdateWorkspaceState task.Wsid WorkspaceActive]
  else if task.Op = OpSnapshotCreate then
    [.CreateSnapshot (paramGet task.Params "snapshot_id") task.Wsid
      (resultGet results "fs_path") (textFromString (paramGet task.Params "message"))]
  else if task.Op = OpSetCurrent then
    [.UpdateWorkspaceCurrent task.Wsid (textFromString (paramGet task.Params "snapshot_id"))
      (resultGet results "current_path")]
  else [])
  ++ [.CompleteTask task.TaskID TaskSucceeded (some (marshalStringMap results)) none]

/-- Embedding of `Worker.checkSetCurrentNoop`: whether it returns `(true,
nil)`, and the store calls it issues. -/
def checkSetCurrentNoop (env : WorkerEnv) (db : DB) (task : WvsTask)
    (params : List (String × String)) : Bool × List Effect :=
  if env.getWorkspaceErr then (false, [])
  else match GetWorkspace db task.Wsid with
  | none => (false, [])
  | some ws =>
    if ws.CurrentSnapshotID = some (paramGet params "snapshot_id") then
      (true, [.CompleteTask task.TaskID TaskSucceeded (some "\x7b\"noop\":true\x7d") none])
    else (false, [])

/-- The table `opMap`: whether the op string has a wire value. -/
def opMapHas (op : TaskOp) : Bool :=
  op = OpInitWorkspace ∨ op = OpSnapshotCreate ∨ op = OpSnapshotDrop ∨ op = OpSetCurrent

/-- Go map assignment `params[k] = v`. -/
def paramSet (params : List (String × String)) (k v : String) : List (String × String) :=
  params.filter (fun e => e.1 ≠ k) ++ [(k, v)]

/-- The executor call and what follows it in `Worker.dispatch`. -/
def callExecutor (env : WorkerEnv) (task : WvsTask) (params : List (String × String)) :
    List Effect :=
  if ¬ opMapHas task.Op then failTask task ("unknown op: " ++ task.Op)
  else
    .ExecuteTask { TaskId := task.TaskID, Wsid := task.Wsid, Op := task.Op, Params := params } ::
    match env.rpc with
    | .error err => failTask task ("executor call: " ++ err)
    | .ok resp =>
      if ¬ resp.Success then failTask task (resp.ErrorCode ++ ": " ++ resp.ErrorMessage)
      else onSuccess task resp.Results

/-- Embedding of `Worker.dispatch`. -/
def dispatch (env : WorkerEnv) (db : DB) (task : WvsTask) : List Effect :=
  let params := paramSet task.Params "task_id" task.TaskID
  if task.Op = OpSetCurrent then
    match checkSetCurrentNoop env db task params with
    | (true, effects) => effects
    | (false, effects) => effects ++ callExecutor env task params
  else callExecutor env task params

/-- Embedding of `Worker.executeWithLock`. -/
def executeWithLock (env : WorkerEnv) (db : DB) (task : WvsTask) : List Effect :=
  match env.beginErr with
  | some err => failTask task err
  | none =>
    match env.lockErr with
    | some err => failTask task err
    | none =>
      if task.Op = OpSnapshotDrop then
        let snapshotID := paramGet task.Params "snapshot_id"
        if env.referencedErr
            ∨ IsSnapshotReferencedByTasks db task.TaskID task.Wsid snapshotID then
          failTask task "snapshot still referenced"
        else match env.markDeletedErr with
        | some err => failTask task err
        | none =>
          match env.commitErr with
          | some err => failTask task err
          | none => .MarkSnapshotDeleted snapshotID :: dispatch env db task
      else
        match env.commitErr with
        | some err => failTask task err
        | none => dispatch env db task

/-- The body of the loop of `Worker.Run` after `DequeueTask` returned the row
`task`. -/
def runTask (env : WorkerEnv) (db : DB) (task : WvsTask) : List Effect :=
  if task.CancelRequested then
    [.CompleteTask task.TaskID TaskCanceled none (some (errorJSON "canceled"))]
  else executeWithLock env db task

/-- The store after one effect; `now` is the database clock, `delay` the
backoff drawn by `FailTask`.  A `CreateSnapshot` that fails leaves the store
as it is (the worker ignores the error); the RPC does not touch the store. -/
def applyEffect (now delay : Nat) (db : DB) : Effect → DB
  | .CompleteTask taskID status result error => CompleteTask db now taskID status result error
  | .FailTask taskID error => FailTask db now delay taskID error
  | .MarkTaskDead taskID error => MarkTaskDead db now taskID error
  | .UpdateWorkspaceState wsid state => UpdateWorkspaceState db now wsid state
  | .CreateSnapshot snapshotID wsid fsPath message =>
      (CreateSnapshotRow db now snapshotID wsid fsPath message).getD db
  | .UpdateWorkspaceCurrent wsid sid path => UpdateWorkspaceCurrent db now wsid sid path
  | .MarkSnapshotDeleted snapshotID => MarkSnapshotDeleted db now snapshotID
  | .ExecuteTask _ => db

/-- The store after a list of effects, in order. -/
def applyEffects (now delay : Nat) (db : DB) (effects : List Effect) : DB :=
  effects.foldl (applyEffect now delay) db

/-! ## The system: store, workers and handlers -/

/-- State of the system: the store and the rows `DequeueTask` has returned to
workers that have not finished them yet. -/
structure Sys where
  db : DB
  leased : List WvsTask
deriving DecidableEq

/-- One step of the system: a worker leases a task (`dequeue`), a worker runs
the loop body on the row it leased (`work`), or a handler serves a
request. -/
inductive Action where
  | dequeue (now : Nat)
  | work (taskID : String) (env : WorkerEnv) (now delay : Nat)
  | createWorkspace (now : Nat) (taskID idempotencyKey : String)
      (body : Option CreateWorkspaceRequest)
  | retryInit (now : Nat) (idempotencyKey taskID wsid : String)
  | disableWorkspace (now : Nat) (wsid : String)
  | createSnapshot (now : Nat) (taskID snapshotID wsid idempotencyKey message : String)
  | dropSnapshot (now : Nat) (taskID wsid snapshotID idempotencyKey : String)
  | setCurrent (now : Nat) (taskID newLiveID wsid idempotencyKey : String)
      (body : Option String)
  | cancelTask (now : Nat) (taskID : String)

/-- The state after one step, or `none` when the step is not possible (no
task to lease, no such leased row).  A step is atomic: the loop body of a
worker reads the store it then writes, and a handler serves its request at
once; the steps of several workers and handlers interleave.  What happens
between the store calls of one loop body is not seen by this relation; the
relation `callStep` takes the loop body one call at a time. -/
def step (sha256hex : String → String) (s : Sys) : Action → Option Sys
  | .dequeue now =>
    match DequeueTask s.db now with
    | none => none
    | some (db, task) => some { db := db, leased := task :: s.leased }
  | .work taskID env now delay =>
    match s.leased.find? (fun t => t.TaskID = taskID) with
    | none => none
    | some task =>
      some { db := applyEffects now delay s.db (runTask env s.db task),
             leased := s.leased.filter (fun t => t.TaskID ≠ taskID) }
  | .createWorkspace now taskID key body =>
    some { s with db := (CreateWorkspace sha256hex s.db now taskID key body).1 }
  | .retryInit now key taskID wsid =>
    some { s with db := (RetryInit sha256hex s.db now key taskID wsid).1 }
  | .disableWorkspace now wsid =>
    some { s with db := (DisableWorkspace s.db now wsid).1 }
  | .createSnapshot now taskID snapshotID wsid key message =>
    some { s with db := (CreateSnapshot sha256hex s.db now taskID snapshotID wsid key message).1 }
  | .dropSnapshot now taskID wsid snapshotID key =>
    some { s with db := (DropSnapshot sha256hex s.db now taskID wsid snapshotID key).1 }
  | .setCurrent now taskID newLiveID wsid key body =>
    some { s with db := (SetCurrent sha256hex s.db now taskID newLiveID wsid key body).1 }
  | .cancelTask now taskID =>
    some { s with db := (CancelTask s.db now taskID).1 }

/-- The state after a sequence of steps. -/
def run (sha256hex : String → String) : Sys → List Action → Option Sys
  | s, [] => some s
  | s, a :: as =>
    match step sha256hex s a with
    | none => none
    | some s₁ => run sha256hex s₁ as

/-- Status of the task with the given id. -/
def statusOf (db : DB) (taskID : String) : Option TaskStatus :=
  (GetTask db taskID).map (fun t => t.Status)

/-! ## Executor (`internal/executor`): quiesce, snapshot_create, set_current

The executor works on the shared filesystem, and on the control file together
with the agent of the workspace.  Each function is embedded as the sequence
of filesystem events it issues, given what the filesystem, the clock and the
agent answer (`ExecEnv`).  The polling loop of `Quiesce` consumes a list of
polls; it has not returned (`none`) when the list ends before the loop
does. -/

/-- Go `executor.QuiesceState`, a string. -/
abbrev QuiesceState := String

/-- `executor.QuiesceRunning`. -/
def QuiesceRunning : QuiesceState := "RUNNING"
/-- `executor.QuiesceRequestFreeze`. -/
def QuiesceRequestFreeze : QuiesceState := "REQUEST_FREEZE"
/-- `executor.QuiesceFrozen`. -/
def QuiesceFrozen : QuiesceState := "FROZEN"
/-- `executor.QuiesceRequestResume`. -/
def QuiesceRequestResume : QuiesceState := "REQUEST_RESUME"

/-- The elements of a path: the pieces between its slashes. -/
def splitSlash : List Char → List (List Char)
  | [] => [[]]
  | c :: cs =>
    if c = '/' then [] :: splitSlash cs
    else
      match splitSlash cs with
      | [] => [[c]]
      | e :: es => (c :: e) :: es

/-- What `filepath.Clean` does with one element of the path, given the
elements it has kept so far (the last one first): an empty element and `.`
are dropped; `..` removes the last kept element when there is one that is not
`..` itself, is dropped at the root of a rooted path, and is kept otherwise;
any other element is kept. -/
def cleanStep (rooted : Bool) (kept : List (List Char)) (e : List Char) : List (List Char) :=
  if e = [] ∨ e = ['.'] then kept
  else if e = ['.', '.'] then
    match kept with
    | [] => if rooted then [] else [e]
    | top :: rest => if top = ['.', '.'] then e :: kept else rest
  else e :: kept

/-- The elements `filepath.Clean` keeps of a list of elements, the last one
first. -/
def cleanElems (rooted : Bool) (elems : List (List Char)) : List (List Char) :=
  elems.foldl (cleanStep rooted) []

/-- Elements written one after another with a slash in between. -/
def joinElems : List (List Char) → List Char
  | [] => []
  | [e] => e
  | e :: es => e ++ '/' :: joinElems es

/-- The path made of the kept elements (given last one first): after the
leading slash when the path is rooted, and `.` when nothing is left of a path
that is not rooted. -/
def renderPath (rooted : Bool) (kept : List (List Char)) : String :=
  if rooted then String.mk ('/' :: joinElems kept.reverse)
  else if kept = [] then "."
  else String.mk (joinElems kept.reverse)

/-- Whether a path begins with a slash. -/
def isRooted (path : String) : Bool := path.data.head? = some '/'

/-- `filepath.Clean` on a Unix path, after its documentation: doubled slashes
become one, every `.` element is dropped, every inner `..` element is dropped
together with the element before it, a `..` element at the beginning of a
rooted path is dropped; the result ends in a slash only when it is the root,
and the empty path becomes `.`. -/
def filepathClean (path : String) : String :=
  if path = "" then "."
  else renderPath (isRooted path) (cleanElems (isRooted path) (splitSlash path.data))

/-- `filepath.Join` on Unix: the elements from the first one that is not
empty on are joined with slashes and the result is cleaned; when every
element is empty the result is the empty string. -/
def filepathJoin : List String → String
  | [] => ""
  | e :: es => if e = "" then filepathJoin es else filepathClean ("/".intercalate (e :: es))

/-- `filepath.Join` of two elements.  A call with three elements is written
as two calls, `filepath.Join(a, b, c)` as `joinPath (joinPath a b) c`, which
is the same path. -/
def joinPath (a b : String) : String := filepathJoin [a, b]

/-- An element of a path that stands for itself: not empty, not `.` or `..`,
without a slash. -/
def PlainElem (e : List Char) : Prop :=
  e ≠ [] ∧ e ≠ ['.'] ∧ e ≠ ['.', '.'] ∧ '/' ∉ e

/-- The shape of the elements `filepath.Clean` keeps (the last one first):
elements that stand for themselves, after `..` elements that only a path
which is not rooted begins with. -/
def KeptShape (rooted : Bool) (kept : List (List Char)) : Prop :=
  ∃ (ps : List (List Char)) (k : Nat), kept = ps ++ List.replicate k ['.', '.'] ∧
    (∀ e ∈ ps, PlainElem e) ∧ (rooted = true → k = 0)

/-- A directory path that `filepath.Clean` leaves as it is, other than the
root `/` and `.`; joining a name to it appends a slash and the name. -/
def isCleanDir (path : String) : Bool :=
  filepathClean path = path ∧ path ≠ "/" ∧ path ≠ "."

/-- A filesystem call the executor issues, with its outcome.  `readControl`
is `readControlState`: the state read from the control file, `none` when
reading or parsing fails. -/
inductive FsEvent where
  | mkdirAll (path : String) (ok : Bool)
  | writeControl (path : String) (state : QuiesceState) (taskID : String) (ok : Bool)
  | readControl (path : String) (state : Option QuiesceState)
  | clone (src dst : String) (ok : Bool)
  | writeFile (path : String) (ok : Bool)
  | remove (path : String)
  | removeAll (path : String) (ok : Bool)
  | symlink (target link : String) (ok : Bool)
  | rename (oldPath newPath : String) (ok : Bool)
deriving DecidableEq

/-- One turn of the `select` in the loop of `Quiesce`: the context is done
(with its error), or the ticker fired, after the deadline or not, and then
what `readControlState` returns. -/
inductive Poll where
  | ctxDone (err : String)
  | tick (afterDeadline : Bool) (state : Option QuiesceState)
deriving DecidableEq

/-- What the surroundings answer during one call of the executor. -/
structure ExecEnv where
  metaExists : Bool
  evalSymlinks : Except String String
  readlink : Except String String
  srcMissing : Bool
  mkdirWvsErr : Option String
  writeFreezeErr : Option String
  polls : List Poll
  abortWriteErr : Option String
  cloneErr : Option String
  mkdirMetaErr : Option String
  writeMetaErr : Option String
  symlinkErr : Option String
  renameErr : Option String
  resumeErr : Option String

/-- Path of the control file of a workspace. -/
def controlPathOf (wsRoot : String) : String :=
  joinPath (joinPath wsRoot ".wvs") "control.json"

/-- Embedding of `writeControl`: the error it returns and the write it
issues. -/
def writeControl (path : String) (state : QuiesceState) (taskID : String)
    (err : Option String) : Option String × List FsEvent :=
  (err, [.writeControl path state taskID err.isNone])

/-- The polling loop of `Quiesce`. -/
def quiescePoll (controlPath taskID timeoutText : String) (abortWriteErr : Option String) :
    List Poll → Option (Except String Unit) × List FsEvent
  | [] => (none, [])
  | .ctxDone err :: _ =>
    (some (.error err), (writeControl controlPath QuiesceRequestResume taskID abortWriteErr).2)
  | .tick true _ :: _ =>
    (some (.error ("quiesce timeout after " ++ timeoutText)),
      (writeControl controlPath QuiesceRequestResume taskID abortWriteErr).2)
  | .tick false state :: rest =>
    if state = some QuiesceFrozen then (some (.ok ()), [.readControl controlPath state])
    else
      ((quiescePoll controlPath taskID timeoutText abortWriteErr rest).1,
       .readControl controlPath state ::
         (quiescePoll controlPath taskID timeoutText abortWriteErr rest).2)

/-- Embedding of `Quiesce`. -/
def Quiesce (env : ExecEnv) (wsRoot taskID timeoutText : String) :
    Option (Except String Unit) × List FsEvent :=
  let controlPath := controlPathOf wsRoot
  match env.mkdirWvsErr with
  | some e => (some (.error ("mkdir .wvs: " ++ e)), [.mkdirAll (joinPath wsRoot ".wvs") false])
  | none =>
    match env.writeFreezeErr with
    | some e =>
      (some (.error ("write REQUEST_FREEZE: " ++ e)),
        .mkdirAll (joinPath wsRoot ".wvs") true ::
          (writeControl controlPath QuiesceRequestFreeze taskID (some e)).2)
    | none =>
      ((quiescePoll controlPath taskID timeoutText env.abortWriteErr env.polls).1,
        .mkdirAll (joinPath wsRoot ".wvs") true ::
          ((writeControl controlPath QuiesceRequestFreeze taskID none).2 ++
            (quiescePoll controlPath taskID timeoutText env.abortWriteErr env.polls).2))

/-- Embedding of `Resume`. -/
def Resume (wsRoot taskID : String) (err : Option String) : Option String × List FsEvent :=
  writeControl (controlPathOf wsRoot) QuiesceRequestResume taskID err

/-- Embedding of `Clone`: the external `juicefs clone src dst`. -/
def Clone (src dst : String) (err : Option String) : Option String × List FsEvent :=
  (err.map (fun e => "juicefs clone failed: " ++ e), [.clone src dst err.isNone])

/-- Embedding of `SwitchCurrent`. -/
def SwitchCurrent (wsRoot newTarget : String) (symlinkErr renameErr : Option String) :
    Option String × List FsEvent :=
  let currentLink := joinPath wsRoot "current"
  let tmpLink := currentLink ++ ".tmp"
  match symlinkErr with
  | some e => (some ("symlink tmp: " ++ e), [.remove tmpLink, .symlink newTarget tmpLink false])
  | none =>
    match renameErr with
    | some e =>
      (some ("rename symlink: " ++ e),
        [.remove tmpLink, .symlink newTarget tmpLink true, .rename tmpLink currentLink false,
         .remove tmpLink])
    | none =>
      (none, [.remove tmpLink, .symlink newTarget tmpLink true, .rename tmpLink currentLink true])

/-- Embedding of `Server.snapshotCreate`: the result (`none` while `Quiesce`
is still polling) and the events issued, the deferred `Resume` last. -/
def snapshotCreate (env : ExecEnv) (mountPath timeoutText wsid : String)
    (params : List (String × String)) :
    Option (Except String (List (String × String))) × List FsEvent :=
  let snapshotID := paramGet params "snapshot_id"
  let wsRoot := joinPath mountPath wsid
  let dstPath := joinPath (joinPath wsRoot "snapshots") snapshotID
  let metaPath := joinPath (joinPath dstPath ".wvs") "snapshot.json"
  if env.metaExists then
    (some (.ok [("snapshot_id", snapshotID), ("fs_path", dstPath)]), [])
  else
    match env.evalSymlinks with
    | .error e => (some (.error ("resolve current symlink: " ++ e)), [])
    | .ok srcPath =>
      match Quiesce env wsRoot (paramGet params "task_id") timeoutText with
      | (none, events) => (none, events)
      | (some (.error e), events) => (some (.error ("quiesce failed: " ++ e)), events)
      | (some (.ok _), events) =>
        let resume := (Resume wsRoot (paramGet params "task_id") env.resumeErr).2
        match (Clone srcPath dstPath env.cloneErr).1 with
        | some e => (some (.error e), events ++ (Clone srcPath dstPath env.cloneErr).2 ++ resume)
        | none =>
          match env.mkdirMetaErr with
          | some e =>
            (some (.error ("mkdir snapshot .wvs: " ++ e)),
              events ++ (Clone srcPath dstPath env.cloneErr).2 ++
                [.mkdirAll (joinPath dstPath ".wvs") false] ++ resume)
          | none =>
            match env.writeMetaErr with
            | some e =>
              (some (.error ("write snapshot.json: " ++ e)),
                events ++ (Clone srcPath dstPath env.cloneErr).2 ++
                  [.mkdirAll (joinPath dstPath ".wvs") true, .writeFile metaPath false] ++
                  resume)
            | none =>
              (some (.ok [("snapshot_id", snapshotID), ("fs_path", dstPath)]),
                events ++ (Clone srcPath dstPath env.cloneErr).2 ++
                  [.mkdirAll (joinPath dstPath ".wvs") true, .writeFile metaPath true] ++
                  resume)

/-- Embedding of `Server.setCurrent`: the result (`none` while `Quiesce` is
still polling) and the events issued, the deferred `Resume` last. -/
def setCurrent (env : ExecEnv) (mountPath timeoutText wsid : String)
    (params : List (String × String)) :
    Option (Except String (List (String × String))) × List FsEvent :=
  let snapshotID := paramGet params "snapshot_id"
  let newLiveID := paramGet params "new_live_id"
  let wsRoot := joinPath mountPath wsid
  let srcPath := joinPath (joinPath wsRoot "snapshots") snapshotID
  let dstPath := joinPath (joinPath wsRoot "live") newLiveID
  let relTarget := joinPath "live" newLiveID
  if env.readlink.toOption = some relTarget then
    (some (.ok [("current_path", joinPath wsRoot relTarget)]), [])
  else if env.srcMissing then
    (some (.error ("snapshot dir not found: " ++ srcPath)), [])
  else
    match Quiesce env wsRoot (paramGet params "task_id") timeoutText with
    | (none, events) => (none, events)
    | (some (.error e), events) => (some (.error ("quiesce failed: " ++ e)), events)
    | (some (.ok _), events) =>
      let resume := (Resume wsRoot (paramGet params "task_id") env.resumeErr).2
      match (Clone srcPath dstPath env.cloneErr).1 with
      | some e => (some (.error e), events ++ (Clone srcPath dstPath env.cloneErr).2 ++ resume)
      | none =>
        match (SwitchCurrent wsRoot relTarget env.symlinkErr env.renameErr).1 with
        | some e =>
          (some (.error e),
            events ++ (Clone srcPath dstPath env.cloneErr).2 ++
              (SwitchCurrent wsRoot relTarget env.symlinkErr env.renameErr).2 ++ resume)
        | none =>
          (some (.ok [("current_path", joinPath wsRoot relTarget)]),
            events ++ (Clone srcPath dstPath env.cloneErr).2 ++
              (SwitchCurrent wsRoot relTarget env.symlinkErr env.renameErr).2 ++ resume)

/-- Whether an event touches the control file. -/
def FsEvent.isControl : FsEvent → Bool
  | .writeControl _ _ _ _ => true
  | .readControl _ _ => true
  | _ => false

/-- Whether an event is a clone. -/
def FsEvent.isClone : FsEvent → Bool
  | .clone _ _ _ => true
  | _ => false

/-- Whether an event is a write of the given state to the control file. -/
def FsEvent.writes (state : QuiesceState) : FsEvent → Bool
  | .writeControl _ s _ _ => s = state
  | _ => false

/-- The shape of the trace of an execution that quiesced once: a
REQUEST_FREEZE write, then reads of the control file that do not see FROZEN,
then one that does, then the work (with a clone in it and nothing on the
control file), then a REQUEST_RESUME write, the last event. -/
def QuiescedShape (controlPath taskID : String) (trace : List FsEvent) : Prop :=
  ∃ (setup reads work : List FsEvent) (resumeOk : Bool),
    trace = setup ++ [.writeControl controlPath QuiesceRequestFreeze taskID true] ++ reads ++
      [.readControl controlPath (some QuiesceFrozen)] ++ work ++
      [.writeControl controlPath QuiesceRequestResume taskID resumeOk] ∧
    (∀ e ∈ setup, e.isControl = false ∧ e.isClone = false) ∧
    (∀ e ∈ reads, ∃ st, e = .readControl controlPath st ∧ st ≠ some QuiesceFrozen) ∧
    (∀ e ∈ work, e.isControl = false) ∧ (∃ e ∈ work, e.isClone = true)

/-- The trace of an execution that quiesced once: it has the shape above,
and holds exactly one REQUEST_FREEZE write and exactly one REQUEST_RESUME
write. -/
def QuiescedOnce (controlPath taskID : String) (trace : List FsEvent) : Prop :=
  QuiescedShape controlPath taskID trace ∧
  trace.countP (FsEvent.writes QuiesceRequestFreeze) = 1 ∧
  trace.countP (FsEvent.writes QuiesceRequestResume) = 1

/-! ## Invariants of the system -/

/-- What one effect does to a row of `wvs.tasks`. -/
def effectOnTask (now delay : Nat) (e : Effect) (t : WvsTask) : WvsTask :=
  match e with
  | .CompleteTask taskID status result error =>
    if t.TaskID = taskID then
      { t with Status := status, EndedAt := some now, Result := result, Error := error }
    else t
  | .FailTask taskID error =>
    if t.TaskID = taskID then
      { t with Status := TaskFailed, EndedAt := some now, Error := some error,
               NextRunAt := now + delay }
    else t
  | .MarkTaskDead taskID error =>
    if t.TaskID = taskID then
      { t with Status := TaskDead, EndedAt := some now, Error := some error }
    else t
  | .UpdateWorkspaceState _ _ => t
  | .CreateSnapshot _ _ _ _ => t
  | .UpdateWorkspaceCurrent _ _ _ => t
  | .MarkSnapshotDeleted _ => t
  | .ExecuteTask _ => t

/-- What a list of effects does to a row of `wvs.tasks`. -/
def effectsOnTask (now delay : Nat) (effects : List Effect) (t : WvsTask) : WvsTask :=
  effects.foldl (fun u e => effectOnTask now delay e u) t

/-- A list of effects none of which writes a task row. -/
def neutralEffects (now delay : Nat) (effects : List Effect) : Prop :=
  ∀ t, effectsOnTask now delay effects t = t

/-- The effects of a worker on the row `l` it leased end the attempt with
status `st`: they rewrite the status of that row to `st` and fix every other
row, the attempt counters untouched. -/
def EndsAttempt (now delay : Nat) (l : WvsTask) (effects : List Effect) (st : TaskStatus) :
    Prop :=
  ∀ t : WvsTask,
    (effectsOnTask now delay effects t).TaskID = t.TaskID ∧
    (effectsOnTask now delay effects t).Attempt = t.Attempt ∧
    (effectsOnTask now delay effects t).MaxAttempts = t.MaxAttempts ∧
    (effectsOnTask now delay effects t).Wsid = t.Wsid ∧
    (effectsOnTask now delay effects t).Op = t.Op ∧
    (effectsOnTask now delay effects t).IdempotencyKey = t.IdempotencyKey ∧
    (effectsOnTask now delay effects t).RequestHash = t.RequestHash ∧
    (t.TaskID = l.TaskID → (effectsOnTask now delay effects t).Status = st) ∧
    (t.TaskID ≠ l.TaskID → effectsOnTask now delay effects t = t)

/-- How a failed attempt of the leased row `l` may end: DEAD when the
attempts are used up, FAILED otherwise. -/
def failStatus (l : WvsTask) : TaskStatus :=
  if l.Attempt ≥ l.MaxAttempts then TaskDead else TaskFailed

/-- Statuses in which the loop body of the worker leaves the leased row. -/
def attemptOutcome (l : WvsTask) (st : TaskStatus) : Prop :=
  st = TaskSucceeded ∨ st = TaskCanceled ∨ st = failStatus l

/-- Invariant of the system: task ids are unique in the store, no row is
leased twice, and every leased row is RUNNING in the store with the attempt
counters the worker was given. -/
def Inv (s : Sys) : Prop :=
  (s.db.tasks.map (fun t => t.TaskID)).Nodup ∧
  (s.leased.map (fun t => t.TaskID)).Nodup ∧
  ∀ l ∈ s.leased, ∃ t ∈ s.db.tasks, t.TaskID = l.TaskID ∧ t.Status = TaskRunning ∧
    t.Attempt = l.Attempt ∧ t.MaxAttempts = l.MaxAttempts

/-- The edges of the task state machine as the spec lists them. -/
def claimedEdge (a b : TaskStatus) : Bool :=
  match a, b with
  | TaskPending, TaskRunning => true
  | TaskRunning, TaskSucceeded => true
  | TaskRunning, TaskCanceled => true
  | TaskRunning, TaskFailed => true
  | TaskFailed, TaskPending => true
  | TaskFailed, TaskDead => true
  | TaskPending, TaskCanceled => true
  | _, _ => false

/-- The edges the code takes: a lease from PENDING or FAILED, the four ways
an attempt ends, and the cancellation of a PENDING task. -/
def statusEdge (a b : TaskStatus) : Bool :=
  match a, b with
  | TaskPending, TaskRunning => true
  | TaskFailed, TaskRunning => true
  | TaskRunning, TaskSucceeded => true
  | TaskRunning, TaskCanceled => true
  | TaskRunning, TaskFailed => true
  | TaskRunning, TaskDead => true
  | TaskPending, TaskCanceled => true
  | _, _ => false

/-- Whether an action is a step of a worker. -/
def Action.isWorker : Action → Bool
  | .dequeue _ => true
  | .work _ _ _ _ => true
  | _ => false

/-- Whether the step `a`, taken in state `s`, leases the task `taskID`. -/
def leasesNow (s : Sys) (a : Action) (taskID : String) : Bool :=
  match a with
  | .dequeue now => (DequeueTask s.db now).map (fun r => r.2.TaskID) = some taskID
  | _ => false

/-- Number of times the steps of a trace lease the task `taskID`. -/
def leasesOf (sha256hex : String → String) (taskID : String) : Sys → List Action → Nat
  | _, [] => 0
  | s, a :: as =>
    match step sha256hex s a with
    | none => 0
    | some s₁ => (if leasesNow s a taskID then 1 else 0) + leasesOf sha256hex taskID s₁ as

/-- How one step moves the row `u` of a task to `u'`: not at all as far as
status and attempt counters go (`same`), by a lease, by the end of the
attempt of the worker that holds the lease, or by the cancellation of a
PENDING task.  `leased` tells whether the step is a lease of this task. -/
inductive RowMove (leased : Bool) (u u' : WvsTask) : Prop where
  | same : leased = false → u'.Status = u.Status → u'.Attempt = u.Attempt →
      u'.MaxAttempts = u.MaxAttempts → RowMove leased u u'
  | lease : leased = true →
      (u.Status = TaskPending ∨ (u.Status = TaskFailed ∧ u.Attempt < u.MaxAttempts)) →
      u'.Status = TaskRunning → u'.Attempt = u.Attempt + 1 →
      u'.MaxAttempts = u.MaxAttempts → RowMove leased u u'
  | finish : leased = false → u.Status = TaskRunning →
      (u'.Status = TaskSucceeded ∨ u'.Status = TaskCanceled ∨ u'.Status = failStatus u) →
      u'.Attempt = u.Attempt → u'.MaxAttempts = u.MaxAttempts → RowMove leased u u'
  | cancel : leased = false → u.Status = TaskPending → u'.Status = TaskCanceled →
      u'.Attempt = u.Attempt → u'.MaxAttempts = u.MaxAttempts → RowMove leased u u'

/-- The task table of `db'` is that of `db`, or that of `db` followed by one
new row, PENDING with no attempt made, whose id and idempotency key were
free. -/
def TasksGrow (db db' : DB) : Prop :=
  db'.tasks = db.tasks ∨
  ∃ t, db'.tasks = db.tasks ++ [t] ∧ t.Status = TaskPending ∧ t.Attempt = 0 ∧
    GetTask db t.TaskID = none ∧
    GetTaskByIdempotencyKey db t.Wsid t.Op t.IdempotencyKey = none

/-- A rewriting of task rows that keeps ids and attempt counters and changes
no status except PENDING into CANCELED. -/
def CancelOnly (f : WvsTask → WvsTask) : Prop :=
  ∀ u, (f u).TaskID = u.TaskID ∧ (f u).Attempt = u.Attempt ∧
    (f u).MaxAttempts = u.MaxAttempts ∧
    ((f u).Status = u.Status ∨ (u.Status = TaskPending ∧ (f u).Status = TaskCanceled))

/-- What the status of a task allows for its attempt counter `n`, given
`maxAttempts`. -/
def attemptBound (maxAttempts : Int) (st : TaskStatus) (n : Int) : Prop :=
  match st with
  | TaskPending => n = 0
  | TaskRunning => 1 ≤ n ∧ n ≤ max 1 maxAttempts
  | TaskFailed => 1 ≤ n ∧ n < maxAttempts
  | TaskDead => n = max 1 maxAttempts
  | TaskSucceeded => 0 ≤ n ∧ n ≤ max 1 maxAttempts
  | TaskCanceled => 0 ≤ n ∧ n ≤ max 1 maxAttempts

/-- The row of the task `taskID` after `n` leases: its attempt counter is
`n`, within the bound of its status. -/
def LeasedTimes (maxAttempts : Int) (taskID : String) (s : Sys) (n : Nat) : Prop :=
  ∃ u, GetTask s.db taskID = some u ∧ u.MaxAttempts = maxAttempts ∧ u.Attempt = n ∧
    attemptBound maxAttempts u.Status n

/-- What the idempotency check promises of the answer `r` of a handler, for
the lookup of (`wsid`, `op`, `key`) in `db` and the hash `h` of the new
request: a row with the same hash is answered with its `task_id`, a row with
another hash with the mismatch error, in both cases on an unchanged store;
and the task table changes only when the lookup finds no row. -/
def IdempotentAnswer (db : DB) (wsid : String) (op : TaskOp) (key h : String)
    (r : DB × Response) : Prop :=
  (∀ t, GetTaskByIdempotencyKey db wsid op key = some t → t.TaskID ≠ "" →
    (t.RequestHash = h → r = (db, .accepted t.TaskID)) ∧
    (t.RequestHash ≠ h →
      r = (db, .error ErrConflictIdempotent "idempotency key mismatch"))) ∧
  (r.1.tasks ≠ db.tasks → GetTaskByIdempotencyKey db wsid op key = none)

/-- The checks of `CreateSnapshot` before the idempotency lookup all pass. -/
def CreateSnapshot.reachesLookup (db : DB) (wsid key : String) : Prop :=
  (∃ ws, GetWorkspace db wsid = some ws ∧ ws.State ≠ WorkspaceDisabled) ∧ key ≠ ""

/-- The checks of `DropSnapshot` before the idempotency lookup all pass. -/
def DropSnapshot.reachesLookup (db : DB) (wsid snapshotID key : String) : Prop :=
  (∃ ws, GetWorkspace db wsid = some ws ∧ ws.State ≠ WorkspaceDisabled ∧
    ws.CurrentSnapshotID ≠ some snapshotID) ∧
  (∃ snap, GetSnapshot db snapshotID = some snap ∧ snap.DeletedAt = none) ∧ key ≠ ""

/-- The checks of `SetCurrent` before the idempotency lookup all pass. -/
def SetCurrent.reachesLookup (db : DB) (wsid key snapshotID : String) : Prop :=
  (∃ ws, GetWorkspace db wsid = some ws ∧ ws.State ≠ WorkspaceDisabled ∧
    ws.CurrentSnapshotID ≠ some snapshotID) ∧
  (∃ snap, GetSnapshot db snapshotID = some snap ∧ snap.DeletedAt = none) ∧
  key ≠ "" ∧ snapshotID ≠ ""

/-- The checks of `CreateWorkspace` before the idempotency lookup all pass. -/
def CreateWorkspace.reachesLookup (key : String) (req : CreateWorkspaceRequest) : Prop :=
  key ≠ "" ∧ req.WSID ≠ "" ∧ req.RootPath ≠ "" ∧ req.Owner ≠ ""

/-- Whether an effect sets a workspace to DISABLED. -/
def Effect.disables : Effect → Bool
  | .UpdateWorkspaceState _ st => st = WorkspaceDisabled
  | _ => false

/-- The workspace exists and is not DISABLED. -/
def NotDisabled (db : DB) (wsid : String) : Prop :=
  ∃ ws, GetWorkspace db wsid = some ws ∧ ws.State ≠ WorkspaceDisabled

/-- The idempotency lookup finds a row with the given `task_id` and
`request_hash`. -/
def LookupFinds (db : DB) (wsid : String) (op : TaskOp) (key taskID h : String) : Prop :=
  ∃ row, GetTaskByIdempotencyKey db wsid op key = some row ∧ row.TaskID = taskID ∧
    row.RequestHash = h

/-! ## Concrete request bodies -/

/-- The body of `TestComputeRequestHash_KeyOrderIrrelevant`, first order. -/
def bodyWsidFirst : JSON :=
  .obj "\x7b\"wsid\":\"ws-1\",\"message\":\"hello\"\x7d"
    [("wsid", .str "\"ws-1\"" "ws-1"), ("message", .str "\"hello\"" "hello")]

/-- The body of `TestComputeRequestHash_KeyOrderIrrelevant`, second order. -/
def bodyMessageFirst : JSON :=
  .obj "\x7b\"message\":\"hello\",\"wsid\":\"ws-1\"\x7d"
    [("message", .str "\"hello\"" "hello"), ("wsid", .str "\"ws-1\"" "ws-1")]

/-- An object that repeats a key. -/
def bodyDupKeyOneTwo : JSON :=
  .obj "\x7b\"a\":1,\"a\":2\x7d" [("a", .num "1" (some "1")), ("a", .num "2" (some "2"))]

/-- The same members in the other order. -/
def bodyDupKeyTwoOne : JSON :=
  .obj "\x7b\"a\":2,\"a\":1\x7d" [("a", .num "2" (some "2")), ("a", .num "1" (some "1"))]

/-- An array holding an object and a number literal beyond the `float64`
range. -/
def bodyOverflowAB : JSON :=
  .arr "[\x7b\"a\":1,\"b\":2\x7d,1e999]"
    [.obj "\x7b\"a\":1,\"b\":2\x7d" [("a", .num "1" (some "1")), ("b", .num "2" (some "2"))],
     .num "1e999" none]

/-- The same array with the keys of the object in the other order. -/
def bodyOverflowBA : JSON :=
  .arr "[\x7b\"b\":2,\"a\":1\x7d,1e999]"
    [.obj "\x7b\"b\":2,\"a\":1\x7d" [("b", .num "2" (some "2")), ("a", .num "1" (some "1"))],
     .num "1e999" none]

/-- The body of `TestComputeRequestHash_DifferentMethod`. -/
def bodyHello : JSON :=
  .obj "\x7b\"message\":\"hello\"\x7d" [("message", .str "\"hello\"" "hello")]

/-! ## Concrete states and traces

The statements about the traces below take the identity for `sha256hex`; none
of them depends on the digest. -/

/-- A store with the ACTIVE workspace `w1` and its snapshot `s1`, which is
not the current one. -/
def dbOneSnapshot : DB :=
  { tasks := [],
    workspaces := [{ Wsid := "w1", RootPath := "/ws/w1", Owner := "a", State := WorkspaceActive,
                     CurrentSnapshotID := none, CurrentPath := "/ws/w1/live/initial",
                     CreatedAt := 0, UpdatedAt := 0 }],
    snapshots := [{ SnapshotID := "s1", Wsid := "w1", FsPath := "/ws/w1/snapshots/s1",
                    Message := none, CreatedAt := 1, DeletedAt := none }],
    audit := [] }

/-- Surroundings in which nothing fails and the executor answers with
`results`. -/
def okEnv (results : List (String × String)) : WorkerEnv :=
  { beginErr := none, lockErr := none, referencedErr := false, markDeletedErr := none,
    commitErr := none, getWorkspaceErr := false,
    rpc := .ok { Success := true, Results := some results, ErrorCode := "", ErrorMessage := "" } }

/-- Surroundings in which the executor reports a failure. -/
def failEnv : WorkerEnv :=
  { beginErr := none, lockErr := none, referencedErr := false, markDeletedErr := none,
    commitErr := none, getWorkspaceErr := false,
    rpc := .ok { Success := false, Results := none, ErrorCode := "EXECUTOR_ERROR",
                 ErrorMessage := "clone failed" } }

/-- A `snapshot_create` task as `CreateTask` inserts it, with the given
`max_attempts`. -/
def pendingTask (maxAttempts : Int) : WvsTask :=
  { TaskID := "t1", Wsid := "w1", Op := OpSnapshotCreate, Status := TaskPending,
    IdempotencyKey := "k1", RequestHash := "h1", CreatedAt := 0, StartedAt := none,
    EndedAt := none, Attempt := 0, MaxAttempts := maxAttempts, NextRunAt := 0,
    TimeoutSeconds := 300, CancelRequested := false,
    Params := [("snapshot_id", "s2"), ("message", "")], Result := none, Error := none }

/-- The system with the single task `pendingTask maxAttempts` and no lease. -/
def sysPending (maxAttempts : Int) : Sys :=
  { db := { dbOneSnapshot with tasks := [pendingTask maxAttempts] }, leased := [] }

/-- Lease the task and let the executor fail, `n` times over, the clock
starting at `start`. -/
def failingAttempts (start : Nat) : Nat → List Action
  | 0 => []
  | n + 1 =>
    .dequeue start :: .work "t1" failEnv (start + 1) 0 :: failingAttempts (start + 2) n

/-- The state after the first failed attempt of `pendingTask 5`. -/
def sysFailedOnce : Sys :=
  { db := { dbOneSnapshot with tasks :=
      [{ pendingTask 5 with
          Status := TaskFailed, StartedAt := some 1, EndedAt := some 2
          Attempt := 1, NextRunAt := 2
          Error := some "\x7b\"error\":\"EXECUTOR_ERROR: clone failed\"\x7d" }] },
    leased := [] }

/-- The state after the failed task has been leased again at time 10. -/
def sysLeasedAgain : Sys :=
  { db := { dbOneSnapshot with tasks :=
      [{ pendingTask 5 with
          Status := TaskRunning, StartedAt := some 10, EndedAt := some 2
          Attempt := 2, NextRunAt := 2
          Error := some "\x7b\"error\":\"EXECUTOR_ERROR: clone failed\"\x7d" }] },
    leased :=
      [{ pendingTask 5 with
          Status := TaskRunning, StartedAt := some 10, EndedAt := some 2
          Attempt := 2, NextRunAt := 2
          Error := some "\x7b\"error\":\"EXECUTOR_ERROR: clone failed\"\x7d" }] }

/-- The state after two failed attempts of `pendingTask 2`. -/
def sysDeadAfterTwo : Sys :=
  { db := { dbOneSnapshot with tasks :=
      [{ pendingTask 2 with
          Status := TaskDead, StartedAt := some 3, EndedAt := some 4
          Attempt := 2, NextRunAt := 2
          Error := some "\x7b\"error\":\"EXECUTOR_ERROR: clone failed\"\x7d" }] },
    leased := [] }

/-- A set_current to `s1` and a drop of `s1` are submitted, the set_current
task runs to success, then the drop task runs. -/
def dropAfterSetCurrent : List Action :=
  [ .setCurrent 10 "t1" "abcd1234" "w1" "k1" (some "s1"),
    .dropSnapshot 11 "t2" "w1" "s1" "k2",
    .dequeue 12,
    .work "t1" (okEnv [("current_path", "/ws/w1/live/abcd1234")]) 13 0,
    .dequeue 14,
    .work "t2" (okEnv []) 15 0 ]

/-- Whether an effect writes a workspace row. -/
def Effect.writesWorkspace : Effect → Bool
  | .UpdateWorkspaceState _ _ => true
  | .UpdateWorkspaceCurrent _ _ _ => true
  | _ => false

/-- Whether an effect is a call of `MarkTaskDead`. -/
def Effect.isMarkTaskDead : Effect → Bool
  | .MarkTaskDead _ _ => true
  | _ => false

/-- Whether an effect is a call of `FailTask`. -/
def Effect.isFailTask : Effect → Bool
  | .FailTask _ _ => true
  | _ => false

/-- The invariant of the snapshot table: the current snapshot of every
workspace, when its row exists, is not marked deleted. -/
def currentNotDeleted (db : DB) : Bool :=
  db.workspaces.all (fun w =>
    match w.CurrentSnapshotID with
    | none => true
    | some x => db.snapshots.all (fun sn => sn.SnapshotID = x → sn.DeletedAt = none))

/-- A worker leases the oldest task and the executor answers with success
and the given results. -/
def workerCompletes (taskID : String) (results : List (String × String)) : List Action :=
  [.dequeue 12, .work taskID (okEnv results) 13 0]

/-- The state reached from `s₀` by a trace, `s₀` itself when the trace cannot
be run. -/
def stateAfter (s₀ : Sys) (tr : List Action) : Sys :=
  (run id s₀ tr).getD s₀

/-- The request of the first end-to-end scenario of the spec. -/
def reqW1 : CreateWorkspaceRequest := { WSID := "w1", RootPath := "/ws/w1", Owner := "a" }

/-- Surroundings of an executor call in which nothing fails and the agent
answers FROZEN at the third poll; there is no snapshot metadata yet and
`current` points at `live/initial`. -/
def freshEnv : ExecEnv :=
  { metaExists := false, evalSymlinks := .ok "/ws/w1/live/initial",
    readlink := .ok "live/initial", srcMissing := false, mkdirWvsErr := none,
    writeFreezeErr := none,
    polls := [.tick false (some QuiesceRequestFreeze), .tick false none,
              .tick false (some QuiesceFrozen)],
    abortWriteErr := none, cloneErr := none, mkdirMetaErr := none, writeMetaErr := none,
    symlinkErr := none, renameErr := none, resumeErr := none }

/-- Surroundings of a replayed executor call: the snapshot metadata exists
and `current` already points at `live/abcd1234`. -/
def replayEnv : ExecEnv :=
  { freshEnv with metaExists := true, readlink := .ok "live/abcd1234" }

/-- Parameters of a snapshot_create task. -/
def createParams : List (String × String) :=
  [("snapshot_id", "s2"), ("message", "m"), ("task_id", "t1")]

/-- Parameters of a set_current task. -/
def setCurrentParams : List (String × String) :=
  [("snapshot_id", "s1"), ("new_live_id", "abcd1234"), ("task_id", "t1")]

/-! ## Compact serialization of a value, in the words of the specification -/

/-- Whether a document is an object. -/
def JSON.isObject : JSON → Bool
  | .obj _ _ => true
  | _ => false

/-- Whether a document is the literal `null`. -/
def JSON.isNull : JSON → Bool
  | .null _ => true
  | _ => false

mutual
/-- The compact serialization of a JSON value, written after the words of the
specification and not after the code: no white space between the tokens, a
scalar in its canonical text (a number in the text of its `float64`, or its
own literal when it has none), the elements of an array in their original
order, the members of an object under their sorted keys. -/
def JSON.compact : JSON → String
  | .null _ => "null"
  | .bool _ b => if b then "true" else "false"
  | .num s f => f.getD s
  | .str _ x => quote x
  | .arr _ items => "[" ++ ",".intercalate (compactList items) ++ "]"
  | .obj _ members => encodeObject (compactMembers members)
/-- Compact texts of the elements of an array, in their order. -/
def compactList : List JSON → List String
  | [] => []
  | x :: xs => x.compact :: compactList xs
/-- Compact texts of the member values of an object, under their keys. -/
def compactMembers : List (String × JSON) → List (String × String)
  | [] => []
  | (k, v) :: ms => (k, v.compact) :: compactMembers ms
end

/-- A value the claim on non-object bodies speaks of and the code serializes
compactly: not an object, not `null`, every number literal in it within the
`float64` range. -/
def JSON.isPlain (v : JSON) : Bool :=
  !v.isObject && !v.isNull && v.decodes

/-- The array `[1e999, 1]`, written with a blank after the comma; its first
element is beyond the `float64` range. -/
def bodyOverflowSpaced : JSON :=
  .arr "[1e999, 1]" [.num "1e999" none, .num "1" (some "1")]

/-- The array `[3, 1, [2, "a<b"], true, null]`, written with blanks. -/
def bodyArraySpaced : JSON :=
  .arr "[3, 1, [2, \"a<b\"], true, null]"
    [.num "3" (some "3"), .num "1" (some "1"),
     .arr "[2, \"a<b\"]" [.num "2" (some "2"), .str "\"a<b\"" "a<b"],
     .bool "true" true, .null "null"]

/-- The object `{"b": [2, 1], "a": "x"}`, written with blanks. -/
def bodyNestedArray : JSON :=
  .obj "\x7b\"b\": [2, 1], \"a\": \"x\"\x7d"
    [("b", .arr "[2, 1]" [.num "2" (some "2"), .num "1" (some "1")]),
     ("a", .str "\"x\"" "x")]

/-! ## Worker: what the effects of an attempt are -/

/-- Whether an effect is the executor RPC. -/
def Effect.isExecuteTask : Effect → Bool
  | .ExecuteTask _ => true
  | _ => false

/-- Whether an effect is a call of `MarkSnapshotDeleted`. -/
def Effect.isMarkSnapshotDeleted : Effect → Bool
  | .MarkSnapshotDeleted _ => true
  | _ => false

/-- Whether an effect is a mutation of the store other than a write of the
task row (the executor RPC is none). -/
def Effect.isMutation : Effect → Bool
  | .UpdateWorkspaceState _ _ => true
  | .CreateSnapshot _ _ _ _ => true
  | .UpdateWorkspaceCurrent _ _ _ => true
  | .MarkSnapshotDeleted _ => true
  | _ => false

/-- The request `Worker.dispatch` sends to the executor for a task. -/
def executorRequest (task : WvsTask) : ExecuteTaskRequest :=
  { TaskId := task.TaskID, Wsid := task.Wsid, Op := task.Op,
    Params := paramSet task.Params "task_id" task.TaskID }

/-- The write with which `onSuccess` completes a task. -/
def completeSucceeded (task : WvsTask) (results : Option (List (String × String))) : Effect :=
  .CompleteTask task.TaskID TaskSucceeded (some (marshalStringMap results)) none

/-- A RUNNING `snapshot_create` task whose `snapshot_id` is that of the
snapshot `s1`, which the store holds already. -/
def runningCreateTask : WvsTask :=
  { pendingTask 5 with
      Status := TaskRunning, StartedAt := some 1, Attempt := 1
      Params := [("snapshot_id", "s1"), ("message", "first")] }

/-- The result map the executor returns for `runningCreateTask`. -/
def createResults : List (String × String) :=
  [("snapshot_id", "s1"), ("fs_path", "/ws/w1/snapshots/s1")]

/-- The in-lock reference test of `executeWithLock` on a `snapshot_drop` task
returns false without error. -/
def referenceTestPasses (env : WorkerEnv) (db : DB) (task : WvsTask) : Bool :=
  !env.referencedErr &&
    !IsSnapshotReferencedByTasks db task.TaskID task.Wsid (paramGet task.Params "snapshot_id")

/-- The store `dbOneSnapshot` with `s1` as the current snapshot of `w1`. -/
def dbCurrentS1 : DB :=
  { dbOneSnapshot with
      workspaces := [{ Wsid := "w1", RootPath := "/ws/w1", Owner := "a", State := WorkspaceActive,
                       CurrentSnapshotID := some "s1", CurrentPath := "/ws/w1/live/abcd1234",
                       CreatedAt := 0, UpdatedAt := 5 }] }

/-- A RUNNING `set_current` task to the snapshot `s1`. -/
def runningSetCurrentTask : WvsTask :=
  { pendingTask 5 with
      Op := OpSetCurrent, Status := TaskRunning, StartedAt := some 1, Attempt := 1
      Params := [("snapshot_id", "s1"), ("new_live_id", "abcd1234")] }

/-- A RUNNING `snapshot_drop` task for the snapshot `s1`. -/
def runningDropTask : WvsTask :=
  { pendingTask 5 with
      TaskID := "t2", Op := OpSnapshotDrop, IdempotencyKey := "k2", Status := TaskRunning
      StartedAt := some 1, Attempt := 1
      Params := [("snapshot_id", "s1")] }

/-- Surroundings in which only the commit of the lock transaction fails. -/
def commitFailEnv : WorkerEnv :=
  { okEnv [] with commitErr := some "conn closed" }

/-- The store `dbOneSnapshot` with the task `runningDropTask`. -/
def dbDropRunning : DB := { dbOneSnapshot with tasks := [runningDropTask] }

/-- The store `dbDropRunning` with a PENDING `set_current` task to `s1`
besides. -/
def dbDropReferenced : DB :=
  { dbOneSnapshot with
      tasks := [runningDropTask,
                { runningSetCurrentTask with
                    TaskID := "t3", IdempotencyKey := "k3", Status := TaskPending
                    StartedAt := none, Attempt := 0 }] }

/-- The task `t1` is leased, its cancellation is requested while it is
RUNNING, and the worker then finishes the attempt in the surroundings
`env`. -/
def cancelWhileRunning (env : WorkerEnv) : List Action :=
  [.dequeue 1, .cancelTask 2 "t1", .work "t1" env 3 0]

/-- Id, status and `cancel_requested` of every task row. -/
def taskFlags (s : Sys) : List (String × TaskStatus × Bool) :=
  s.db.tasks.map (fun t => (t.TaskID, t.Status, t.CancelRequested))

/-- A leased row with `cancel_requested` set, as the check in the loop of
`Worker.Run` looks for. -/
def leasedCancelRequested : WvsTask :=
  { runningCreateTask with CancelRequested := true }

/-- Whether the executor RPC returns a response that reports success. -/
def WorkerEnv.rpcSucceeds (env : WorkerEnv) : Bool :=
  match env.rpc with
  | .ok resp => resp.Success
  | .error _ => false

/-- How an attempt that goes through `executeWithLock` ends: SUCCEEDED or
with the status `failTask` chooses (FAILED or DEAD); and when the executor
was called, SUCCEEDED exactly when the call reported success. -/
def AttemptEnds (env : WorkerEnv) (l : WvsTask) (effects : List Effect) (st : TaskStatus) :
    Prop :=
  (st = TaskSucceeded ∨ st = failStatus l) ∧
  ((∃ e ∈ effects, e.isExecuteTask = true) →
    st = if env.rpcSucceeds then TaskSucceeded else failStatus l)

/-- The store `dbOneSnapshot` with the task `runningCreateTask`. -/
def dbRunningCreate : DB := { dbOneSnapshot with tasks := [runningCreateTask] }

/-! ## Executor: the RPC server, init_workspace, snapshot_drop -/

/-- Modelled from the spec: the generated enum `pb.TaskOp` (the package
`gen/go/executor/v1` is missing), "op ∈ {INIT_WORKSPACE, SNAPSHOT_CREATE,
SNAPSHOT_DROP, SET_CURRENT}"; the four constants are those `opMap` and the
switch of `ExecuteTask` name.  `unknown n name` is any other wire value `n`,
with the text its generated `String` method prints for it. -/
inductive pb.TaskOp where
  | TASK_OP_INIT_WORKSPACE
  | TASK_OP_SNAPSHOT_CREATE
  | TASK_OP_SNAPSHOT_DROP
  | TASK_OP_SET_CURRENT
  | unknown (n : Int) (name : String)
deriving DecidableEq

/-- Whether the wire value is one of the four ops the switch of `ExecuteTask`
knows. -/
def pb.TaskOp.isKnown : pb.TaskOp → Bool
  | .unknown _ _ => false
  | _ => true

/-- Modelled from the spec: `TaskOp.String` of the generated code (missing),
used only in the message for an unknown op: the name of the value. -/
def pb.TaskOp.String : pb.TaskOp → String
  | .TASK_OP_INIT_WORKSPACE => "TASK_OP_INIT_WORKSPACE"
  | .TASK_OP_SNAPSHOT_CREATE => "TASK_OP_SNAPSHOT_CREATE"
  | .TASK_OP_SNAPSHOT_DROP => "TASK_OP_SNAPSHOT_DROP"
  | .TASK_OP_SET_CURRENT => "TASK_OP_SET_CURRENT"
  | .unknown _ name => name

/-- The request as the server receives it (`pb.ExecuteTaskRequest`). -/
structure pb.ExecuteTaskRequest where
  TaskId : String
  Wsid : String
  Op : pb.TaskOp
  Params : List (String × String)
deriving DecidableEq

/-- What the filesystem answers during one call of `initWorkspace`: whether
`os.Lstat` of `current` succeeds, what `os.Readlink` of it returns, and the
errors of the three `os.MkdirAll` calls and of `os.Symlink`. -/
structure InitEnv where
  lstatCurrent : Bool
  readlinkCurrent : Except String String
  mkdirLiveErr : Option String
  mkdirSnapshotsErr : Option String
  mkdirWvsErr : Option String
  symlinkErr : Option String

/-- Embedding of `Server.initWorkspace`: the result and the events issued.
The error of `os.Readlink` is dropped by the code, the target then being the
empty string. -/
def initWorkspace (env : InitEnv) (mountPath wsid : String) :
    Except String (List (String × String)) × List FsEvent :=
  let wsRoot := joinPath mountPath wsid
  let currentLink := joinPath wsRoot "current"
  if env.lstatCurrent then
    let target := match env.readlinkCurrent with
      | .ok t => t
      | .error _ => ""
    (.ok [("current_path", joinPath wsRoot target)], [])
  else
    let livePath := joinPath (joinPath wsRoot "live") "initial"
    let snapshotsDir := joinPath wsRoot "snapshots"
    let wvsDir := joinPath wsRoot ".wvs"
    match env.mkdirLiveErr with
    | some e => (.error ("mkdir " ++ livePath ++ ": " ++ e), [.mkdirAll livePath false])
    | none =>
      match env.mkdirSnapshotsErr with
      | some e =>
        (.error ("mkdir " ++ snapshotsDir ++ ": " ++ e),
          [.mkdirAll livePath true, .mkdirAll snapshotsDir false])
      | none =>
        match env.mkdirWvsErr with
        | some e =>
          (.error ("mkdir " ++ wvsDir ++ ": " ++ e),
            [.mkdirAll livePath true, .mkdirAll snapshotsDir true, .mkdirAll wvsDir false])
        | none =>
          let relTarget := joinPath "live" "initial"
          match env.symlinkErr with
          | some e =>
            (.error ("symlink current: " ++ e),
              [.mkdirAll livePath true, .mkdirAll snapshotsDir true, .mkdirAll wvsDir true,
               .symlink relTarget currentLink false])
          | none =>
            (.ok [("current_path", joinPath wsRoot relTarget)],
              [.mkdirAll livePath true, .mkdirAll snapshotsDir true, .mkdirAll wvsDir true,
               .symlink relTarget currentLink true])

/-- What the filesystem answers during one call of `snapshotDrop`: whether
`os.Stat` of the snapshot directory reports that it does not exist, and the
error of `os.RemoveAll`. -/
structure DropEnv where
  targetMissing : Bool
  removeAllErr : Option String

/-- Embedding of `Server.snapshotDrop`: the result and the events issued. -/
def snapshotDrop (env : DropEnv) (mountPath wsid : String) (params : List (String × String)) :
    Except String (List (String × String)) × List FsEvent :=
  let snapshotID := paramGet params "snapshot_id"
  let wsRoot := joinPath mountPath wsid
  let targetPath := joinPath (joinPath wsRoot "snapshots") snapshotID
  if env.targetMissing then (.ok [], [])
  else
    match env.removeAllErr with
    | some e => (.error ("remove snapshot dir: " ++ e), [.removeAll targetPath false])
    | none => (.ok [], [.removeAll targetPath true])

/-- What the surroundings answer during one call of `ExecuteTask`, for
whichever handler the op selects. -/
structure ServerEnv where
  init : InitEnv
  drop : DropEnv
  exec : ExecEnv

/-- The handler the `switch` of `ExecuteTask` calls: its result (`none` while
`Quiesce` is still polling) and its events; no handler at all (`none`) for
an op the switch does not know. -/
def callHandler (env : ServerEnv) (mountPath timeoutText : String)
    (req : pb.ExecuteTaskRequest) :
    Option (Option (Except String (List (String × String))) × List FsEvent) :=
  match req.Op with
  | .TASK_OP_INIT_WORKSPACE =>
    some (some (initWorkspace env.init mountPath req.Wsid).1,
      (initWorkspace env.init mountPath req.Wsid).2)
  | .TASK_OP_SNAPSHOT_CREATE =>
    some (snapshotCreate env.exec mountPath timeoutText req.Wsid req.Params)
  | .TASK_OP_SNAPSHOT_DROP =>
    some (some (snapshotDrop env.drop mountPath req.Wsid req.Params).1,
      (snapshotDrop env.drop mountPath req.Wsid req.Params).2)
  | .TASK_OP_SET_CURRENT =>
    some (setCurrent env.exec mountPath timeoutText req.Wsid req.Params)
  | .unknown _ _ => none

/-- Embedding of `Server.ExecuteTask`.  The Go function returns a response
and an error, the transport-level error of the RPC; the result here is
`none` while `Quiesce` is still polling, and otherwise what the function
returns: `.ok` of the response, or `.error` of the error. -/
def ExecuteTask (env : ServerEnv) (mountPath timeoutText : String)
    (req : pb.ExecuteTaskRequest) :
    Option (Except String ExecuteTaskResponse) × List FsEvent :=
  match callHandler env mountPath timeoutText req with
  | none =>
    (some (.ok { Success := false, Results := none, ErrorCode := "UNKNOWN_OP",
                 ErrorMessage := "unknown op: " ++ req.Op.String }), [])
  | some (none, events) => (none, events)
  | some (some (.error err), events) =>
    (some (.ok { Success := false, Results := none, ErrorCode := "EXECUTOR_ERROR",
                 ErrorMessage := err }), events)
  | some (some (.ok results), events) =>
    (some (.ok { Success := true, Results := some results, ErrorCode := "",
                 ErrorMessage := "" }), events)

/-- Whether a turn of the `select` ends the loop of `Quiesce`: the context is
done, the deadline has passed, or the control file reads FROZEN. -/
def Poll.ends : Poll → Bool
  | .ctxDone _ => true
  | .tick true _ => true
  | .tick false state => state = some QuiesceFrozen

/-- The polls hold a turn that ends the loop.  The ticker fires until the
loop returns and the deadline passes after `QuiesceTimeout`, so every run of
the loop comes to such a turn. -/
def pollsEnd (polls : List Poll) : Bool := polls.any Poll.ends

/-- The state an event writes to the control file at `controlPath` and
whether the write succeeded; `none` for every other event. -/
def FsEvent.controlWrite (controlPath : String) : FsEvent → Option (QuiesceState × Bool)
  | .writeControl path state _ ok => if path = controlPath then some (state, ok) else none
  | _ => none

/-- The writes of the control file a trace holds, in order. -/
def controlWrites (controlPath : String) (trace : List FsEvent) : List (QuiesceState × Bool) :=
  trace.filterMap (FsEvent.controlWrite controlPath)

/-- REQUEST_FREEZE was written to the control file in the course of the
trace. -/
def FreezeWritten (controlPath : String) (trace : List FsEvent) : Prop :=
  (QuiesceRequestFreeze, true) ∈ controlWrites controlPath trace

instance FreezeWritten.decidable (controlPath : String) (trace : List FsEvent) :
    Decidable (FreezeWritten controlPath trace) :=
  inferInstanceAs (Decidable ((QuiesceRequestFreeze, true) ∈ controlWrites controlPath trace))

/-- The last write of the control file the trace holds is a write of
REQUEST_RESUME. -/
def ResumeLast (controlPath : String) (trace : List FsEvent) : Prop :=
  ((controlWrites controlPath trace).getLast?).map Prod.fst = some QuiesceRequestResume

instance ResumeLast.decidable (controlPath : String) (trace : List FsEvent) :
    Decidable (ResumeLast controlPath trace) :=
  inferInstanceAs (Decidable
    (((controlWrites controlPath trace).getLast?).map Prod.fst = some QuiesceRequestResume))

/-- Surroundings of `initWorkspace` on a workspace root that holds nothing
yet, nothing failing. -/
def initEnvFresh : InitEnv :=
  { lstatCurrent := false, readlinkCurrent := .error "no such file or directory",
    mkdirLiveErr := none, mkdirSnapshotsErr := none, mkdirWvsErr := none, symlinkErr := none }

/-- Surroundings of `snapshotDrop` in which the snapshot directory exists and
its removal succeeds. -/
def dropEnvPresent : DropEnv := { targetMissing := false, removeAllErr := none }

/-- Surroundings like `freshEnv` in which the agent does not answer: the
control file still reads REQUEST_FREEZE when the deadline has passed. -/
def timeoutEnv : ExecEnv :=
  { freshEnv with polls := [.tick false (some QuiesceRequestFreeze), .tick true none] }

/-- Surroundings like `freshEnv` in which the context is cancelled during
the polling. -/
def cancelledEnv : ExecEnv :=
  { freshEnv with polls := [.tick false none, .ctxDone "context canceled"] }

/-- Surroundings like `freshEnv` in which the clone fails. -/
def cloneFailEnv : ExecEnv :=
  { freshEnv with cloneErr := some "exit status 1, output: no space left" }

/-- Surroundings of the executor in which nothing fails. -/
def serverEnvFresh : ServerEnv :=
  { init := initEnvFresh, drop := dropEnvPresent, exec := freshEnv }

/-- A request with the given op for the workspace `w1`, with the params of a
snapshot_create task. -/
def requestW1 (op : pb.TaskOp) : pb.ExecuteTaskRequest :=
  { TaskId := "t1", Wsid := "w1", Op := op, Params := createParams }

/-- How an execution of `snapshotCreate` or `setCurrent` that has returned
went, as far as the control file goes: it returned before `Quiesce`, issuing
nothing; or `Quiesce` failed and its events are all there is; or `Quiesce`
succeeded and its events are followed by work that does not touch the
control file and then by the deferred `Resume`. -/
def ExitShape (env : ExecEnv) (wsRoot taskID timeoutText : String) (trace : List FsEvent) :
    Prop :=
  trace = [] ∨
  ((∃ e, (Quiesce env wsRoot taskID timeoutText).1 = some (.error e)) ∧
    trace = (Quiesce env wsRoot taskID timeoutText).2) ∨
  ((∃ u, (Quiesce env wsRoot taskID timeoutText).1 = some (.ok u)) ∧
    ∃ work, (∀ e ∈ work, e.isControl = false) ∧
      trace = (Quiesce env wsRoot taskID timeoutText).2 ++ work ++
        (Resume wsRoot taskID env.resumeErr).2)

/-- The handler of the request gets as far as `Quiesce`: the op is
snapshot_create, the snapshot metadata does not exist and `current`
resolves; or the op is set_current, `current` does not point at the new live
directory yet and the snapshot directory is there. -/
def reachesQuiesce (env : ExecEnv) (req : pb.ExecuteTaskRequest) : Prop :=
  (req.Op = .TASK_OP_SNAPSHOT_CREATE ∧ env.metaExists = false ∧
    ∃ src, env.evalSymlinks = .ok src) ∨
  (req.Op = .TASK_OP_SET_CURRENT ∧
    env.readlink.toOption ≠ some (joinPath "live" (paramGet req.Params "new_live_id")) ∧
    env.srcMissing = false)

/-- The error code of the response `ExecuteTask` returned, if it returned
one. -/
def errorCodeOf (r : Option (Except String ExecuteTaskResponse) × List FsEvent) :
    Option String :=
  match r.1 with
  | some (.ok resp) => some resp.ErrorCode
  | _ => none

/-- A request for a set_current of the workspace `w1`. -/
def requestSetCurrentW1 : pb.ExecuteTaskRequest :=
  { TaskId := "t1", Wsid := "w1", Op := .TASK_OP_SET_CURRENT, Params := setCurrentParams }

/-! ## The filesystem as a state -/

/-- What a path of the filesystem holds. -/
inductive FsNode where
  | dir
  | file
  | symlink (target : String)
deriving DecidableEq

/-- A state of the filesystem: the paths that hold something, each with what
it holds.  A path is listed once at most by the operations below; the first
entry of a path is the one that counts. -/
abbrev FS := List (String × FsNode)

/-- What a path holds, `none` when it holds nothing (`os.Lstat` fails with
"not exist"). -/
def FS.lookup (fs : FS) (path : String) : Option FsNode :=
  (fs.find? (fun e => e.1 = path)).map Prod.snd

/-- The state after a successful `os.MkdirAll(path)`: the path holds a
directory unless it held something already (the call does not succeed on a
path that is anything but a directory, or a link to one).  The ancestors the
call creates are not tracked. -/
def FS.mkdirAll (fs : FS) (path : String) : FS :=
  if (fs.lookup path).isSome then fs else fs ++ [(path, .dir)]

/-- The state after a successful `os.Symlink(target, link)`: `link` holds a
symbolic link with that target (the call does not succeed on a path that
holds something). -/
def FS.symlink (fs : FS) (target link : String) : FS :=
  if (fs.lookup link).isSome then fs else fs ++ [(link, .symlink target)]

/-- The state after one event of `initWorkspace`, whose events are calls of
`os.MkdirAll` and `os.Symlink`; a call that failed, and an event of another
kind, leave the state as it is. -/
def FS.afterInitEvent (fs : FS) : FsEvent → FS
  | .mkdirAll path true => fs.mkdirAll path
  | .symlink target link true => fs.symlink target link
  | _ => fs

/-- The state after the events of a run of `initWorkspace`. -/
def FS.afterInit (fs : FS) (events : List FsEvent) : FS :=
  events.foldl FS.afterInitEvent fs

/-- The answers `env` gives to `initWorkspace` are those of the filesystem in
state `fs`: `os.Lstat` of `current` succeeds exactly when the path holds
something, and `os.Readlink` returns the target exactly when it holds a
symbolic link. -/
def InitEnv.agrees (env : InitEnv) (fs : FS) (currentLink : String) : Prop :=
  env.lstatCurrent = (fs.lookup currentLink).isSome ∧
  (∀ t, fs.lookup currentLink = some (.symlink t) → env.readlinkCurrent = .ok t) ∧
  ((∀ t, fs.lookup currentLink ≠ some (.symlink t)) → ∃ e, env.readlinkCurrent = .error e)

/-- The answers of the filesystem in state `fs` to `initWorkspace`, nothing
failing that the state allows. -/
def InitEnv.ofFS (fs : FS) (currentLink : String) : InitEnv :=
  { lstatCurrent := (fs.lookup currentLink).isSome,
    readlinkCurrent :=
      match fs.lookup currentLink with
      | some (.symlink t) => .ok t
      | _ => .error "invalid argument",
    mkdirLiveErr := none, mkdirSnapshotsErr := none, mkdirWvsErr := none,
    symlinkErr := if (fs.lookup currentLink).isSome then some "file exists" else none }

/-- A workspace root that holds an old snapshot directory and nothing
else. -/
def fsBare : FS := [("/ws/w1", .dir), ("/ws/w1/snapshots", .dir)]

/-- A workspace whose `current` points at a live tree made by a
set_current. -/
def fsSwitched : FS :=
  [("/ws/w1", .dir), ("/ws/w1/live/abcd1234", .dir), ("/ws/w1/snapshots", .dir),
   ("/ws/w1/.wvs", .dir), ("/ws/w1/current", .symlink "live/abcd1234")]
/-! ## Error responses (`internal/core/errors.go`, `internal/api/response.go`) -/

/-- Go `core.AppError`. -/
structure AppError where
  Code : ErrorCode
  Message : String
deriving DecidableEq

/-- What a fresh `http.ResponseWriter` has received after a handler wrote its
answer: the status line, the `Content-Type` header and the body. -/
structure HTTPResponse where
  status : Nat
  contentType : String
  body : String
deriving DecidableEq

/-- The line `json.NewEncoder(w).Encode` writes for a struct whose fields are
strings: the fields in the order of their declaration under their `json`
tags, each value as `json.Marshal` writes a string, and a newline. -/
def encodeStruct (fields : List (String × String)) : String :=
  "\x7b" ++ ",".intercalate (fields.map (fun f => quote f.1 ++ ":" ++ quote f.2)) ++ "\x7d\n"

/-- Embedding of `api.WriteError` called with a non-nil `*core.AppError` on a
writer nothing has been written to: it sets the content type, writes the
header with `err.Code.HTTPStatus()` and encodes
`ErrorResponse{Code, Message}`. -/
def WriteError (err : AppError) : HTTPResponse :=
  { contentType := "application/json",
    status := HTTPStatus err.Code,
    body := encodeStruct [("code", err.Code), ("message", err.Message)] }

/-- The error `TestWriteError` writes. -/
def testAppError : AppError := { Code := ErrBadRequest, Message := "test error" }

/-! ## The context of the executor call (`cmd/wvs-worker/main.go`,
`internal/worker`, `internal/executorclient`) -/

/-- A `context.Context` as far as its deadline goes: the instant (in seconds
of the clock) after which it is cancelled, `none` when it has no deadline. -/
structure Context where
  deadline : Option Nat
deriving DecidableEq

/-- Go `context.Background()`: it has no deadline. -/
def Context.Background : Context := { deadline := none }

/-- Go `signal.NotifyContext(parent, ...)`: a child cancelled on a signal; its
deadline is the one of its parent. -/
def NotifyContext (parent : Context) : Context := parent

/-- Go `context.WithTimeout(parent, seconds)` called at the instant `now`: the
deadline is `now + seconds`, or the one of the parent when that is
earlier. -/
def Context.WithTimeout (parent : Context) (now seconds : Nat) : Context :=
  match parent.deadline with
  | none => { deadline := some (now + seconds) }
  | some d => { deadline := some (min d (now + seconds)) }

/-- The context `main` of `wvs-worker` hands to `Worker.Run`:
`signal.NotifyContext(context.Background(), SIGINT, SIGTERM)`. -/
def workerMainContext : Context := NotifyContext Context.Background

/-- The context `executorclient.Client.ExecuteTask` hands to the gRPC stub:
its own argument. -/
def Client.ExecuteTask.context (ctx : Context) : Context := ctx

/-- The context under which `Worker.dispatch`, called with `ctx` on the row
`task`, issues the executor call: `w.executor.ExecuteTask(ctx, ...)` with the
parameter `ctx` itself. -/
def dispatch.rpcContext (ctx : Context) (_task : WvsTask) : Context :=
  Client.ExecuteTask.context ctx

/-- The context `Worker.executeWithLock` hands to `dispatch`: its own
parameter. -/
def executeWithLock.rpcContext (ctx : Context) (task : WvsTask) : Context :=
  dispatch.rpcContext ctx task

/-- The context of the executor call for a row leased in `Worker.Run(ctx)`:
`Run` hands `ctx` to `executeWithLock`. -/
def Run.rpcContext (ctx : Context) (task : WvsTask) : Context :=
  executeWithLock.rpcContext ctx task

/-- Whether a context bounds a call started at `now` by `seconds` seconds: it
has a deadline no later than `now + seconds`. -/
def Context.boundsBy (ctx : Context) (now : Nat) (seconds : Int) : Bool :=
  match ctx.deadline with
  | none => false
  | some d => (d : Int) ≤ now + seconds

/-! ## Task-status writes of the worker -/

/-- Whether an effect is one of the three task-status writes: a call of
`CompleteTask`, `FailTask` or `MarkTaskDead`. -/
def Effect.isStatusWrite : Effect → Bool
  | .CompleteTask _ _ _ _ => true
  | .FailTask _ _ => true
  | .MarkTaskDead _ _ => true
  | _ => false

/-- The task a task-status write is addressed to. -/
def Effect.statusWriteTask : Effect → Option String
  | .CompleteTask taskID _ _ _ => some taskID
  | .FailTask taskID _ => some taskID
  | .MarkTaskDead taskID _ => some taskID
  | _ => none

/-- The task-status writes among the effects, in order. -/
def statusWrites (effects : List Effect) : List Effect :=
  effects.filter Effect.isStatusWrite

/-! ## Two workers on one workspace -/

/-- Two snapshots of the workspace `w1` are requested and two workers lease
one task each. -/
def twoLeases : List Action :=
  [ .createSnapshot 10 "t1" "s2" "w1" "k1" "",
    .createSnapshot 11 "t2" "s3" "w1" "k2" "",
    .dequeue 12,
    .dequeue 13 ]

/-- The tasks of a workspace that are RUNNING in the store. -/
def runningOf (db : DB) (wsid : String) : List String :=
  (db.tasks.filter (fun t => t.Wsid = wsid ∧ t.Status = TaskRunning)).map (fun t => t.TaskID)
/-! ## Filesystem steps

What the calls recorded in a trace do to a state of the filesystem.  Paths
are compared as strings: no path is resolved through a symbolic link, so the
statements are about filesystems in which the workspace root and the entries
`live`, `snapshots`, `.wvs` below it are real directories; hard links are not
tracked. -/

/-- Whether `path` is `root` or lies below it: `root` followed by a slash is
a beginning of `path`. -/
def isUnder (root path : String) : Bool :=
  path = root || (root.data ++ ['/']).isPrefixOf path.data

/-- A name that is one element of a path and stands for itself: not empty,
not `.` or `..`, and without a slash.  `filepath.Join` keeps such a name as
the last element of the path it makes. -/
def isPlainName (s : String) : Bool :=
  s ≠ "" ∧ s ≠ "." ∧ s ≠ ".." ∧ '/' ∉ s.data

/-- The state in which `path` holds `n`. -/
def FS.put (fs : FS) (path : String) (n : FsNode) : FS := (path, n) :: fs

/-- The state in which `path` holds nothing. -/
def FS.erase (fs : FS) (path : String) : FS := fs.filter (fun e => e.1 ≠ path)

/-- The state in which `root` and the paths below it hold nothing. -/
def FS.eraseTree (fs : FS) (root : String) : FS := fs.filter (fun e => ! isUnder root e.1)

/-- The call recorded in `e` takes the filesystem from `fs` to `fs'`.  Each
case says what the call may change and, where the call succeeded, what it
established:

* `os.MkdirAll(path)` creates directories at `path` and above it where
  nothing is; what exists stays;
* `os.WriteFile(path)` (`writeControl`, `writeFile`) changes `path` only,
  whether it succeeds or not;
* at a read of the control file the file may have changed, the agent writing
  it between the calls of the executor;
* `juicefs clone src dst` changes only `dst` and what is below it;
* `os.Remove(path)`, whose error the source ignores, removes `path` or leaves
  it;
* `os.RemoveAll(path)` that succeeds leaves nothing at `path` or below, and
  one that fails has removed some of it; nothing else changes;
* `os.Symlink(target, link)` succeeds only where `link` holds nothing, and
  then `link` holds the link; a failed call changes nothing;
* `os.Rename(old, new)` that succeeds puts what `old` held at `new` and leaves
  nothing at `old`, changing nothing outside the two (it is a no-op when both
  are the same path); a failed call changes nothing. -/
def FS.Step (fs : FS) (e : FsEvent) (fs' : FS) : Prop :=
  match e with
  | .mkdirAll path _ =>
    ∀ q, (fs.lookup q).isSome = true ∨ isUnder q path = false → fs'.lookup q = fs.lookup q
  | .writeControl path _ _ _ => ∀ q, q ≠ path → fs'.lookup q = fs.lookup q
  | .readControl path _ => ∀ q, q ≠ path → fs'.lookup q = fs.lookup q
  | .clone _ dst _ => ∀ q, isUnder dst q = false → fs'.lookup q = fs.lookup q
  | .writeFile path _ => ∀ q, q ≠ path → fs'.lookup q = fs.lookup q
  | .remove path =>
    (∀ q, q ≠ path → fs'.lookup q = fs.lookup q) ∧
    (fs'.lookup path = fs.lookup path ∨ fs'.lookup path = none)
  | .removeAll path true =>
    (∀ q, isUnder path q = true → fs'.lookup q = none) ∧
    (∀ q, isUnder path q = false → fs'.lookup q = fs.lookup q)
  | .removeAll path false =>
    (∀ q, isUnder path q = true → fs'.lookup q = fs.lookup q ∨ fs'.lookup q = none) ∧
    (∀ q, isUnder path q = false → fs'.lookup q = fs.lookup q)
  | .symlink target link true =>
    fs.lookup link = none ∧ fs'.lookup link = some (.symlink target) ∧
    ∀ q, q ≠ link → fs'.lookup q = fs.lookup q
  | .symlink _ _ false => ∀ q, fs'.lookup q = fs.lookup q
  | .rename oldPath newPath true =>
    (oldPath = newPath → ∀ q, fs'.lookup q = fs.lookup q) ∧
    (oldPath ≠ newPath →
      (∃ n, fs.lookup oldPath = some n ∧ fs'.lookup newPath = some n) ∧
      fs'.lookup oldPath = none ∧
      ∀ q, isUnder oldPath q = false → isUnder newPath q = false →
        fs'.lookup q = fs.lookup q)
  | .rename _ _ false => ∀ q, fs'.lookup q = fs.lookup q

/-- The states the filesystem goes through while the events of a trace happen
one after another, starting from `fs`: `states` lists the state after each
event. -/
def FS.Chain : FS → List FsEvent → List FS → Prop
  | _, [], [] => True
  | fs, e :: es, fs' :: rest => FS.Step fs e fs' ∧ FS.Chain fs' es rest
  | _, _, _ => False

/-- The state the filesystem is in after a chain that started in `fs`. -/
def FS.final (fs : FS) (states : List FS) : FS := states.getLast?.getD fs

/-- The answers `env` gives to `setCurrent` are those of the filesystem in
state `fs`: `os.Readlink` of `current` returns a target exactly when the path
holds a symbolic link with that target, and `os.Stat` of the snapshot
directory reports that it does not exist when the path holds nothing. -/
def ExecEnv.agrees (env : ExecEnv) (fs : FS) (currentLink srcPath : String) : Prop :=
  (∀ t, env.readlink = .ok t ↔ fs.lookup currentLink = some (.symlink t)) ∧
  (fs.lookup srcPath = none → env.srcMissing = true)

/-- The answers `env` gives to `snapshotDrop` are those of the filesystem in
state `fs`: `os.Stat` of the snapshot directory reports that it does not
exist exactly when the path holds nothing. -/
def DropEnv.agrees (env : DropEnv) (fs : FS) (targetPath : String) : Prop :=
  env.targetMissing = true ↔ fs.lookup targetPath = none

/-- The workspace `w1` after a set_current: `current` points at the live tree
`live/abcd1234`, made from the snapshot `s1`; there is a second snapshot
`s2`. -/
def fsTwoSnapshots : FS :=
  [("/ws/w1", .dir), ("/ws/w1/live", .dir), ("/ws/w1/live/abcd1234", .dir),
   ("/ws/w1/live/abcd1234/data", .file), ("/ws/w1/snapshots", .dir),
   ("/ws/w1/snapshots/s1", .dir), ("/ws/w1/snapshots/s1/data", .file),
   ("/ws/w1/snapshots/s2", .dir), ("/ws/w1/snapshots/s2/data", .file),
   ("/ws/w1/.wvs", .dir), ("/ws/w1/.wvs/control.json", .file),
   ("/ws/w1/current", .symlink "live/abcd1234")]

/-- Surroundings of a `snapshotDrop` whose target exists and whose removal
succeeds. -/
def dropOkEnv : DropEnv := { targetMissing := false, removeAllErr := none }

/-- Surroundings of a `snapshotDrop` whose target does not exist. -/
def dropGoneEnv : DropEnv := { targetMissing := true, removeAllErr := none }

/-- The states `fsTwoSnapshots` goes through while `SwitchCurrent` moves
`current` to `live/ef567890` and nothing fails. -/
def switchStates : List FS :=
  [ fsTwoSnapshots,
    fsTwoSnapshots.put "/ws/w1/current.tmp" (.symlink "live/ef567890"),
    ((fsTwoSnapshots.put "/ws/w1/current.tmp" (.symlink "live/ef567890")).erase
      "/ws/w1/current.tmp").put "/ws/w1/current" (.symlink "live/ef567890") ]

/-- Surroundings of a set_current on `fsTwoSnapshots` in which nothing fails:
`current` points at `live/abcd1234` and the agent answers FROZEN at the third
poll. -/
def switchEnv : ExecEnv := { freshEnv with readlink := .ok "live/abcd1234" }

/-- Parameters of a set_current task to the snapshot `s1`. -/
def switchParams : List (String × String) :=
  [("snapshot_id", "s1"), ("new_live_id", "ef567890"), ("task_id", "t1")]

/-- The filesystem after the clone of the set_current above. -/
def fsCloned : FS :=
  (fsTwoSnapshots.put "/ws/w1/.wvs/control.json" .file).put "/ws/w1/live/ef567890" .dir

/-- The filesystem after the set_current above. -/
def fsAfterSwitch : FS :=
  ((fsCloned.put "/ws/w1/current.tmp" (.symlink "live/ef567890")).erase
    "/ws/w1/current.tmp").put "/ws/w1/current" (.symlink "live/ef567890")

/-- The states `fsTwoSnapshots` goes through during the set_current above:
the control file is written, read three times, the snapshot is cloned,
`current` is switched and the control file is written again. -/
def setCurrentStates : List FS :=
  [ fsTwoSnapshots,
    fsTwoSnapshots.put "/ws/w1/.wvs/control.json" .file,
    fsTwoSnapshots.put "/ws/w1/.wvs/control.json" .file,
    fsTwoSnapshots.put "/ws/w1/.wvs/control.json" .file,
    fsTwoSnapshots.put "/ws/w1/.wvs/control.json" .file,
    fsCloned,
    fsCloned,
    fsCloned.put "/ws/w1/current.tmp" (.symlink "live/ef567890"),
    fsAfterSwitch,
    fsAfterSwitch ]
/-! ## Reading back what `sortedJSON` wrote

`sortedJSON` takes bytes and returns bytes; to apply it to its own output the
output has to be parsed again.  The definitions below give the document that
`encoding/json` parses the output to, after the documentation of the library:
a string written by `json.Marshal` is read back as the same string, the text
written for a `float64` is read back as the same `float64`, the bytes of a
member value are the `json.RawMessage` of that member, and an object is read
back with the members in the order they were written. -/

/-- The members of the object read back from the text `encodeObject` wrote
for a Go map with the entries `ms`: one member per key, the keys in sorted
order, each with the value the map held under it (every key of the map has a
value, the default is never taken). -/
def canonMembers (ms : List (String × JSON)) : List (String × JSON) :=
  (sortStrings (mapKeys ms)).map (fun k => (k, (mapGet ms k).getD (.null "null")))

mutual
/-- The document read back from the text `json.Marshal` wrote for the value
decoded from a document (a value that does not decode is never marshalled;
it is left as it is). -/
def JSON.remarshal : JSON → JSON
  | .null _ => .null "null"
  | .bool _ b => .bool (if b then "true" else "false") b
  | .num s none => .num s none
  | .num _ (some t) => .num t (some t)
  | .str _ s => .str (quote s) s
  | .arr s items => .arr ((JSON.arr s items).marshal) (remarshalList items)
  | .obj s members =>
    .obj ((JSON.obj s members).marshal) (canonMembers (remarshalMembers members))
/-- The elements of an array, read back. -/
def remarshalList : List JSON → List JSON
  | [] => []
  | x :: xs => x.remarshal :: remarshalList xs
/-- The member values of an object, read back. -/
def remarshalMembers : List (String × JSON) → List (String × JSON)
  | [] => []
  | (k, v) :: ms => (k, v.remarshal) :: remarshalMembers ms
end

mutual
/-- The document read back from the bytes `sortedJSON` returned for a valid
document: the empty object for `null`; for an object the sorted keys, each
with what is read back from the bytes written under it; for another value
what is read back from the text of `json.Marshal`, or the document itself
when it does not decode and its bytes were returned as they are. -/
def JSON.readBack : JSON → JSON
  | .null _ => .obj (encodeObject []) []
  | .obj _ members =>
    .obj (encodeObject (sortedMembers members)) (canonMembers (readBackMembers members))
  | .bool s b => if (JSON.bool s b).decodes then (JSON.bool s b).remarshal else .bool s b
  | .num s f => if (JSON.num s f).decodes then (JSON.num s f).remarshal else .num s f
  | .str s x => if (JSON.str s x).decodes then (JSON.str s x).remarshal else .str s x
  | .arr s items =>
    if (JSON.arr s items).decodes then (JSON.arr s items).remarshal else .arr s items
/-- The member values of an object, each read back from the bytes
`sortedJSON` returned for it. -/
def readBackMembers : List (String × JSON) → List (String × JSON)
  | [] => []
  | (k, v) :: ms => (k, v.readBack) :: readBackMembers ms
end

/-- The body whose bytes are the bytes `sortedJSON` returned: bytes that are
not valid JSON were returned as they are. -/
def Body.readBack : Body → Body
  | .invalid data => .invalid data
  | .valid doc => .valid doc.readBack

/-- The text of the members of an object in document order, as a parser
would show them: keys and the bytes of the values. -/
def JSON.membersText : JSON → List (String × String)
  | .obj _ members => members.map (fun m => (m.1, m.2.src))
  | _ => []

/-- A body with keys out of order, a key given twice, `null` under a key and
an object inside an array. -/
def unsortedBody : Body :=
  .valid (.obj "\x7b \"b\": null, \"a\": [ \x7b\"z\":1,\"y\":2\x7d ], \"b\": 1.0 , \"c\": null\x7d"
    [ ("b", .null "null"),
      ("a", .arr "[ \x7b\"z\":1,\"y\":2\x7d ]"
        [.obj "\x7b\"z\":1,\"y\":2\x7d" [("z", .num "1" (some "1")), ("y", .num "2" (some "2"))]]),
      ("b", .num "1.0" (some "1")),
      ("c", .null "null") ])

/-- The members of a valid body that is an object, as text. -/
def Body.membersText : Body → List (String × String)
  | .valid doc => doc.membersText
  | .invalid _ => []
/-! ## DISABLED workspaces -/

/-- State of the workspace with the given id, if there is one. -/
def stateOf (db : DB) (wsid : String) : Option WorkspaceState :=
  (GetWorkspace db wsid).map (fun w => w.State)

/-- What the steps keep true of workspaces: a row a worker holds belongs to
the workspace its row in the store belongs to, and a workspace with a task
that is not in a terminal status is not DISABLED. -/
def WsInv (s : Sys) : Prop :=
  (∀ l ∈ s.leased, ∀ t ∈ s.db.tasks, t.TaskID = l.TaskID → t.Wsid = l.Wsid) ∧
  (∀ t ∈ s.db.tasks, isTerminalStatus t.Status = false →
    stateOf s.db t.Wsid ≠ some WorkspaceDisabled)

/-- What a handler does to the store as far as workspaces go: a DISABLED
workspace stays DISABLED, a workspace becomes DISABLED only when none of its
tasks is active, and at most one task is added, with a new id and for a
workspace that is not DISABLED. -/
def HandlerStep (db db' : DB) : Prop :=
  (∀ w, stateOf db w = some WorkspaceDisabled → stateOf db' w = some WorkspaceDisabled) ∧
  (∀ w, stateOf db' w = some WorkspaceDisabled →
    stateOf db w = some WorkspaceDisabled ∨
      ∀ t ∈ db.tasks, t.Wsid = w → isTerminalStatus t.Status = true) ∧
  (db'.tasks = db.tasks ∨
    ∃ t, db'.tasks = db.tasks ++ [t] ∧ GetTask db t.TaskID = none ∧
      stateOf db' t.Wsid ≠ some WorkspaceDisabled)

/-- A store with the workspace `w1` and its snapshot `s1`, the workspace
DISABLED. -/
def dbDisabled : DB :=
  { dbOneSnapshot with
    workspaces := [{ Wsid := "w1", RootPath := "/ws/w1", Owner := "a",
                     State := WorkspaceDisabled, CurrentSnapshotID := none,
                     CurrentPath := "/ws/w1/live/initial", CreatedAt := 0, UpdatedAt := 5 }] }

/-- The workspace `w1` is disabled. -/
def disableW1 : List Action := [.disableWorkspace 5 "w1"]

/-- Requests on the workspace `w1` and steps of a worker: a retry of the
initialisation, a snapshot, a drop, a set_current, a second disable, a
lease. -/
def afterDisable : List Action :=
  [ .retryInit 6 "k0" "t0" "w1",
    .createSnapshot 7 "t1" "s2" "w1" "k1" "m",
    .dropSnapshot 8 "t2" "w1" "s1" "k2",
    .setCurrent 9 "t3" "abcd1234" "w1" "k3" (some "s1"),
    .disableWorkspace 10 "w1",
    .createWorkspace 11 "t4" "k4" (some reqW1) ]

/-- An `init_workspace` task of the workspace `w1` on its last attempt, as a
worker holds it. -/
def lastInitAttempt : WvsTask :=
  { pendingTask 5 with Op := OpInitWorkspace, Status := TaskRunning, Attempt := 5,
                       Params := [("owner", "a")] }

/-- A change of the store that leaves the task table as it is, keeps a
DISABLED workspace DISABLED and makes a workspace DISABLED only when none of
its tasks is active. -/
def StateStep (db db' : DB) : Prop :=
  db'.tasks = db.tasks ∧
  (∀ w, stateOf db w = some WorkspaceDisabled → stateOf db' w = some WorkspaceDisabled) ∧
  (∀ w, stateOf db' w = some WorkspaceDisabled →
    stateOf db w = some WorkspaceDisabled ∨
      ∀ t ∈ db.tasks, t.Wsid = w → isTerminalStatus t.Status = true)
/-! ## A store with a row under the idempotency key for every operation -/

/-- The `init_workspace` row `CreateWorkspace` inserted for `reqW1` under the
key `k1`, after its task has succeeded. -/
def initRowW1 : WvsTask :=
  { TaskID := "t0", Wsid := "w1", Op := OpInitWorkspace, Status := TaskSucceeded,
    IdempotencyKey := "k1",
    RequestHash := ComputeRequestHash id reqW1.marshal "POST" "/v1/workspaces",
    CreatedAt := 0, StartedAt := some 1, EndedAt := some 2, Attempt := 1, MaxAttempts := 5,
    NextRunAt := 0, TimeoutSeconds := 300, CancelRequested := false,
    Params := [("owner", "a")], Result := none, Error := none }

/-- The store of `dbOneSnapshot` with a second snapshot `s3` and the row of
the workspace's `init_workspace` task. -/
def dbTwoSnapshots : DB :=
  { dbOneSnapshot with
    tasks := [initRowW1]
    snapshots := dbOneSnapshot.snapshots ++
      [{ SnapshotID := "s3", Wsid := "w1", FsPath := "/ws/w1/snapshots/s3",
         Message := none, CreatedAt := 2, DeletedAt := none }] }

/-- The store after three more submissions under the key `k1`: a
snapshot_create with message `m` (task `t1`), a snapshot_drop of `s1` (task
`t2`) and a set_current to `s1` (task `t3`). -/
def dbKeyed : DB :=
  (SetCurrent id
    (DropSnapshot id
      (CreateSnapshot id dbTwoSnapshots 5 "t1" "s2" "w1" "k1" "m").1
      6 "t2" "w1" "s1" "k1").1
    7 "t3" "abcd1234" "w1" "k1" (some "s1")).1
/-! ## The system call by call -/

/-- State of the system seen call by call: the store, the rows leased to
workers that have not begun their loop body, and, for every worker that has
begun it, the task id with the calls the body has still to issue. -/
structure CallSys where
  db : DB
  leased : List WvsTask
  running : List (String × List Effect)

/-- One step of the system seen call by call: a request is served or a row
is leased (`serve`, with an `Action` other than `work`), a worker begins the
loop body on the row it leased (`begin`), or a worker issues the next call of
its loop body (`call`). -/
inductive CallAction where
  | serve (a : Action)
  | begin (taskID : String) (env : WorkerEnv)
  | call (taskID : String) (now delay : Nat)

/-- The state after one step seen call by call, or `none` when the step is
not possible.  The calls of `Worker.failTask` and `Worker.onSuccess` are
separate statements on the connection pool, outside any transaction, so the
steps of handlers and of other workers come between them.  `begin` fixes the
calls of the loop body: the body reads the store at most once
(`IsSnapshotReferencedByTasks` in the lock transaction, or `GetWorkspace` in
`checkSetCurrentNoop`) and before its first write, and `begin` is that
moment. -/
def callStep (sha256hex : String → String) (s : CallSys) : CallAction → Option CallSys
  | .serve (.work _ _ _ _) => none
  | .serve a =>
    match step sha256hex { db := s.db, leased := s.leased } a with
    | none => none
    | some s₁ => some { s with db := s₁.db, leased := s₁.leased }
  | .begin taskID env =>
    match s.leased.find? (fun t => t.TaskID = taskID) with
    | none => none
    | some task =>
      some { s with leased := s.leased.filter (fun t => t.TaskID ≠ taskID),
                    running := (taskID, runTask env s.db task) :: s.running }
  | .call taskID now delay =>
    match s.running.find? (fun r => r.1 = taskID) with
    | none => none
    | some (_, []) => some { s with running := s.running.filter (fun r => r.1 ≠ taskID) }
    | some (_, e :: rest) =>
      some { s with db := applyEffect now delay s.db e,
                    running := if rest = [] then s.running.filter (fun r => r.1 ≠ taskID)
                               else (taskID, rest) :: s.running.filter (fun r => r.1 ≠ taskID) }

/-- The state after a sequence of steps seen call by call. -/
def callRun (sha256hex : String → String) : CallSys → List CallAction → Option CallSys
  | s, [] => some s
  | s, a :: as =>
    match callStep sha256hex s a with
    | none => none
    | some s₁ => callRun sha256hex s₁ as

/-- The system with an empty store and no worker at work. -/
def sysFresh : CallSys :=
  { db := { tasks := [], workspaces := [], snapshots := [], audit := [] },
    leased := [], running := [] }

/-- An attempt on the task `t1` that is not the last one, the executor
reporting a failure: the lease, the executor call, `FailTask`. -/
def failedAttemptCalls (now : Nat) : List CallAction :=
  [.serve (.dequeue now), .begin "t1" failEnv, .call "t1" now 0, .call "t1" now 0]

/-- The workspace `w1` is created and the executor fails its
`init_workspace` task four times; the task is leased for its fifth and last
attempt, the executor fails again and the worker issues the first call of
`failTask`, `MarkTaskDead`. -/
def initFailsCalls : List CallAction :=
  [.serve (.createWorkspace 0 "t1" "k1" (some reqW1))] ++
  failedAttemptCalls 1 ++ failedAttemptCalls 2 ++ failedAttemptCalls 3 ++
  failedAttemptCalls 4 ++
  [.serve (.dequeue 5), .begin "t1" failEnv, .call "t1" 5 0, .call "t1" 6 0]

/-- The request to disable `w1`, served between the two calls of
`failTask`. -/
def disableBetweenCalls : List CallAction :=
  initFailsCalls ++ [.serve (.disableWorkspace 7 "w1")]

/-- The worker then issues the second call of `failTask`,
`UpdateWorkspaceState(INIT_FAILED)`. -/
def overwriteCalls : List CallAction :=
  disableBetweenCalls ++ [.call "t1" 8 0]

/-- The state after a sequence of steps seen call by call, the fresh system
when the sequence cannot be run. -/
def callStateAfter (tr : List CallAction) : CallSys :=
  (callRun id sysFresh tr).getD sysFresh
/-! ## Key permutations that `sortedJSON` undoes -/

/-- The document `b` is obtained from `a` by permuting the members of
objects that repeat no key, at any nesting depth, inside an array only when
the array decodes (holds no number literal beyond `float64`).  A value in
which nothing is permuted is left as it is, byte for byte (`same`); the
source bytes of an object or an array in which something is permuted are
free.  The rules `arrCons` and `objCons` carry the relation through the
elements of an array and the members of an object one position at a
time. -/
inductive KeyPermSortable : JSON → JSON → Prop
  | same (a : JSON) : KeyPermSortable a a
  | arrCons {a b : JSON} {xs ys : List JSON} (s t u v : String) :
      (JSON.arr u (a :: xs)).decodes = true →
      KeyPermSortable a b → KeyPermSortable (.arr s xs) (.arr t ys) →
      KeyPermSortable (.arr u (a :: xs)) (.arr v (b :: ys))
  | objCons {a b : JSON} {ms ns : List (String × JSON)} (s t u v k : String) :
      KeyPermSortable a b → KeyPermSortable (.obj s ms) (.obj t ns) →
      KeyPermSortable (.obj u ((k, a) :: ms)) (.obj v ((k, b) :: ns))
  | objPerm {ms ns : List (String × JSON)} (s t : String) :
      (ms.map Prod.fst).Nodup → ms.Perm ns → KeyPermSortable (.obj s ms) (.obj t ns)
  | trans {a b c : JSON} : KeyPermSortable a b → KeyPermSortable b c → KeyPermSortable a c

/-- An object that holds a number literal beyond the `float64` range under
one key and an object under another. -/
def bodyRawNumberYX : JSON :=
  .obj "\x7b\"a\":1e999,\"b\":\x7b\"y\":1,\"x\":2\x7d\x7d"
    [("a", .num "1e999" none),
     ("b", .obj "\x7b\"y\":1,\"x\":2\x7d" [("y", .num "1" (some "1")), ("x", .num "2" (some "2"))])]

/-- The same object with the keys permuted at both levels. -/
def bodyRawNumberXY : JSON :=
  .obj "\x7b\"b\":\x7b\"x\":2,\"y\":1\x7d,\"a\":1e999\x7d"
    [("b", .obj "\x7b\"x\":2,\"y\":1\x7d" [("x", .num "2" (some "2")), ("y", .num "1" (some "1"))]),
     ("a", .num "1e999" none)]

/-- An object that holds, under a key, an array with an object and a number
literal beyond the `float64` range. -/
def bodyRawArrayAB : JSON := .obj "\x7b\"k\":[\x7b\"a\":1,\"b\":2\x7d,1e999]\x7d" [("k", bodyOverflowAB)]

/-- The same object with the keys of the object inside the array in the
other order. -/
def bodyRawArrayBA : JSON := .obj "\x7b\"k\":[\x7b\"b\":2,\"a\":1\x7d,1e999]\x7d" [("k", bodyOverflowBA)]
/-! ## Reading back the text of a Go string -/

/-- Value of a lower-case hexadecimal digit. -/
def hexValue (c : Char) : Nat :=
  if c.toNat < 58 then c.toNat - 48 else c.toNat - 87

/-- Reads the first character of a Go string off the text `json.Marshal`
wrote for it (`escapeChar`), and returns it with the rest of the text; `none`
at the closing quote and at the end of the text.  It is the inverse of
`escapeChar`, by which the text of a string is shown to be readable in one way
only. -/
def unescapeHead : List Char → Option (Char × List Char)
  | [] => none
  | c :: rest =>
    if c = '"' then none
    else if c ≠ '\\' then some (c, rest)
    else
      match rest with
      | [] => none
      | e :: rest₁ =>
        if e = '"' then some ('"', rest₁)
        else if e = '\\' then some ('\\', rest₁)
        else if e = 'n' then some ('\n', rest₁)
        else if e = 'r' then some ('\r', rest₁)
        else if e = 't' then some ('\t', rest₁)
        else if e = 'b' then some (Char.ofNat 8, rest₁)
        else if e = 'f' then some (Char.ofNat 12, rest₁)
        else
          match rest₁ with
          | a :: _ :: h₁ :: h₂ :: rest₂ =>
            if a = '0' then some (Char.ofNat (hexValue h₁ * 16 + hexValue h₂), rest₂)
            else if h₂ = '8' then some (Char.ofNat 8232, rest₂)
            else some (Char.ofNat 8233, rest₂)
          | _ => none
/-! # Theorems

## Request hashing -/

theorem keyLE_total (a b : String) : keyLE a b ∨ keyLE b a := le_total a.data b.data

theorem keyLE_trans {a b c : String} (h₁ : keyLE a b) (h₂ : keyLE b c) : keyLE a c :=
  le_trans (α := List Char) h₁ h₂

theorem keyLE_antisymm {a b : String} (h₁ : keyLE a b) (h₂ : keyLE b a) : a = b := by
  have h : a.data = b.data := le_antisymm (α := List Char) h₁ h₂
  cases a; cases b; simp_all

/-- Sorting two lists with the same keys gives the same list. -/
theorem sortStrings_perm {ks ls : List String} (h : ks.Perm ls) :
    sortStrings ks = sortStrings ls := by
  haveI : IsTotal String keyLE := ⟨keyLE_total⟩
  haveI : IsTrans String keyLE := ⟨fun _ _ _ => keyLE_trans⟩
  haveI : IsAntisymm String keyLE := ⟨fun _ _ => keyLE_antisymm⟩
  unfold sortStrings
  apply List.eq_of_perm_of_sorted (r := keyLE)
  · exact (List.perm_insertionSort keyLE ks).trans (h.trans (List.perm_insertionSort keyLE ls).symm)
  · exact List.sorted_insertionSort keyLE ks
  · exact List.sorted_insertionSort keyLE ls

/-- With distinct keys the map holds exactly the members. -/
theorem mapGet_eq_some_iff {α : Type} {ms : List (String × α)}
    (nd : (ms.map Prod.fst).Nodup) (k : String) (v : α) :
    mapGet ms k = some v ↔ (k, v) ∈ ms := by
  unfold mapGet
  induction ms with
  | nil => simp
  | cons m ms ih =>
    obtain ⟨k', v'⟩ := m
    simp only [List.map_cons, List.nodup_cons] at nd
    have ih' := ih nd.2
    simp only [List.reverse_cons, List.find?_append, List.mem_cons]
    by_cases hk : k' = k
    · subst hk
      have hnone : List.find? (fun m => m.1 == k') ms.reverse = none := by
        rw [List.find?_eq_none]
        intro x hx hxk
        simp only [beq_iff_eq] at hxk
        apply nd.1
        rw [← hxk]
        exact List.mem_map_of_mem _ (List.mem_reverse.mp hx)
      have hnot : ∀ w, (k', w) ∉ ms := fun w hw => nd.1 (List.mem_map_of_mem Prod.fst hw)
      simp [hnone, hnot, eq_comm]
    · have : (k, v) ≠ (k', v') := by
        intro h; apply hk; simp at h; exact h.1.symm
      cases hf : List.find? (fun m => m.1 == k) ms.reverse with
      | none =>
        have := ih'
        simp [hf] at this
        simp [hf, hk, this, Ne.symm hk]
      | some x =>
        simp only [hf] at ih'
        simpa [hf, Ne.symm hk] using ih'

/-- Permuting the members of a map with distinct keys changes no lookup. -/
theorem mapGet_perm {α : Type} {ms ns : List (String × α)} (h : ms.Perm ns)
    (nd : (ms.map Prod.fst).Nodup) (k : String) : mapGet ms k = mapGet ns k := by
  have nd' : (ns.map Prod.fst).Nodup := (h.map Prod.fst).nodup_iff.mp nd
  cases hm : mapGet ms k with
  | some v =>
    have := (mapGet_eq_some_iff nd k v).mp hm
    exact ((mapGet_eq_some_iff nd' k v).mpr (h.mem_iff.mp this)).symm
  | none =>
    cases hn : mapGet ns k with
    | none => rfl
    | some v =>
      have := (mapGet_eq_some_iff nd' k v).mp hn
      have := (mapGet_eq_some_iff nd k v).mpr (h.mem_iff.mpr this)
      rw [hm] at this; cases this

/-- The text of an object does not depend on the order of its entries when
the keys are distinct. -/
theorem encodeObject_perm {ms ns : List (String × String)} (h : ms.Perm ns)
    (nd : (ms.map Prod.fst).Nodup) : encodeObject ms = encodeObject ns := by
  have nd' : (ns.map Prod.fst).Nodup := (h.map Prod.fst).nodup_iff.mp nd
  unfold encodeObject mapKeys
  rw [List.Nodup.dedup nd, List.Nodup.dedup nd', sortStrings_perm (h.map Prod.fst)]
  congr 3
  apply List.map_congr_left
  intro k _
  rw [mapGet_perm h nd k]


theorem sortedMembers_eq_map (ms : List (String × JSON)) :
    sortedMembers ms = ms.map (fun m => (m.1, sortedJSONDoc m.2)) := by
  induction ms with
  | nil => rfl
  | cons m ms ih => obtain ⟨k, v⟩ := m; simp [sortedMembers, ih]

theorem marshalMembers_eq_map (ms : List (String × JSON)) :
    marshalMembers ms = ms.map (fun m => (m.1, m.2.marshal)) := by
  induction ms with
  | nil => rfl
  | cons m ms ih => obtain ⟨k, v⟩ := m; simp [marshalMembers, ih]

theorem sortedMembers_keys (ms : List (String × JSON)) :
    (sortedMembers ms).map Prod.fst = ms.map Prod.fst := by
  rw [sortedMembers_eq_map]; simp [Function.comp_def]

theorem marshalMembers_keys (ms : List (String × JSON)) :
    (marshalMembers ms).map Prod.fst = ms.map Prod.fst := by
  rw [marshalMembers_eq_map]; simp [Function.comp_def]

theorem decodesMembers_eq_all (ms : List (String × JSON)) :
    decodesMembers ms = ms.all (fun m => m.2.decodes) := by
  induction ms with
  | nil => rfl
  | cons m ms ih => obtain ⟨k, v⟩ := m; simp [decodesMembers, ih]

theorem distinctKeysMembers_eq_all (ms : List (String × JSON)) :
    distinctKeysMembers ms = ms.all (fun m => m.2.distinctKeys) := by
  induction ms with
  | nil => rfl
  | cons m ms ih => obtain ⟨k, v⟩ := m; simp [distinctKeysMembers, ih]

theorem all_perm {α : Type} (p : α → Bool) {xs ys : List α} (h : xs.Perm ys) :
    xs.all p = true → ys.all p = true := by
  simp only [List.all_eq_true]
  intro hx y hy
  exact hx y (h.mem_iff.mpr hy)

theorem string_append_data (a b : String) : (a ++ b).data = a.data ++ b.data := by
  simp

theorem string_eq_of_data {a b : String} (h : a.data = b.data) : a = b := by
  cases a; cases b; simp_all

/-- C9: for every body, path and two different methods the bytes written
into SHA-256 differ (same sorted body before, same path after, different
method in between), so the hashes differ for every injective digest. -/
theorem ComputeRequestHash_method_differs (body : Body) (path m m' : String)
    (h : m ≠ m') :
    hashInput body m path ≠ hashInput body m' path ∧
    ∀ sha256hex : String → String, Function.Injective sha256hex →
      ComputeRequestHash sha256hex body m path ≠
        ComputeRequestHash sha256hex body m' path := by
  have hne : hashInput body m path ≠ hashInput body m' path := by
    intro heq
    apply h
    have hd := congrArg String.data heq
    simp only [hashInput, string_append_data] at hd
    exact string_eq_of_data (List.append_cancel_left (List.append_cancel_right hd))
  exact ⟨hne, fun sha hinj heq => hne (hinj heq)⟩

/-- C9, instance: the body of the method test under POST and DELETE, with
the identity as digest. -/
theorem ComputeRequestHash_method_differs_witness :
    "POST" ≠ "DELETE" ∧
    (hashInput (.valid bodyHello) "POST" "/v1/workspaces/ws-1/snapshots" ≠
      hashInput (.valid bodyHello) "DELETE" "/v1/workspaces/ws-1/snapshots" ∧
     ∀ sha256hex : String → String, Function.Injective sha256hex →
      ComputeRequestHash sha256hex (.valid bodyHello) "POST" "/v1/workspaces/ws-1/snapshots" ≠
        ComputeRequestHash sha256hex (.valid bodyHello) "DELETE" "/v1/workspaces/ws-1/snapshots") :=
  ⟨by decide, ComputeRequestHash_method_differs (.valid bodyHello)
    "/v1/workspaces/ws-1/snapshots" "POST" "DELETE" (by decide)⟩

/-- What `sortedJSON` does with `null`, a value no handler passes: the body
`null` and the body of the empty object are different JSON values, yet
`sortedJSON` returns the bytes of the empty object for both (`Unmarshal` of
`null` into a map succeeds and leaves it nil), and so does it for a member
`null` against a member empty object; a `null` inside an array is kept. -/
theorem sortedJSON_null_collides_with_empty_object :
    sortedJSON (.valid (.null "null")) = "\x7b\x7d" ∧
    sortedJSON (.valid (.obj "\x7b\x7d" [])) = "\x7b\x7d" ∧
    sortedJSON (.valid (.obj "\x7b\"a\":null\x7d" [("a", .null "null")])) =
      sortedJSON (.valid (.obj "\x7b\"a\":\x7b\x7d\x7d" [("a", .obj "\x7b\x7d" [])])) ∧
    sortedJSON (.valid (.arr "[null]" [.null "null"])) = "[null]" ∧
    ∀ (sha256hex : String → String) (method path : String),
      ComputeRequestHash sha256hex (.valid (.null "null")) method path =
        ComputeRequestHash sha256hex (.valid (.obj "\x7b\x7d" [])) method path := by
  refine ⟨by decide, by decide, by decide, by decide, ?_⟩
  intro sha256hex method path
  rfl

/-! ## Store and worker: lemmas -/

theorem find?_map_key {α β : Type} [DecidableEq β] (key : α → β) (f : α → α)
    (hf : ∀ a, key (f a) = key a) (l : List α) (k : β) :
    (l.map f).find? (fun a => key a = k) = (l.find? (fun a => key a = k)).map f := by
  induction l with
  | nil => rfl
  | cons a l ih =>
    simp only [List.map_cons, List.find?_cons, hf]
    by_cases h : key a = k
    · simp [h]
    · simp [h, ih]

theorem GetTask_map (db : DB) (f : WvsTask → WvsTask) (hf : ∀ t, (f t).TaskID = t.TaskID)
    (w : List WvsWorkspace) (sn : List WvsSnapshot) (au : List AuditEvent) (id : String) :
    GetTask { tasks := db.tasks.map f, workspaces := w, snapshots := sn, audit := au } id =
      (GetTask db id).map f := by
  unfold GetTask
  exact find?_map_key (fun t => t.TaskID) f hf db.tasks id

theorem map_eq_self {α : Type} (f : α → α) (l : List α) (h : ∀ a, f a = a) : l.map f = l := by
  induction l with
  | nil => rfl
  | cons a l ih => simp [h, ih]

theorem applyEffect_tasks (now delay : Nat) (db : DB) (e : Effect) :
    (applyEffect now delay db e).tasks = db.tasks.map (effectOnTask now delay e) := by
  cases e with
  | CompleteTask taskID status result error => simp [applyEffect, CompleteTask, effectOnTask]
  | FailTask taskID error => simp [applyEffect, FailTask, effectOnTask]
  | MarkTaskDead taskID error => simp [applyEffect, MarkTaskDead, effectOnTask]
  | UpdateWorkspaceState wsid state =>
    simp only [applyEffect, UpdateWorkspaceState]
    exact (map_eq_self _ _ (fun _ => rfl)).symm
  | CreateSnapshot snapshotID wsid fsPath message =>
    simp only [applyEffect, CreateSnapshotRow]
    split <;> exact (map_eq_self _ _ (fun _ => rfl)).symm
  | UpdateWorkspaceCurrent wsid sid path =>
    simp only [applyEffect, UpdateWorkspaceCurrent]
    exact (map_eq_self _ _ (fun _ => rfl)).symm
  | MarkSnapshotDeleted snapshotID =>
    simp only [applyEffect, MarkSnapshotDeleted]
    exact (map_eq_self _ _ (fun _ => rfl)).symm
  | ExecuteTask req =>
    simp only [applyEffect]
    exact (map_eq_self _ _ (fun _ => rfl)).symm

theorem applyEffects_tasks (now delay : Nat) (effects : List Effect) (db : DB) :
    (applyEffects now delay db effects).tasks =
      db.tasks.map (effectsOnTask now delay effects) := by
  induction effects generalizing db with
  | nil => exact (map_eq_self _ _ (fun _ => rfl)).symm
  | cons e es ih =>
    have := ih (applyEffect now delay db e)
    simp only [applyEffects, List.foldl_cons] at this ⊢
    rw [this, applyEffect_tasks]
    simp [effectsOnTask, Function.comp_def]

theorem effectsOnTask_cons (now delay : Nat) (e : Effect) (es : List Effect) (t : WvsTask) :
    effectsOnTask now delay (e :: es) t =
      effectsOnTask now delay es (effectOnTask now delay e t) := rfl

theorem effectsOnTask_nil (now delay : Nat) (t : WvsTask) :
    effectsOnTask now delay [] t = t := rfl

theorem effectsOnTask_append (now delay : Nat) (es fs : List Effect) (t : WvsTask) :
    effectsOnTask now delay (es ++ fs) t =
      effectsOnTask now delay fs (effectsOnTask now delay es t) := by
  simp [effectsOnTask, List.foldl_append]

theorem endsAttempt_of_neutral_append {now delay : Nat} {l : WvsTask} {pre es : List Effect}
    {st : TaskStatus} (hp : neutralEffects now delay pre) (h : EndsAttempt now delay l es st) :
    EndsAttempt now delay l (pre ++ es) st := by
  intro t
  rw [effectsOnTask_append, hp t]
  exact h t

theorem endsAttempt_append_of_neutral {now delay : Nat} {l : WvsTask} {es post : List Effect}
    {st : TaskStatus} (h : EndsAttempt now delay l es st) (hp : neutralEffects now delay post) :
    EndsAttempt now delay l (es ++ post) st := by
  intro t
  rw [effectsOnTask_append, hp]
  exact h t

theorem endsAttempt_cons_of_neutral {now delay : Nat} {l : WvsTask} {e : Effect}
    {es : List Effect} {st : TaskStatus} (hp : neutralEffects now delay [e])
    (h : EndsAttempt now delay l es st) : EndsAttempt now delay l (e :: es) st :=
  @endsAttempt_of_neutral_append now delay l [e] es st hp h

theorem endsAttempt_complete (now delay : Nat) (l : WvsTask) (st : TaskStatus)
    (result error : Option String) :
    EndsAttempt now delay l [.CompleteTask l.TaskID st result error] st := by
  intro t
  simp only [effectsOnTask_cons, effectsOnTask_nil, effectOnTask]
  by_cases h : t.TaskID = l.TaskID <;> simp [h]

theorem endsAttempt_fail (now delay : Nat) (l : WvsTask) (error : String) :
    EndsAttempt now delay l [.FailTask l.TaskID error] TaskFailed := by
  intro t
  simp only [effectsOnTask_cons, effectsOnTask_nil, effectOnTask]
  by_cases h : t.TaskID = l.TaskID <;> simp [h]

theorem endsAttempt_dead (now delay : Nat) (l : WvsTask) (error : String) :
    EndsAttempt now delay l [.MarkTaskDead l.TaskID error] TaskDead := by
  intro t
  simp only [effectsOnTask_cons, effectsOnTask_nil, effectOnTask]
  by_cases h : t.TaskID = l.TaskID <;> simp [h]

theorem endsAttempt_failTask (now delay : Nat) (l : WvsTask) (err : String) :
    EndsAttempt now delay l (failTask l err) (failStatus l) := by
  unfold failTask failStatus
  by_cases h : l.Attempt ≥ l.MaxAttempts
  · rw [if_pos h, if_pos h]
    have hn : neutralEffects now delay
        (if l.Op = OpInitWorkspace then
          [Effect.UpdateWorkspaceState l.Wsid WorkspaceInitFailed] else []) := by
      intro t
      by_cases hop : l.Op = OpInitWorkspace
      · rw [if_pos hop]; rfl
      · rw [if_neg hop]; rfl
    exact endsAttempt_append_of_neutral (endsAttempt_dead now delay l (errorJSON err)) hn
  · rw [if_neg h, if_neg h]
    exact endsAttempt_fail now delay l _

theorem endsAttempt_onSuccess (now delay : Nat) (l : WvsTask)
    (results : Option (List (String × String))) :
    EndsAttempt now delay l (onSuccess l results) TaskSucceeded := by
  unfold onSuccess
  apply endsAttempt_of_neutral_append _ (endsAttempt_complete now delay l _ _ _)
  intro t
  by_cases h1 : l.Op = OpInitWorkspace
  · rw [if_pos h1]; rfl
  · rw [if_neg h1]
    by_cases h2 : l.Op = OpSnapshotCreate
    · rw [if_pos h2]; rfl
    · rw [if_neg h2]
      by_cases h3 : l.Op = OpSetCurrent
      · rw [if_pos h3]; rfl
      · rw [if_neg h3]; rfl

theorem endsAttempt_callExecutor (now delay : Nat) (env : WorkerEnv) (l : WvsTask)
    (params : List (String × String)) :
    ∃ st, attemptOutcome l st ∧ EndsAttempt now delay l (callExecutor env l params) st := by
  unfold callExecutor
  by_cases hop : opMapHas l.Op = true
  · simp only [hop, not_true_eq_false, if_false]
    cases hrpc : env.rpc with
    | error err =>
      exact ⟨failStatus l, Or.inr (Or.inr rfl),
        endsAttempt_cons_of_neutral (fun _ => rfl) (endsAttempt_failTask now delay l _)⟩
    | ok resp =>
      by_cases hs : resp.Success = true
      · simp only [hs, not_true_eq_false, if_false]
        exact ⟨TaskSucceeded, Or.inl rfl,
          endsAttempt_cons_of_neutral (fun _ => rfl) (endsAttempt_onSuccess now delay l _)⟩
      · simp only [hs, not_false_eq_true, if_true]
        exact ⟨failStatus l, Or.inr (Or.inr rfl),
          endsAttempt_cons_of_neutral (fun _ => rfl) (endsAttempt_failTask now delay l _)⟩
  · simp only [hop, not_false_eq_true, if_true]
    exact ⟨failStatus l, Or.inr (Or.inr rfl), endsAttempt_failTask now delay l _⟩

theorem endsAttempt_dispatch (now delay : Nat) (env : WorkerEnv) (db : DB) (l : WvsTask) :
    ∃ st, attemptOutcome l st ∧ EndsAttempt now delay l (dispatch env db l) st := by
  unfold dispatch
  by_cases hop : l.Op = OpSetCurrent
  · simp only [hop, if_true]
    unfold checkSetCurrentNoop
    by_cases hg : env.getWorkspaceErr = true
    · simpa [hg] using endsAttempt_callExecutor now delay env l _
    · simp only [hg, Bool.false_eq_true, if_false]
      cases hw : GetWorkspace db l.Wsid with
      | none => simpa using endsAttempt_callExecutor now delay env l _
      | some ws =>
        by_cases hc : ws.CurrentSnapshotID =
            some (paramGet (paramSet l.Params "task_id" l.TaskID) "snapshot_id")
        · simp only [hc, if_true]
          exact ⟨TaskSucceeded, Or.inl rfl, endsAttempt_complete now delay l _ _ _⟩
        · simp only [hc, if_false]
          simpa using endsAttempt_callExecutor now delay env l _
  · simp only [hop, if_false]
    exact endsAttempt_callExecutor now delay env l _

theorem endsAttempt_executeWithLock (now delay : Nat) (env : WorkerEnv) (db : DB)
    (l : WvsTask) :
    ∃ st, attemptOutcome l st ∧ EndsAttempt now delay l (executeWithLock env db l) st := by
  have hfail : ∀ err, ∃ st, attemptOutcome l st ∧
      EndsAttempt now delay l (failTask l err) st :=
    fun err => ⟨failStatus l, Or.inr (Or.inr rfl), endsAttempt_failTask now delay l err⟩
  unfold executeWithLock
  cases env.beginErr with
  | some err => exact hfail err
  | none =>
    cases env.lockErr with
    | some err => exact hfail err
    | none =>
      simp only
      split
      · split
        · exact hfail _
        · cases env.markDeletedErr with
          | some err => exact hfail err
          | none =>
            cases env.commitErr with
            | some err => exact hfail err
            | none =>
              obtain ⟨st, ho, he⟩ := endsAttempt_dispatch now delay env db l
              exact ⟨st, ho, endsAttempt_cons_of_neutral (fun _ => rfl) he⟩
      · cases env.commitErr with
        | some err => exact hfail err
        | none => exact endsAttempt_dispatch now delay env db l

/-- The loop body of the worker rewrites the status of the leased row, once,
to SUCCEEDED, CANCELED, or to the status `failTask` chooses, and touches no
other task row. -/
theorem endsAttempt_runTask (now delay : Nat) (env : WorkerEnv) (db : DB) (l : WvsTask) :
    ∃ st, attemptOutcome l st ∧ EndsAttempt now delay l (runTask env db l) st := by
  unfold runTask
  by_cases hc : l.CancelRequested = true
  · simp only [hc, if_true]
    exact ⟨TaskCanceled, Or.inr (Or.inl rfl), endsAttempt_complete now delay l _ _ _⟩
  · simp only [hc, Bool.false_eq_true, if_false]
    exact endsAttempt_executeWithLock now delay env db l

/-! ## Steps of the system: what each does to the task table -/

theorem CreateTask_spec {db db' : DB} {now : Nat} {p : CreateTaskParams} {t : WvsTask}
    (h : CreateTask db now p = some (db', t)) :
    db'.tasks = db.tasks ++ [t] ∧ db'.workspaces = db.workspaces ∧
    db'.snapshots = db.snapshots ∧ t.Status = TaskPending ∧ t.Attempt = 0 ∧
    t.TaskID = p.TaskID ∧ t.Wsid = p.Wsid ∧ t.Op = p.Op ∧
    t.IdempotencyKey = p.IdempotencyKey ∧ t.RequestHash = p.RequestHash ∧
    GetTask db p.TaskID = none ∧
    GetTaskByIdempotencyKey db p.Wsid p.Op p.IdempotencyKey = none := by
  unfold CreateTask at h
  split at h
  · cases h
  · rename_i hc
    simp only [Option.some.injEq, Prod.mk.injEq] at h
    obtain ⟨h1, h2⟩ := h
    subst h1 h2
    simp only [not_or, Option.not_isSome_iff_eq_none, Bool.not_eq_true,
      Option.isNone_iff_eq_none] at hc
    have h1 : GetTask db p.TaskID = none := by
      cases hx : GetTask db p.TaskID <;> simp_all
    have h2 : GetTaskByIdempotencyKey db p.Wsid p.Op p.IdempotencyKey = none := by
      cases hx : GetTaskByIdempotencyKey db p.Wsid p.Op p.IdempotencyKey <;> simp_all
    simp [h1, h2]

theorem tasksGrow_of_CreateTask {db db' : DB} {now : Nat} {p : CreateTaskParams}
    {t : WvsTask} (h : CreateTask db now p = some (db', t)) : TasksGrow db db' := by
  obtain ⟨h1, _, _, h4, h5, h6, h7, h8, h9, _, h11, h12⟩ := CreateTask_spec h
  refine Or.inr ⟨t, h1, h4, h5, ?_, ?_⟩
  · rw [h6]; exact h11
  · rw [h7, h8, h9]; exact h12

theorem tasksGrow_refl (db : DB) : TasksGrow db db := Or.inl rfl

theorem tasksGrow_of_tasks_eq {db db₁ db' : DB} (h : db₁.tasks = db.tasks)
    (hg : TasksGrow db₁ db') : TasksGrow db db' := by
  rcases hg with hg | ⟨t, h1, h2, h3, h4, h5⟩
  · exact Or.inl (hg.trans h)
  · refine Or.inr ⟨t, by rw [h1, h], h2, h3, ?_, ?_⟩
    · simpa [GetTask, h] using h4
    · simpa [GetTaskByIdempotencyKey, h] using h5

theorem tasksGrow_writeAudit {db db' : DB} (wsid action : String) (taskID : Option String)
    (hg : TasksGrow db db') : TasksGrow db (writeAudit db' wsid action taskID) := by
  rcases hg with hg | ⟨t, h1, h2, h3, h4, h5⟩
  · exact Or.inl hg
  · exact Or.inr ⟨t, h1, h2, h3, h4, h5⟩

theorem tasksGrow_CreateSnapshot (sha256hex : String → String) (db : DB) (now : Nat)
    (taskID snapshotID wsid key message : String) :
    TasksGrow db (CreateSnapshot sha256hex db now taskID snapshotID wsid key message).1 := by
  unfold CreateSnapshot
  repeat' (first | split | (dsimp only; split))
  all_goals first
    | exact tasksGrow_refl db
    | (rename_i h; exact tasksGrow_writeAudit _ _ _ (tasksGrow_of_CreateTask h))

theorem tasksGrow_DropSnapshot (sha256hex : String → String) (db : DB) (now : Nat)
    (taskID wsid snapshotID key : String) :
    TasksGrow db (DropSnapshot sha256hex db now taskID wsid snapshotID key).1 := by
  unfold DropSnapshot
  repeat' (first | split | (dsimp only; split))
  all_goals first
    | exact tasksGrow_refl db
    | (rename_i h; exact tasksGrow_writeAudit _ _ _ (tasksGrow_of_CreateTask h))

theorem tasksGrow_SetCurrent (sha256hex : String → String) (db : DB) (now : Nat)
    (taskID newLiveID wsid key : String) (body : Option String) :
    TasksGrow db (SetCurrent sha256hex db now taskID newLiveID wsid key body).1 := by
  unfold SetCurrent
  repeat' (first | split | (dsimp only; split))
  all_goals first
    | exact tasksGrow_refl db
    | (rename_i h; exact tasksGrow_writeAudit _ _ _ (tasksGrow_of_CreateTask h))

theorem CreateWorkspaceRow_tasks {db db' : DB} {now : Nat} {a b c d : String}
    {w : WvsWorkspace} (h : CreateWorkspaceRow db now a b c d = some (db', w)) :
    db'.tasks = db.tasks := by
  unfold CreateWorkspaceRow at h
  split at h
  · cases h
  · simp only [Option.some.injEq, Prod.mk.injEq] at h
    rw [← h.1]

theorem tasksGrow_CreateWorkspace (sha256hex : String → String) (db : DB) (now : Nat)
    (taskID key : String) (body : Option CreateWorkspaceRequest) :
    TasksGrow db (CreateWorkspace sha256hex db now taskID key body).1 := by
  unfold CreateWorkspace
  repeat' (first | split | (dsimp only; split))
  all_goals first
    | exact tasksGrow_refl db
    | exact Or.inl (CreateWorkspaceRow_tasks (by assumption))
    | exact tasksGrow_writeAudit _ _ _
        (tasksGrow_of_tasks_eq (CreateWorkspaceRow_tasks (by assumption))
          (tasksGrow_of_CreateTask (by assumption)))

theorem tasksGrow_RetryInit (sha256hex : String → String) (db : DB) (now : Nat)
    (key taskID wsid : String) :
    TasksGrow db (RetryInit sha256hex db now key taskID wsid).1 := by
  unfold RetryInit
  repeat' (first | split | (dsimp only; split))
  all_goals first
    | exact tasksGrow_refl db
    | exact Or.inl rfl
    | (rename_i h
       exact @tasksGrow_of_tasks_eq db (UpdateWorkspaceState db now wsid WorkspaceProvisioning)
        _ rfl (tasksGrow_of_CreateTask h))

theorem DisableWorkspaceRow_tasks {db db' : DB} {now : Nat} {wsid : String}
    {w : WvsWorkspace} (h : DisableWorkspaceRow db now wsid = some (db', w)) :
    db'.tasks = db.tasks := by
  unfold DisableWorkspaceRow at h
  cases hg : GetWorkspace db wsid with
  | none => simp [hg] at h
  | some ws =>
    simp only [hg] at h
    split at h
    · simp only [Option.some.injEq, Prod.mk.injEq] at h
      rw [← h.1]; rfl
    · cases h

theorem tasksGrow_DisableWorkspace (db : DB) (now : Nat) (wsid : String) :
    TasksGrow db (DisableWorkspace db now wsid).1 := by
  unfold DisableWorkspace
  repeat' split
  all_goals first
    | exact tasksGrow_refl db
    | exact tasksGrow_writeAudit _ _ _ (Or.inl (DisableWorkspaceRow_tasks (by assumption)))

theorem dequeueFirst_mem {l : List WvsTask} {t : WvsTask} (h : dequeueFirst l = some t) :
    t ∈ l := by
  induction l generalizing t with
  | nil => simp [dequeueFirst] at h
  | cons a l ih =>
    simp only [dequeueFirst] at h
    cases hd : dequeueFirst l with
    | none => simp [hd] at h; simp [h]
    | some u =>
      simp only [hd] at h
      split at h
      · simp at h; simp [h]
      · simp at h; subst h; exact List.mem_cons_of_mem _ (ih hd)

theorem DequeueTask_spec {db db' : DB} {now : Nat} {l : WvsTask}
    (h : DequeueTask db now = some (db', l)) :
    ∃ t ∈ db.tasks, dequeueEligible now t = true ∧ l = leaseRow now t ∧
      db' = { db with tasks := db.tasks.map (fun u =>
                if u.TaskID = t.TaskID then leaseRow now u else u) } := by
  unfold DequeueTask at h
  cases hd : dequeueFirst (db.tasks.filter (dequeueEligible now)) with
  | none => simp [hd] at h
  | some t =>
    simp only [hd, Option.some.injEq, Prod.mk.injEq] at h
    have hm := dequeueFirst_mem hd
    rw [List.mem_filter] at hm
    exact ⟨t, hm.1, hm.2, h.2.symm, h.1.symm⟩

theorem GetTask_some {db : DB} {id : String} {t : WvsTask} (h : GetTask db id = some t) :
    t ∈ db.tasks ∧ t.TaskID = id := by
  unfold GetTask at h
  exact ⟨List.mem_of_find?_eq_some h, by simpa using List.find?_some h⟩

theorem find?_of_mem_nodup {l : List WvsTask} (nd : (l.map (fun t => t.TaskID)).Nodup)
    {t : WvsTask} (ht : t ∈ l) : l.find? (fun u => u.TaskID = t.TaskID) = some t := by
  induction l with
  | nil => cases ht
  | cons a l ih =>
    simp only [List.map_cons, List.nodup_cons] at nd
    rcases List.mem_cons.mp ht with rfl | hm
    · simp
    · have hne : a.TaskID ≠ t.TaskID := by
        intro heq
        exact nd.1 (heq ▸ List.mem_map_of_mem (fun t => t.TaskID) hm)
      simp [List.find?_cons, hne, ih nd.2 hm]

theorem GetTask_of_mem {db : DB} (nd : (db.tasks.map (fun t => t.TaskID)).Nodup)
    {t : WvsTask} (ht : t ∈ db.tasks) : GetTask db t.TaskID = some t :=
  find?_of_mem_nodup nd ht

theorem GetTask_tasks_map (tasks : List WvsTask) (f : WvsTask → WvsTask)
    (hf : ∀ t, (f t).TaskID = t.TaskID) (id : String) :
    (tasks.map f).find? (fun t => t.TaskID = id) =
      (tasks.find? (fun t => t.TaskID = id)).map f :=
  find?_map_key (fun t => t.TaskID) f hf tasks id

theorem find?_append_new {tasks : List WvsTask} {t : WvsTask} {id : String} {u : WvsTask}
    (h : tasks.find? (fun x => x.TaskID = id) = some u) :
    (tasks ++ [t]).find? (fun x => x.TaskID = id) = some u := by
  rw [List.find?_append, h]; rfl

theorem GetTask_of_tasksGrow {db db' : DB} (hg : TasksGrow db db') {id : String}
    {u : WvsTask} (h : GetTask db id = some u) : GetTask db' id = some u := by
  unfold GetTask at h ⊢
  rcases hg with hg | ⟨t, h1, _⟩
  · rw [hg]; exact h
  · rw [h1]; exact find?_append_new h

theorem nodup_of_tasksGrow {db db' : DB} (hg : TasksGrow db db')
    (nd : (db.tasks.map (fun t => t.TaskID)).Nodup) :
    (db'.tasks.map (fun t => t.TaskID)).Nodup := by
  rcases hg with hg | ⟨t, h1, _, _, h4, _⟩
  · rw [hg]; exact nd
  · rw [h1, List.map_append, List.nodup_append]
    refine ⟨nd, by simp, ?_⟩
    intro a ha hb
    simp only [List.map_cons, List.map_nil, List.mem_singleton] at hb
    subst hb
    obtain ⟨u, hu, hid⟩ := List.mem_map.mp ha
    unfold GetTask at h4
    rw [List.find?_eq_none] at h4
    exact h4 u hu (by simpa using hid)

theorem inv_of_tasksGrow {db db' : DB} {leased : List WvsTask} (hg : TasksGrow db db')
    (hinv : Inv { db := db, leased := leased }) : Inv { db := db', leased := leased } := by
  obtain ⟨h1, h2, h3⟩ := hinv
  refine ⟨nodup_of_tasksGrow hg h1, h2, ?_⟩
  intro l hl
  obtain ⟨t, ht, hid, hrest⟩ := h3 l hl
  refine ⟨t, ?_, hid, hrest⟩
  rcases hg with hg | ⟨u, hu, _⟩
  · rw [hg]; exact ht
  · rw [hu]; exact List.mem_append_left _ ht

theorem map_ids_eq (tasks : List WvsTask) (f : WvsTask → WvsTask)
    (hf : ∀ t, (f t).TaskID = t.TaskID) :
    (tasks.map f).map (fun t => t.TaskID) = tasks.map (fun t => t.TaskID) := by
  simp [Function.comp_def, hf]

theorem eq_of_mem_nodup {l : List WvsTask} (nd : (l.map (fun t => t.TaskID)).Nodup)
    {a b : WvsTask} (ha : a ∈ l) (hb : b ∈ l) (h : a.TaskID = b.TaskID) : a = b := by
  have h1 := find?_of_mem_nodup nd ha
  have h2 := find?_of_mem_nodup nd hb
  rw [h] at h1
  rw [h1] at h2
  exact Option.some.inj h2

theorem leaseRow_id (now : Nat) (u : WvsTask) : (leaseRow now u).TaskID = u.TaskID := rfl

theorem lease_fun_id (now : Nat) (id : String) (u : WvsTask) :
    (if u.TaskID = id then leaseRow now u else u).TaskID = u.TaskID := by
  split <;> rfl

theorem eligible_not_running {now : Nat} {t : WvsTask} (h : dequeueEligible now t = true) :
    t.Status ≠ TaskRunning := by
  unfold dequeueEligible at h
  simp only [decide_eq_true_eq] at h
  intro hr
  rcases h.1 with h1 | h1
  · rw [hr] at h1; cases h1
  · rw [hr] at h1; cases h1.1

theorem eligible_status {now : Nat} {t : WvsTask} (h : dequeueEligible now t = true) :
    t.Status = TaskPending ∨ (t.Status = TaskFailed ∧ t.Attempt < t.MaxAttempts) := by
  unfold dequeueEligible at h
  simp only [decide_eq_true_eq] at h
  exact h.1

/-- A lease keeps the invariant. -/
theorem inv_dequeue {s : Sys} {now : Nat} {db' : DB} {l : WvsTask} (hinv : Inv s)
    (h : DequeueTask s.db now = some (db', l)) :
    Inv { db := db', leased := l :: s.leased } := by
  obtain ⟨t, ht, hel, hl, hdb⟩ := DequeueTask_spec h
  obtain ⟨h1, h2, h3⟩ := hinv
  have hnot : ∀ l' ∈ s.leased, l'.TaskID ≠ t.TaskID := by
    intro l' hl' heq
    obtain ⟨t', ht', hid, hrun, _⟩ := h3 l' hl'
    have : t' = t := eq_of_mem_nodup h1 ht' ht (hid.trans heq)
    exact eligible_not_running hel (this ▸ hrun)
  subst hdb
  refine ⟨?_, ?_, ?_⟩
  · simp only
    rw [map_ids_eq _ _ (lease_fun_id now t.TaskID)]
    exact h1
  · simp only [List.map_cons, List.nodup_cons]
    refine ⟨?_, h2⟩
    intro hmem
    obtain ⟨l', hl', hid⟩ := List.mem_map.mp hmem
    exact hnot l' hl' (by rw [hid, hl]; rfl)
  · intro l' hl'
    rcases List.mem_cons.mp hl' with rfl | hl'
    · refine ⟨leaseRow now t, ?_, by rw [hl], rfl, by rw [hl], by rw [hl]⟩
      simp only [List.mem_map]
      exact ⟨t, ht, by simp⟩
    · obtain ⟨t', ht', hid, hrest⟩ := h3 l' hl'
      refine ⟨t', ?_, hid, hrest⟩
      simp only [List.mem_map]
      refine ⟨t', ht', ?_⟩
      have : t'.TaskID ≠ t.TaskID := fun heq => hnot l' hl' (hid.symm.trans heq)
      simp [this]

/-- The end of an attempt keeps the invariant. -/
theorem inv_work {s : Sys} {taskID : String} {env : WorkerEnv} {now delay : Nat}
    {l : WvsTask} (hinv : Inv s)
    (hf : s.leased.find? (fun t => t.TaskID = taskID) = some l) :
    Inv { db := applyEffects now delay s.db (runTask env s.db l),
          leased := s.leased.filter (fun t => t.TaskID ≠ taskID) } := by
  obtain ⟨h1, h2, h3⟩ := hinv
  obtain ⟨st, _, hend⟩ := endsAttempt_runTask now delay env s.db l
  have hlid : l.TaskID = taskID := by simpa using List.find?_some hf
  refine ⟨?_, ?_, ?_⟩
  · simp only
    rw [applyEffects_tasks, map_ids_eq _ _ (fun t => (hend t).1)]
    exact h1
  · exact h2.sublist ((List.filter_sublist _).map _)
  · intro l' hl'
    simp only [List.mem_filter, decide_eq_true_eq] at hl'
    obtain ⟨t', ht', hid, hrest⟩ := h3 l' hl'.1
    refine ⟨t', ?_, hid, hrest⟩
    simp only
    rw [applyEffects_tasks, List.mem_map]
    refine ⟨t', ht', ?_⟩
    apply (hend t').2.2.2.2.2.2.2.2
    rw [hid, hlid]
    exact hl'.2

theorem CancelTask_tasks (db : DB) (now : Nat) (taskID : String) :
    ∃ f, CancelOnly f ∧ (CancelTask db now taskID).1.tasks = db.tasks.map f := by
  have hid : ∃ f, CancelOnly f ∧ db.tasks = db.tasks.map f :=
    ⟨fun u => u, fun u => ⟨rfl, rfl, rfl, Or.inl rfl⟩, (map_eq_self _ _ (fun _ => rfl)).symm⟩
  unfold CancelTask
  cases hg : GetTask db taskID with
  | none => exact hid
  | some task =>
    simp only
    split
    · exact hid
    · split
      · cases hc : CancelPendingTask db now taskID with
        | none => exact hid
        | some db₁ =>
          unfold CancelPendingTask at hc
          split at hc
          · simp only [Option.some.injEq] at hc
            subst hc
            refine ⟨_, ?_, rfl⟩
            intro u
            by_cases hu : u.TaskID = taskID ∧ u.Status = TaskPending
            · dsimp only; rw [if_pos hu]; exact ⟨rfl, rfl, rfl, Or.inr ⟨hu.2, rfl⟩⟩
            · dsimp only; rw [if_neg hu]; exact ⟨rfl, rfl, rfl, Or.inl rfl⟩
          · cases hc
      · cases hc : RequestCancelRunningTask db taskID with
        | none => exact hid
        | some db₁ =>
          unfold RequestCancelRunningTask at hc
          split at hc
          · simp only [Option.some.injEq] at hc
            subst hc
            refine ⟨_, ?_, rfl⟩
            intro u
            by_cases hu : u.TaskID = taskID ∧ u.Status = TaskRunning
            · dsimp only; rw [if_pos hu]; exact ⟨rfl, rfl, rfl, Or.inl rfl⟩
            · dsimp only; rw [if_neg hu]; exact ⟨rfl, rfl, rfl, Or.inl rfl⟩
          · cases hc

theorem inv_of_cancelOnly {db db' : DB} {leased : List WvsTask} {f : WvsTask → WvsTask}
    (hf : CancelOnly f) (htasks : db'.tasks = db.tasks.map f)
    (hinv : Inv { db := db, leased := leased }) : Inv { db := db', leased := leased } := by
  obtain ⟨h1, h2, h3⟩ := hinv
  refine ⟨?_, h2, ?_⟩
  · simp only
    rw [htasks, map_ids_eq _ _ (fun t => (hf t).1)]
    exact h1
  · intro l hl
    obtain ⟨t, ht, hid, hrun, ha, hm⟩ := h3 l hl
    refine ⟨f t, ?_, (hf t).1.trans hid, ?_, (hf t).2.1.trans ha, (hf t).2.2.1.trans hm⟩
    · simp only
      rw [htasks]
      exact List.mem_map_of_mem f ht
    · rcases (hf t).2.2.2 with h | h
      · exact h.trans hrun
      · rw [hrun] at h; cases h.1

/-- Every step keeps the invariant. -/
theorem inv_step (sha256hex : String → String) {s s' : Sys} {a : Action} (hinv : Inv s)
    (h : step sha256hex s a = some s') : Inv s' := by
  cases a with
  | dequeue now =>
    simp only [step] at h
    cases hd : DequeueTask s.db now with
    | none => simp [hd] at h
    | some r =>
      obtain ⟨db', l⟩ := r
      simp only [hd, Option.some.injEq] at h
      subst h
      exact inv_dequeue hinv hd
  | work taskID env now delay =>
    simp only [step] at h
    cases hf : s.leased.find? (fun t => t.TaskID = taskID) with
    | none => simp [hf] at h
    | some l =>
      simp only [hf, Option.some.injEq] at h
      subst h
      exact inv_work hinv hf
  | createWorkspace now taskID key body =>
    simp only [step, Option.some.injEq] at h
    subst h
    exact inv_of_tasksGrow (tasksGrow_CreateWorkspace sha256hex s.db now taskID key body) hinv
  | retryInit now key taskID wsid =>
    simp only [step, Option.some.injEq] at h
    subst h
    exact inv_of_tasksGrow (tasksGrow_RetryInit sha256hex s.db now key taskID wsid) hinv
  | disableWorkspace now wsid =>
    simp only [step, Option.some.injEq] at h
    subst h
    exact inv_of_tasksGrow (tasksGrow_DisableWorkspace s.db now wsid) hinv
  | createSnapshot now taskID snapshotID wsid key message =>
    simp only [step, Option.some.injEq] at h
    subst h
    exact inv_of_tasksGrow
      (tasksGrow_CreateSnapshot sha256hex s.db now taskID snapshotID wsid key message) hinv
  | dropSnapshot now taskID wsid snapshotID key =>
    simp only [step, Option.some.injEq] at h
    subst h
    exact inv_of_tasksGrow
      (tasksGrow_DropSnapshot sha256hex s.db now taskID wsid snapshotID key) hinv
  | setCurrent now taskID newLiveID wsid key body =>
    simp only [step, Option.some.injEq] at h
    subst h
    exact inv_of_tasksGrow
      (tasksGrow_SetCurrent sha256hex s.db now taskID newLiveID wsid key body) hinv
  | cancelTask now taskID =>
    simp only [step, Option.some.injEq] at h
    subst h
    obtain ⟨f, hf, ht⟩ := CancelTask_tasks s.db now taskID
    exact inv_of_cancelOnly hf ht hinv

/-- Every run keeps the invariant. -/
theorem inv_run (sha256hex : String → String) {s s' : Sys} {tr : List Action} (hinv : Inv s)
    (h : run sha256hex s tr = some s') : Inv s' := by
  induction tr generalizing s with
  | nil => simp only [run, Option.some.injEq] at h; exact h ▸ hinv
  | cons a as ih =>
    simp only [run] at h
    cases hs : step sha256hex s a with
    | none => simp [hs] at h
    | some s₁ =>
      simp only [hs] at h
      exact ih (inv_step sha256hex hinv hs) h

theorem rowMove_of_tasksGrow {db db' : DB} (hg : TasksGrow db db') {id : String}
    {u : WvsTask} (hu : GetTask db id = some u) :
    ∃ u', GetTask db' id = some u' ∧ RowMove false u u' :=
  ⟨u, GetTask_of_tasksGrow hg hu, RowMove.same rfl rfl rfl rfl⟩

/-- How a step moves the row of a task that is in the store. -/
theorem step_rowMove (sha256hex : String → String) {s s' : Sys} {a : Action} (hinv : Inv s)
    (h : step sha256hex s a = some s') {id : String} {u : WvsTask}
    (hu : GetTask s.db id = some u) :
    ∃ u', GetTask s'.db id = some u' ∧ RowMove (leasesNow s a id) u u' := by
  obtain ⟨humem, huid⟩ := GetTask_some hu
  cases a with
  | dequeue now =>
    simp only [step] at h
    cases hd : DequeueTask s.db now with
    | none => simp [hd] at h
    | some r =>
      obtain ⟨db', l⟩ := r
      simp only [hd, Option.some.injEq] at h
      subst h
      obtain ⟨t, ht, hel, hl, hdb⟩ := DequeueTask_spec hd
      subst hdb
      refine ⟨if u.TaskID = t.TaskID then leaseRow now u else u, ?_, ?_⟩
      · unfold GetTask at hu ⊢
        simp only
        rw [GetTask_tasks_map _ _ (lease_fun_id now t.TaskID), hu]
        rfl
      · by_cases hid : u.TaskID = t.TaskID
        · have hut : u = t := eq_of_mem_nodup hinv.1 humem ht hid
          have hlease : leasesNow s (.dequeue now) id = true := by
            simp only [leasesNow, hd, Option.map_some', hl, decide_eq_true_eq]
            rw [← huid, hid]; rfl
          rw [hlease, if_pos hid]
          exact RowMove.lease rfl (hut ▸ eligible_status hel) rfl rfl rfl
        · have hlease : leasesNow s (.dequeue now) id = false := by
            simp only [leasesNow, hd, Option.map_some', hl, decide_eq_false_iff_not]
            intro heq
            apply hid
            rw [huid]
            exact (Option.some.inj heq).symm
          rw [hlease, if_neg hid]
          exact RowMove.same rfl rfl rfl rfl
  | work taskID env now delay =>
    simp only [step] at h
    cases hf : s.leased.find? (fun t => t.TaskID = taskID) with
    | none => simp [hf] at h
    | some l =>
      simp only [hf, Option.some.injEq] at h
      subst h
      obtain ⟨st, hout, hend⟩ := endsAttempt_runTask now delay env s.db l
      refine ⟨effectsOnTask now delay (runTask env s.db l) u, ?_, ?_⟩
      · unfold GetTask at hu ⊢
        simp only
        rw [applyEffects_tasks, GetTask_tasks_map _ _ (fun t => (hend t).1), hu]
        rfl
      · have hlease : leasesNow s (.work taskID env now delay) id = false := rfl
        rw [hlease]
        by_cases hid : u.TaskID = l.TaskID
        · obtain ⟨t, ht, htid, hrun, hatt, hmax⟩ := hinv.2.2 l (List.mem_of_find?_eq_some hf)
          have hut : u = t := eq_of_mem_nodup hinv.1 humem ht (hid.trans htid.symm)
          have hfs : failStatus l = failStatus u := by
            unfold failStatus; rw [hut, hatt, hmax]
          have hst := (hend u).2.2.2.2.2.2.2.1 hid
          refine RowMove.finish rfl (hut ▸ hrun) ?_ (hend u).2.1 (hend u).2.2.1
          rw [hst, ← hfs]
          exact hout
        · rw [(hend u).2.2.2.2.2.2.2.2 hid]
          exact RowMove.same rfl rfl rfl rfl
  | createWorkspace now taskID key body =>
    simp only [step, Option.some.injEq] at h
    subst h
    exact rowMove_of_tasksGrow (tasksGrow_CreateWorkspace sha256hex s.db now taskID key body) hu
  | retryInit now key taskID wsid =>
    simp only [step, Option.some.injEq] at h
    subst h
    exact rowMove_of_tasksGrow (tasksGrow_RetryInit sha256hex s.db now key taskID wsid) hu
  | disableWorkspace now wsid =>
    simp only [step, Option.some.injEq] at h
    subst h
    exact rowMove_of_tasksGrow (tasksGrow_DisableWorkspace s.db now wsid) hu
  | createSnapshot now taskID snapshotID wsid key message =>
    simp only [step, Option.some.injEq] at h
    subst h
    exact rowMove_of_tasksGrow
      (tasksGrow_CreateSnapshot sha256hex s.db now taskID snapshotID wsid key message) hu
  | dropSnapshot now taskID wsid snapshotID key =>
    simp only [step, Option.some.injEq] at h
    subst h
    exact rowMove_of_tasksGrow
      (tasksGrow_DropSnapshot sha256hex s.db now taskID wsid snapshotID key) hu
  | setCurrent now taskID newLiveID wsid key body =>
    simp only [step, Option.some.injEq] at h
    subst h
    exact rowMove_of_tasksGrow
      (tasksGrow_SetCurrent sha256hex s.db now taskID newLiveID wsid key body) hu
  | cancelTask now taskID =>
    simp only [step, Option.some.injEq] at h
    subst h
    obtain ⟨f, hf, ht⟩ := CancelTask_tasks s.db now taskID
    refine ⟨f u, ?_, ?_⟩
    · unfold GetTask at hu ⊢
      simp only
      rw [ht, GetTask_tasks_map _ _ (fun t => (hf t).1), hu]
      rfl
    · have hlease : leasesNow s (.cancelTask now taskID) id = false := rfl
      rw [hlease]
      rcases (hf u).2.2.2 with hs | hs
      · exact RowMove.same rfl hs (hf u).2.1 (hf u).2.2.1
      · exact RowMove.cancel rfl hs.1 hs.2 (hf u).2.1 (hf u).2.2.1

theorem rowMove_status {b : Bool} {u u' : WvsTask} (h : RowMove b u u') :
    u'.Status = u.Status ∨ statusEdge u.Status u'.Status = true := by
  cases h with
  | same _ hs _ _ => exact Or.inl hs
  | lease _ hs hr _ _ =>
    right
    rcases hs with hs | hs
    · rw [hs, hr]; rfl
    · rw [hs.1, hr]; rfl
  | finish _ hr hs _ _ =>
    right
    rcases hs with hs | hs | hs
    · rw [hr, hs]; rfl
    · rw [hr, hs]; rfl
    · rw [hr, hs]; unfold failStatus; split <;> rfl
  | cancel _ hp hc _ _ => right; rw [hp, hc]; rfl

theorem statusEdge_not_terminal {a b : TaskStatus} (h : statusEdge a b = true) :
    isTerminalStatus a = false := by
  cases a <;> cases b <;> first | rfl | cases h

theorem leasedTimes_step (sha256hex : String → String) {s s' : Sys} {a : Action}
    {M : Int} {taskID : String} {n : Nat} (hinv : Inv s)
    (h : step sha256hex s a = some s') (hj : LeasedTimes M taskID s n) :
    LeasedTimes M taskID s' (n + if leasesNow s a taskID then 1 else 0) := by
  obtain ⟨u, hu, hmax, hatt, hb⟩ := hj
  obtain ⟨u', hu', hmove⟩ := step_rowMove sha256hex hinv h hu
  refine ⟨u', hu', ?_⟩
  cases hmove with
  | same hl hs ha hm =>
    rw [hl]
    refine ⟨hm.trans hmax, by simpa using ha.trans hatt, ?_⟩
    rw [hs]; simpa using hb
  | lease hl hs hr ha hm =>
    rw [hl]
    refine ⟨hm.trans hmax, by rw [ha, hatt]; simp, ?_⟩
    rw [hr]
    simp only [attemptBound, if_true, Nat.cast_add, Nat.cast_one]
    rcases hs with hs | hs
    · rw [hs] at hb
      simp only [attemptBound] at hb
      omega
    · rw [hs.1] at hb
      simp only [attemptBound] at hb
      have := hs.2
      rw [hatt, hmax] at this
      omega
  | finish hl hr hs ha hm =>
    rw [hl]
    refine ⟨hm.trans hmax, by simpa using ha.trans hatt, ?_⟩
    rw [hr] at hb
    simp only [attemptBound] at hb
    rcases hs with hs | hs | hs
    · rw [hs]; simp only [attemptBound, Bool.false_eq_true, if_false, Nat.add_zero]; omega
    · rw [hs]; simp only [attemptBound, Bool.false_eq_true, if_false, Nat.add_zero]; omega
    · rw [hs]
      unfold failStatus
      rw [hatt, hmax]
      by_cases hge : (n : Int) ≥ M
      · rw [if_pos hge]
        simp only [attemptBound, Bool.false_eq_true, if_false, Nat.add_zero]
        omega
      · rw [if_neg hge]
        simp only [attemptBound, Bool.false_eq_true, if_false, Nat.add_zero]
        omega
  | cancel hl hp hc ha hm =>
    rw [hl]
    refine ⟨hm.trans hmax, by simpa using ha.trans hatt, ?_⟩
    rw [hp] at hb
    simp only [attemptBound] at hb
    rw [hc]
    simp only [attemptBound, Bool.false_eq_true, if_false, Nat.add_zero]
    omega

theorem leasedTimes_run (sha256hex : String → String) {M : Int} {taskID : String}
    {tr : List Action} {s s' : Sys} {n : Nat} (hinv : Inv s)
    (h : run sha256hex s tr = some s') (hj : LeasedTimes M taskID s n) :
    LeasedTimes M taskID s' (n + leasesOf sha256hex taskID s tr) := by
  induction tr generalizing s n with
  | nil =>
    simp only [run, Option.some.injEq] at h
    subst h
    simpa [leasesOf] using hj
  | cons a as ih =>
    simp only [run] at h
    cases hs : step sha256hex s a with
    | none => simp [hs] at h
    | some s₁ =>
      simp only [hs] at h
      have h1 := leasedTimes_step sha256hex hinv hs hj
      have h2 := ih (inv_step sha256hex hinv hs) h h1
      simp only [leasesOf, hs]
      rw [← Nat.add_assoc]
      exact h2

/-! ## Idempotent submission -/

theorem writeAudit_tasks (db : DB) (wsid action : String) (taskID : Option String) :
    (writeAudit db wsid action taskID).tasks = db.tasks := rfl

theorem idempotent_tail (db : DB) (wsid : String) (op : TaskOp) (key h : String)
    (r : DB × Response) (create : DB × Response)
    (hr : r =
      if ((GetTaskByIdempotencyKey db wsid op key).getD zeroTask).TaskID ≠ "" then
        if ((GetTaskByIdempotencyKey db wsid op key).getD zeroTask).RequestHash = h then
          (db, .accepted ((GetTaskByIdempotencyKey db wsid op key).getD zeroTask).TaskID)
        else (db, .error ErrConflictIdempotent "idempotency key mismatch")
      else create)
    (hc : create.1.tasks ≠ db.tasks → GetTaskByIdempotencyKey db wsid op key = none) :
    IdempotentAnswer db wsid op key h r := by
  constructor
  · intro t ht hid
    rw [ht] at hr
    simp only [Option.getD_some, ne_eq, hid, not_false_eq_true, if_true] at hr
    constructor
    · intro hh; rw [hr, if_pos hh]
    · intro hh; rw [hr, if_neg hh]
  · intro hne
    by_cases hid : ((GetTaskByIdempotencyKey db wsid op key).getD zeroTask).TaskID ≠ ""
    · rw [if_pos hid] at hr
      exfalso
      apply hne
      rw [hr]
      split <;> rfl
    · rw [if_neg hid] at hr
      rw [hr] at hne
      exact hc hne

theorem create_tail {db₀ db : DB} {now : Nat} {p : CreateTaskParams} {wsid action : String}
    {msg : String} (h₀ : db.tasks = db₀.tasks) :
    ((match CreateTask db now p with
      | none => (db, Response.error ErrInternal msg)
      | some (db₁, _) => (writeAudit db₁ wsid action (some p.TaskID), .accepted p.TaskID)).1.tasks
        ≠ db₀.tasks) →
    GetTaskByIdempotencyKey db₀ p.Wsid p.Op p.IdempotencyKey = none := by
  intro hne
  cases hc : CreateTask db now p with
  | none => rw [hc] at hne; exact absurd h₀ hne
  | some r =>
    obtain ⟨db₁, t⟩ := r
    have := (CreateTask_spec hc).2.2.2.2.2.2.2.2.2.2.2
    simpa [GetTaskByIdempotencyKey, h₀] using this

theorem SetCurrent_idempotent (sha256hex : String → String) (db : DB) (now : Nat)
    (taskID newLiveID wsid key snapshotID : String)
    (h : SetCurrent.reachesLookup db wsid key snapshotID) :
    IdempotentAnswer db wsid OpSetCurrent key
      (ComputeRequestHash sha256hex (marshalSnapshotID snapshotID) "POST"
        ("/v1/workspaces/" ++ wsid ++ "/current:set"))
      (SetCurrent sha256hex db now taskID newLiveID wsid key (some snapshotID)) := by
  obtain ⟨⟨ws, hws, hst, hcur⟩, ⟨snap, hsn, hdel⟩, hk, hs⟩ := h
  refine idempotent_tail db wsid OpSetCurrent key _ _
    (match CreateTask db now
        { TaskID := taskID, Wsid := wsid, Op := OpSetCurrent, IdempotencyKey := key,
          RequestHash := ComputeRequestHash sha256hex (marshalSnapshotID snapshotID) "POST"
            ("/v1/workspaces/" ++ wsid ++ "/current:set"),
          Params := [("snapshot_id", snapshotID), ("new_live_id", newLiveID)],
          MaxAttempts := 5, TimeoutSeconds := 300 } with
      | none => (db, Response.error ErrInternal "failed to create task")
      | some (db₁, _) => (writeAudit db₁ wsid "current.set" (some taskID), .accepted taskID))
    ?_ ?_
  · unfold SetCurrent
    simp only [hws, hst, hk, hs, hsn, hdel, hcur, if_false, Option.isSome_none,
      Bool.false_eq_true]
  · exact create_tail rfl

theorem DropSnapshot_idempotent (sha256hex : String → String) (db : DB) (now : Nat)
    (taskID wsid snapshotID key : String)
    (h : DropSnapshot.reachesLookup db wsid snapshotID key) :
    IdempotentAnswer db wsid OpSnapshotDrop key
      (ComputeRequestHash sha256hex (marshalSnapshotID snapshotID) "DELETE"
        ("/v1/workspaces/" ++ wsid ++ "/snapshots/" ++ snapshotID))
      (DropSnapshot sha256hex db now taskID wsid snapshotID key) := by
  obtain ⟨⟨ws, hws, hst, hcur⟩, ⟨snap, hsn, hdel⟩, hk⟩ := h
  refine idempotent_tail db wsid OpSnapshotDrop key _ _
    (match CreateTask db now
        { TaskID := taskID, Wsid := wsid, Op := OpSnapshotDrop, IdempotencyKey := key,
          RequestHash := ComputeRequestHash sha256hex (marshalSnapshotID snapshotID) "DELETE"
            ("/v1/workspaces/" ++ wsid ++ "/snapshots/" ++ snapshotID),
          Params := [("snapshot_id", snapshotID)],
          MaxAttempts := 5, TimeoutSeconds := 300 } with
      | none => (db, Response.error ErrInternal "failed to create task")
      | some (db₁, _) => (writeAudit db₁ wsid "snapshot.drop" (some taskID), .accepted taskID))
    ?_ ?_
  · unfold DropSnapshot
    simp only [hws, hst, hk, hsn, hdel, hcur, if_false, Option.isSome_none,
      Bool.false_eq_true]
  · exact create_tail rfl

theorem CreateSnapshot_idempotent (sha256hex : String → String) (db : DB) (now : Nat)
    (taskID snapshotID wsid key message : String)
    (h : CreateSnapshot.reachesLookup db wsid key) :
    IdempotentAnswer db wsid OpSnapshotCreate key
      (ComputeRequestHash sha256hex (marshalCreateSnapshotRequest message) "POST"
        ("/v1/workspaces/" ++ wsid ++ "/snapshots"))
      (CreateSnapshot sha256hex db now taskID snapshotID wsid key message) := by
  obtain ⟨⟨ws, hws, hst⟩, hk⟩ := h
  refine idempotent_tail db wsid OpSnapshotCreate key _ _
    (match CreateTask db now
        { TaskID := taskID, Wsid := wsid, Op := OpSnapshotCreate, IdempotencyKey := key,
          RequestHash := ComputeRequestHash sha256hex (marshalCreateSnapshotRequest message)
            "POST" ("/v1/workspaces/" ++ wsid ++ "/snapshots"),
          Params := [("snapshot_id", snapshotID), ("message", message)],
          MaxAttempts := 5, TimeoutSeconds := 300 } with
      | none => (db, Response.error ErrInternal "failed to create task")
      | some (db₁, _) => (writeAudit db₁ wsid "snapshot.create" (some taskID), .accepted taskID))
    ?_ ?_
  · unfold CreateSnapshot
    simp only [hws, hst, hk, if_false]
  · exact create_tail rfl

theorem CreateWorkspace_idempotent (sha256hex : String → String) (db : DB) (now : Nat)
    (taskID key : String) (req : CreateWorkspaceRequest)
    (h : CreateWorkspace.reachesLookup key req) :
    IdempotentAnswer db req.WSID OpInitWorkspace key
      (ComputeRequestHash sha256hex req.marshal "POST" "/v1/workspaces")
      (CreateWorkspace sha256hex db now taskID key (some req)) := by
  obtain ⟨hk, h1, h2, h3⟩ := h
  refine idempotent_tail db req.WSID OpInitWorkspace key _ _
    (match CreateWorkspaceRow db now req.WSID req.RootPath req.Owner req.RootPath with
      | none => (db, Response.error ErrInternal "failed to create workspace")
      | some (db₁, _) =>
        match CreateTask db₁ now
            { TaskID := taskID, Wsid := req.WSID, Op := OpInitWorkspace,
              IdempotencyKey := key,
              RequestHash := ComputeRequestHash sha256hex req.marshal "POST" "/v1/workspaces",
              Params := [("owner", req.Owner)], MaxAttempts := 5, TimeoutSeconds := 300 } with
        | none => (db₁, .error ErrInternal "failed to create task")
        | some (db₂, _) =>
          (writeAudit db₂ req.WSID "workspace.create" (some taskID), .accepted taskID))
    ?_ ?_
  · unfold CreateWorkspace
    simp only [hk, h1, h2, h3, if_false, or_self]
  · cases hw : CreateWorkspaceRow db now req.WSID req.RootPath req.Owner req.RootPath with
    | none => intro hne; exact absurd rfl hne
    | some r =>
      obtain ⟨db₁, w⟩ := r
      intro hne
      by_cases hsame : (match CreateTask db₁ now
            { TaskID := taskID, Wsid := req.WSID, Op := OpInitWorkspace,
              IdempotencyKey := key,
              RequestHash := ComputeRequestHash sha256hex req.marshal "POST" "/v1/workspaces",
              Params := [("owner", req.Owner)], MaxAttempts := 5, TimeoutSeconds := 300 } with
        | none => (db₁, Response.error ErrInternal "failed to create task")
        | some (db₂, _) =>
          (writeAudit db₂ req.WSID "workspace.create" (some taskID),
            Response.accepted taskID)).1.tasks = db.tasks
      · exact absurd hsame hne
      · exact create_tail (CreateWorkspaceRow_tasks hw) hsame

theorem find?_map_pred {α : Type} (p : α → Bool) (f : α → α) (hf : ∀ a, p (f a) = p a)
    (l : List α) : (l.map f).find? p = (l.find? p).map f := by
  induction l with
  | nil => rfl
  | cons a l ih =>
    simp only [List.map_cons, List.find?_cons, hf]
    cases p a <;> simp [ih]

theorem lookupFinds_map {db db' : DB} {f : WvsTask → WvsTask}
    (htasks : db'.tasks = db.tasks.map f)
    (hf : ∀ t, (f t).TaskID = t.TaskID ∧ (f t).Wsid = t.Wsid ∧ (f t).Op = t.Op ∧
      (f t).IdempotencyKey = t.IdempotencyKey ∧ (f t).RequestHash = t.RequestHash)
    {wsid : String} {op : TaskOp} {key taskID h : String}
    (hl : LookupFinds db wsid op key taskID h) : LookupFinds db' wsid op key taskID h := by
  obtain ⟨row, hrow, hid, hh⟩ := hl
  refine ⟨f row, ?_, (hf row).1.trans hid, (hf row).2.2.2.2.trans hh⟩
  unfold GetTaskByIdempotencyKey at hrow ⊢
  rw [htasks, find?_map_pred _ f, hrow]
  · rfl
  · intro a
    rw [(hf a).2.1, (hf a).2.2.1, (hf a).2.2.2.1]

theorem lookupFinds_of_accepted_tail {db : DB} {wsid : String} {op : TaskOp}
    {key h t : String} {r create : DB × Response}
    (hr : r =
      if ((GetTaskByIdempotencyKey db wsid op key).getD zeroTask).TaskID ≠ "" then
        if ((GetTaskByIdempotencyKey db wsid op key).getD zeroTask).RequestHash = h then
          (db, .accepted ((GetTaskByIdempotencyKey db wsid op key).getD zeroTask).TaskID)
        else (db, .error ErrConflictIdempotent "idempotency key mismatch")
      else create)
    (hacc : r.2 = .accepted t)
    (hc : create.2 = .accepted t → LookupFinds create.1 wsid op key t h ∧ t ≠ "") :
    LookupFinds r.1 wsid op key t h ∧ t ≠ "" := by
  by_cases hid : ((GetTaskByIdempotencyKey db wsid op key).getD zeroTask).TaskID ≠ ""
  · rw [if_pos hid] at hr
    cases hl : GetTaskByIdempotencyKey db wsid op key with
    | none => rw [hl] at hid; exact absurd rfl hid
    | some row =>
      rw [hl] at hr hid
      simp only [Option.getD_some] at hr hid
      by_cases hh : row.RequestHash = h
      · rw [if_pos hh] at hr
        rw [hr] at hacc ⊢
        simp only [Response.accepted.injEq] at hacc
        exact ⟨⟨row, hl, hacc, hh⟩, hacc ▸ hid⟩
      · rw [if_neg hh] at hr
        rw [hr] at hacc
        cases hacc
  · rw [if_neg hid] at hr
    rw [hr] at hacc ⊢
    exact hc hacc

theorem lookupFinds_of_create {db : DB} {now : Nat} {p : CreateTaskParams}
    {wsid action msg t : String} (hid : p.TaskID ≠ "")
    (hacc : (match CreateTask db now p with
      | none => (db, Response.error ErrInternal msg)
      | some (db₁, _) => (writeAudit db₁ wsid action (some p.TaskID), .accepted p.TaskID)).2
        = .accepted t) :
    LookupFinds (match CreateTask db now p with
      | none => (db, Response.error ErrInternal msg)
      | some (db₁, _) => (writeAudit db₁ wsid action (some p.TaskID), .accepted p.TaskID)).1
      p.Wsid p.Op p.IdempotencyKey t p.RequestHash ∧ t ≠ "" := by
  cases hc : CreateTask db now p with
  | none => rw [hc] at hacc; cases hacc
  | some r =>
    obtain ⟨db₁, row⟩ := r
    rw [hc] at hacc
    simp only [Response.accepted.injEq] at hacc
    obtain ⟨h1, _, _, _, _, h6, h7, h8, h9, h10, _, h12⟩ := CreateTask_spec hc
    refine ⟨⟨row, ?_, h6.trans hacc, h10⟩, hacc ▸ hid⟩
    unfold GetTaskByIdempotencyKey at h12 ⊢
    simp only [writeAudit_tasks, h1]
    rw [List.find?_append, h12]
    simp [h7, h8, h9]

theorem SetCurrent_accepted (sha256hex : String → String) (db : DB) (now : Nat)
    (taskID newLiveID wsid key : String) (body : Option String) (t : String)
    (hid : taskID ≠ "")
    (h : (SetCurrent sha256hex db now taskID newLiveID wsid key body).2 = .accepted t) :
    ∃ snapshotID, body = some snapshotID ∧ SetCurrent.reachesLookup db wsid key snapshotID ∧
      LookupFinds (SetCurrent sha256hex db now taskID newLiveID wsid key body).1 wsid
        OpSetCurrent key t
        (ComputeRequestHash sha256hex (marshalSnapshotID snapshotID) "POST"
          ("/v1/workspaces/" ++ wsid ++ "/current:set")) ∧ t ≠ "" := by
  have hreach : ∃ snapshotID, body = some snapshotID ∧
      SetCurrent.reachesLookup db wsid key snapshotID := by
    unfold SetCurrent at h
    cases hws : GetWorkspace db wsid with
    | none => simp [hws] at h
    | some ws =>
      simp only [hws] at h
      by_cases hst : ws.State = WorkspaceDisabled
      · simp [hst] at h
      · by_cases hk : key = ""
        · simp [hst, hk] at h
        · cases body with
          | none => simp [hst, hk] at h
          | some sid =>
            by_cases hs : sid = ""
            · simp [hst, hk, hs] at h
            · cases hsn : GetSnapshot db sid with
              | none => simp [hst, hk, hs, hsn] at h
              | some snap =>
                cases hdel : snap.DeletedAt with
                | some d => simp [hst, hk, hs, hsn, hdel] at h
                | none =>
                  by_cases hcur : ws.CurrentSnapshotID = some sid
                  · simp [hst, hk, hs, hsn, hdel, hcur] at h
                  · exact ⟨sid, rfl, ⟨ws, hws, hst, hcur⟩, ⟨snap, hsn, hdel⟩, hk, hs⟩
  obtain ⟨sid, rfl, hr⟩ := hreach
  refine ⟨sid, rfl, hr, ?_⟩
  obtain ⟨⟨ws, hws, hst, hcur⟩, ⟨snap, hsn, hdel⟩, hk, hs⟩ := hr
  refine @lookupFinds_of_accepted_tail db wsid OpSetCurrent key _ t _
    (match CreateTask db now
        { TaskID := taskID, Wsid := wsid, Op := OpSetCurrent, IdempotencyKey := key,
          RequestHash := ComputeRequestHash sha256hex (marshalSnapshotID sid) "POST"
            ("/v1/workspaces/" ++ wsid ++ "/current:set"),
          Params := [("snapshot_id", sid), ("new_live_id", newLiveID)],
          MaxAttempts := 5, TimeoutSeconds := 300 } with
      | none => (db, Response.error ErrInternal "failed to create task")
      | some (db₁, _) => (writeAudit db₁ wsid "current.set" (some taskID), .accepted taskID))
    ?_ h (lookupFinds_of_create hid)
  unfold SetCurrent
  simp only [hws, hst, hk, hs, hsn, hdel, hcur, if_false, Option.isSome_none,
    Bool.false_eq_true]

theorem DropSnapshot_accepted (sha256hex : String → String) (db : DB) (now : Nat)
    (taskID wsid snapshotID key : String) (t : String) (hid : taskID ≠ "")
    (h : (DropSnapshot sha256hex db now taskID wsid snapshotID key).2 = .accepted t) :
    DropSnapshot.reachesLookup db wsid snapshotID key ∧
      LookupFinds (DropSnapshot sha256hex db now taskID wsid snapshotID key).1 wsid
        OpSnapshotDrop key t
        (ComputeRequestHash sha256hex (marshalSnapshotID snapshotID) "DELETE"
          ("/v1/workspaces/" ++ wsid ++ "/snapshots/" ++ snapshotID)) ∧ t ≠ "" := by
  have hreach : DropSnapshot.reachesLookup db wsid snapshotID key := by
    unfold DropSnapshot at h
    cases hws : GetWorkspace db wsid with
    | none => simp [hws] at h
    | some ws =>
      simp only [hws] at h
      by_cases hst : ws.State = WorkspaceDisabled
      · simp [hst] at h
      · cases hsn : GetSnapshot db snapshotID with
        | none => simp [hst, hsn] at h
        | some snap =>
          cases hdel : snap.DeletedAt with
          | some d => simp [hst, hsn, hdel] at h
          | none =>
            by_cases hcur : ws.CurrentSnapshotID = some snapshotID
            · simp [hst, hsn, hdel, hcur] at h
            · by_cases hk : key = ""
              · simp [hst, hsn, hdel, hcur, hk] at h
              · exact ⟨⟨ws, hws, hst, hcur⟩, ⟨snap, hsn, hdel⟩, hk⟩
  refine ⟨hreach, ?_⟩
  obtain ⟨⟨ws, hws, hst, hcur⟩, ⟨snap, hsn, hdel⟩, hk⟩ := hreach
  refine @lookupFinds_of_accepted_tail db wsid OpSnapshotDrop key _ t _
    (match CreateTask db now
        { TaskID := taskID, Wsid := wsid, Op := OpSnapshotDrop, IdempotencyKey := key,
          RequestHash := ComputeRequestHash sha256hex (marshalSnapshotID snapshotID) "DELETE"
            ("/v1/workspaces/" ++ wsid ++ "/snapshots/" ++ snapshotID),
          Params := [("snapshot_id", snapshotID)],
          MaxAttempts := 5, TimeoutSeconds := 300 } with
      | none => (db, Response.error ErrInternal "failed to create task")
      | some (db₁, _) => (writeAudit db₁ wsid "snapshot.drop" (some taskID), .accepted taskID))
    ?_ h (lookupFinds_of_create hid)
  unfold DropSnapshot
  simp only [hws, hst, hk, hsn, hdel, hcur, if_false, Option.isSome_none,
    Bool.false_eq_true]

theorem CreateSnapshot_accepted (sha256hex : String → String) (db : DB) (now : Nat)
    (taskID snapshotID wsid key message : String) (t : String) (hid : taskID ≠ "")
    (h : (CreateSnapshot sha256hex db now taskID snapshotID wsid key message).2 =
      .accepted t) :
    CreateSnapshot.reachesLookup db wsid key ∧
      LookupFinds (CreateSnapshot sha256hex db now taskID snapshotID wsid key message).1 wsid
        OpSnapshotCreate key t
        (ComputeRequestHash sha256hex (marshalCreateSnapshotRequest message) "POST"
          ("/v1/workspaces/" ++ wsid ++ "/snapshots")) ∧ t ≠ "" := by
  have hreach : CreateSnapshot.reachesLookup db wsid key := by
    unfold CreateSnapshot at h
    cases hws : GetWorkspace db wsid with
    | none => simp [hws] at h
    | some ws =>
      simp only [hws] at h
      by_cases hst : ws.State = WorkspaceDisabled
      · simp [hst] at h
      · by_cases hk : key = ""
        · simp [hst, hk] at h
        · exact ⟨⟨ws, hws, hst⟩, hk⟩
  refine ⟨hreach, ?_⟩
  obtain ⟨⟨ws, hws, hst⟩, hk⟩ := hreach
  refine @lookupFinds_of_accepted_tail db wsid OpSnapshotCreate key _ t _
    (match CreateTask db now
        { TaskID := taskID, Wsid := wsid, Op := OpSnapshotCreate, IdempotencyKey := key,
          RequestHash := ComputeRequestHash sha256hex (marshalCreateSnapshotRequest message)
            "POST" ("/v1/workspaces/" ++ wsid ++ "/snapshots"),
          Params := [("snapshot_id", snapshotID), ("message", message)],
          MaxAttempts := 5, TimeoutSeconds := 300 } with
      | none => (db, Response.error ErrInternal "failed to create task")
      | some (db₁, _) => (writeAudit db₁ wsid "snapshot.create" (some taskID), .accepted taskID))
    ?_ h (lookupFinds_of_create hid)
  unfold CreateSnapshot
  simp only [hws, hst, hk, if_false]

theorem CreateWorkspace_accepted (sha256hex : String → String) (db : DB) (now : Nat)
    (taskID key : String) (body : Option CreateWorkspaceRequest) (t : String)
    (hid : taskID ≠ "")
    (h : (CreateWorkspace sha256hex db now taskID key body).2 = .accepted t) :
    ∃ req, body = some req ∧ CreateWorkspace.reachesLookup key req ∧
      LookupFinds (CreateWorkspace sha256hex db now taskID key body).1 req.WSID
        OpInitWorkspace key t
        (ComputeRequestHash sha256hex req.marshal "POST" "/v1/workspaces") ∧ t ≠ "" := by
  have hreach : ∃ req, body = some req ∧ CreateWorkspace.reachesLookup key req := by
    unfold CreateWorkspace at h
    by_cases hk : key = ""
    · simp [hk] at h
    · cases body with
      | none => simp [hk] at h
      | some req =>
        by_cases h1 : req.WSID = ""
        · simp [hk, h1] at h
        · by_cases h2 : req.RootPath = ""
          · simp [hk, h1, h2] at h
          · by_cases h3 : req.Owner = ""
            · simp [hk, h1, h2, h3] at h
            · exact ⟨req, rfl, hk, h1, h2, h3⟩
  obtain ⟨req, rfl, hr⟩ := hreach
  refine ⟨req, rfl, hr, ?_⟩
  obtain ⟨hk, h1, h2, h3⟩ := hr
  refine @lookupFinds_of_accepted_tail db req.WSID OpInitWorkspace key _ t _
    (match CreateWorkspaceRow db now req.WSID req.RootPath req.Owner req.RootPath with
      | none => (db, Response.error ErrInternal "failed to create workspace")
      | some (db₁, _) =>
        match CreateTask db₁ now
            { TaskID := taskID, Wsid := req.WSID, Op := OpInitWorkspace,
              IdempotencyKey := key,
              RequestHash := ComputeRequestHash sha256hex req.marshal "POST" "/v1/workspaces",
              Params := [("owner", req.Owner)], MaxAttempts := 5, TimeoutSeconds := 300 } with
        | none => (db₁, .error ErrInternal "failed to create task")
        | some (db₂, _) =>
          (writeAudit db₂ req.WSID "workspace.create" (some taskID), .accepted taskID))
    ?_ h ?_
  · unfold CreateWorkspace
    simp only [hk, h1, h2, h3, if_false, or_self]
  · cases hw : CreateWorkspaceRow db now req.WSID req.RootPath req.Owner req.RootPath with
    | none => intro hacc; cases hacc
    | some r =>
      obtain ⟨db₁, w⟩ := r
      exact lookupFinds_of_create hid

/-! ## Worker progress between two submissions -/

theorem failTask_no_disable (l : WvsTask) (err : String) :
    ∀ e ∈ failTask l err, e.disables = false := by
  intro e he
  unfold failTask at he
  by_cases h : l.Attempt ≥ l.MaxAttempts
  · rw [if_pos h] at he
    by_cases hop : l.Op = OpInitWorkspace
    · rw [if_pos hop] at he
      simp only [List.mem_cons, List.mem_singleton, List.not_mem_nil, or_false] at he
      rcases he with rfl | rfl <;> rfl
    · rw [if_neg hop] at he
      simp only [List.mem_singleton] at he
      subst he; rfl
  · rw [if_neg h] at he
    simp only [List.mem_singleton] at he
    subst he; rfl

theorem onSuccess_no_disable (l : WvsTask) (results : Option (List (String × String))) :
    ∀ e ∈ onSuccess l results, e.disables = false := by
  intro e he
  unfold onSuccess at he
  rw [List.mem_append] at he
  rcases he with he | he
  · by_cases h1 : l.Op = OpInitWorkspace
    · rw [if_pos h1] at he; simp only [List.mem_singleton] at he; subst he; rfl
    · rw [if_neg h1] at he
      by_cases h2 : l.Op = OpSnapshotCreate
      · rw [if_pos h2] at he; simp only [List.mem_singleton] at he; subst he; rfl
      · rw [if_neg h2] at he
        by_cases h3 : l.Op = OpSetCurrent
        · rw [if_pos h3] at he; simp only [List.mem_singleton] at he; subst he; rfl
        · rw [if_neg h3] at he; cases he
  · simp only [List.mem_singleton] at he; subst he; rfl

theorem callExecutor_no_disable (env : WorkerEnv) (l : WvsTask)
    (params : List (String × String)) :
    ∀ e ∈ callExecutor env l params, e.disables = false := by
  intro e he
  unfold callExecutor at he
  by_cases hop : opMapHas l.Op = true
  · simp only [hop, not_true_eq_false, if_false, List.mem_cons] at he
    rcases he with rfl | he
    · rfl
    · cases hrpc : env.rpc with
      | error err => rw [hrpc] at he; exact failTask_no_disable l _ e he
      | ok resp =>
        rw [hrpc] at he
        by_cases hs : resp.Success = true
        · simp only [hs, not_true_eq_false, if_false] at he
          exact onSuccess_no_disable l _ e he
        · simp only [hs, not_false_eq_true, if_true] at he
          exact failTask_no_disable l _ e he
  · simp only [hop, not_false_eq_true, if_true] at he
    exact failTask_no_disable l _ e he

theorem dispatch_no_disable (env : WorkerEnv) (db : DB) (l : WvsTask) :
    ∀ e ∈ dispatch env db l, e.disables = false := by
  intro e he
  unfold dispatch at he
  by_cases hop : l.Op = OpSetCurrent
  · simp only [hop, if_true] at he
    unfold checkSetCurrentNoop at he
    by_cases hg : env.getWorkspaceErr = true
    · simp only [hg, if_true, List.nil_append] at he
      exact callExecutor_no_disable env l _ e he
    · simp only [hg, Bool.false_eq_true, if_false] at he
      cases hw : GetWorkspace db l.Wsid with
      | none =>
        simp only [hw, List.nil_append] at he
        exact callExecutor_no_disable env l _ e he
      | some ws =>
        simp only [hw] at he
        by_cases hc : ws.CurrentSnapshotID =
            some (paramGet (paramSet l.Params "task_id" l.TaskID) "snapshot_id")
        · simp only [hc, if_true, List.mem_singleton] at he
          subst he; rfl
        · simp only [hc, if_false, List.nil_append] at he
          exact callExecutor_no_disable env l _ e he
  · simp only [hop, if_false] at he
    exact callExecutor_no_disable env l _ e he

theorem executeWithLock_no_disable (env : WorkerEnv) (db : DB) (l : WvsTask) :
    ∀ e ∈ executeWithLock env db l, e.disables = false := by
  intro e he
  unfold executeWithLock at he
  cases hb : env.beginErr with
  | some err => rw [hb] at he; exact failTask_no_disable l _ e he
  | none =>
    rw [hb] at he
    cases hl : env.lockErr with
    | some err => rw [hl] at he; exact failTask_no_disable l _ e he
    | none =>
      rw [hl] at he
      simp only at he
      split at he
      · split at he
        · exact failTask_no_disable l _ e he
        · cases hm : env.markDeletedErr with
          | some err => rw [hm] at he; exact failTask_no_disable l _ e he
          | none =>
            rw [hm] at he
            cases hc : env.commitErr with
            | some err => rw [hc] at he; exact failTask_no_disable l _ e he
            | none =>
              rw [hc] at he
              simp only [List.mem_cons] at he
              rcases he with rfl | he
              · rfl
              · exact dispatch_no_disable env db l e he
      · cases hc : env.commitErr with
        | some err => rw [hc] at he; exact failTask_no_disable l _ e he
        | none => rw [hc] at he; exact dispatch_no_disable env db l e he

theorem runTask_no_disable (env : WorkerEnv) (db : DB) (l : WvsTask) :
    ∀ e ∈ runTask env db l, e.disables = false := by
  intro e he
  unfold runTask at he
  by_cases hc : l.CancelRequested = true
  · simp only [hc, if_true, List.mem_singleton] at he
    subst he; rfl
  · simp only [hc, Bool.false_eq_true, if_false] at he
    exact executeWithLock_no_disable env db l e he

theorem notDisabled_map {db db' : DB} {f : WvsWorkspace → WvsWorkspace}
    (hws : db'.workspaces = db.workspaces.map f)
    (hf : ∀ w, (f w).Wsid = w.Wsid ∧ (w.State ≠ WorkspaceDisabled → (f w).State ≠ WorkspaceDisabled))
    {wsid : String} (h : NotDisabled db wsid) : NotDisabled db' wsid := by
  obtain ⟨ws, hg, hst⟩ := h
  refine ⟨f ws, ?_, (hf ws).2 hst⟩
  unfold GetWorkspace at hg ⊢
  rw [hws, find?_map_pred _ f, hg]
  · rfl
  · intro a; rw [(hf a).1]

theorem notDisabled_of_workspaces_eq {db db' : DB} (hws : db'.workspaces = db.workspaces)
    {wsid : String} (h : NotDisabled db wsid) : NotDisabled db' wsid := by
  obtain ⟨ws, hg, hst⟩ := h
  exact ⟨ws, by simpa [GetWorkspace, hws] using hg, hst⟩

theorem notDisabled_applyEffect (now delay : Nat) (db : DB) (e : Effect)
    (he : e.disables = false) {wsid : String} (h : NotDisabled db wsid) :
    NotDisabled (applyEffect now delay db e) wsid := by
  cases e with
  | CompleteTask taskID status result error => exact notDisabled_of_workspaces_eq rfl h
  | FailTask taskID error => exact notDisabled_of_workspaces_eq rfl h
  | MarkTaskDead taskID error => exact notDisabled_of_workspaces_eq rfl h
  | UpdateWorkspaceState w st =>
    simp only [Effect.disables, decide_eq_false_iff_not] at he
    refine notDisabled_map (f := fun x =>
      if x.Wsid = w then { x with State := st, UpdatedAt := now } else x) rfl ?_ h
    intro x
    by_cases hx : x.Wsid = w
    · simp only [hx, if_true]; exact ⟨trivial, fun _ => he⟩
    · simp only [hx, if_false]; exact ⟨trivial, fun hh => hh⟩
  | CreateSnapshot snapshotID w fsPath message =>
    refine notDisabled_of_workspaces_eq ?_ h
    simp only [applyEffect, CreateSnapshotRow]
    split <;> rfl
  | UpdateWorkspaceCurrent w sid path =>
    refine notDisabled_map (f := fun x =>
      if x.Wsid = w then
        { x with CurrentSnapshotID := sid, CurrentPath := path, UpdatedAt := now }
      else x) rfl ?_ h
    intro x
    by_cases hx : x.Wsid = w
    · simp only [hx, if_true]; exact ⟨trivial, fun hh => hh⟩
    · simp only [hx, if_false]; exact ⟨trivial, fun hh => hh⟩
  | MarkSnapshotDeleted snapshotID => exact notDisabled_of_workspaces_eq rfl h
  | ExecuteTask req => exact notDisabled_of_workspaces_eq rfl h

theorem notDisabled_applyEffects (now delay : Nat) (effects : List Effect) (db : DB)
    (he : ∀ e ∈ effects, e.disables = false) {wsid : String} (h : NotDisabled db wsid) :
    NotDisabled (applyEffects now delay db effects) wsid := by
  induction effects generalizing db with
  | nil => exact h
  | cons e es ih =>
    simp only [applyEffects, List.foldl_cons]
    exact ih _ (fun x hx => he x (List.mem_cons_of_mem _ hx))
      (notDisabled_applyEffect now delay db e (he e (List.mem_cons_self _ _)) h)

/-- A step of a worker keeps the row the idempotency lookup finds, with its
`task_id` and `request_hash`, and disables no workspace. -/
theorem worker_step_keeps (sha256hex : String → String) {s s' : Sys} {a : Action}
    (hw : a.isWorker = true) (h : step sha256hex s a = some s') :
    (∀ wsid op key taskID hh, LookupFinds s.db wsid op key taskID hh →
      LookupFinds s'.db wsid op key taskID hh) ∧
    (∀ wsid, NotDisabled s.db wsid → NotDisabled s'.db wsid) := by
  cases a with
  | dequeue now =>
    simp only [step] at h
    cases hd : DequeueTask s.db now with
    | none => simp [hd] at h
    | some r =>
      obtain ⟨db', l⟩ := r
      simp only [hd, Option.some.injEq] at h
      subst h
      obtain ⟨t, ht, hel, hl, hdb⟩ := DequeueTask_spec hd
      subst hdb
      refine ⟨?_, ?_⟩
      · intro wsid op key taskID hh hfind
        refine lookupFinds_map (f := fun u =>
          if u.TaskID = t.TaskID then leaseRow now u else u) rfl ?_ hfind
        intro u
        by_cases hu : u.TaskID = t.TaskID
        · dsimp only; rw [if_pos hu]; exact ⟨rfl, rfl, rfl, rfl, rfl⟩
        · dsimp only; rw [if_neg hu]; exact ⟨rfl, rfl, rfl, rfl, rfl⟩
      · intro wsid hnd
        exact notDisabled_of_workspaces_eq rfl hnd
  | work taskID env now delay =>
    simp only [step] at h
    cases hf : s.leased.find? (fun t => t.TaskID = taskID) with
    | none => simp [hf] at h
    | some l =>
      simp only [hf, Option.some.injEq] at h
      subst h
      obtain ⟨st, _, hend⟩ := endsAttempt_runTask now delay env s.db l
      refine ⟨?_, ?_⟩
      · intro wsid op key taskID' hh hfind
        refine lookupFinds_map (applyEffects_tasks now delay _ s.db) ?_ hfind
        intro u
        exact ⟨(hend u).1, (hend u).2.2.2.1, (hend u).2.2.2.2.1, (hend u).2.2.2.2.2.1,
          (hend u).2.2.2.2.2.2.1⟩
      · intro wsid hnd
        exact notDisabled_applyEffects now delay _ s.db (runTask_no_disable env s.db l) hnd
  | createWorkspace now taskID key body => cases hw
  | retryInit now key taskID wsid => cases hw
  | disableWorkspace now wsid => cases hw
  | createSnapshot now taskID snapshotID wsid key message => cases hw
  | dropSnapshot now taskID wsid snapshotID key => cases hw
  | setCurrent now taskID newLiveID wsid key body => cases hw
  | cancelTask now taskID => cases hw

/-! ## Task state machine, retry bound, failTask, current integrity -/

/-- C4 (amended): over the steps of the system (lease by `DequeueTask`, the
loop body of the worker, `CancelTask` and the submission handlers), from any
state where task ids are unique and leased rows are RUNNING, the status of a
task only moves along PENDING→RUNNING, FAILED→RUNNING, RUNNING→{SUCCEEDED,
CANCELED, FAILED, DEAD} and PENDING→CANCELED, and no step changes the status
of a task that is SUCCEEDED, CANCELED or DEAD. -/
theorem task_status_moves_along_edges (sha256hex : String → String) (s₀ s s' : Sys)
    (tr : List Action) (a : Action) (h₀ : Inv s₀) (hrun : run sha256hex s₀ tr = some s)
    (hstep : step sha256hex s a = some s') (taskID : String) (st : TaskStatus)
    (hst : statusOf s.db taskID = some st) :
    ∃ st', statusOf s'.db taskID = some st' ∧ (st' = st ∨ statusEdge st st' = true) ∧
      (isTerminalStatus st = true → st' = st) := by
  have hinv := inv_run sha256hex h₀ hrun
  unfold statusOf at hst
  cases hu : GetTask s.db taskID with
  | none => simp [hu] at hst
  | some u =>
    simp only [hu, Option.map_some', Option.some.injEq] at hst
    obtain ⟨u', hu', hmove⟩ := step_rowMove sha256hex hinv hstep hu
    have hedge := rowMove_status hmove
    rw [hst] at hedge
    refine ⟨u'.Status, by simp [statusOf, hu'], hedge, ?_⟩
    intro hterm
    rcases hedge with h | h
    · exact h
    · rw [statusEdge_not_terminal h] at hterm; cases hterm

/-- C4, instance: a failed task with attempts left is leased again. -/
theorem task_status_moves_along_edges_witness :
    Inv (sysPending 5) ∧ run id (sysPending 5) (failingAttempts 1 1) = some sysFailedOnce ∧
    step id sysFailedOnce (.dequeue 10) = some sysLeasedAgain ∧
    statusOf sysFailedOnce.db "t1" = some TaskFailed ∧
    ∃ st', statusOf sysLeasedAgain.db "t1" = some st' ∧
      (st' = TaskFailed ∨ statusEdge TaskFailed st' = true) ∧
      (isTerminalStatus TaskFailed = true → st' = TaskFailed) :=
  ⟨⟨by decide, by decide, by simp [sysPending]⟩, by decide, by decide, by decide,
   task_status_moves_along_edges id (sysPending 5) sysFailedOnce sysLeasedAgain
     (failingAttempts 1 1) (.dequeue 10) ⟨by decide, by decide, by simp [sysPending]⟩
     (by decide) (by decide) "t1" TaskFailed (by decide)⟩

/-- C4 as stated fails: `DequeueTask` leases a FAILED task straight to
RUNNING, and the fifth failed attempt takes the task from RUNNING straight
to DEAD; neither edge is in the list of the claim, and the listed edges
FAILED→PENDING and FAILED→DEAD are never taken. -/
theorem task_status_edges_counterexample :
    ((run id (sysPending 5) (failingAttempts 1 1)).bind
        (fun s => statusOf s.db "t1") = some TaskFailed ∧
      (run id (sysPending 5) (failingAttempts 1 1 ++ [.dequeue 10])).bind
        (fun s => statusOf s.db "t1") = some TaskRunning ∧
      claimedEdge TaskFailed TaskRunning = false) ∧
    ((run id (sysPending 5) (failingAttempts 1 4 ++ [.dequeue 9])).bind
        (fun s => statusOf s.db "t1") = some TaskRunning ∧
      (run id (sysPending 5) (failingAttempts 1 4 ++ [.dequeue 9, .work "t1" failEnv 10 0])).bind
        (fun s => statusOf s.db "t1") = some TaskDead ∧
      claimedEdge TaskRunning TaskDead = false) := by
  decide

/-- C5 (amended): a task created with attempt 0 is leased at most
max(1, `max_attempts`) times, and when it is DEAD it has been leased exactly
that many times: exactly `max_attempts` times when `max_attempts` is at
least one, and once when it is zero or negative. -/
theorem dead_after_max_attempts_leases (sha256hex : String → String) (s₀ s : Sys)
    (tr : List Action) (taskID : String) (t : WvsTask) (h₀ : Inv s₀)
    (ht : GetTask s₀.db taskID = some t) (hp : t.Status = TaskPending)
    (ha : t.Attempt = 0) (hrun : run sha256hex s₀ tr = some s) :
    (leasesOf sha256hex taskID s₀ tr : Int) ≤ max 1 t.MaxAttempts ∧
    (statusOf s.db taskID = some TaskDead →
      (leasesOf sha256hex taskID s₀ tr : Int) = max 1 t.MaxAttempts) ∧
    (1 ≤ t.MaxAttempts → statusOf s.db taskID = some TaskDead →
      (leasesOf sha256hex taskID s₀ tr : Int) = t.MaxAttempts) := by
  have hj : LeasedTimes t.MaxAttempts taskID s₀ 0 :=
    ⟨t, ht, rfl, by simpa using ha, by rw [hp]; simp [attemptBound]⟩
  obtain ⟨u, hu, _, hatt, hb⟩ := leasedTimes_run sha256hex h₀ hrun hj
  simp only [Nat.zero_add] at hatt hb
  have hdead : statusOf s.db taskID = some TaskDead →
      (leasesOf sha256hex taskID s₀ tr : Int) = max 1 t.MaxAttempts := by
    intro hd
    simp only [statusOf, hu, Option.map_some', Option.some.injEq] at hd
    rw [hd] at hb
    simpa [attemptBound] using hb
  refine ⟨?_, hdead, ?_⟩
  · cases hs : u.Status <;> rw [hs] at hb <;> simp only [attemptBound] at hb <;> omega
  · intro hm hd
    rw [hdead hd]
    exact max_eq_right hm

/-- C5, instance: with `max_attempts` = 2 (the retry-then-dead scenario of
the spec) the executor fails twice and the task is DEAD after exactly two
leases. -/
theorem dead_after_max_attempts_leases_witness :
    Inv (sysPending 2) ∧ GetTask (sysPending 2).db "t1" = some (pendingTask 2) ∧
    (pendingTask 2).Status = TaskPending ∧ (pendingTask 2).Attempt = 0 ∧
    run id (sysPending 2) (failingAttempts 1 2) = some sysDeadAfterTwo ∧
    statusOf sysDeadAfterTwo.db "t1" = some TaskDead ∧
    ((leasesOf id "t1" (sysPending 2) (failingAttempts 1 2) : Int) ≤
        max 1 (pendingTask 2).MaxAttempts ∧
     (statusOf sysDeadAfterTwo.db "t1" = some TaskDead →
      (leasesOf id "t1" (sysPending 2) (failingAttempts 1 2) : Int) =
        max 1 (pendingTask 2).MaxAttempts) ∧
     (1 ≤ (pendingTask 2).MaxAttempts → statusOf sysDeadAfterTwo.db "t1" = some TaskDead →
      (leasesOf id "t1" (sysPending 2) (failingAttempts 1 2) : Int) =
        (pendingTask 2).MaxAttempts)) :=
  ⟨⟨by decide, by decide, by simp [sysPending]⟩, by decide, by decide, by decide,
   by decide, by decide,
   dead_after_max_attempts_leases id (sysPending 2) sysDeadAfterTwo (failingAttempts 1 2) "t1"
     (pendingTask 2) ⟨by decide, by decide, by simp [sysPending]⟩ (by decide) (by decide)
     (by decide) (by decide)⟩

/-- C5 as stated fails for `max_attempts` = 0: a PENDING task is leased
whatever its counters, so the task is DEAD after one lease, not after
none. -/
theorem dead_after_max_attempts_counterexample :
    (pendingTask 0).Attempt = 0 ∧ (pendingTask 0).MaxAttempts = 0 ∧
    (run id (sysPending 0) (failingAttempts 1 1)).bind
      (fun s => statusOf s.db "t1") = some TaskDead ∧
    leasesOf id "t1" (sysPending 0) (failingAttempts 1 1) = 1 := by
  decide

/-- C6: `failTask` issues `MarkTaskDead` exactly when the attempt counter has
reached `max_attempts` and `FailTask` exactly otherwise; it sets the
workspace state to INIT_FAILED exactly when the task is marked dead and its
op is `init_workspace`, and issues no other write of a workspace row, so
that for every other op the workspace table is left as it is. -/
theorem failTask_marks_dead_or_reschedules (task : WvsTask) (taskErr : String) :
    ((∃ e ∈ failTask task taskErr, e.isMarkTaskDead = true) ↔
      task.Attempt ≥ task.MaxAttempts) ∧
    ((∃ e ∈ failTask task taskErr, e.isFailTask = true) ↔
      ¬ task.Attempt ≥ task.MaxAttempts) ∧
    (Effect.MarkTaskDead task.TaskID (errorJSON taskErr) ∈ failTask task taskErr ↔
      task.Attempt ≥ task.MaxAttempts) ∧
    (Effect.FailTask task.TaskID (errorJSON taskErr) ∈ failTask task taskErr ↔
      ¬ task.Attempt ≥ task.MaxAttempts) ∧
    ((∃ e ∈ failTask task taskErr, e.writesWorkspace = true) ↔
      (task.Attempt ≥ task.MaxAttempts ∧ task.Op = OpInitWorkspace)) ∧
    (∀ e ∈ failTask task taskErr, e.writesWorkspace = true →
      e = .UpdateWorkspaceState task.Wsid WorkspaceInitFailed) ∧
    (∀ (now delay : Nat) (db : DB),
      (applyEffects now delay db (failTask task taskErr)).workspaces =
        if task.Attempt ≥ task.MaxAttempts ∧ task.Op = OpInitWorkspace then
          (UpdateWorkspaceState db now task.Wsid WorkspaceInitFailed).workspaces
        else db.workspaces) := by
  unfold failTask
  by_cases h : task.Attempt ≥ task.MaxAttempts
  · by_cases hop : task.Op = OpInitWorkspace
    · simp [h, hop, Effect.isMarkTaskDead, Effect.isFailTask, Effect.writesWorkspace,
        applyEffects, applyEffect, MarkTaskDead, UpdateWorkspaceState]
    · simp [h, hop, Effect.isMarkTaskDead, Effect.isFailTask, Effect.writesWorkspace,
        applyEffects, applyEffect, MarkTaskDead]
  · simp [h, Effect.isMarkTaskDead, Effect.isFailTask, Effect.writesWorkspace,
      applyEffects, applyEffect, FailTask]

/-- C7, failing trace: from a store that satisfies the invariant, a
set_current to `s1` and a drop of `s1` are both accepted (the drop handler
sees that `s1` is not current yet); the set_current task succeeds and makes
`s1` current; the drop task then passes the in-lock test, since no other
non-terminal task refers to `s1`, and marks `s1` deleted.  The workspace row
now points at a deleted snapshot. -/
theorem current_snapshot_deleted_after_drop :
    currentNotDeleted dbOneSnapshot = true ∧
    (run id { db := dbOneSnapshot, leased := [] } dropAfterSetCurrent).bind
      (fun s => (GetWorkspace s.db "w1").bind (fun w => w.CurrentSnapshotID)) = some "s1" ∧
    (run id { db := dbOneSnapshot, leased := [] } dropAfterSetCurrent).bind
      (fun s => (GetSnapshot s.db "s1").bind (fun sn => sn.DeletedAt)) = some 15 ∧
    (run id { db := dbOneSnapshot, leased := [] } dropAfterSetCurrent).map
      (fun s => s.db.tasks.map (fun t => (t.TaskID, t.Status))) =
        some [("t1", TaskSucceeded), ("t2", TaskSucceeded)] ∧
    (run id { db := dbOneSnapshot, leased := [] } dropAfterSetCurrent).map
      (fun s => currentNotDeleted s.db) = some false := by
  decide

/-! ## Idempotent submission: the claims -/

theorem worker_run_keeps (sha256hex : String → String) {tr : List Action} {s s' : Sys}
    (hw : ∀ a ∈ tr, a.isWorker = true) (h : run sha256hex s tr = some s') :
    (∀ wsid op key taskID hh, LookupFinds s.db wsid op key taskID hh →
      LookupFinds s'.db wsid op key taskID hh) ∧
    (∀ wsid, NotDisabled s.db wsid → NotDisabled s'.db wsid) := by
  induction tr generalizing s with
  | nil =>
    simp only [run, Option.some.injEq] at h
    subst h
    exact ⟨fun _ _ _ _ _ h => h, fun _ h => h⟩
  | cons a as ih =>
    simp only [run] at h
    cases hs : step sha256hex s a with
    | none => simp [hs] at h
    | some s₁ =>
      simp only [hs] at h
      obtain ⟨k1, k2⟩ := worker_step_keeps sha256hex (hw a (List.mem_cons_self _ _)) hs
      obtain ⟨j1, j2⟩ := ih (fun x hx => hw x (List.mem_cons_of_mem _ hx)) h
      exact ⟨fun w o k t hh hl => j1 w o k t hh (k1 w o k t hh hl),
        fun w hn => j2 w (k2 w hn)⟩

theorem accepted_of_lookupFinds {db : DB} {wsid : String} {op : TaskOp} {key h t : String}
    {r : DB × Response} (ha : IdempotentAnswer db wsid op key h r)
    (hl : LookupFinds db wsid op key t h) (ht : t ≠ "") : r.2 = .accepted t := by
  obtain ⟨row, hrow, hid, hh⟩ := hl
  have := (ha.1 row hrow (hid ▸ ht)).1 hh
  rw [this, hid]

/-- C2: in each of the four submission handlers, once the checks before the
idempotency lookup have passed: a row with the same (`wsid`, `op`,
`idempotency_key`) and the same `request_hash` is answered 202 with its
`task_id` on an unchanged store, a row with another hash 409
`WVS_CONFLICT_IDEMPOTENT_MISMATCH` on an unchanged store, and the task table
changes only when the lookup finds no row.  (A row counts as found when its
`task_id` is not empty, which holds of every id `core.NewID` makes.) -/
theorem submission_idempotency_check (sha256hex : String → String) (db : DB) (now : Nat)
    (taskID auxID wsid snapshotID key message : String) (req : CreateWorkspaceRequest) :
    (CreateWorkspace.reachesLookup key req →
      IdempotentAnswer db req.WSID OpInitWorkspace key
        (ComputeRequestHash sha256hex req.marshal "POST" "/v1/workspaces")
        (CreateWorkspace sha256hex db now taskID key (some req))) ∧
    (CreateSnapshot.reachesLookup db wsid key →
      IdempotentAnswer db wsid OpSnapshotCreate key
        (ComputeRequestHash sha256hex (marshalCreateSnapshotRequest message) "POST"
          ("/v1/workspaces/" ++ wsid ++ "/snapshots"))
        (CreateSnapshot sha256hex db now taskID auxID wsid key message)) ∧
    (DropSnapshot.reachesLookup db wsid snapshotID key →
      IdempotentAnswer db wsid OpSnapshotDrop key
        (ComputeRequestHash sha256hex (marshalSnapshotID snapshotID) "DELETE"
          ("/v1/workspaces/" ++ wsid ++ "/snapshots/" ++ snapshotID))
        (DropSnapshot sha256hex db now taskID wsid snapshotID key)) ∧
    (SetCurrent.reachesLookup db wsid key snapshotID →
      IdempotentAnswer db wsid OpSetCurrent key
        (ComputeRequestHash sha256hex (marshalSnapshotID snapshotID) "POST"
          ("/v1/workspaces/" ++ wsid ++ "/current:set"))
        (SetCurrent sha256hex db now taskID auxID wsid key (some snapshotID))) ∧
    (∀ id, (Response.accepted id).status = 202) ∧
    (∀ msg, (Response.error ErrConflictIdempotent msg).status = 409) :=
  ⟨CreateWorkspace_idempotent sha256hex db now taskID key req,
   CreateSnapshot_idempotent sha256hex db now taskID auxID wsid key message,
   DropSnapshot_idempotent sha256hex db now taskID wsid snapshotID key,
   SetCurrent_idempotent sha256hex db now taskID auxID wsid key snapshotID,
   fun _ => rfl, fun _ => (by decide : HTTPStatus ErrConflictIdempotent = 409)⟩

/-- C2, instance: the store `dbKeyed` holds a row under the key `k1` for each
of the four operations.  Every handler reaches the lookup and finds its row;
the same request again is answered 202 with the `task_id` of that row, a
request with another body (and, for the drop, another path) under the same
key is answered 409, and the store is unchanged in all eight cases. -/
theorem submission_idempotency_check_witness :
    (CreateWorkspace.reachesLookup "k1" reqW1 ∧
     CreateWorkspace.reachesLookup "k1" { reqW1 with Owner := "b" } ∧
     CreateSnapshot.reachesLookup dbKeyed "w1" "k1" ∧
     DropSnapshot.reachesLookup dbKeyed "w1" "s1" "k1" ∧
     DropSnapshot.reachesLookup dbKeyed "w1" "s3" "k1" ∧
     SetCurrent.reachesLookup dbKeyed "w1" "k1" "s1" ∧
     SetCurrent.reachesLookup dbKeyed "w1" "k1" "s3") ∧
    ((GetTaskByIdempotencyKey dbKeyed "w1" OpInitWorkspace "k1").map (fun t => t.TaskID)
        = some "t0" ∧
     (GetTaskByIdempotencyKey dbKeyed "w1" OpSnapshotCreate "k1").map (fun t => t.TaskID)
        = some "t1" ∧
     (GetTaskByIdempotencyKey dbKeyed "w1" OpSnapshotDrop "k1").map (fun t => t.TaskID)
        = some "t2" ∧
     (GetTaskByIdempotencyKey dbKeyed "w1" OpSetCurrent "k1").map (fun t => t.TaskID)
        = some "t3") ∧
    (CreateWorkspace id dbKeyed 9 "t9" "k1" (some reqW1) = (dbKeyed, .accepted "t0") ∧
     CreateWorkspace id dbKeyed 9 "t9" "k1" (some { reqW1 with Owner := "b" })
       = (dbKeyed, .error ErrConflictIdempotent "idempotency key mismatch")) ∧
    (CreateSnapshot id dbKeyed 9 "t9" "s9" "w1" "k1" "m" = (dbKeyed, .accepted "t1") ∧
     CreateSnapshot id dbKeyed 9 "t9" "s9" "w1" "k1" "other"
       = (dbKeyed, .error ErrConflictIdempotent "idempotency key mismatch")) ∧
    (DropSnapshot id dbKeyed 9 "t9" "w1" "s1" "k1" = (dbKeyed, .accepted "t2") ∧
     DropSnapshot id dbKeyed 9 "t9" "w1" "s3" "k1"
       = (dbKeyed, .error ErrConflictIdempotent "idempotency key mismatch")) ∧
    (SetCurrent id dbKeyed 9 "t9" "s9" "w1" "k1" (some "s1") = (dbKeyed, .accepted "t3") ∧
     SetCurrent id dbKeyed 9 "t9" "s9" "w1" "k1" (some "s3")
       = (dbKeyed, .error ErrConflictIdempotent "idempotency key mismatch")) :=
  have hw : CreateWorkspace.reachesLookup "k1" reqW1 := by
    refine ⟨?_, ?_, ?_, ?_⟩ <;> decide
  have hw' : CreateWorkspace.reachesLookup "k1" { reqW1 with Owner := "b" } := by
    refine ⟨?_, ?_, ?_, ?_⟩ <;> decide
  have hc : CreateSnapshot.reachesLookup dbKeyed "w1" "k1" :=
    ⟨⟨_, rfl, by decide⟩, by decide⟩
  have hd : DropSnapshot.reachesLookup dbKeyed "w1" "s1" "k1" :=
    ⟨⟨_, rfl, by decide, by decide⟩, ⟨_, rfl, rfl⟩, by decide⟩
  have hd' : DropSnapshot.reachesLookup dbKeyed "w1" "s3" "k1" :=
    ⟨⟨_, rfl, by decide, by decide⟩, ⟨_, rfl, rfl⟩, by decide⟩
  have hs : SetCurrent.reachesLookup dbKeyed "w1" "k1" "s1" :=
    ⟨⟨_, rfl, by decide, by decide⟩, ⟨_, rfl, rfl⟩, by decide, by decide⟩
  have hs' : SetCurrent.reachesLookup dbKeyed "w1" "k1" "s3" :=
    ⟨⟨_, rfl, by decide, by decide⟩, ⟨_, rfl, rfl⟩, by decide, by decide⟩
  ⟨⟨hw, hw', hc, hd, hd', hs, hs'⟩, ⟨by decide, by decide, by decide, by decide⟩,
   ⟨(((submission_idempotency_check id dbKeyed 9 "t9" "s9" "w1" "s1" "k1" "m" reqW1).1 hw).1
      _ rfl (by decide)).1 (by decide),
    (((submission_idempotency_check id dbKeyed 9 "t9" "s9" "w1" "s1" "k1" "m"
      { reqW1 with Owner := "b" }).1 hw').1 _ rfl (by decide)).2 (by decide)⟩,
   ⟨(((submission_idempotency_check id dbKeyed 9 "t9" "s9" "w1" "s1" "k1" "m" reqW1).2.1 hc).1
      _ rfl (by decide)).1 (by decide),
    (((submission_idempotency_check id dbKeyed 9 "t9" "s9" "w1" "s1" "k1" "other"
      reqW1).2.1 hc).1 _ rfl (by decide)).2 (by decide)⟩,
   ⟨(((submission_idempotency_check id dbKeyed 9 "t9" "s9" "w1" "s1" "k1" "m"
      reqW1).2.2.1 hd).1 _ rfl (by decide)).1 (by decide),
    (((submission_idempotency_check id dbKeyed 9 "t9" "s9" "w1" "s3" "k1" "m"
      reqW1).2.2.1 hd').1 _ rfl (by decide)).2 (by decide)⟩,
   ⟨(((submission_idempotency_check id dbKeyed 9 "t9" "s9" "w1" "s1" "k1" "m"
      reqW1).2.2.2.1 hs).1 _ rfl (by decide)).1 (by decide),
    (((submission_idempotency_check id dbKeyed 9 "t9" "s9" "w1" "s3" "k1" "m"
      reqW1).2.2.2.1 hs').1 _ rfl (by decide)).2 (by decide)⟩⟩

/-- C3 (amended): two submissions with the same `Idempotency-Key` and the
same body, with any steps of workers in between (leases and finished
attempts, success included): for `init_workspace` and `snapshot_create` the
second returns the `task_id` of the first; for `snapshot_drop` and
`set_current` it does so whenever the second submission still reaches the
idempotency lookup, that is while the snapshot is not marked deleted and is
not the current one. -/
theorem duplicate_submission_same_task (sha256hex : String → String) (s : Sys)
    (tr : List Action) (t : String) (now₁ now₂ : Nat) (id₁ aux₁ id₂ aux₂ : String)
    (wsid snapshotID key message : String) (wbody : Option CreateWorkspaceRequest)
    (hid : id₁ ≠ "") (htr : ∀ a ∈ tr, a.isWorker = true) :
    ((CreateWorkspace sha256hex s.db now₁ id₁ key wbody).2 = .accepted t →
      ∀ s', run sha256hex
          { s with db := (CreateWorkspace sha256hex s.db now₁ id₁ key wbody).1 } tr = some s' →
        (CreateWorkspace sha256hex s'.db now₂ id₂ key wbody).2 = .accepted t) ∧
    ((CreateSnapshot sha256hex s.db now₁ id₁ aux₁ wsid key message).2 = .accepted t →
      ∀ s', run sha256hex
          { s with db := (CreateSnapshot sha256hex s.db now₁ id₁ aux₁ wsid key message).1 }
          tr = some s' →
        (CreateSnapshot sha256hex s'.db now₂ id₂ aux₂ wsid key message).2 = .accepted t) ∧
    ((DropSnapshot sha256hex s.db now₁ id₁ wsid snapshotID key).2 = .accepted t →
      ∀ s', run sha256hex
          { s with db := (DropSnapshot sha256hex s.db now₁ id₁ wsid snapshotID key).1 }
          tr = some s' →
        DropSnapshot.reachesLookup s'.db wsid snapshotID key →
        (DropSnapshot sha256hex s'.db now₂ id₂ wsid snapshotID key).2 = .accepted t) ∧
    ((SetCurrent sha256hex s.db now₁ id₁ aux₁ wsid key (some snapshotID)).2 = .accepted t →
      ∀ s', run sha256hex
          { s with db :=
              (SetCurrent sha256hex s.db now₁ id₁ aux₁ wsid key (some snapshotID)).1 }
          tr = some s' →
        SetCurrent.reachesLookup s'.db wsid key snapshotID →
        (SetCurrent sha256hex s'.db now₂ id₂ aux₂ wsid key (some snapshotID)).2 =
          .accepted t) := by
  refine ⟨?_, ?_, ?_, ?_⟩
  · intro hacc s' hrun
    obtain ⟨req, rfl, hreach, hl, ht⟩ :=
      CreateWorkspace_accepted sha256hex s.db now₁ id₁ key wbody t hid hacc
    have hl' := (worker_run_keeps sha256hex htr hrun).1 _ _ _ _ _ hl
    exact accepted_of_lookupFinds
      (CreateWorkspace_idempotent sha256hex s'.db now₂ id₂ key req hreach) hl' ht
  · intro hacc s' hrun
    obtain ⟨hreach, hl, ht⟩ :=
      CreateSnapshot_accepted sha256hex s.db now₁ id₁ aux₁ wsid key message t hid hacc
    obtain ⟨k1, k2⟩ := worker_run_keeps sha256hex htr hrun
    have hnd : NotDisabled s'.db wsid := by
      apply k2
      obtain ⟨ws, hws, hst⟩ := hreach.1
      refine ⟨ws, ?_, hst⟩
      have hg := tasksGrow_CreateSnapshot sha256hex s.db now₁ id₁ aux₁ wsid key message
      show GetWorkspace (CreateSnapshot sha256hex s.db now₁ id₁ aux₁ wsid key message).1 wsid
        = some ws
      unfold CreateSnapshot
      simp only [hws, hst, hreach.2, if_false]
      split
      · split <;> exact hws
      · split
        · exact hws
        · rename_i hc
          have := (CreateTask_spec hc).2.1
          simpa [GetWorkspace, writeAudit, this] using hws
    exact accepted_of_lookupFinds
      (CreateSnapshot_idempotent sha256hex s'.db now₂ id₂ aux₂ wsid key message
        ⟨hnd, hreach.2⟩) (k1 _ _ _ _ _ hl) ht
  · intro hacc s' hrun hreach'
    obtain ⟨_, hl, ht⟩ :=
      DropSnapshot_accepted sha256hex s.db now₁ id₁ wsid snapshotID key t hid hacc
    exact accepted_of_lookupFinds
      (DropSnapshot_idempotent sha256hex s'.db now₂ id₂ wsid snapshotID key hreach')
      ((worker_run_keeps sha256hex htr hrun).1 _ _ _ _ _ hl) ht
  · intro hacc s' hrun hreach'
    obtain ⟨sid, hsid, _, hl, ht⟩ :=
      SetCurrent_accepted sha256hex s.db now₁ id₁ aux₁ wsid key (some snapshotID) t hid hacc
    cases hsid
    exact accepted_of_lookupFinds
      (SetCurrent_idempotent sha256hex s'.db now₂ id₂ aux₂ wsid key snapshotID hreach')
      ((worker_run_keeps sha256hex htr hrun).1 _ _ _ _ _ hl) ht

/-- C3, instance: a snapshot_create is submitted and its task runs to
success; the same submission again returns the same `task_id`. -/
theorem duplicate_submission_same_task_witness :
    "t1" ≠ "" ∧ (∀ a ∈ workerCompletes "t1" [("fs_path", "/ws/w1/snapshots/s2")],
      a.isWorker = true) ∧
    (CreateSnapshot id dbOneSnapshot 10 "t1" "s2" "w1" "k1" "m").2 = .accepted "t1" ∧
    run id { db := (CreateSnapshot id dbOneSnapshot 10 "t1" "s2" "w1" "k1" "m").1,
             leased := [] }
      (workerCompletes "t1" [("fs_path", "/ws/w1/snapshots/s2")]) =
      some (stateAfter { db := (CreateSnapshot id dbOneSnapshot 10 "t1" "s2" "w1" "k1" "m").1,
                         leased := [] }
        (workerCompletes "t1" [("fs_path", "/ws/w1/snapshots/s2")])) ∧
    statusOf (stateAfter
        { db := (CreateSnapshot id dbOneSnapshot 10 "t1" "s2" "w1" "k1" "m").1, leased := [] }
        (workerCompletes "t1" [("fs_path", "/ws/w1/snapshots/s2")])).db "t1" =
      some TaskSucceeded ∧
    (CreateSnapshot id (stateAfter
        { db := (CreateSnapshot id dbOneSnapshot 10 "t1" "s2" "w1" "k1" "m").1, leased := [] }
        (workerCompletes "t1" [("fs_path", "/ws/w1/snapshots/s2")])).db
      20 "t9" "s9" "w1" "k1" "m").2 = .accepted "t1" :=
  ⟨by decide, by decide, by decide, by decide, by decide,
   (duplicate_submission_same_task id { db := dbOneSnapshot, leased := [] }
      (workerCompletes "t1" [("fs_path", "/ws/w1/snapshots/s2")]) "t1" 10 20 "t1" "s2" "t9"
      "s9" "w1" "s1" "k1" "m" none (by decide) (by decide)).2.1 (by decide) _ (by decide)⟩

/-- C3 as stated fails for set_current and snapshot_drop: once the task of
the first submission has succeeded, the handler answers the same submission
with 200 before it reaches the idempotency lookup (`noop` because the
snapshot is current, `deleted` because the snapshot is marked deleted), and
the answer carries no `task_id`. -/
theorem duplicate_submission_counterexample :
    ((SetCurrent id dbOneSnapshot 10 "t1" "abcd1234" "w1" "k1" (some "s1")).2 =
        .accepted "t1" ∧
      (SetCurrent id (stateAfter
          { db := (SetCurrent id dbOneSnapshot 10 "t1" "abcd1234" "w1" "k1" (some "s1")).1,
            leased := [] }
          (workerCompletes "t1" [("current_path", "/ws/w1/live/abcd1234")])).db
        20 "t9" "ffff0000" "w1" "k1" (some "s1")).2 =
        .okNoop "s1" "/ws/w1/live/abcd1234") ∧
    ((DropSnapshot id dbOneSnapshot 10 "t1" "w1" "s1" "k1").2 = .accepted "t1" ∧
      (DropSnapshot id (stateAfter
          { db := (DropSnapshot id dbOneSnapshot 10 "t1" "w1" "s1" "k1").1, leased := [] }
          (workerCompletes "t1" [])).db
        20 "t9" "w1" "s1" "k1").2 = .okDeleted) := by
  decide

/-! ## Executor: quiesce safety -/

theorem quiescePoll_ok (controlPath taskID timeoutText : String) (abortErr : Option String)
    (polls : List Poll)
    (h : (quiescePoll controlPath taskID timeoutText abortErr polls).1 = some (.ok ())) :
    ∃ reads, (quiescePoll controlPath taskID timeoutText abortErr polls).2 =
        reads ++ [.readControl controlPath (some QuiesceFrozen)] ∧
      ∀ e ∈ reads, ∃ st, e = .readControl controlPath st ∧ st ≠ some QuiesceFrozen := by
  induction polls with
  | nil => simp [quiescePoll] at h
  | cons p ps ih =>
    cases p with
    | ctxDone err => simp [quiescePoll] at h
    | tick after state =>
      cases after with
      | true => simp [quiescePoll] at h
      | false =>
        simp only [quiescePoll] at h ⊢
        by_cases hf : state = some QuiesceFrozen
        · rw [if_pos hf]
          exact ⟨[], by simp [hf], by simp⟩
        · rw [if_neg hf] at h ⊢
          obtain ⟨reads, hr, hall⟩ := ih h
          refine ⟨.readControl controlPath state :: reads, by simp [hr], ?_⟩
          intro e he
          rcases List.mem_cons.mp he with rfl | he
          · exact ⟨state, rfl, hf⟩
          · exact hall e he

theorem Quiesce_ok (env : ExecEnv) (wsRoot taskID timeoutText : String)
    (h : (Quiesce env wsRoot taskID timeoutText).1 = some (.ok ())) :
    ∃ reads, (Quiesce env wsRoot taskID timeoutText).2 =
        [.mkdirAll (joinPath wsRoot ".wvs") true] ++
        [.writeControl (controlPathOf wsRoot) QuiesceRequestFreeze taskID true] ++ reads ++
        [.readControl (controlPathOf wsRoot) (some QuiesceFrozen)] ∧
      ∀ e ∈ reads, ∃ st, e = .readControl (controlPathOf wsRoot) st ∧
        st ≠ some QuiesceFrozen := by
  unfold Quiesce at h ⊢
  cases hm : env.mkdirWvsErr with
  | some e => simp [hm] at h
  | none =>
    cases hw : env.writeFreezeErr with
    | some e => simp [hm, hw] at h
    | none =>
      simp only [hm, hw] at h ⊢
      obtain ⟨reads, hr, hall⟩ := quiescePoll_ok _ _ _ _ _ h
      exact ⟨reads, by simp [hr, writeControl], hall⟩

theorem countP_writes_of_not_control (state : QuiesceState) (l : List FsEvent)
    (h : ∀ e ∈ l, e.isControl = false) : l.countP (FsEvent.writes state) = 0 := by
  rw [List.countP_eq_zero]
  intro e he
  have := h e he
  cases e <;> simp_all [FsEvent.isControl, FsEvent.writes]

theorem countP_writes_of_reads (state : QuiesceState) (controlPath : String)
    (l : List FsEvent)
    (h : ∀ e ∈ l, ∃ st, e = .readControl controlPath st ∧ st ≠ some QuiesceFrozen) :
    l.countP (FsEvent.writes state) = 0 := by
  rw [List.countP_eq_zero]
  intro e he
  obtain ⟨st, rfl, _⟩ := h e he
  simp [FsEvent.writes]

theorem quiescedOnce_of_shape {controlPath taskID : String} {trace : List FsEvent}
    (h : QuiescedShape controlPath taskID trace) : QuiescedOnce controlPath taskID trace := by
  refine ⟨h, ?_, ?_⟩
  · obtain ⟨setup, reads, work, resumeOk, rfl, hs, hr, hw, _⟩ := h
    simp only [List.countP_append, List.countP_cons, List.countP_nil,
      countP_writes_of_not_control _ setup (fun e he => (hs e he).1),
      countP_writes_of_reads _ controlPath reads hr, countP_writes_of_not_control _ work hw,
      FsEvent.writes]
    simp [QuiesceRequestFreeze, QuiesceRequestResume]
  · obtain ⟨setup, reads, work, resumeOk, rfl, hs, hr, hw, _⟩ := h
    simp only [List.countP_append, List.countP_cons, List.countP_nil,
      countP_writes_of_not_control _ setup (fun e he => (hs e he).1),
      countP_writes_of_reads _ controlPath reads hr, countP_writes_of_not_control _ work hw,
      FsEvent.writes]
    simp [QuiesceRequestFreeze, QuiesceRequestResume]

theorem quiescedOnce_of_parts {wsRoot taskID : String} {events reads work : List FsEvent}
    {resumeErr : Option String}
    (he : events = [.mkdirAll (joinPath wsRoot ".wvs") true] ++
        [.writeControl (controlPathOf wsRoot) QuiesceRequestFreeze taskID true] ++ reads ++
        [.readControl (controlPathOf wsRoot) (some QuiesceFrozen)])
    (hall : ∀ e ∈ reads, ∃ st, e = .readControl (controlPathOf wsRoot) st ∧
        st ≠ some QuiesceFrozen)
    (hwork : ∀ e ∈ work, e.isControl = false) (hclone : ∃ e ∈ work, e.isClone = true) :
    QuiescedOnce (controlPathOf wsRoot) taskID
      (events ++ work ++ (Resume wsRoot taskID resumeErr).2) := by
  apply quiescedOnce_of_shape
  refine ⟨[.mkdirAll (joinPath wsRoot ".wvs") true], reads, work, resumeErr.isNone, ?_, ?_,
    hall, hwork, hclone⟩
  · rw [he]; simp [Resume, writeControl]
  · intro e hmem
    simp only [List.mem_singleton] at hmem
    subst hmem
    exact ⟨rfl, rfl⟩

theorem snapshotCreate_ok (env : ExecEnv) (mountPath timeoutText wsid : String)
    (params res : List (String × String))
    (h : (snapshotCreate env mountPath timeoutText wsid params).1 = some (.ok res))
    (hm : env.metaExists = false) :
    QuiescedOnce (controlPathOf (joinPath mountPath wsid)) (paramGet params "task_id")
      (snapshotCreate env mountPath timeoutText wsid params).2 := by
  unfold snapshotCreate at h ⊢
  simp only [hm, Bool.false_eq_true, if_false] at h ⊢
  cases hev : env.evalSymlinks with
  | error e => simp [hev] at h
  | ok srcPath =>
    simp only [hev] at h ⊢
    cases hq : Quiesce env (joinPath mountPath wsid) (paramGet params "task_id") timeoutText with
    | mk r events =>
      have hq1 : (Quiesce env (joinPath mountPath wsid) (paramGet params "task_id")
          timeoutText).1 = r := by rw [hq]
      have hq2 : (Quiesce env (joinPath mountPath wsid) (paramGet params "task_id")
          timeoutText).2 = events := by rw [hq]
      simp only [hq] at h ⊢
      cases r with
      | none => simp at h
      | some x =>
        cases x with
        | error e => simp at h
        | ok u =>
          obtain ⟨reads, hr, hall⟩ := Quiesce_ok env _ _ _ hq1
          rw [hq2] at hr
          simp only at h ⊢
          cases hc : env.cloneErr with
          | some e => simp [Clone, hc] at h
          | none =>
            simp only [Clone, hc, Option.map_none'] at h ⊢
            cases hmk : env.mkdirMetaErr with
            | some e => simp [hmk] at h
            | none =>
              simp only [hmk] at h ⊢
              cases hwm : env.writeMetaErr with
              | some e => simp [hwm] at h
              | none =>
                simp only [hwm] at h ⊢
                rw [List.append_assoc events]
                refine quiescedOnce_of_parts hr hall ?_ ⟨_, List.mem_append_left _
                  (List.mem_singleton_self _), rfl⟩
                intro e he
                simp only [List.mem_append, List.mem_singleton, List.mem_cons,
                  List.not_mem_nil, or_false] at he
                rcases he with rfl | rfl | rfl <;> rfl

theorem setCurrent_ok (env : ExecEnv) (mountPath timeoutText wsid : String)
    (params res : List (String × String))
    (h : (setCurrent env mountPath timeoutText wsid params).1 = some (.ok res))
    (hm : env.readlink.toOption ≠ some (joinPath "live" (paramGet params "new_live_id"))) :
    QuiescedOnce (controlPathOf (joinPath mountPath wsid)) (paramGet params "task_id")
      (setCurrent env mountPath timeoutText wsid params).2 := by
  unfold setCurrent at h ⊢
  simp only [hm, if_false] at h ⊢
  by_cases hs : env.srcMissing = true
  · simp [hs] at h
  · simp only [hs, Bool.false_eq_true, if_false] at h ⊢
    cases hq : Quiesce env (joinPath mountPath wsid) (paramGet params "task_id") timeoutText with
    | mk r events =>
      have hq1 : (Quiesce env (joinPath mountPath wsid) (paramGet params "task_id")
          timeoutText).1 = r := by rw [hq]
      have hq2 : (Quiesce env (joinPath mountPath wsid) (paramGet params "task_id")
          timeoutText).2 = events := by rw [hq]
      simp only [hq] at h ⊢
      cases r with
      | none => simp at h
      | some x =>
        cases x with
        | error e => simp at h
        | ok u =>
          obtain ⟨reads, hr, hall⟩ := Quiesce_ok env _ _ _ hq1
          rw [hq2] at hr
          simp only at h ⊢
          cases hc : env.cloneErr with
          | some e => simp [Clone, hc] at h
          | none =>
            simp only [Clone, hc, Option.map_none'] at h ⊢
            cases hsy : env.symlinkErr with
            | some e => simp [SwitchCurrent, hsy] at h
            | none =>
              cases hrn : env.renameErr with
              | some e => simp [SwitchCurrent, hsy, hrn] at h
              | none =>
                simp only [SwitchCurrent, hsy, hrn] at h ⊢
                rw [List.append_assoc events]
                refine quiescedOnce_of_parts hr hall ?_ ⟨_, List.mem_append_left _
                  (List.mem_singleton_self _), rfl⟩
                intro e he
                simp only [List.mem_append, List.mem_singleton, List.mem_cons,
                  List.not_mem_nil, or_false] at he
                rcases he with rfl | rfl | rfl | rfl <;> rfl

/-- C8 (amended): every execution of `snapshotCreate` or `setCurrent` that
returns success is either an idempotent replay (the snapshot metadata already
exists, respectively `current` already points at the new live directory), in
which case it issues no filesystem event at all, or its trace holds exactly
one REQUEST_FREEZE write, then an observed FROZEN state before the clone,
and exactly one REQUEST_RESUME write after it, the last event. -/
theorem successful_ops_quiesce_once (env : ExecEnv) (mountPath timeoutText wsid : String)
    (params res : List (String × String)) :
    ((snapshotCreate env mountPath timeoutText wsid params).1 = some (.ok res) →
      (env.metaExists = true ∧ (snapshotCreate env mountPath timeoutText wsid params).2 = []) ∨
      (env.metaExists = false ∧
        QuiescedOnce (controlPathOf (joinPath mountPath wsid)) (paramGet params "task_id")
          (snapshotCreate env mountPath timeoutText wsid params).2)) ∧
    ((setCurrent env mountPath timeoutText wsid params).1 = some (.ok res) →
      (env.readlink.toOption = some (joinPath "live" (paramGet params "new_live_id")) ∧
        (setCurrent env mountPath timeoutText wsid params).2 = []) ∨
      (env.readlink.toOption ≠ some (joinPath "live" (paramGet params "new_live_id")) ∧
        QuiescedOnce (controlPathOf (joinPath mountPath wsid)) (paramGet params "task_id")
          (setCurrent env mountPath timeoutText wsid params).2)) := by
  constructor
  · intro h
    cases hm : env.metaExists with
    | true => left; exact ⟨rfl, by simp [snapshotCreate, hm]⟩
    | false => right; exact ⟨rfl, snapshotCreate_ok env mountPath timeoutText wsid params res h hm⟩
  · intro h
    by_cases hm : env.readlink.toOption = some (joinPath "live" (paramGet params "new_live_id"))
    · left; exact ⟨hm, by simp [setCurrent, hm]⟩
    · right; exact ⟨hm, setCurrent_ok env mountPath timeoutText wsid params res h hm⟩

/-- C8, instance: a fresh snapshot_create and a fresh set_current, the agent
answering FROZEN at the third poll. -/
theorem successful_ops_quiesce_once_witness :
    (snapshotCreate freshEnv "/ws" "30s" "w1" createParams).1 =
      some (.ok [("snapshot_id", "s2"), ("fs_path", "/ws/w1/snapshots/s2")]) ∧
    (setCurrent freshEnv "/ws" "30s" "w1" setCurrentParams).1 =
      some (.ok [("current_path", "/ws/w1/live/abcd1234")]) ∧
    (snapshotCreate freshEnv "/ws" "30s" "w1" createParams).2 =
      [.mkdirAll "/ws/w1/.wvs" true,
       .writeControl "/ws/w1/.wvs/control.json" QuiesceRequestFreeze "t1" true,
       .readControl "/ws/w1/.wvs/control.json" (some QuiesceRequestFreeze),
       .readControl "/ws/w1/.wvs/control.json" none,
       .readControl "/ws/w1/.wvs/control.json" (some QuiesceFrozen),
       .clone "/ws/w1/live/initial" "/ws/w1/snapshots/s2" true,
       .mkdirAll "/ws/w1/snapshots/s2/.wvs" true,
       .writeFile "/ws/w1/snapshots/s2/.wvs/snapshot.json" true,
       .writeControl "/ws/w1/.wvs/control.json" QuiesceRequestResume "t1" true] ∧
    ((freshEnv.metaExists = true ∧
        (snapshotCreate freshEnv "/ws" "30s" "w1" createParams).2 = []) ∨
      (freshEnv.metaExists = false ∧
        QuiescedOnce (controlPathOf (joinPath "/ws" "w1")) (paramGet createParams "task_id")
          (snapshotCreate freshEnv "/ws" "30s" "w1" createParams).2)) ∧
    ((freshEnv.readlink.toOption =
          some (joinPath "live" (paramGet setCurrentParams "new_live_id")) ∧
        (setCurrent freshEnv "/ws" "30s" "w1" setCurrentParams).2 = []) ∨
      (freshEnv.readlink.toOption ≠
          some (joinPath "live" (paramGet setCurrentParams "new_live_id")) ∧
        QuiescedOnce (controlPathOf (joinPath "/ws" "w1"))
          (paramGet setCurrentParams "task_id")
          (setCurrent freshEnv "/ws" "30s" "w1" setCurrentParams).2)) :=
  ⟨rfl, rfl, by decide,
   (successful_ops_quiesce_once freshEnv "/ws" "30s" "w1" createParams
      [("snapshot_id", "s2"), ("fs_path", "/ws/w1/snapshots/s2")]).1 rfl,
   (successful_ops_quiesce_once freshEnv "/ws" "30s" "w1" setCurrentParams
      [("current_path", "/ws/w1/live/abcd1234")]).2 rfl⟩

/-- C8 as stated fails on the replay paths: when the snapshot metadata
already exists `snapshotCreate` returns success, and when `current` already
points at the new live directory `setCurrent` returns success, without a
single event: no REQUEST_FREEZE write, no FROZEN read, no REQUEST_RESUME
write. -/
theorem successful_ops_quiesce_counterexample :
    (snapshotCreate replayEnv "/ws" "30s" "w1" createParams).1 =
      some (.ok [("snapshot_id", "s2"), ("fs_path", "/ws/w1/snapshots/s2")]) ∧
    (snapshotCreate replayEnv "/ws" "30s" "w1" createParams).2 = [] ∧
    (setCurrent replayEnv "/ws" "30s" "w1" setCurrentParams).1 =
      some (.ok [("current_path", "/ws/w1/live/abcd1234")]) ∧
    (setCurrent replayEnv "/ws" "30s" "w1" setCurrentParams).2 = [] ∧
    ((snapshotCreate replayEnv "/ws" "30s" "w1" createParams).2.filter
      (FsEvent.writes QuiesceRequestFreeze)).length = 0 :=
  ⟨rfl, by decide, rfl, by decide, by decide⟩

/-! ## Non-object bodies -/

mutual
/-- On a value that decodes, `json.Marshal` of the decoded value writes the
compact serialization. -/
theorem marshal_eq_compact : ∀ v : JSON, v.decodes = true → v.marshal = v.compact
  | .null _, _ => rfl
  | .bool _ _, _ => rfl
  | .num _ f, h => by
    cases f with
    | none => simp [JSON.decodes] at h
    | some t => rfl
  | .str _ _, _ => rfl
  | .arr _ items, h => by
    have h' : decodesList items = true := by simpa [JSON.decodes] using h
    simp only [JSON.marshal, JSON.compact, marshalList_eq_compactList items h']
  | .obj _ members, h => by
    have h' : decodesMembers members = true := by simpa [JSON.decodes] using h
    simp only [JSON.marshal, JSON.compact, marshalMembers_eq_compactMembers members h']
/-- The same for the elements of an array. -/
theorem marshalList_eq_compactList :
    ∀ xs : List JSON, decodesList xs = true → marshalList xs = compactList xs
  | [], _ => rfl
  | x :: xs, h => by
    have h' : x.decodes = true ∧ decodesList xs = true := by
      simpa [decodesList] using h
    simp only [marshalList, compactList, marshal_eq_compact x h'.1,
      marshalList_eq_compactList xs h'.2]
/-- The same for the members of an object. -/
theorem marshalMembers_eq_compactMembers :
    ∀ ms : List (String × JSON), decodesMembers ms = true →
      marshalMembers ms = compactMembers ms
  | [], _ => rfl
  | (k, v) :: ms, h => by
    have h' : v.decodes = true ∧ decodesMembers ms = true := by
      simpa [decodesMembers] using h
    simp only [marshalMembers, compactMembers, marshal_eq_compact v h'.1,
      marshalMembers_eq_compactMembers ms h'.2]
end

/-- What `sortedJSON` returns on a value that is neither an object nor
`null`: the text `json.Marshal` writes when the value decodes, the bytes of
the value otherwise. -/
theorem sortedJSONDoc_nonobject (v : JSON) (hobj : v.isObject = false)
    (hnull : v.isNull = false) :
    sortedJSONDoc v = if v.decodes then v.marshal else v.src := by
  cases v with
  | null s => simp [JSON.isNull] at hnull
  | obj s ms => simp [JSON.isObject] at hobj
  | bool s b => simp [sortedJSONDoc, JSON.src]
  | num s f => simp [sortedJSONDoc, JSON.src]
  | str s x => simp [sortedJSONDoc, JSON.src]
  | arr s items => simp [sortedJSONDoc, JSON.src]

/-- The value the Go map holds under a key after a function was applied to
every member value. -/
theorem mapGet_map {α β : Type} (f : α → β) (ms : List (String × α)) (k : String) :
    mapGet (ms.map (fun m => (m.1, f m.2))) k = (mapGet ms k).map f := by
  unfold mapGet
  rw [← List.map_reverse, List.find?_map]
  cases h : List.find? ((fun m : String × β => m.1 == k) ∘ fun m : String × α => (m.1, f m.2))
      ms.reverse with
  | none =>
    have : List.find? (fun m : String × α => m.1 == k) ms.reverse = none := h
    simp [this]
  | some x =>
    have : List.find? (fun m : String × α => m.1 == k) ms.reverse = some x := h
    simp [this]

/-- C11 (amended): for every valid body `v` that is neither an object nor
`null`, `sortedJSON` returns the compact serialization of `v` (array elements
in their original order) when every number literal of `v` is within the
`float64` range, and the bytes of `v` as they are otherwise; and when such a
`v` within the range is the value an object holds under a key, the text
`sortedJSON` writes under that key is the compact serialization of `v`. -/
theorem sortedJSON_nonobject_compact (v : JSON) (hobj : v.isObject = false)
    (hnull : v.isNull = false) :
    (v.decodes = true → sortedJSON (.valid v) = v.compact) ∧
    (v.decodes = false → sortedJSON (.valid v) = v.src) ∧
    (v.decodes = true → ∀ (s k : String) (members : List (String × JSON)),
      mapGet members k = some v →
      sortedJSON (.valid (.obj s members)) = encodeObject (sortedMembers members) ∧
      mapGet (sortedMembers members) k = some v.compact) := by
  have hdoc := sortedJSONDoc_nonobject v hobj hnull
  refine ⟨?_, ?_, ?_⟩
  · intro hd
    show sortedJSONDoc v = v.compact
    rw [hdoc, if_pos hd, marshal_eq_compact v hd]
  · intro hd
    show sortedJSONDoc v = v.src
    rw [hdoc, hd]
    rfl
  · intro hd s k members hk
    refine ⟨rfl, ?_⟩
    rw [sortedMembers_eq_map, mapGet_map, hk, Option.map_some', hdoc, if_pos hd,
      marshal_eq_compact v hd]

/-- C11, an instance: the array `[3, 1, [2, "a<b"], true, null]` and the
array held by the object `{"b": [2, 1], "a": "x"}`. -/
theorem sortedJSON_nonobject_compact_witness :
    sortedJSON (.valid bodyArraySpaced) = "[3,1,[2,\"a\\u003cb\"],true,null]" ∧
    sortedJSON (.valid bodyNestedArray) = "\x7b\"a\":\"x\",\"b\":[2,1]\x7d" ∧
    mapGet (sortedMembers bodyNestedArray.membersOf) "b" = some "[2,1]" :=
  ⟨((sortedJSON_nonobject_compact bodyArraySpaced (by decide) (by decide)).1
      (by decide)).trans (by decide),
   by decide,
   (((sortedJSON_nonobject_compact
      (.arr "[2, 1]" [.num "2" (some "2"), .num "1" (some "1")]) (by decide) (by decide)).2.2
      (by decide) "" "b" bodyNestedArray.membersOf rfl).2).trans (by decide)⟩

/-- C11 as stated fails: the valid non-object body `[1e999, 1]` comes back
byte for byte, blank included, which is not its compact serialization. -/
theorem sortedJSON_nonobject_counterexample :
    bodyOverflowSpaced.isObject = false ∧
    sortedJSON (.valid bodyOverflowSpaced) = "[1e999, 1]" ∧
    bodyOverflowSpaced.compact = "[1e999,1]" ∧
    sortedJSON (.valid bodyOverflowSpaced) ≠ bodyOverflowSpaced.compact := by
  decide

/-! ## Worker: onSuccess, the set_current short-circuit, the drop guard -/

theorem find?_filter_of_imp {α : Type} (p q : α → Bool) (h : ∀ a, q a = true → p a = true)
    (l : List α) : (l.filter p).find? q = l.find? q := by
  induction l with
  | nil => rfl
  | cons a l ih =>
    by_cases hq : q a = true
    · simp [List.filter_cons, h a hq, hq]
    · by_cases hp : p a = true
      · simp [List.filter_cons, hp, hq, ih]
      · simp [List.filter_cons, hp, hq, ih]

/-- Assigning one key of a Go map leaves the value under every other key. -/
theorem paramGet_paramSet_ne (params : List (String × String)) {k k' : String} (v : String)
    (h : k' ≠ k) : paramGet (paramSet params k v) k' = paramGet params k' := by
  unfold paramGet mapGet paramSet
  have hk : ((k == k') = false) := by simpa using Ne.symm h
  rw [List.reverse_append, List.reverse_cons, List.reverse_nil, List.nil_append,
    List.singleton_append, List.find?_cons, hk, ← List.filter_reverse]
  rw [find?_filter_of_imp]
  intro a ha
  simp only [beq_iff_eq] at ha
  simp [ha, h]

/-- C12: `onSuccess` issues the one database mutation of the op and then the
completion of the task, and nothing else: for `init_workspace` the workspace
state is set to ACTIVE; for `snapshot_create` one snapshot row is inserted
with `snapshot_id` and `message` from the params of the task and `fs_path`
from the results of the executor; for `set_current` one update sets
`current_snapshot_id` from the params and `current_path` from the results;
for `snapshot_drop` there is no mutation.  The completion is issued last in
every case, the outcome of the mutation not being looked at, and it leaves
the task row SUCCEEDED with the JSON encoding of the result map as result. -/
theorem onSuccess_mutation_then_completes (task : WvsTask)
    (results : Option (List (String × String))) :
    (task.Op = OpInitWorkspace → onSuccess task results =
      [.UpdateWorkspaceState task.Wsid WorkspaceActive, completeSucceeded task results]) ∧
    (task.Op = OpSnapshotCreate → onSuccess task results =
      [.CreateSnapshot (paramGet task.Params "snapshot_id") task.Wsid
          (resultGet results "fs_path") (textFromString (paramGet task.Params "message")),
       completeSucceeded task results]) ∧
    (task.Op = OpSetCurrent → onSuccess task results =
      [.UpdateWorkspaceCurrent task.Wsid
          (textFromString (paramGet task.Params "snapshot_id"))
          (resultGet results "current_path"),
       completeSucceeded task results]) ∧
    (task.Op = OpSnapshotDrop → onSuccess task results = [completeSucceeded task results]) ∧
    (∃ pre, onSuccess task results = pre ++ [completeSucceeded task results] ∧
      pre.length ≤ 1 ∧ ∀ e ∈ pre, e.isMutation = true) ∧
    (∀ (now delay : Nat) (db : DB),
      GetTask (applyEffects now delay db (onSuccess task results)) task.TaskID =
        (GetTask db task.TaskID).map (fun row =>
          { row with Status := TaskSucceeded, EndedAt := some now,
                     Result := some (marshalStringMap results), Error := none })) := by
  refine ⟨?_, ?_, ?_, ?_, ?_, ?_⟩
  · intro h
    simp [onSuccess, h, completeSucceeded]
  · intro h
    simp [onSuccess, h, completeSucceeded, OpSnapshotCreate, OpInitWorkspace]
  · intro h
    simp [onSuccess, h, completeSucceeded, OpSnapshotCreate, OpInitWorkspace, OpSetCurrent]
  · intro h
    simp [onSuccess, h, completeSucceeded, OpSnapshotCreate, OpInitWorkspace, OpSetCurrent,
      OpSnapshotDrop]
  · unfold onSuccess
    refine ⟨_, rfl, ?_, ?_⟩
    · split
      · simp
      · split
        · simp
        · split <;> simp
    · intro e he
      split at he
      · simp only [List.mem_singleton] at he; subst he; rfl
      · split at he
        · simp only [List.mem_singleton] at he; subst he; rfl
        · split at he
          · simp only [List.mem_singleton] at he; subst he; rfl
          · cases he
  · intro now delay db
    unfold GetTask
    rw [applyEffects_tasks,
      GetTask_tasks_map _ _ (fun t => ((endsAttempt_onSuccess now delay task results) t).1)]
    cases hg : db.tasks.find? (fun t => t.TaskID = task.TaskID) with
    | none => rfl
    | some row =>
      have hid : row.TaskID = task.TaskID := by simpa using List.find?_some hg
      simp only [Option.map_some', Option.some.injEq]
      unfold onSuccess
      rw [effectsOnTask_append]
      have hn : ∀ t, effectsOnTask now delay
          (if task.Op = OpInitWorkspace then
            [Effect.UpdateWorkspaceState task.Wsid WorkspaceActive]
          else if task.Op = OpSnapshotCreate then
            [Effect.CreateSnapshot (paramGet task.Params "snapshot_id") task.Wsid
              (resultGet results "fs_path") (textFromString (paramGet task.Params "message"))]
          else if task.Op = OpSetCurrent then
            [Effect.UpdateWorkspaceCurrent task.Wsid
              (textFromString (paramGet task.Params "snapshot_id"))
              (resultGet results "current_path")]
          else []) t = t := by
        intro t
        split
        · rfl
        · split
          · rfl
          · split <;> rfl
      rw [hn]
      simp [effectsOnTask_cons, effectsOnTask_nil, effectOnTask, hid]

/-- C12, an instance: the snapshot row `s1` exists already, so the insert of
`onSuccess` fails; the task is completed all the same. -/
theorem onSuccess_mutation_then_completes_witness :
    onSuccess runningCreateTask (some createResults) =
      [.CreateSnapshot "s1" "w1" "/ws/w1/snapshots/s1" (some "first"),
       .CompleteTask "t1" TaskSucceeded
         (some "\x7b\"fs_path\":\"/ws/w1/snapshots/s1\",\"snapshot_id\":\"s1\"\x7d") none] ∧
    (applyEffects 20 0 dbRunningCreate
      (onSuccess runningCreateTask (some createResults))).snapshots = dbOneSnapshot.snapshots ∧
    statusOf (applyEffects 20 0 dbRunningCreate
      (onSuccess runningCreateTask (some createResults))) "t1" = some TaskSucceeded :=
  ⟨((onSuccess_mutation_then_completes runningCreateTask (some createResults)).2.1 rfl).trans
      (by decide),
   by decide, by decide⟩

theorem callExecutor_calls {env : WorkerEnv} {task : WvsTask} (params : List (String × String))
    (h : opMapHas task.Op = true) :
    ∃ rest, callExecutor env task params =
      .ExecuteTask { TaskId := task.TaskID, Wsid := task.Wsid, Op := task.Op,
                     Params := params } :: rest := by
  unfold callExecutor
  simp only [h, not_true_eq_false, if_false]
  exact ⟨_, rfl⟩

/-- C13: for a `set_current` task, when the re-read workspace row has
`current_snapshot_id` set and equal to the `snapshot_id` of the params,
`dispatch` issues the completion of the task as SUCCEEDED with result
`{"noop":true}` and nothing else: no executor call and no write of the
workspace row.  When the value differs or is unset (or the row cannot be
read), the first thing `dispatch` issues is the executor call. -/
theorem dispatch_set_current_noop (env : WorkerEnv) (db : DB) (task : WvsTask)
    (hop : task.Op = OpSetCurrent) :
    (∀ ws, env.getWorkspaceErr = false → GetWorkspace db task.Wsid = some ws →
      ws.CurrentSnapshotID = some (paramGet task.Params "snapshot_id") →
        dispatch env db task =
          [.CompleteTask task.TaskID TaskSucceeded (some "\x7b\"noop\":true\x7d") none] ∧
        ∀ e ∈ dispatch env db task, e.isExecuteTask = false ∧ e.writesWorkspace = false) ∧
    (∀ ws, env.getWorkspaceErr = false → GetWorkspace db task.Wsid = some ws →
      ws.CurrentSnapshotID ≠ some (paramGet task.Params "snapshot_id") →
        ∃ rest, dispatch env db task = .ExecuteTask (executorRequest task) :: rest) ∧
    ((env.getWorkspaceErr = true ∨ GetWorkspace db task.Wsid = none) →
        ∃ rest, dispatch env db task = .ExecuteTask (executorRequest task) :: rest) := by
  have hsid : paramGet (paramSet task.Params "task_id" task.TaskID) "snapshot_id" =
      paramGet task.Params "snapshot_id" :=
    paramGet_paramSet_ne task.Params task.TaskID (by decide)
  have hmap : opMapHas task.Op = true := by simp [opMapHas, hop]
  have hcall : ∃ rest, callExecutor env task (paramSet task.Params "task_id" task.TaskID) =
      .ExecuteTask (executorRequest task) :: rest := callExecutor_calls _ hmap
  refine ⟨?_, ?_, ?_⟩
  · intro ws herr hws hcur
    have hd : dispatch env db task =
        [.CompleteTask task.TaskID TaskSucceeded (some "\x7b\"noop\":true\x7d") none] := by
      unfold dispatch checkSetCurrentNoop
      simp [hop, herr, hws, hsid, hcur]
    refine ⟨hd, ?_⟩
    intro e he
    rw [hd, List.mem_singleton] at he
    subst he
    exact ⟨rfl, rfl⟩
  · intro ws herr hws hcur
    obtain ⟨rest, hr⟩ := hcall
    refine ⟨rest, ?_⟩
    unfold dispatch checkSetCurrentNoop
    simp [hop, herr, hws, hsid, hcur, hr]
  · intro h
    obtain ⟨rest, hr⟩ := hcall
    refine ⟨rest, ?_⟩
    unfold dispatch checkSetCurrentNoop
    rcases h with h | h
    · simp [hop, h, hr]
    · by_cases herr : env.getWorkspaceErr = true
      · simp [hop, herr, hr]
      · simp [hop, herr, h, hr]

/-- A property of effects that holds of what `failTask` and `onSuccess`
issue, of the executor call and of the completion of the short-circuit holds
of everything `dispatch` issues. -/
theorem dispatch_effects (P : Effect → Prop) (env : WorkerEnv) (db : DB) (l : WvsTask)
    (hfail : ∀ err, ∀ e ∈ failTask l err, P e)
    (hsucc : ∀ results, ∀ e ∈ onSuccess l results, P e)
    (hexec : ∀ req, P (.ExecuteTask req))
    (hnoop : ∀ result, P (.CompleteTask l.TaskID TaskSucceeded result none)) :
    ∀ e ∈ dispatch env db l, P e := by
  have hcall : ∀ params, ∀ e ∈ callExecutor env l params, P e := by
    intro params e he
    unfold callExecutor at he
    by_cases hop : opMapHas l.Op = true
    · simp only [hop, not_true_eq_false, if_false, List.mem_cons] at he
      rcases he with rfl | he
      · exact hexec _
      · cases hrpc : env.rpc with
        | error err => rw [hrpc] at he; exact hfail _ e he
        | ok resp =>
          rw [hrpc] at he
          by_cases hs : resp.Success = true
          · simp only [hs, not_true_eq_false, if_false] at he
            exact hsucc _ e he
          · simp only [hs, not_false_eq_true, if_true] at he
            exact hfail _ e he
    · simp only [hop, not_false_eq_true, if_true] at he
      exact hfail _ e he
  intro e he
  unfold dispatch at he
  by_cases hop : l.Op = OpSetCurrent
  · simp only [hop, if_true] at he
    unfold checkSetCurrentNoop at he
    by_cases hg : env.getWorkspaceErr = true
    · simp only [hg, if_true, List.nil_append] at he
      exact hcall _ e he
    · simp only [hg, Bool.false_eq_true, if_false] at he
      cases hw : GetWorkspace db l.Wsid with
      | none =>
        simp only [hw, List.nil_append] at he
        exact hcall _ e he
      | some ws =>
        simp only [hw] at he
        by_cases hc : ws.CurrentSnapshotID =
            some (paramGet (paramSet l.Params "task_id" l.TaskID) "snapshot_id")
        · simp only [hc, if_true, List.mem_singleton] at he
          subst he
          exact hnoop _
        · simp only [hc, if_false, List.nil_append] at he
          exact hcall _ e he
  · simp only [hop, if_false] at he
    exact hcall _ e he

theorem failTask_effects (l : WvsTask) (err : String) :
    ∀ e ∈ failTask l err, e.isMarkSnapshotDeleted = false ∧ e.isExecuteTask = false := by
  intro e he
  unfold failTask at he
  by_cases h : l.Attempt ≥ l.MaxAttempts
  · rw [if_pos h] at he
    by_cases hop : l.Op = OpInitWorkspace
    · rw [if_pos hop] at he
      simp only [List.mem_cons, List.mem_singleton, List.not_mem_nil, or_false] at he
      rcases he with rfl | rfl <;> exact ⟨rfl, rfl⟩
    · rw [if_neg hop] at he
      simp only [List.mem_singleton] at he
      subst he; exact ⟨rfl, rfl⟩
  · rw [if_neg h] at he
    simp only [List.mem_singleton] at he
    subst he; exact ⟨rfl, rfl⟩

theorem onSuccess_effects (l : WvsTask) (results : Option (List (String × String))) :
    ∀ e ∈ onSuccess l results, e.isMarkSnapshotDeleted = false ∧ e.isExecuteTask = false := by
  intro e he
  unfold onSuccess at he
  rw [List.mem_append] at he
  rcases he with he | he
  · by_cases h1 : l.Op = OpInitWorkspace
    · rw [if_pos h1] at he; simp only [List.mem_singleton] at he; subst he; exact ⟨rfl, rfl⟩
    · rw [if_neg h1] at he
      by_cases h2 : l.Op = OpSnapshotCreate
      · rw [if_pos h2] at he; simp only [List.mem_singleton] at he; subst he; exact ⟨rfl, rfl⟩
      · rw [if_neg h2] at he
        by_cases h3 : l.Op = OpSetCurrent
        · rw [if_pos h3] at he; simp only [List.mem_singleton] at he; subst he
          exact ⟨rfl, rfl⟩
        · rw [if_neg h3] at he; cases he
  · simp only [List.mem_singleton] at he; subst he; exact ⟨rfl, rfl⟩

theorem dispatch_no_markDeleted (env : WorkerEnv) (db : DB) (l : WvsTask) :
    ∀ e ∈ dispatch env db l, e.isMarkSnapshotDeleted = false := by
  apply dispatch_effects (fun e => e.isMarkSnapshotDeleted = false)
  · intro err e he; exact (failTask_effects l err e he).1
  · intro results e he; exact (onSuccess_effects l results e he).1
  · intro req; rfl
  · intro result; rfl

/-- C13, an instance: with `s1` current the task is completed as a noop; with
no current snapshot the executor is called first. -/
theorem dispatch_set_current_noop_witness :
    dispatch (okEnv []) dbCurrentS1 runningSetCurrentTask =
      [.CompleteTask "t1" TaskSucceeded (some "\x7b\"noop\":true\x7d") none] ∧
    (dispatch (okEnv []) dbOneSnapshot runningSetCurrentTask).head? =
      some (.ExecuteTask { TaskId := "t1", Wsid := "w1", Op := OpSetCurrent,
                           Params := [("snapshot_id", "s1"), ("new_live_id", "abcd1234"),
                                      ("task_id", "t1")] }) :=
  ⟨(((dispatch_set_current_noop (okEnv []) dbCurrentS1 runningSetCurrentTask rfl).1
      { Wsid := "w1", RootPath := "/ws/w1", Owner := "a", State := WorkspaceActive,
        CurrentSnapshotID := some "s1", CurrentPath := "/ws/w1/live/abcd1234",
        CreatedAt := 0, UpdatedAt := 5 } rfl (by decide) (by decide)).1).trans (by decide),
   by decide⟩

/-- C14 (amended): in `executeWithLock`, once the transaction has begun and
the lock is held, a `snapshot_drop` task has the `deleted_at` of its snapshot
committed exactly when the in-lock reference test returns false without
error and both `MarkSnapshotDeleted` and the commit succeed, and the mark
then comes before everything `dispatch` issues, the executor call included;
when the test returns true or fails, and when the mark or the commit fails,
only `failTask` is called: nothing is marked deleted and the executor is not
called.  For every other op nothing is written inside the transaction: the
effects are those of `dispatch` when the commit succeeds and those of
`failTask` when it fails. -/
theorem executeWithLock_drop_guard (env : WorkerEnv) (db : DB) (task : WvsTask)
    (hbegin : env.beginErr = none) (hlock : env.lockErr = none) :
    (task.Op = OpSnapshotDrop →
      ((∃ e ∈ executeWithLock env db task, e.isMarkSnapshotDeleted = true) ↔
        (referenceTestPasses env db task = true ∧ env.markDeletedErr = none ∧
          env.commitErr = none)) ∧
      (referenceTestPasses env db task = true → env.markDeletedErr = none →
        env.commitErr = none →
        executeWithLock env db task =
          .MarkSnapshotDeleted (paramGet task.Params "snapshot_id") :: dispatch env db task) ∧
      (referenceTestPasses env db task = false →
        executeWithLock env db task = failTask task "snapshot still referenced") ∧
      (∀ err, referenceTestPasses env db task = true →
        (env.markDeletedErr = some err ∨
          (env.markDeletedErr = none ∧ env.commitErr = some err)) →
        executeWithLock env db task = failTask task err)) ∧
    (task.Op ≠ OpSnapshotDrop →
      (env.commitErr = none → executeWithLock env db task = dispatch env db task) ∧
      (∀ err, env.commitErr = some err → executeWithLock env db task = failTask task err) ∧
      ∀ e ∈ executeWithLock env db task, e.isMarkSnapshotDeleted = false) ∧
    (∀ err, ∀ e ∈ failTask task err,
      e.isMarkSnapshotDeleted = false ∧ e.isExecuteTask = false) ∧
    (∀ e ∈ dispatch env db task, e.isMarkSnapshotDeleted = false) := by
  have hF := failTask_effects task
  have hD := dispatch_no_markDeleted env db task
  have hnoF : ∀ err, ¬ ∃ e ∈ failTask task err, e.isMarkSnapshotDeleted = true := by
    rintro err ⟨e, he, hm⟩
    rw [(hF err e he).1] at hm
    cases hm
  refine ⟨?_, ?_, hF, hD⟩
  · intro hop
    have hpass : referenceTestPasses env db task = true ↔
        ¬ (env.referencedErr = true ∨ IsSnapshotReferencedByTasks db task.TaskID task.Wsid
          (paramGet task.Params "snapshot_id") = true) := by
      simp [referenceTestPasses]
    have hexec : ∀ (href : referenceTestPasses env db task = true),
        executeWithLock env db task =
          match env.markDeletedErr with
          | some err => failTask task err
          | none =>
            match env.commitErr with
            | some err => failTask task err
            | none =>
              .MarkSnapshotDeleted (paramGet task.Params "snapshot_id") ::
                dispatch env db task := by
      intro href
      unfold executeWithLock
      rw [hbegin, hlock]
      exact (if_pos hop).trans ((if_neg (hpass.mp href)).trans rfl)
    have hfailed : referenceTestPasses env db task = false →
        executeWithLock env db task = failTask task "snapshot still referenced" := by
      intro href
      have : env.referencedErr = true ∨ IsSnapshotReferencedByTasks db task.TaskID task.Wsid
          (paramGet task.Params "snapshot_id") = true := by
        by_contra hcon
        rw [hpass.mpr hcon] at href
        cases href
      unfold executeWithLock
      simp only [hbegin, hlock, hop, if_true]
      rw [if_pos this]
    refine ⟨?_, ?_, hfailed, ?_⟩
    · constructor
      · rintro ⟨e, he, hm⟩
        by_cases href : referenceTestPasses env db task = true
        · rw [hexec href] at he
          cases hmk : env.markDeletedErr with
          | some err => rw [hmk] at he; exact absurd ⟨e, he, hm⟩ (hnoF err)
          | none =>
            rw [hmk] at he
            cases hc : env.commitErr with
            | some err => rw [hc] at he; exact absurd ⟨e, he, hm⟩ (hnoF err)
            | none => exact ⟨href, rfl, rfl⟩
        · have href' : referenceTestPasses env db task = false := by simpa using href
          rw [hfailed href'] at he
          exact absurd ⟨e, he, hm⟩ (hnoF _)
      · rintro ⟨href, hmk, hc⟩
        rw [hexec href, hmk, hc]
        exact ⟨_, List.mem_cons_self _ _, rfl⟩
    · intro href hmk hc
      rw [hexec href, hmk, hc]
    · intro err href h
      rw [hexec href]
      rcases h with h | ⟨h1, h2⟩
      · rw [h]
      · rw [h1, h2]
  · intro hop
    have hexec : executeWithLock env db task =
        match env.commitErr with
        | some err => failTask task err
        | none => dispatch env db task := by
      unfold executeWithLock
      rw [hbegin, hlock]
      exact (if_neg hop).trans rfl
    refine ⟨?_, ?_, ?_⟩
    · intro hc; rw [hexec, hc]
    · intro err hc; rw [hexec, hc]
    · intro e he
      rw [hexec] at he
      cases hc : env.commitErr with
      | some err => rw [hc] at he; exact (hF err e he).1
      | none => rw [hc] at he; exact hD e he

/-- C14, instances: the drop of `s1` with nothing in the way marks the
snapshot deleted and then calls the executor; with a PENDING `set_current`
to `s1` in the queue it only fails the task. -/
theorem executeWithLock_drop_guard_witness :
    executeWithLock (okEnv []) dbDropRunning runningDropTask =
      [.MarkSnapshotDeleted "s1",
       .ExecuteTask { TaskId := "t2", Wsid := "w1", Op := OpSnapshotDrop,
                      Params := [("snapshot_id", "s1"), ("task_id", "t2")] },
       .CompleteTask "t2" TaskSucceeded (some "\x7b\x7d") none] ∧
    executeWithLock (okEnv []) dbDropReferenced runningDropTask =
      [.FailTask "t2" "\x7b\"error\":\"snapshot still referenced\"\x7d"] :=
  ⟨((((executeWithLock_drop_guard (okEnv []) dbDropRunning runningDropTask rfl rfl).1
      rfl).2.1) (by decide) rfl rfl).trans (by decide),
   ((((executeWithLock_drop_guard (okEnv []) dbDropReferenced runningDropTask rfl rfl).1
      rfl).2.2.1) (by decide)).trans (by decide)⟩

/-- C14 as stated fails: the reference test returns false without error,
the commit of the lock transaction fails, and no `deleted_at` is
committed. -/
theorem executeWithLock_drop_guard_counterexample :
    runningDropTask.Op = OpSnapshotDrop ∧
    commitFailEnv.referencedErr = false ∧
    IsSnapshotReferencedByTasks dbDropRunning "t2" "w1" "s1" = false ∧
    referenceTestPasses commitFailEnv dbDropRunning runningDropTask = true ∧
    executeWithLock commitFailEnv dbDropRunning runningDropTask =
      [.FailTask "t2" "\x7b\"error\":\"conn closed\"\x7d"] ∧
    ¬ ∃ e ∈ executeWithLock commitFailEnv dbDropRunning runningDropTask,
      e.isMarkSnapshotDeleted = true := by
  decide

/-- `CancelTask` rewrites task rows with the given id only, keeps their ids,
and touches neither workspaces nor snapshots. -/
theorem CancelTask_frame (db : DB) (now : Nat) (taskID : String) :
    (∃ f : WvsTask → WvsTask, (∀ u, (f u).TaskID = u.TaskID) ∧
      (∀ u, u.TaskID ≠ taskID → f u = u) ∧
      (CancelTask db now taskID).1.tasks = db.tasks.map f) ∧
    (CancelTask db now taskID).1.workspaces = db.workspaces ∧
    (CancelTask db now taskID).1.snapshots = db.snapshots := by
  have hid : (∃ f : WvsTask → WvsTask, (∀ u, (f u).TaskID = u.TaskID) ∧
      (∀ u, u.TaskID ≠ taskID → f u = u) ∧ db.tasks = db.tasks.map f) ∧
      db.workspaces = db.workspaces ∧ db.snapshots = db.snapshots :=
    ⟨⟨fun u => u, fun _ => rfl, fun _ _ => rfl, (map_eq_self _ _ (fun _ => rfl)).symm⟩,
      rfl, rfl⟩
  unfold CancelTask
  cases hg : GetTask db taskID with
  | none => exact hid
  | some task =>
    simp only
    split
    · exact hid
    · split
      · cases hc : CancelPendingTask db now taskID with
        | none => exact hid
        | some db₁ =>
          unfold CancelPendingTask at hc
          split at hc
          · simp only [Option.some.injEq] at hc
            subst hc
            refine ⟨⟨_, ?_, ?_, rfl⟩, rfl, rfl⟩
            · intro u; split <;> rfl
            · intro u hu
              rw [if_neg (fun h => hu h.1)]
          · cases hc
      · cases hc : RequestCancelRunningTask db taskID with
        | none => exact hid
        | some db₁ =>
          unfold RequestCancelRunningTask at hc
          split at hc
          · simp only [Option.some.injEq] at hc
            subst hc
            refine ⟨⟨_, ?_, ?_, rfl⟩, rfl, rfl⟩
            · intro u; split <;> rfl
            · intro u hu
              rw [if_neg (fun h => hu h.1)]
          · cases hc

/-- C15: for an existing task, `CancelTask` answers by status.  In a terminal
status (SUCCEEDED, CANCELED, DEAD) it leaves the store as it is and returns
the row.  A PENDING task gets the status CANCELED (with `ended_at`), a
RUNNING task gets `cancel_requested` set and nothing else, its status staying
RUNNING; in both cases every other task row, the workspaces and the
snapshots are left as they are. -/
theorem CancelTask_by_status (db : DB) (now : Nat) (taskID : String) (task : WvsTask)
    (hget : GetTask db taskID = some task) :
    (isTerminalStatus task.Status = true → CancelTask db now taskID = (db, .okTask task)) ∧
    (task.Status = TaskPending →
      GetTask (CancelTask db now taskID).1 taskID =
        some { task with Status := TaskCanceled, EndedAt := some now } ∧
      (CancelTask db now taskID).2 = .okTask { task with Status := TaskCanceled }) ∧
    (task.Status = TaskRunning →
      GetTask (CancelTask db now taskID).1 taskID =
        some { task with CancelRequested := true } ∧
      (CancelTask db now taskID).2 = .okTask { task with CancelRequested := true }) ∧
    (∀ id, id ≠ taskID →
      GetTask (CancelTask db now taskID).1 id = GetTask db id) ∧
    (CancelTask db now taskID).1.workspaces = db.workspaces ∧
    (CancelTask db now taskID).1.snapshots = db.snapshots := by
  obtain ⟨hmem, hid⟩ := GetTask_some hget
  have hfind : db.tasks.find? (fun t => t.TaskID = taskID) = some task := hget
  refine ⟨?_, ?_, ?_, ?_, ?_, ?_⟩
  · intro ht
    simp [CancelTask, hget, ht]
  · intro hp
    have hany : db.tasks.any (fun t => t.TaskID = taskID ∧ t.Status = TaskPending) = true := by
      rw [List.any_eq_true]
      exact ⟨task, hmem, by simp [hid, hp]⟩
    have hterm : isTerminalStatus TaskPending = false := rfl
    simp only [CancelTask, hget, hterm, hp, CancelPendingTask, hany, if_true,
      Bool.false_eq_true, if_false, writeAudit]
    refine ⟨?_, trivial⟩
    unfold GetTask
    rw [GetTask_tasks_map _ _ (fun t => by split <;> rfl), hfind]
    simp [hid, hp]
  · intro hr
    have hany : db.tasks.any (fun t => t.TaskID = taskID ∧ t.Status = TaskRunning) = true := by
      rw [List.any_eq_true]
      exact ⟨task, hmem, by simp [hid, hr]⟩
    have hterm : isTerminalStatus TaskRunning = false := rfl
    have hnp : ¬ TaskRunning = TaskPending := by decide
    simp only [CancelTask, hget, hterm, hr, hnp, RequestCancelRunningTask, hany, if_true,
      Bool.false_eq_true, if_false, writeAudit]
    refine ⟨?_, trivial⟩
    unfold GetTask
    rw [GetTask_tasks_map _ _ (fun t => by split <;> rfl), hfind]
    simp [hid, hr]
  · intro id hne
    obtain ⟨⟨f, hfid, hfne, hft⟩, -, -⟩ := CancelTask_frame db now taskID
    unfold GetTask
    rw [hft, GetTask_tasks_map _ f hfid]
    cases hf : db.tasks.find? (fun t => t.TaskID = id) with
    | none => rfl
    | some u =>
      have hu : u.TaskID = id := by simpa using List.find?_some hf
      simp only [Option.map_some', Option.some.injEq]
      exact hfne u (by rw [hu]; exact hne)
  · exact (CancelTask_frame db now taskID).2.1
  · exact (CancelTask_frame db now taskID).2.2

/-- C15, instances: a PENDING task is canceled, a RUNNING task only gets the
flag, a DEAD task is returned as it is. -/
theorem CancelTask_by_status_witness :
    GetTask (CancelTask (sysPending 5).db 7 "t1").1 "t1" =
      some { pendingTask 5 with Status := TaskCanceled, EndedAt := some 7 } ∧
    GetTask (CancelTask dbDropRunning 7 "t2").1 "t2" =
      some { runningDropTask with CancelRequested := true } ∧
    (CancelTask sysDeadAfterTwo.db 7 "t1").1 = sysDeadAfterTwo.db :=
  ⟨((CancelTask_by_status (sysPending 5).db 7 "t1" (pendingTask 5) rfl).2.1 rfl).1,
   ((CancelTask_by_status dbDropRunning 7 "t2" runningDropTask rfl).2.2.1 rfl).1,
   by decide⟩

theorem attemptEnds_failTask (env : WorkerEnv) (l : WvsTask) (err : String) :
    AttemptEnds env l (failTask l err) (failStatus l) := by
  refine ⟨Or.inr rfl, ?_⟩
  rintro ⟨e, he, hx⟩
  rw [(failTask_effects l err e he).2] at hx
  cases hx

theorem attemptEnds_cons (env : WorkerEnv) (l : WvsTask) (e : Effect) (es : List Effect)
    (st : TaskStatus) (he : e.isExecuteTask = false) (h : AttemptEnds env l es st) :
    AttemptEnds env l (e :: es) st := by
  refine ⟨h.1, ?_⟩
  rintro ⟨x, hx, hxe⟩
  rcases List.mem_cons.mp hx with rfl | hx
  · rw [he] at hxe; cases hxe
  · exact h.2 ⟨x, hx, hxe⟩

theorem endsAttempt_callExecutor_strict (now delay : Nat) (env : WorkerEnv) (l : WvsTask)
    (params : List (String × String)) :
    ∃ st, AttemptEnds env l (callExecutor env l params) st ∧
      EndsAttempt now delay l (callExecutor env l params) st := by
  unfold callExecutor
  by_cases hop : opMapHas l.Op = true
  · simp only [hop, not_true_eq_false, if_false]
    cases hrpc : env.rpc with
    | error err =>
      refine ⟨failStatus l, ⟨Or.inr rfl, fun _ => ?_⟩,
        endsAttempt_cons_of_neutral (fun _ => rfl) (endsAttempt_failTask now delay l _)⟩
      simp [WorkerEnv.rpcSucceeds, hrpc]
    | ok resp =>
      by_cases hs : resp.Success = true
      · simp only [hs, not_true_eq_false, if_false]
        refine ⟨TaskSucceeded, ⟨Or.inl rfl, fun _ => ?_⟩,
          endsAttempt_cons_of_neutral (fun _ => rfl) (endsAttempt_onSuccess now delay l _)⟩
        simp [WorkerEnv.rpcSucceeds, hrpc, hs]
      · simp only [hs, not_false_eq_true, if_true]
        refine ⟨failStatus l, ⟨Or.inr rfl, fun _ => ?_⟩,
          endsAttempt_cons_of_neutral (fun _ => rfl) (endsAttempt_failTask now delay l _)⟩
        simp [WorkerEnv.rpcSucceeds, hrpc, hs]
  · simp only [hop, not_false_eq_true, if_true]
    exact ⟨failStatus l, attemptEnds_failTask env l _, endsAttempt_failTask now delay l _⟩

theorem endsAttempt_dispatch_strict (now delay : Nat) (env : WorkerEnv) (db : DB)
    (l : WvsTask) :
    ∃ st, AttemptEnds env l (dispatch env db l) st ∧
      EndsAttempt now delay l (dispatch env db l) st := by
  unfold dispatch
  by_cases hop : l.Op = OpSetCurrent
  · simp only [hop, if_true]
    unfold checkSetCurrentNoop
    by_cases hg : env.getWorkspaceErr = true
    · simpa [hg] using endsAttempt_callExecutor_strict now delay env l _
    · simp only [hg, Bool.false_eq_true, if_false]
      cases hw : GetWorkspace db l.Wsid with
      | none => simpa using endsAttempt_callExecutor_strict now delay env l _
      | some ws =>
        by_cases hc : ws.CurrentSnapshotID =
            some (paramGet (paramSet l.Params "task_id" l.TaskID) "snapshot_id")
        · simp only [hc, if_true]
          refine ⟨TaskSucceeded, ⟨Or.inl rfl, ?_⟩, endsAttempt_complete now delay l _ _ _⟩
          rintro ⟨e, he, hx⟩
          rw [List.mem_singleton] at he
          subst he
          cases hx
        · simp only [hc, if_false]
          simpa using endsAttempt_callExecutor_strict now delay env l _
  · simp only [hop, if_false]
    exact endsAttempt_callExecutor_strict now delay env l _

/-- An attempt that goes through `executeWithLock` ends SUCCEEDED or with the
status `failTask` chooses, never CANCELED. -/
theorem endsAttempt_executeWithLock_strict (now delay : Nat) (env : WorkerEnv) (db : DB)
    (l : WvsTask) :
    ∃ st, AttemptEnds env l (executeWithLock env db l) st ∧
      EndsAttempt now delay l (executeWithLock env db l) st := by
  have hfail : ∀ err, ∃ st, AttemptEnds env l (failTask l err) st ∧
      EndsAttempt now delay l (failTask l err) st :=
    fun err => ⟨failStatus l, attemptEnds_failTask env l err,
      endsAttempt_failTask now delay l err⟩
  unfold executeWithLock
  cases env.beginErr with
  | some err => exact hfail err
  | none =>
    cases env.lockErr with
    | some err => exact hfail err
    | none =>
      simp only
      split
      · split
        · exact hfail _
        · cases env.markDeletedErr with
          | some err => exact hfail err
          | none =>
            cases env.commitErr with
            | some err => exact hfail err
            | none =>
              obtain ⟨st, ho, he⟩ := endsAttempt_dispatch_strict now delay env db l
              exact ⟨st, attemptEnds_cons env l _ _ st rfl ho,
                endsAttempt_cons_of_neutral (fun _ => rfl) he⟩
      · cases env.commitErr with
        | some err => exact hfail err
        | none => exact endsAttempt_dispatch_strict now delay env db l

theorem failStatus_ne_canceled (l : WvsTask) : failStatus l ≠ TaskCanceled := by
  unfold failStatus
  split <;> decide

/-- The loop body of the worker reads the store through the workspace rows
and the reference test only. -/
theorem runTask_congr (env : WorkerEnv) {db db' : DB} (l : WvsTask)
    (hw : db'.workspaces = db.workspaces)
    (hr : ∀ self wsid sid, IsSnapshotReferencedByTasks db' self wsid sid =
      IsSnapshotReferencedByTasks db self wsid sid) :
    runTask env db' l = runTask env db l := by
  have hd : dispatch env db' l = dispatch env db l := by
    unfold dispatch checkSetCurrentNoop GetWorkspace
    rw [hw]
  unfold runTask executeWithLock
  simp only [hd, hr]

/-- A request to cancel a RUNNING task changes nothing the loop body of a
worker reads: the attempt in flight issues the same effects, the executor
call among them. -/
theorem runTask_after_cancel_request (env : WorkerEnv) (db : DB) (now : Nat)
    (taskID : String) (task l : WvsTask) (hget : GetTask db taskID = some task)
    (hrun : task.Status = TaskRunning) :
    runTask env (CancelTask db now taskID).1 l = runTask env db l := by
  apply runTask_congr
  · exact (CancelTask_frame db now taskID).2.1
  · intro self wsid sid
    obtain ⟨hmem, hid⟩ := GetTask_some hget
    have hany : db.tasks.any (fun t => t.TaskID = taskID ∧ t.Status = TaskRunning) = true := by
      rw [List.any_eq_true]
      exact ⟨task, hmem, by simp [hid, hrun]⟩
    have hterm : isTerminalStatus TaskRunning = false := rfl
    have hnp : ¬ TaskRunning = TaskPending := by decide
    simp only [CancelTask, hget, hterm, hrun, hnp, RequestCancelRunningTask, hany, if_true,
      Bool.false_eq_true, if_false, writeAudit, IsSnapshotReferencedByTasks, List.any_map]
    congr 1
    funext t
    simp only [Function.comp]
    split
    · rfl
    · rfl

/-- The status in the store after the effects of an attempt. -/
theorem statusOf_after_attempt {now delay : Nat} {l row : WvsTask} {effects : List Effect}
    {st : TaskStatus} (db : DB) (h : EndsAttempt now delay l effects st)
    (hrow : GetTask db l.TaskID = some row) :
    statusOf (applyEffects now delay db effects) l.TaskID = some st := by
  have hid : row.TaskID = l.TaskID := (GetTask_some hrow).2
  unfold statusOf GetTask
  rw [applyEffects_tasks, GetTask_tasks_map _ _ (fun t => (h t).1)]
  have hfind : db.tasks.find? (fun t => t.TaskID = l.TaskID) = some row := hrow
  rw [hfind]
  simp only [Option.map_some', Option.some.injEq]
  exact (h row).2.2.2.2.2.2.2.1 hid

/-- C16 (amended): a request to cancel a RUNNING task does not abort the
attempt in flight: the worker issues the same effects as without the request,
and the attempt ends as it would have: SUCCEEDED or with the status
`failTask` chooses (FAILED or DEAD), and when the executor was called,
SUCCEEDED exactly when the call reported success; it never ends CANCELED.
Only a dequeued row whose `cancel_requested` is set is completed as
CANCELED, and that whatever the surroundings: `executeWithLock` is not
entered, so no lock is taken and no executor is called. -/
theorem cancel_requested_while_running (env : WorkerEnv) (db : DB) (now delay : Nat)
    (l row : WvsTask) (hrow : GetTask db l.TaskID = some row)
    (hrun : row.Status = TaskRunning) :
    (∀ cancelAt, runTask env (CancelTask db cancelAt l.TaskID).1 l = runTask env db l) ∧
    (l.CancelRequested = false →
      ∃ st, AttemptEnds env l (runTask env db l) st ∧ st ≠ TaskCanceled ∧
        statusOf (applyEffects now delay db (runTask env db l)) l.TaskID = some st ∧
        ∀ cancelAt, statusOf (applyEffects now delay (CancelTask db cancelAt l.TaskID).1
          (runTask env (CancelTask db cancelAt l.TaskID).1 l)) l.TaskID = some st) ∧
    (l.CancelRequested = true → ∀ (env' : WorkerEnv) (db' : DB),
      runTask env' db' l =
        [.CompleteTask l.TaskID TaskCanceled none (some (errorJSON "canceled"))] ∧
      ∀ e ∈ runTask env' db' l, e.isExecuteTask = false) := by
  have hsame := fun cancelAt =>
    runTask_after_cancel_request env db cancelAt l.TaskID row l hrow hrun
  refine ⟨hsame, ?_, ?_⟩
  · intro hc
    have hrt : runTask env db l = executeWithLock env db l := by
      unfold runTask
      simp [hc]
    obtain ⟨st, ha, he⟩ := endsAttempt_executeWithLock_strict now delay env db l
    rw [← hrt] at ha he
    refine ⟨st, ha, ?_, statusOf_after_attempt db he hrow, ?_⟩
    · rcases ha.1 with h | h
      · rw [h]; decide
      · rw [h]; exact failStatus_ne_canceled l
    · intro cancelAt
      rw [hsame cancelAt]
      obtain ⟨⟨f, hfid, -, hft⟩, -, -⟩ := CancelTask_frame db cancelAt l.TaskID
      have hrow' : GetTask (CancelTask db cancelAt l.TaskID).1 l.TaskID = some (f row) := by
        have hfind : db.tasks.find? (fun t => t.TaskID = l.TaskID) = some row := hrow
        unfold GetTask
        rw [hft, GetTask_tasks_map _ f hfid, hfind]
        rfl
      exact statusOf_after_attempt _ he hrow'
  · intro hc env' db'
    have hrt : runTask env' db' l =
        [.CompleteTask l.TaskID TaskCanceled none (some (errorJSON "canceled"))] := by
      unfold runTask
      simp [hc]
    refine ⟨hrt, ?_⟩
    intro e he
    rw [hrt, List.mem_singleton] at he
    subst he
    rfl

/-- C16, instances: the effects of the attempt of `t1` are the same after a
cancel request; a leased row with the flag set is completed as CANCELED. -/
theorem cancel_requested_while_running_witness :
    runTask (okEnv createResults) (CancelTask dbRunningCreate 2 "t1").1 runningCreateTask =
      runTask (okEnv createResults) dbRunningCreate runningCreateTask ∧
    runTask failEnv dbRunningCreate leasedCancelRequested =
      [.CompleteTask "t1" TaskCanceled none (some "\x7b\"error\":\"canceled\"\x7d")] :=
  ⟨(cancel_requested_while_running (okEnv createResults) dbRunningCreate 3 0
      runningCreateTask runningCreateTask rfl rfl).1 2,
   (((cancel_requested_while_running failEnv dbRunningCreate 3 0 leasedCancelRequested
      runningCreateTask rfl rfl).2.2 rfl failEnv dbRunningCreate).1).trans (by decide)⟩

/-- C16 as stated fails: the task `t1` is leased, its cancellation is
requested while it is RUNNING, and the attempt then completes.  When the
executor succeeds the task ends SUCCEEDED, a terminal status; when it fails
the task ends FAILED, and with `cancel_requested` set it is not leased
again.  In neither case is it marked CANCELED. -/
theorem cancel_requested_while_running_counterexample :
    (run id (sysPending 5) [.dequeue 1, .cancelTask 2 "t1"]).map taskFlags =
      some [("t1", TaskRunning, true)] ∧
    (run id (sysPending 5) (cancelWhileRunning
      (okEnv [("snapshot_id", "s2"), ("fs_path", "/ws/w1/snapshots/s2")]))).map taskFlags =
      some [("t1", TaskSucceeded, true)] ∧
    (run id (sysPending 5) (cancelWhileRunning failEnv)).map taskFlags =
      some [("t1", TaskFailed, true)] ∧
    (run id (sysPending 5) (cancelWhileRunning failEnv)).bind
      (fun s => (DequeueTask s.db 100).map (fun r => r.2.TaskID)) = none ∧
    (run id (sysPending 5) (cancelWhileRunning failEnv)).map (fun s => s.leased.length) =
      some 0 := by
  decide

/-! ## Executor: the polling loop, the RPC server -/

/-- Events that are reads of the control file not seeing FROZEN. -/
theorem quiescePoll_shape (cp tid tt : String) (ae : Option String) (polls : List Poll) :
    ∃ reads : List FsEvent,
      (∀ e ∈ reads, ∃ st, e = .readControl cp st ∧ st ≠ some QuiesceFrozen) ∧
      (((quiescePoll cp tid tt ae polls).1 = none ∧
          (quiescePoll cp tid tt ae polls).2 = reads ∧ polls.find? Poll.ends = none) ∨
        ((quiescePoll cp tid tt ae polls).1 = some (.ok ()) ∧
          (quiescePoll cp tid tt ae polls).2 = reads ++ [.readControl cp (some QuiesceFrozen)] ∧
          polls.find? Poll.ends = some (.tick false (some QuiesceFrozen))) ∨
        (∃ err, (quiescePoll cp tid tt ae polls).1 = some (.error err) ∧
          (quiescePoll cp tid tt ae polls).2 =
            reads ++ [.writeControl cp QuiesceRequestResume tid ae.isNone] ∧
          (polls.find? Poll.ends = some (.ctxDone err) ∨
            (∃ st, polls.find? Poll.ends = some (.tick true st) ∧
              err = "quiesce timeout after " ++ tt)))) := by
  induction polls with
  | nil => exact ⟨[], by simp, Or.inl ⟨rfl, rfl, rfl⟩⟩
  | cons p ps ih =>
    cases p with
    | ctxDone err =>
      exact ⟨[], by simp, Or.inr (Or.inr ⟨err, rfl, by simp [quiescePoll, writeControl],
        Or.inl (by simp [Poll.ends])⟩)⟩
    | tick after state =>
      cases after with
      | true =>
        exact ⟨[], by simp, Or.inr (Or.inr ⟨_, rfl, by simp [quiescePoll, writeControl],
          Or.inr ⟨state, by simp [Poll.ends], rfl⟩⟩)⟩
      | false =>
        by_cases hf : state = some QuiesceFrozen
        · refine ⟨[], by simp, Or.inr (Or.inl ⟨?_, ?_, ?_⟩)⟩
          · simp [quiescePoll, hf]
          · simp [quiescePoll, hf]
          · simp [Poll.ends, hf]
        · obtain ⟨reads, hall, h⟩ := ih
          have hne : Poll.ends (.tick false state) = false := by simp [Poll.ends, hf]
          refine ⟨.readControl cp state :: reads, ?_, ?_⟩
          · intro e he
            rcases List.mem_cons.mp he with rfl | he
            · exact ⟨state, rfl, hf⟩
            · exact hall e he
          · simp only [quiescePoll, if_neg hf, List.find?_cons, hne, List.cons_append]
            rcases h with ⟨h1, h2, h3⟩ | ⟨h1, h2, h3⟩ | ⟨err, h1, h2, h3⟩
            · exact Or.inl ⟨h1, by rw [h2], h3⟩
            · exact Or.inr (Or.inl ⟨h1, by rw [h2], h3⟩)
            · exact Or.inr (Or.inr ⟨err, h1, by rw [h2], h3⟩)

/-- The loop of `Quiesce` returns when the polls hold a turn that ends it. -/
theorem quiescePoll_returns (cp tid tt : String) (ae : Option String) (polls : List Poll)
    (h : pollsEnd polls = true) : (quiescePoll cp tid tt ae polls).1 ≠ none := by
  obtain ⟨reads, -, hs⟩ := quiescePoll_shape cp tid tt ae polls
  rcases hs with ⟨-, -, h3⟩ | ⟨h1, -, -⟩ | ⟨err, h1, -, -⟩
  · exfalso
    unfold pollsEnd at h
    rw [List.any_eq_true] at h
    obtain ⟨p, hp, hpe⟩ := h
    rw [List.find?_eq_none] at h3
    exact h3 p hp hpe
  · rw [h1]; simp
  · rw [h1]; simp

theorem Quiesce_returns (env : ExecEnv) (wsRoot taskID tt : String)
    (h : pollsEnd env.polls = true) : (Quiesce env wsRoot taskID tt).1 ≠ none := by
  unfold Quiesce
  cases env.mkdirWvsErr with
  | some e => simp
  | none =>
    cases env.writeFreezeErr with
    | some e => simp
    | none => exact quiescePoll_returns _ _ _ _ _ h

theorem snapshotCreate_returns (env : ExecEnv) (mountPath tt wsid : String)
    (params : List (String × String)) (h : pollsEnd env.polls = true) :
    (snapshotCreate env mountPath tt wsid params).1 ≠ none := by
  unfold snapshotCreate
  simp only
  split
  · simp
  · split
    · simp
    · have hq := Quiesce_returns env (joinPath mountPath wsid) (paramGet params "task_id") tt h
      split
      · rename_i heq
        rw [heq] at hq
        exact absurd rfl hq
      · simp
      · repeat' split
        all_goals simp

theorem setCurrent_returns (env : ExecEnv) (mountPath tt wsid : String)
    (params : List (String × String)) (h : pollsEnd env.polls = true) :
    (setCurrent env mountPath tt wsid params).1 ≠ none := by
  unfold setCurrent
  simp only
  split
  · simp
  · split
    · simp
    · have hq := Quiesce_returns env (joinPath mountPath wsid) (paramGet params "task_id") tt h
      split
      · rename_i heq
        rw [heq] at hq
        exact absurd rfl hq
      · simp
      · repeat' split
        all_goals simp

/-- The handler of a known op returns when the polls end. -/
theorem callHandler_returns (env : ServerEnv) (mountPath tt : String)
    (req : pb.ExecuteTaskRequest) (h : pollsEnd env.exec.polls = true) :
    (req.Op.isKnown = false ∧ callHandler env mountPath tt req = none) ∨
    (req.Op.isKnown = true ∧ ∃ r events, callHandler env mountPath tt req = some (some r, events)) := by
  unfold callHandler
  cases hop : req.Op with
  | TASK_OP_INIT_WORKSPACE => exact Or.inr ⟨rfl, _, _, rfl⟩
  | TASK_OP_SNAPSHOT_DROP => exact Or.inr ⟨rfl, _, _, rfl⟩
  | unknown n name => exact Or.inl ⟨rfl, rfl⟩
  | TASK_OP_SNAPSHOT_CREATE =>
    refine Or.inr ⟨rfl, ?_⟩
    have := snapshotCreate_returns env.exec mountPath tt req.Wsid req.Params h
    cases hs : snapshotCreate env.exec mountPath tt req.Wsid req.Params with
    | mk r events =>
      rw [hs] at this
      cases r with
      | none => exact absurd rfl this
      | some x => exact ⟨x, events, rfl⟩
  | TASK_OP_SET_CURRENT =>
    refine Or.inr ⟨rfl, ?_⟩
    have := setCurrent_returns env.exec mountPath tt req.Wsid req.Params h
    cases hs : setCurrent env.exec mountPath tt req.Wsid req.Params with
    | mk r events =>
      rw [hs] at this
      cases r with
      | none => exact absurd rfl this
      | some x => exact ⟨x, events, rfl⟩

/-- C17: `ExecuteTask` returns a response and no transport-level error (the
loop of `Quiesce` ending as the ticker and the deadline make it).  The
response has success = false and the code UNKNOWN_OP exactly when the op is
none of the four known ones; success = false, the code EXECUTOR_ERROR and as
message the error text of the handler exactly when the handler of a known op
fails with that text; and success = true with the results of the handler and
empty code and message exactly when the handler returns those results.  One
of the three is the case. -/
theorem ExecuteTask_response (env : ServerEnv) (mountPath tt : String)
    (req : pb.ExecuteTaskRequest) (hpolls : pollsEnd env.exec.polls = true) :
    ∃ resp, (ExecuteTask env mountPath tt req).1 = some (.ok resp) ∧
      ((resp.Success = false ∧ resp.ErrorCode = "UNKNOWN_OP") ↔ req.Op.isKnown = false) ∧
      (∀ err, (resp.Success = false ∧ resp.ErrorCode = "EXECUTOR_ERROR" ∧
          resp.ErrorMessage = err) ↔
        ∃ events, callHandler env mountPath tt req = some (some (.error err), events)) ∧
      (∀ results,
        resp = { Success := true, Results := some results, ErrorCode := "",
                 ErrorMessage := "" } ↔
        ∃ events, callHandler env mountPath tt req = some (some (.ok results), events)) ∧
      ((resp.Success = false ∧ resp.ErrorCode = "UNKNOWN_OP") ∨
        (resp.Success = false ∧ resp.ErrorCode = "EXECUTOR_ERROR") ∨
        (resp.Success = true ∧ resp.ErrorCode = "" ∧ resp.ErrorMessage = "")) := by
  rcases callHandler_returns env mountPath tt req hpolls with ⟨hk, hc⟩ | ⟨hk, r, events, hc⟩
  · refine ⟨_, by simp only [ExecuteTask, hc]; rfl, ?_, ?_, ?_, ?_⟩
    · simp [hk]
    · intro err
      simp [hc]
    · intro results
      simp [hc]
    · exact Or.inl ⟨rfl, rfl⟩
  · cases r with
    | error e =>
      refine ⟨_, by simp only [ExecuteTask, hc]; rfl, ?_, ?_, ?_, ?_⟩
      · simp [hk]
      · intro err
        simp [hc]
      · intro results
        simp [hc]
      · exact Or.inr (Or.inl ⟨rfl, rfl⟩)
    | ok results =>
      refine ⟨_, by simp only [ExecuteTask, hc]; rfl, ?_, ?_, ?_, ?_⟩
      · simp [hk]
      · intro err
        simp [hc]
      · intro results'
        simp [hc, eq_comm]
      · exact Or.inr (Or.inr ⟨rfl, rfl, rfl⟩)

/-- C17, instances: an op the switch does not know, a snapshot_create whose
quiesce times out, and an init_workspace that succeeds. -/
theorem ExecuteTask_response_witness :
    (∃ resp, (ExecuteTask serverEnvFresh "/ws" "30s" (requestW1 (.unknown 7 "7"))).1 =
      some (.ok resp)) ∧
    (ExecuteTask serverEnvFresh "/ws" "30s" (requestW1 (.unknown 7 "7"))).1 =
      some (.ok { Success := false, Results := none, ErrorCode := "UNKNOWN_OP",
                  ErrorMessage := "unknown op: 7" }) ∧
    (ExecuteTask { serverEnvFresh with exec := timeoutEnv } "/ws" "30s"
        (requestW1 .TASK_OP_SNAPSHOT_CREATE)).1 =
      some (.ok { Success := false, Results := none, ErrorCode := "EXECUTOR_ERROR",
                  ErrorMessage := "quiesce failed: quiesce timeout after 30s" }) ∧
    (ExecuteTask serverEnvFresh "/ws" "30s" (requestW1 .TASK_OP_INIT_WORKSPACE)).1 =
      some (.ok { Success := true, Results := some [("current_path", "/ws/w1/live/initial")],
                  ErrorCode := "", ErrorMessage := "" }) :=
  ⟨(ExecuteTask_response serverEnvFresh "/ws" "30s" (requestW1 (.unknown 7 "7"))
      (by decide)).imp (fun _ h => h.1),
   rfl, rfl, rfl⟩

/-! ## Executor: the deferred resume -/

theorem controlWrites_append (cp : String) (a b : List FsEvent) :
    controlWrites cp (a ++ b) = controlWrites cp a ++ controlWrites cp b := by
  simp [controlWrites, List.filterMap_append]

theorem controlWrites_reads (cp : String) (reads : List FsEvent)
    (h : ∀ e ∈ reads, ∃ st, e = .readControl cp st ∧ st ≠ some QuiesceFrozen) :
    controlWrites cp reads = [] := by
  unfold controlWrites
  rw [List.filterMap_eq_nil_iff]
  intro e he
  obtain ⟨st, rfl, -⟩ := h e he
  rfl

/-- The writes of the control file `Quiesce` makes: none when the directory
cannot be made, a failed REQUEST_FREEZE, a REQUEST_FREEZE alone when the loop
has not failed, and a REQUEST_FREEZE followed by a REQUEST_RESUME when it
has. -/
theorem Quiesce_controlWrites (env : ExecEnv) (wsRoot tid tt : String) :
    (∀ u, (Quiesce env wsRoot tid tt).1 = some (.ok u) →
      controlWrites (controlPathOf wsRoot) (Quiesce env wsRoot tid tt).2 =
        [(QuiesceRequestFreeze, true)]) ∧
    (∀ e, (Quiesce env wsRoot tid tt).1 = some (.error e) →
      controlWrites (controlPathOf wsRoot) (Quiesce env wsRoot tid tt).2 = [] ∨
      controlWrites (controlPathOf wsRoot) (Quiesce env wsRoot tid tt).2 =
        [(QuiesceRequestFreeze, false)] ∨
      controlWrites (controlPathOf wsRoot) (Quiesce env wsRoot tid tt).2 =
        [(QuiesceRequestFreeze, true), (QuiesceRequestResume, env.abortWriteErr.isNone)]) := by
  unfold Quiesce
  cases hm : env.mkdirWvsErr with
  | some e =>
    refine ⟨by intro u h; simp at h, ?_⟩
    intro e' _
    exact Or.inl rfl
  | none =>
    cases hw : env.writeFreezeErr with
    | some e =>
      refine ⟨by intro u h; simp at h, ?_⟩
      intro e' _
      refine Or.inr (Or.inl ?_)
      simp [controlWrites, writeControl, FsEvent.controlWrite]
    | none =>
      obtain ⟨reads, hall, hs⟩ := quiescePoll_shape (controlPathOf wsRoot) tid tt
        env.abortWriteErr env.polls
      have hr := controlWrites_reads _ reads hall
      simp only
      rcases hs with ⟨h1, h2, -⟩ | ⟨h1, h2, -⟩ | ⟨err, h1, h2, -⟩
      · refine ⟨?_, ?_⟩
        · intro u h; rw [h1] at h; cases h
        · intro e h; rw [h1] at h; cases h
      · refine ⟨?_, ?_⟩
        · intro u _
          rw [h2]
          simp only [controlWrites] at hr ⊢
          simp [writeControl, FsEvent.controlWrite, List.filterMap_append, hr]
        · intro e h; rw [h1] at h; cases h
      · refine ⟨?_, ?_⟩
        · intro u h; rw [h1] at h; cases h
        · intro e _
          refine Or.inr (Or.inr ?_)
          rw [h2]
          simp only [controlWrites] at hr ⊢
          simp [writeControl, FsEvent.controlWrite, List.filterMap_append, hr]

theorem controlWrites_of_not_control (cp : String) (work : List FsEvent)
    (h : ∀ e ∈ work, e.isControl = false) : controlWrites cp work = [] := by
  unfold controlWrites
  rw [List.filterMap_eq_nil_iff]
  intro e he
  have := h e he
  cases e <;> simp_all [FsEvent.isControl, FsEvent.controlWrite]

theorem snapshotCreate_exit (env : ExecEnv) (mountPath tt wsid : String)
    (params : List (String × String)) (r : Except String (List (String × String)))
    (h : (snapshotCreate env mountPath tt wsid params).1 = some r) :
    ExitShape env (joinPath mountPath wsid) (paramGet params "task_id") tt
      (snapshotCreate env mountPath tt wsid params).2 := by
  unfold ExitShape snapshotCreate at *
  by_cases hm : env.metaExists = true
  · simp [hm]
  · simp only [hm, Bool.false_eq_true, if_false] at h ⊢
    cases hev : env.evalSymlinks with
    | error e => exact Or.inl rfl
    | ok srcPath =>
      simp only [hev] at h ⊢
      cases hq : Quiesce env (joinPath mountPath wsid) (paramGet params "task_id") tt with
      | mk q events =>
        simp only [hq] at h ⊢
        cases q with
        | none => simp at h
        | some x =>
          cases x with
          | error e => exact Or.inr (Or.inl ⟨⟨e, rfl⟩, rfl⟩)
          | ok u =>
            refine Or.inr (Or.inr ⟨⟨u, rfl⟩, ?_⟩)
            cases hc : env.cloneErr with
            | some e =>
              simp only [Clone, Option.map_some']
              refine ⟨_, ?_, rfl⟩
              intro x hx
              simp only [List.mem_singleton] at hx
              subst hx; rfl
            | none =>
              simp only [Clone, Option.map_none']
              cases hmk : env.mkdirMetaErr with
              | some e =>
                refine ⟨[_, _], ?_, by simp only [List.append_assoc]; rfl⟩
                intro x hx
                simp only [List.mem_append, List.mem_singleton, List.mem_cons,
                  List.not_mem_nil, or_false] at hx
                rcases hx with rfl | rfl <;> rfl
              | none =>
                cases hwm : env.writeMetaErr with
                | some e =>
                  refine ⟨[_, _, _], ?_, by simp only [List.append_assoc]; rfl⟩
                  intro x hx
                  simp only [List.mem_append, List.mem_singleton, List.mem_cons,
                    List.not_mem_nil, or_false] at hx
                  rcases hx with rfl | rfl | rfl <;> rfl
                | none =>
                  refine ⟨[_, _, _], ?_, by simp only [List.append_assoc]; rfl⟩
                  intro x hx
                  simp only [List.mem_append, List.mem_singleton, List.mem_cons,
                    List.not_mem_nil, or_false] at hx
                  rcases hx with rfl | rfl | rfl <;> rfl

theorem SwitchCurrent_not_control (wsRoot target : String) (symlinkErr renameErr : Option String) :
    ∀ e ∈ (SwitchCurrent wsRoot target symlinkErr renameErr).2, e.isControl = false := by
  intro e he
  unfold SwitchCurrent at he
  cases symlinkErr with
  | some s =>
    simp only [List.mem_cons, List.mem_singleton, List.not_mem_nil, or_false] at he
    rcases he with rfl | rfl <;> rfl
  | none =>
    cases renameErr with
    | some s =>
      simp only [List.mem_cons, List.mem_singleton, List.not_mem_nil, or_false] at he
      rcases he with rfl | rfl | rfl | rfl <;> rfl
    | none =>
      simp only [List.mem_cons, List.mem_singleton, List.not_mem_nil, or_false] at he
      rcases he with rfl | rfl | rfl <;> rfl

theorem setCurrent_exit (env : ExecEnv) (mountPath tt wsid : String)
    (params : List (String × String)) (r : Except String (List (String × String)))
    (h : (setCurrent env mountPath tt wsid params).1 = some r) :
    ExitShape env (joinPath mountPath wsid) (paramGet params "task_id") tt
      (setCurrent env mountPath tt wsid params).2 := by
  unfold ExitShape setCurrent at *
  by_cases hm : env.readlink.toOption = some (joinPath "live" (paramGet params "new_live_id"))
  · simp [hm]
  · simp only [hm, if_false] at h ⊢
    by_cases hs : env.srcMissing = true
    · simp [hs]
    · simp only [hs, Bool.false_eq_true, if_false] at h ⊢
      cases hq : Quiesce env (joinPath mountPath wsid) (paramGet params "task_id") tt with
      | mk q events =>
        simp only [hq] at h ⊢
        cases q with
        | none => simp at h
        | some x =>
          cases x with
          | error e => exact Or.inr (Or.inl ⟨⟨e, rfl⟩, rfl⟩)
          | ok u =>
            refine Or.inr (Or.inr ⟨⟨u, rfl⟩, ?_⟩)
            cases hc : env.cloneErr with
            | some e =>
              simp only [Clone, Option.map_some']
              refine ⟨_, ?_, rfl⟩
              intro x hx
              simp only [List.mem_singleton] at hx
              subst hx; rfl
            | none =>
              simp only [Clone, Option.map_none']
              have hsw := SwitchCurrent_not_control (joinPath mountPath wsid)
                (joinPath "live" (paramGet params "new_live_id")) env.symlinkErr env.renameErr
              have hwork : ∀ x ∈ [FsEvent.clone
                  (joinPath (joinPath (joinPath mountPath wsid) "snapshots")
                    (paramGet params "snapshot_id"))
                  (joinPath (joinPath (joinPath mountPath wsid) "live")
                    (paramGet params "new_live_id")) (none : Option String).isNone] ++
                  (SwitchCurrent (joinPath mountPath wsid)
                    (joinPath "live" (paramGet params "new_live_id")) env.symlinkErr
                    env.renameErr).2, x.isControl = false := by
                intro x hx
                rcases List.mem_append.mp hx with hx | hx
                · simp only [List.mem_singleton] at hx
                  subst hx; rfl
                · exact hsw x hx
              cases hsr : (SwitchCurrent (joinPath mountPath wsid)
                  (joinPath "live" (paramGet params "new_live_id")) env.symlinkErr
                  env.renameErr).1 with
              | some e => exact ⟨_, hwork, by simp only [List.append_assoc]⟩
              | none => exact ⟨_, hwork, by simp only [List.append_assoc]⟩

/-- The last write of the control file in a trace of the exit shape, when a
REQUEST_FREEZE was written, is a REQUEST_RESUME. -/
theorem resumeLast_of_exitShape {env : ExecEnv} {wsRoot tid tt : String}
    {trace : List FsEvent} (hs : ExitShape env wsRoot tid tt trace)
    (hf : FreezeWritten (controlPathOf wsRoot) trace) :
    ResumeLast (controlPathOf wsRoot) trace ∧
    (controlWrites (controlPathOf wsRoot) trace =
        [(QuiesceRequestFreeze, true), (QuiesceRequestResume, env.abortWriteErr.isNone)] ∨
      controlWrites (controlPathOf wsRoot) trace =
        [(QuiesceRequestFreeze, true), (QuiesceRequestResume, env.resumeErr.isNone)]) := by
  obtain ⟨hok, herr⟩ := Quiesce_controlWrites env wsRoot tid tt
  unfold FreezeWritten at hf
  unfold ResumeLast
  rcases hs with rfl | ⟨⟨e, he⟩, rfl⟩ | ⟨⟨u, hu⟩, work, hwork, rfl⟩
  · simp [controlWrites] at hf
  · rcases herr e he with h | h | h
    · rw [h] at hf; simp at hf
    · rw [h] at hf
      simp [QuiesceRequestFreeze] at hf
    · rw [h]
      exact ⟨rfl, Or.inl rfl⟩
  · have hw : controlWrites (controlPathOf wsRoot)
        ((Quiesce env wsRoot tid tt).2 ++ work ++ (Resume wsRoot tid env.resumeErr).2) =
        [(QuiesceRequestFreeze, true), (QuiesceRequestResume, env.resumeErr.isNone)] := by
      rw [controlWrites_append, controlWrites_append, hok u hu,
        controlWrites_of_not_control _ work hwork]
      simp [controlWrites, Resume, writeControl, FsEvent.controlWrite]
    rw [hw]
    exact ⟨rfl, Or.inr rfl⟩

/-- C18: in every execution of `snapshotCreate` or `setCurrent` that has
returned, on whichever path, and in which REQUEST_FREEZE was written to the
control file, the last write of the control file is a write of
REQUEST_RESUME: the one `Quiesce` issues when the deadline passes or the
context is done, or the deferred `Resume` after `Quiesce` succeeded.  The
control file is then written exactly twice, REQUEST_FREEZE and
REQUEST_RESUME (the error of the latter write is not looked at by the
code). -/
theorem resume_written_last (env : ExecEnv) (mountPath tt wsid : String)
    (params : List (String × String)) :
    (∀ r, (snapshotCreate env mountPath tt wsid params).1 = some r →
      FreezeWritten (controlPathOf (joinPath mountPath wsid))
        (snapshotCreate env mountPath tt wsid params).2 →
      ResumeLast (controlPathOf (joinPath mountPath wsid))
        (snapshotCreate env mountPath tt wsid params).2 ∧
      ∃ ok, controlWrites (controlPathOf (joinPath mountPath wsid))
        (snapshotCreate env mountPath tt wsid params).2 =
          [(QuiesceRequestFreeze, true), (QuiesceRequestResume, ok)]) ∧
    (∀ r, (setCurrent env mountPath tt wsid params).1 = some r →
      FreezeWritten (controlPathOf (joinPath mountPath wsid))
        (setCurrent env mountPath tt wsid params).2 →
      ResumeLast (controlPathOf (joinPath mountPath wsid))
        (setCurrent env mountPath tt wsid params).2 ∧
      ∃ ok, controlWrites (controlPathOf (joinPath mountPath wsid))
        (setCurrent env mountPath tt wsid params).2 =
          [(QuiesceRequestFreeze, true), (QuiesceRequestResume, ok)]) := by
  constructor
  · intro r h hf
    obtain ⟨h1, h2⟩ := resumeLast_of_exitShape
      (snapshotCreate_exit env mountPath tt wsid params r h) hf
    refine ⟨h1, ?_⟩
    rcases h2 with h2 | h2
    · exact ⟨_, h2⟩
    · exact ⟨_, h2⟩
  · intro r h hf
    obtain ⟨h1, h2⟩ := resumeLast_of_exitShape
      (setCurrent_exit env mountPath tt wsid params r h) hf
    refine ⟨h1, ?_⟩
    rcases h2 with h2 | h2
    · exact ⟨_, h2⟩
    · exact ⟨_, h2⟩

/-- C18, instances: a snapshot_create whose clone fails and a set_current
whose quiesce times out both leave REQUEST_RESUME as the last write. -/
theorem resume_written_last_witness :
    ResumeLast (controlPathOf "/ws/w1") (snapshotCreate cloneFailEnv "/ws" "30s" "w1" createParams).2 ∧
    ResumeLast (controlPathOf "/ws/w1") (setCurrent timeoutEnv "/ws" "30s" "w1" setCurrentParams).2 ∧
    controlWrites (controlPathOf "/ws/w1")
      (snapshotCreate cancelledEnv "/ws" "30s" "w1" createParams).2 =
        [(QuiesceRequestFreeze, true), (QuiesceRequestResume, true)] :=
  ⟨((resume_written_last cloneFailEnv "/ws" "30s" "w1" createParams).1 _ rfl (by decide)).1,
   ((resume_written_last timeoutEnv "/ws" "30s" "w1" setCurrentParams).2 _ rfl (by decide)).1,
   by decide⟩

/-! ## Executor: how a quiesce failure is reported -/

theorem Quiesce_fails (env : ExecEnv) (wsRoot tid tt err : String)
    (hmk : env.mkdirWvsErr = none) (hfw : env.writeFreezeErr = none)
    (h : env.polls.find? Poll.ends = some (.ctxDone err) ∨
      (∃ st, env.polls.find? Poll.ends = some (.tick true st) ∧
        err = "quiesce timeout after " ++ tt)) :
    (Quiesce env wsRoot tid tt).1 = some (.error err) ∧
    (Quiesce env wsRoot tid tt).2.getLast? =
      some (.writeControl (controlPathOf wsRoot) QuiesceRequestResume tid
        env.abortWriteErr.isNone) := by
  obtain ⟨reads, -, hs⟩ := quiescePoll_shape (controlPathOf wsRoot) tid tt
    env.abortWriteErr env.polls
  unfold Quiesce
  simp only [hmk, hfw]
  rcases hs with ⟨-, -, h3⟩ | ⟨-, -, h3⟩ | ⟨err', h1, h2, h3⟩
  · rw [h3] at h
    rcases h with h | ⟨st, h, -⟩ <;> cases h
  · rw [h3] at h
    rcases h with h | ⟨st, h, -⟩ <;> cases h
  · have herr : err' = err := by
      rcases h3 with h3 | ⟨st, h3, he⟩
      · rw [h3] at h
        rcases h with h | ⟨st', h, -⟩
        · simpa using h
        · cases h
      · rw [h3] at h
        rcases h with h | ⟨st', -, he'⟩
        · cases h
        · rw [he, he']
    subst herr
    refine ⟨h1, ?_⟩
    rw [h2]
    have hlast : ∀ (a b x : FsEvent) (l : List FsEvent),
        (a :: ([b] ++ (l ++ [x]))).getLast? = some x := by
      intro a b x l
      rw [List.singleton_append, ← List.cons_append, ← List.cons_append,
        List.getLast?_concat]
    exact hlast _ _ _ _

/-- The response of `ExecuteTask` when `Quiesce` fails in the handler. -/
theorem ExecuteTask_quiesce_failed (senv : ServerEnv) (mountPath tt err : String)
    (req : pb.ExecuteTaskRequest) (hreach : reachesQuiesce senv.exec req)
    (h : (Quiesce senv.exec (joinPath mountPath req.Wsid) (paramGet req.Params "task_id")
      tt).1 = some (.error err)) :
    (ExecuteTask senv mountPath tt req).1 =
      some (.ok { Success := false, Results := none, ErrorCode := "EXECUTOR_ERROR",
                  ErrorMessage := "quiesce failed: " ++ err }) := by
  cases hq : Quiesce senv.exec (joinPath mountPath req.Wsid) (paramGet req.Params "task_id")
      tt with
  | mk q events =>
    rw [hq] at h
    simp only at h
    subst h
    rcases hreach with ⟨hop, hm, src, hev⟩ | ⟨hop, hrl, hsm⟩
    · simp [ExecuteTask, callHandler, hop, snapshotCreate, hm, hev, hq]
    · simp [ExecuteTask, callHandler, hop, setCurrent, hrl, hsm, hq]

/-- C19 (amended): when the handler of a request gets as far as the polling
loop of `Quiesce` and the loop ends because the deadline has passed before a
read saw FROZEN, or because the context is done, `Quiesce` writes
REQUEST_RESUME to the control file, its last event, and fails; the caller of
the executor gets a response with the error code EXECUTOR_ERROR and the
message "quiesce failed: " followed by the error of `Quiesce`.  `Quiesce`
returns success only right after a read of the control file that returned
FROZEN. -/
theorem quiesce_timeout_reported (senv : ServerEnv) (mountPath tt : String)
    (req : pb.ExecuteTaskRequest) (hmk : senv.exec.mkdirWvsErr = none)
    (hfw : senv.exec.writeFreezeErr = none) (hreach : reachesQuiesce senv.exec req) :
    (∀ err, (senv.exec.polls.find? Poll.ends = some (.ctxDone err) ∨
        (∃ st, senv.exec.polls.find? Poll.ends = some (.tick true st) ∧
          err = "quiesce timeout after " ++ tt)) →
      (Quiesce senv.exec (joinPath mountPath req.Wsid) (paramGet req.Params "task_id")
        tt).1 = some (.error err) ∧
      (Quiesce senv.exec (joinPath mountPath req.Wsid) (paramGet req.Params "task_id")
        tt).2.getLast? =
          some (.writeControl (controlPathOf (joinPath mountPath req.Wsid))
            QuiesceRequestResume (paramGet req.Params "task_id")
            senv.exec.abortWriteErr.isNone) ∧
      (ExecuteTask senv mountPath tt req).1 =
        some (.ok { Success := false, Results := none, ErrorCode := "EXECUTOR_ERROR",
                    ErrorMessage := "quiesce failed: " ++ err })) ∧
    (∀ u, (Quiesce senv.exec (joinPath mountPath req.Wsid) (paramGet req.Params "task_id")
        tt).1 = some (.ok u) →
      (Quiesce senv.exec (joinPath mountPath req.Wsid) (paramGet req.Params "task_id")
        tt).2.getLast? =
          some (.readControl (controlPathOf (joinPath mountPath req.Wsid))
            (some QuiesceFrozen))) := by
  constructor
  · intro err h
    obtain ⟨h1, h2⟩ := Quiesce_fails senv.exec (joinPath mountPath req.Wsid)
      (paramGet req.Params "task_id") tt err hmk hfw h
    exact ⟨h1, h2, ExecuteTask_quiesce_failed senv mountPath tt err req hreach h1⟩
  · intro u h
    obtain ⟨reads, hr, -⟩ := Quiesce_ok senv.exec _ _ _ h
    rw [hr, List.getLast?_concat]

/-- C19, instances: the deadline passes during a snapshot_create, the
context is cancelled during a set_current. -/
theorem quiesce_timeout_reported_witness :
    (ExecuteTask { serverEnvFresh with exec := timeoutEnv } "/ws" "30s"
        (requestW1 .TASK_OP_SNAPSHOT_CREATE)).1 =
      some (.ok { Success := false, Results := none, ErrorCode := "EXECUTOR_ERROR",
                  ErrorMessage := "quiesce failed: quiesce timeout after 30s" }) ∧
    (ExecuteTask { serverEnvFresh with exec := cancelledEnv } "/ws" "30s"
        requestSetCurrentW1).1 =
      some (.ok { Success := false, Results := none, ErrorCode := "EXECUTOR_ERROR",
                  ErrorMessage := "quiesce failed: context canceled" }) ∧
    (Quiesce timeoutEnv "/ws/w1" "t1" "30s").2 =
      [.mkdirAll "/ws/w1/.wvs" true,
       .writeControl "/ws/w1/.wvs/control.json" QuiesceRequestFreeze "t1" true,
       .readControl "/ws/w1/.wvs/control.json" (some QuiesceRequestFreeze),
       .writeControl "/ws/w1/.wvs/control.json" QuiesceRequestResume "t1" true] :=
  ⟨((quiesce_timeout_reported { serverEnvFresh with exec := timeoutEnv } "/ws" "30s"
      (requestW1 .TASK_OP_SNAPSHOT_CREATE) rfl rfl
      (Or.inl ⟨rfl, rfl, "/ws/w1/live/initial", rfl⟩)).1
      "quiesce timeout after 30s" (Or.inr ⟨none, rfl, rfl⟩)).2.2,
   ((quiesce_timeout_reported { serverEnvFresh with exec := cancelledEnv } "/ws" "30s"
      requestSetCurrentW1 rfl rfl (Or.inr ⟨rfl, by decide, rfl⟩)).1
      "context canceled" (Or.inl rfl)).2.2,
   by decide⟩

/-- C19 as stated fails: a quiesce that times out, or is cancelled, reaches
the caller of the executor with the error code EXECUTOR_ERROR; the code
QUIESCE_TIMEOUT is not what the response carries. -/
theorem quiesce_timeout_code_counterexample :
    errorCodeOf (ExecuteTask { serverEnvFresh with exec := timeoutEnv } "/ws" "30s"
      (requestW1 .TASK_OP_SNAPSHOT_CREATE)) = some "EXECUTOR_ERROR" ∧
    errorCodeOf (ExecuteTask { serverEnvFresh with exec := timeoutEnv } "/ws" "30s"
      (requestW1 .TASK_OP_SNAPSHOT_CREATE)) ≠ some "QUIESCE_TIMEOUT" ∧
    errorCodeOf (ExecuteTask { serverEnvFresh with exec := cancelledEnv } "/ws" "30s"
      requestSetCurrentW1) = some "EXECUTOR_ERROR" ∧
    errorCodeOf (ExecuteTask { serverEnvFresh with exec := cancelledEnv } "/ws" "30s"
      requestSetCurrentW1) ≠ some "QUIESCE_TIMEOUT" := by
  decide
/-! ## `filepath.Clean` and `filepath.Join` -/

theorem splitSlash_ne_nil (x : List Char) : splitSlash x ≠ [] := by
  induction x with
  | nil => simp [splitSlash]
  | cons c cs ih =>
    unfold splitSlash
    by_cases hc : c = '/'
    · simp [hc]
    · rw [if_neg hc]
      cases h : splitSlash cs with
      | nil => simp
      | cons e es => simp

theorem splitSlash_cons_slash (cs : List Char) :
    splitSlash ('/' :: cs) = [] :: splitSlash cs := by
  rw [splitSlash, if_pos rfl]

theorem splitSlash_cons_ne {c : Char} {cs e : List Char} {es : List (List Char)}
    (hc : c ≠ '/') (h : splitSlash cs = e :: es) : splitSlash (c :: cs) = (c :: e) :: es := by
  rw [splitSlash, if_neg hc, h]

theorem splitSlash_append (x y : List Char) :
    splitSlash (x ++ '/' :: y) = splitSlash x ++ splitSlash y := by
  induction x with
  | nil => rw [List.nil_append, splitSlash_cons_slash]; rfl
  | cons c cs ih =>
    by_cases hc : c = '/'
    · rw [hc, List.cons_append, splitSlash_cons_slash, splitSlash_cons_slash, ih]
      rfl
    · cases h : splitSlash cs with
      | nil => exact absurd h (splitSlash_ne_nil cs)
      | cons e es =>
        rw [List.cons_append, splitSlash_cons_ne hc (ih.trans (by rw [h]; rfl)),
          splitSlash_cons_ne hc h]
        rfl

theorem splitSlash_of_not_mem {e : List Char} (h : '/' ∉ e) : splitSlash e = [e] := by
  induction e with
  | nil => rfl
  | cons c cs ih =>
    have hc : c ≠ '/' := fun hc => h (by rw [hc]; exact List.mem_cons_self _ _)
    unfold splitSlash
    rw [if_neg hc, ih (fun hm => h (List.mem_cons_of_mem _ hm))]

theorem splitSlash_slashFree (x : List Char) : ∀ e ∈ splitSlash x, '/' ∉ e := by
  induction x with
  | nil => intro e he; simp [splitSlash] at he; rw [he]; exact List.not_mem_nil _
  | cons c cs ih =>
    intro e he
    unfold splitSlash at he
    by_cases hc : c = '/'
    · rw [if_pos hc] at he
      rcases List.mem_cons.mp he with h | h
      · rw [h]; exact List.not_mem_nil _
      · exact ih e h
    · rw [if_neg hc] at he
      cases h : splitSlash cs with
      | nil => exact absurd h (splitSlash_ne_nil cs)
      | cons e' es =>
        rw [h] at he ih
        rcases List.mem_cons.mp he with h1 | h1
        · rw [h1]
          intro hm
          rcases List.mem_cons.mp hm with h2 | h2
          · exact hc h2.symm
          · exact ih e' (List.mem_cons_self _ _) h2
        · exact ih e (List.mem_cons_of_mem _ h1)

theorem joinElems_cons_cons (e e' : List Char) (es : List (List Char)) :
    joinElems (e :: e' :: es) = e ++ '/' :: joinElems (e' :: es) := rfl

theorem splitSlash_joinElems :
    ∀ es : List (List Char), es ≠ [] → (∀ e ∈ es, '/' ∉ e) → splitSlash (joinElems es) = es := by
  intro es
  induction es with
  | nil => intro h; exact absurd rfl h
  | cons e es ih =>
    intro _ hs
    cases es with
    | nil => exact splitSlash_of_not_mem (hs e (List.mem_cons_self _ _))
    | cons e' es =>
      rw [joinElems_cons_cons, splitSlash_append,
        splitSlash_of_not_mem (hs e (List.mem_cons_self _ _)),
        ih (List.cons_ne_nil _ _) (fun x hx => hs x (List.mem_cons_of_mem _ hx))]
      rfl

theorem joinElems_append_single (l : List (List Char)) (n : List Char) :
    joinElems (l ++ [n]) = if l = [] then n else joinElems l ++ '/' :: n := by
  induction l with
  | nil => rfl
  | cons e es ih =>
    cases es with
    | nil => simp [joinElems]
    | cons e' es =>
      rw [List.cons_append, List.cons_append, joinElems_cons_cons]
      rw [List.cons_append] at ih
      rw [ih, if_neg (List.cons_ne_nil _ _), if_neg (List.cons_ne_nil _ _), joinElems_cons_cons]
      simp [List.append_assoc]

theorem cleanStep_plain (rooted : Bool) (kept : List (List Char)) {e : List Char}
    (h : PlainElem e) : cleanStep rooted kept e = e :: kept := by
  unfold cleanStep
  rw [if_neg (by rintro (h1 | h1); exact h.1 h1; exact h.2.1 h1), if_neg h.2.2.1]

theorem cleanStep_nil (rooted : Bool) (kept : List (List Char)) :
    cleanStep rooted kept [] = kept := by
  unfold cleanStep
  rw [if_pos (Or.inl rfl)]

theorem cleanElems_append (rooted : Bool) (xs ys : List (List Char)) :
    cleanElems rooted (xs ++ ys) = ys.foldl (cleanStep rooted) (cleanElems rooted xs) := by
  unfold cleanElems
  rw [List.foldl_append]

theorem foldl_cleanStep_plain (rooted : Bool) :
    ∀ (l acc : List (List Char)), (∀ e ∈ l, PlainElem e) →
      l.foldl (cleanStep rooted) acc = l.reverse ++ acc := by
  intro l
  induction l with
  | nil => intro acc _; rfl
  | cons e es ih =>
    intro acc h
    rw [List.foldl_cons, cleanStep_plain rooted acc (h e (List.mem_cons_self _ _)),
      ih _ (fun x hx => h x (List.mem_cons_of_mem _ hx))]
    simp

theorem foldl_cleanStep_dotdot (k : Nat) :
    (List.replicate k ['.', '.']).foldl (cleanStep false) [] = List.replicate k ['.', '.'] := by
  induction k with
  | zero => rfl
  | succ k ih =>
    rw [List.replicate_succ', List.foldl_append, ih]
    cases k with
    | zero => rfl
    | succ k =>
      rw [List.replicate_succ]
      simp only [List.foldl_cons, List.foldl_nil, cleanStep]
      simp only [List.cons_ne_nil, List.cons.injEq, Char.reduceEq, reduceCtorEq, and_false,
        and_self, or_self, if_false, if_true]
      rw [← List.replicate_succ, ← List.replicate_succ, ← List.replicate_succ']

theorem keptShape_nil (rooted : Bool) : KeptShape rooted [] :=
  ⟨[], 0, rfl, fun _ h => absurd h (List.not_mem_nil _), fun _ => rfl⟩

theorem keptShape_step {rooted : Bool} {kept : List (List Char)} {e : List Char}
    (h : KeptShape rooted kept) (he : '/' ∉ e) : KeptShape rooted (cleanStep rooted kept e) := by
  obtain ⟨ps, k, hk, hps, hr⟩ := h
  by_cases h1 : e = [] ∨ e = ['.']
  · unfold cleanStep
    rw [if_pos h1]
    exact ⟨ps, k, hk, hps, hr⟩
  · by_cases h2 : e = ['.', '.']
    · unfold cleanStep
      rw [if_neg h1, if_pos h2]
      cases ps with
      | nil =>
        cases k with
        | zero =>
          rw [hk]
          simp only [List.replicate_zero, List.append_nil]
          cases hrt : rooted with
          | true => exact keptShape_nil true
          | false =>
            exact ⟨[], 1, by rw [h2]; rfl, fun _ h => absurd h (List.not_mem_nil _),
              fun h => absurd h (by decide)⟩
        | succ k =>
          rw [hk]
          simp only [List.nil_append, List.replicate_succ, if_true]
          exact ⟨[], k + 2, by rw [h2]; simp [List.replicate_succ],
            fun _ h => absurd h (List.not_mem_nil _),
            fun h => absurd (hr h) (Nat.succ_ne_zero k)⟩
      | cons p ps =>
        rw [hk]
        simp only [List.cons_append]
        rw [if_neg (hps p (List.mem_cons_self _ _)).2.2.1]
        exact ⟨ps, k, rfl, fun x hx => hps x (List.mem_cons_of_mem _ hx), hr⟩
    · have hp : PlainElem e := ⟨fun h => h1 (Or.inl h), fun h => h1 (Or.inr h), h2, he⟩
      rw [cleanStep_plain rooted kept hp]
      exact ⟨e :: ps, k, by rw [hk]; rfl, fun x hx => by
        rcases List.mem_cons.mp hx with h | h
        · rw [h]; exact hp
        · exact hps x h, hr⟩

theorem keptShape_foldl {rooted : Bool} :
    ∀ (es acc : List (List Char)), KeptShape rooted acc → (∀ e ∈ es, '/' ∉ e) →
      KeptShape rooted (es.foldl (cleanStep rooted) acc) := by
  intro es
  induction es with
  | nil => intro acc h _; exact h
  | cons e es ih =>
    intro acc h hs
    rw [List.foldl_cons]
    exact ih _ (keptShape_step h (hs e (List.mem_cons_self _ _)))
      (fun x hx => hs x (List.mem_cons_of_mem _ hx))

theorem keptShape_cleanElems (rooted : Bool) (x : List Char) :
    KeptShape rooted (cleanElems rooted (splitSlash x)) :=
  keptShape_foldl _ _ (keptShape_nil rooted) (splitSlash_slashFree x)

theorem keptShape_mem {rooted : Bool} {kept : List (List Char)} (h : KeptShape rooted kept) :
    ∀ e ∈ kept, e ≠ [] ∧ '/' ∉ e := by
  obtain ⟨ps, k, hk, hps, _⟩ := h
  intro e he
  rw [hk] at he
  rcases List.mem_append.mp he with h | h
  · exact ⟨(hps e h).1, (hps e h).2.2.2⟩
  · rw [List.eq_of_mem_replicate h]
    exact ⟨by decide, by decide⟩

/-- Cleaning the elements the cleaning kept gives them back. -/
theorem cleanElems_reverse {rooted : Bool} {kept : List (List Char)}
    (h : KeptShape rooted kept) : cleanElems rooted kept.reverse = kept := by
  obtain ⟨ps, k, hk, hps, hr⟩ := h
  rw [hk, List.reverse_append, List.reverse_replicate, cleanElems_append]
  have hdd : cleanElems rooted (List.replicate k ['.', '.']) = List.replicate k ['.', '.'] := by
    cases hrt : rooted with
    | true => rw [hr hrt]; rfl
    | false => exact foldl_cleanStep_dotdot k
  rw [hdd, foldl_cleanStep_plain rooted _ _ (fun e he => hps e (List.mem_reverse.mp he)),
    List.reverse_reverse]

theorem string_ne_empty_of_data_cons {s : String} {c : Char} {l : List Char}
    (h : s.data = c :: l) : s ≠ "" := by
  intro hs
  rw [hs] at h
  cases h

theorem joinElems_head {e : List Char} {es : List (List Char)} {c : Char} {t : List Char}
    (h : e = c :: t) : ∃ u, joinElems (e :: es) = c :: u := by
  cases es with
  | nil => exact ⟨t, h⟩
  | cons e' es => exact ⟨t ++ '/' :: joinElems (e' :: es), by rw [joinElems_cons_cons, h]; rfl⟩

/-- A cleaned path that is not rooted and not `.`: it begins with a
character that is not a slash. -/
theorem joinElems_reverse_head {rooted : Bool} {kept : List (List Char)}
    (h : KeptShape rooted kept) (hne : kept ≠ []) :
    ∃ c u, joinElems kept.reverse = c :: u ∧ c ≠ '/' := by
  have hr : kept.reverse ≠ [] := fun hr => hne (List.reverse_eq_nil_iff.mp hr)
  cases hk : kept.reverse with
  | nil => exact absurd hk hr
  | cons e es =>
    have he : e ∈ kept := List.mem_reverse.mp (by rw [hk]; exact List.mem_cons_self _ _)
    obtain ⟨h1, h2⟩ := keptShape_mem h e he
    cases e with
    | nil => exact absurd rfl h1
    | cons c t =>
      obtain ⟨u, hu⟩ := @joinElems_head (c :: t) es c t rfl
      exact ⟨c, u, hu, fun hc => h2 (by rw [hc]; exact List.mem_cons_self _ _)⟩

theorem renderPath_ne_empty {rooted : Bool} {kept : List (List Char)}
    (h : KeptShape rooted kept) : renderPath rooted kept ≠ "" := by
  unfold renderPath
  cases rooted with
  | true => exact string_ne_empty_of_data_cons (c := '/') rfl
  | false =>
    simp only [Bool.false_eq_true, if_false]
    by_cases hk : kept = []
    · rw [if_pos hk]; decide
    · rw [if_neg hk]
      obtain ⟨c, u, hu, _⟩ := joinElems_reverse_head h hk
      exact string_ne_empty_of_data_cons (c := c) (l := u) hu

theorem isRooted_renderPath {rooted : Bool} {kept : List (List Char)}
    (h : KeptShape rooted kept) : isRooted (renderPath rooted kept) = rooted := by
  unfold renderPath isRooted
  cases rooted with
  | true => simp
  | false =>
    simp only [Bool.false_eq_true, if_false]
    by_cases hk : kept = []
    · rw [if_pos hk]; decide
    · rw [if_neg hk]
      obtain ⟨c, u, hu, hc⟩ := joinElems_reverse_head h hk
      simp [hu, hc]

/-- Splitting a cleaned path and cleaning its elements gives the elements
the cleaning kept. -/
theorem cleanElems_renderPath {rooted : Bool} {kept : List (List Char)}
    (h : KeptShape rooted kept) :
    cleanElems rooted (splitSlash (renderPath rooted kept).data) = kept := by
  have hsf : ∀ e ∈ kept.reverse, '/' ∉ e :=
    fun e he => (keptShape_mem h e (List.mem_reverse.mp he)).2
  unfold renderPath
  cases hrt : rooted with
  | true =>
    simp only [if_true]
    rw [splitSlash_cons_slash]
    by_cases hk : kept = []
    · rw [hk]; rfl
    · rw [splitSlash_joinElems _ (fun hr => hk (List.reverse_eq_nil_iff.mp hr)) hsf]
      have : cleanElems true ([] :: kept.reverse) = cleanElems true kept.reverse := by
        unfold cleanElems
        rw [List.foldl_cons, cleanStep_nil]
      rw [this]
      exact cleanElems_reverse (hrt ▸ h)
  | false =>
    simp only [Bool.false_eq_true, if_false]
    by_cases hk : kept = []
    · rw [if_pos hk, hk]; rfl
    · rw [if_neg hk, splitSlash_joinElems _ (fun hr => hk (List.reverse_eq_nil_iff.mp hr)) hsf]
      exact cleanElems_reverse (hrt ▸ h)

theorem filepathClean_of_ne {p : String} (hp : p ≠ "") :
    filepathClean p = renderPath (isRooted p) (cleanElems (isRooted p) (splitSlash p.data)) := by
  unfold filepathClean
  rw [if_neg hp]

theorem filepathClean_ne_empty (p : String) : filepathClean p ≠ "" := by
  by_cases hp : p = ""
  · rw [hp]; decide
  · rw [filepathClean_of_ne hp]
    exact renderPath_ne_empty (keptShape_cleanElems _ _)

/-- `filepath.Clean` is idempotent. -/
theorem filepathClean_idem (p : String) : filepathClean (filepathClean p) = filepathClean p := by
  by_cases hp : p = ""
  · rw [hp]; decide
  · have hs := keptShape_cleanElems (isRooted p) p.data
    rw [filepathClean_of_ne (filepathClean_ne_empty p)]
    rw [filepathClean_of_ne hp, isRooted_renderPath hs, cleanElems_renderPath hs]

theorem isRooted_append {p : String} (hp : p ≠ "") (s : String) :
    isRooted (p ++ s) = isRooted p := by
  unfold isRooted
  cases hd : p.data with
  | nil => exact absurd (string_eq_of_data (hd.trans rfl)) hp
  | cons c t => simp [hd]

theorem append_ne_empty {p : String} (hp : p ≠ "") (s : String) : p ++ s ≠ "" := by
  cases hd : p.data with
  | nil => exact absurd (string_eq_of_data (hd.trans rfl)) hp
  | cons c t =>
    exact string_ne_empty_of_data_cons (c := c) (l := t ++ s.data) (by simp [hd])

theorem slash_data : ("/" : String).data = ['/'] := rfl

/-- The elements kept of a path followed by a slash and more: those kept of
the path, then the cleaning goes on with the rest. -/
theorem filepathClean_append {p : String} (hp : p ≠ "") (c : String) :
    filepathClean (p ++ "/" ++ c) =
      renderPath (isRooted p)
        ((splitSlash c.data).foldl (cleanStep (isRooted p))
          (cleanElems (isRooted p) (splitSlash p.data))) := by
  have hne : p ++ "/" ++ c ≠ "" := by
    rw [String.append_assoc]; exact append_ne_empty hp _
  have hr : isRooted (p ++ "/" ++ c) = isRooted p := by
    rw [String.append_assoc]; exact isRooted_append hp _
  rw [filepathClean_of_ne hne, hr]
  simp only [String.data_append, slash_data, List.append_assoc, List.singleton_append]
  rw [splitSlash_append, cleanElems_append]

/-- Cleaning the beginning of a path first changes nothing. -/
theorem filepathClean_clean_append {p : String} (hp : p ≠ "") (c : String) :
    filepathClean (filepathClean p ++ "/" ++ c) = filepathClean (p ++ "/" ++ c) := by
  have hs := keptShape_cleanElems (isRooted p) p.data
  rw [filepathClean_append (filepathClean_ne_empty p), filepathClean_append hp,
    filepathClean_of_ne hp, isRooted_renderPath hs, cleanElems_renderPath hs]

theorem joinPath_of_ne {a : String} (ha : a ≠ "") (b : String) :
    joinPath a b = filepathClean (a ++ "/" ++ b) := by
  unfold joinPath filepathJoin
  rw [if_neg ha]
  rfl

theorem joinPath_empty_left (b : String) :
    joinPath "" b = if b = "" then "" else filepathClean b := by
  unfold joinPath
  by_cases hb : b = ""
  · rw [if_pos hb, hb]; rfl
  · rw [if_neg hb]
    simp only [filepathJoin, if_true, if_neg hb]
    rfl

theorem filepathJoin_three_of_ne {a : String} (ha : a ≠ "") (b c : String) :
    filepathJoin [a, b, c] = filepathClean (a ++ "/" ++ b ++ "/" ++ c) := by
  unfold filepathJoin
  rw [if_neg ha]
  rfl

/-- A call of `filepath.Join` with three elements is the call with the first
two followed by the call with the result and the third. -/
theorem joinPath_nested (a b c : String) :
    joinPath (joinPath a b) c = filepathJoin [a, b, c] := by
  by_cases ha : a = ""
  · by_cases hb : b = ""
    · rw [ha, hb]
      have : joinPath "" "" = "" := rfl
      rw [this]
      rfl
    · rw [ha, joinPath_empty_left, if_neg hb, joinPath_of_ne (filepathClean_ne_empty b),
        filepathClean_clean_append hb]
      have : filepathJoin ["", b, c] = joinPath b c := rfl
      rw [this, joinPath_of_ne hb]
  · have hab : a ++ "/" ++ b ≠ "" := by
      rw [String.append_assoc]; exact append_ne_empty ha _
    rw [joinPath_of_ne ha, joinPath_of_ne (filepathClean_ne_empty _),
      filepathClean_clean_append hab, filepathJoin_three_of_ne ha]

theorem plainElem_of_isPlainName {n : String} (h : isPlainName n = true) : PlainElem n.data := by
  unfold isPlainName at h
  rw [decide_eq_true_iff] at h
  obtain ⟨h1, h2, h3, h4⟩ := h
  exact ⟨fun h => h1 (string_eq_of_data h), fun h => h2 (string_eq_of_data h),
    fun h => h3 (string_eq_of_data h), h4⟩

theorem isRooted_of_plain {n : String} (h : PlainElem n.data) : isRooted n = false := by
  unfold isRooted
  cases hd : n.data with
  | nil => rfl
  | cons c t =>
    have : c ≠ '/' := fun hc => h.2.2.2 (by rw [hd, hc]; exact List.mem_cons_self _ _)
    simp [this]

/-- The path `filepath.Join` makes of any path and a name that stands for
itself: the elements kept of the path, then the name. -/
theorem joinPath_plain_form (root : String) :
    ∃ (r : Bool) (kept : List (List Char)), KeptShape r kept ∧
      (root ≠ "" → filepathClean root = renderPath r kept) ∧
      ∀ n, PlainElem n.data → joinPath root n = renderPath r (n.data :: kept) := by
  by_cases hr : root = ""
  · refine ⟨false, [], keptShape_nil false, fun h => absurd hr h, ?_⟩
    intro n hn
    have hne : n ≠ "" := fun h => hn.1 (by rw [h])
    rw [hr, joinPath_empty_left, if_neg hne, filepathClean_of_ne hne, isRooted_of_plain hn,
      splitSlash_of_not_mem hn.2.2.2]
    unfold cleanElems
    rw [List.foldl_cons, List.foldl_nil, cleanStep_plain false [] hn]
  · refine ⟨isRooted root, cleanElems (isRooted root) (splitSlash root.data),
      keptShape_cleanElems _ _, fun _ => filepathClean_of_ne hr, ?_⟩
    intro n hn
    rw [joinPath_of_ne hr, filepathClean_append hr, splitSlash_of_not_mem hn.2.2.2,
      List.foldl_cons, List.foldl_nil, cleanStep_plain _ _ hn]

theorem renderPath_cons_data (r : Bool) (kept : List (List Char)) (n : List Char) :
    (renderPath r (n :: kept)).data =
      (if r then ['/'] else []) ++
        (if kept = [] then [] else joinElems kept.reverse ++ ['/']) ++ n := by
  unfold renderPath
  rw [List.reverse_cons, joinElems_append_single]
  cases r with
  | true =>
    by_cases hk : kept = []
    · simp [hk]
    · simp [hk, List.append_assoc]
  | false =>
    by_cases hk : kept = []
    · simp [hk]
    · simp [hk, List.append_assoc]

theorem renderPath_cons_append {r : Bool} {kept : List (List Char)} (n : List Char)
    (hk : kept ≠ []) :
    (renderPath r (n :: kept)).data = (renderPath r kept).data ++ '/' :: n := by
  rw [renderPath_cons_data r kept n]
  unfold renderPath
  cases r with
  | true => simp [hk, List.append_assoc]
  | false => simp [hk, List.append_assoc]

/-- Under one directory, the paths of the names that stand for themselves
have one beginning in common, which is empty or ends in a slash. -/
theorem joinPath_data (root : String) :
    ∃ pre : List Char, (pre = [] ∨ ∃ l, pre = l ++ ['/']) ∧
      ∀ n, isPlainName n = true → (joinPath root n).data = pre ++ n.data := by
  obtain ⟨r, kept, _, _, hform⟩ := joinPath_plain_form root
  refine ⟨(if r then ['/'] else []) ++
    (if kept = [] then [] else joinElems kept.reverse ++ ['/']), ?_, ?_⟩
  · by_cases hk : kept = []
    · cases r with
      | true => exact Or.inr ⟨[], by simp [hk]⟩
      | false => exact Or.inl (by simp [hk])
    · exact Or.inr ⟨(if r then ['/'] else []) ++ joinElems kept.reverse, by simp [hk]⟩
  · intro n hn
    have hp := plainElem_of_isPlainName hn
    rw [hform n hp, renderPath_cons_data r kept n.data]

/-- An entry of an entry of a directory: the path of the entry, a slash, the
name. -/
theorem joinPath_plain_plain (root : String) {a b : String} (ha : isPlainName a = true)
    (hb : isPlainName b = true) :
    joinPath (joinPath root a) b = joinPath root a ++ "/" ++ b := by
  have hpa := plainElem_of_isPlainName ha
  have hpb := plainElem_of_isPlainName hb
  obtain ⟨r, kept, hs, _, hform⟩ := joinPath_plain_form root
  have hs' : KeptShape r (a.data :: kept) := by
    have := keptShape_step (e := a.data) hs hpa.2.2.2
    rwa [cleanStep_plain r kept hpa] at this
  have hne : joinPath root a ≠ "" := by rw [hform a hpa]; exact renderPath_ne_empty hs'
  apply string_eq_of_data
  rw [joinPath_of_ne hne, filepathClean_append hne, splitSlash_of_not_mem hpb.2.2.2,
    List.foldl_cons, List.foldl_nil, cleanStep_plain _ _ hpb, hform a hpa,
    isRooted_renderPath hs', cleanElems_renderPath hs',
    renderPath_cons_append b.data (List.cons_ne_nil _ _)]
  simp only [String.data_append, slash_data, List.append_assoc, List.singleton_append]

theorem name_split_unique {l₁ l₂ r₁ r₂ : List Char} (h1 : '/' ∉ l₁) (h2 : '/' ∉ l₂)
    (hr1 : r₁ = [] ∨ ∃ r, r₁ = '/' :: r) (hr2 : r₂ = [] ∨ ∃ r, r₂ = '/' :: r)
    (h : l₁ ++ r₁ = l₂ ++ r₂) : l₁ = l₂ := by
  induction l₁ generalizing l₂ with
  | nil =>
    cases l₂ with
    | nil => rfl
    | cons d u =>
      exfalso
      rcases hr1 with hr | ⟨r, hr⟩
      · rw [hr] at h; simp at h
      · rw [hr] at h
        simp only [List.nil_append, List.cons_append, List.cons.injEq] at h
        exact h2 (by rw [← h.1]; exact List.mem_cons_self _ _)
  | cons c t ih =>
    cases l₂ with
    | nil =>
      exfalso
      rcases hr2 with hr | ⟨r, hr⟩
      · rw [hr] at h; simp at h
      · rw [hr] at h
        simp only [List.nil_append, List.cons_append, List.cons.injEq] at h
        exact h1 (by rw [h.1]; exact List.mem_cons_self _ _)
    | cons d u =>
      simp only [List.cons_append, List.cons.injEq] at h
      rw [h.1, ih (fun hm => h1 (List.mem_cons_of_mem _ hm))
        (fun hm => h2 (List.mem_cons_of_mem _ hm)) h.2]

/-- The last name of a path is read in one way only. -/
theorem last_name_unique {p₁ p₂ n₁ n₂ : List Char} (h1 : '/' ∉ n₁) (h2 : '/' ∉ n₂)
    (hp1 : p₁ = [] ∨ ∃ l, p₁ = l ++ ['/']) (hp2 : p₂ = [] ∨ ∃ l, p₂ = l ++ ['/'])
    (h : p₁ ++ n₁ = p₂ ++ n₂) : n₁ = n₂ := by
  have hr := congrArg List.reverse h
  rw [List.reverse_append, List.reverse_append] at hr
  have key := @name_split_unique n₁.reverse n₂.reverse p₁.reverse p₂.reverse
    (fun hm => h1 (List.mem_reverse.mp hm)) (fun hm => h2 (List.mem_reverse.mp hm))
    (by
      rcases hp1 with h | ⟨l, h⟩
      · exact Or.inl (by rw [h]; rfl)
      · exact Or.inr ⟨l.reverse, by rw [h]; simp⟩)
    (by
      rcases hp2 with h | ⟨l, h⟩
      · exact Or.inl (by rw [h]; rfl)
      · exact Or.inr ⟨l.reverse, by rw [h]; simp⟩)
    hr
  exact List.reverse_injective key

/-- Paths that end in different names are different paths. -/
theorem joinPath_last_ne (r₁ r₂ : String) {a b : String} (ha : isPlainName a = true)
    (hb : isPlainName b = true) (hab : a ≠ b) : joinPath r₁ a ≠ joinPath r₂ b := by
  intro h
  obtain ⟨p₁, hp1, hd1⟩ := joinPath_data r₁
  obtain ⟨p₂, hp2, hd2⟩ := joinPath_data r₂
  have hd := congrArg String.data h
  rw [hd1 a ha, hd2 b hb] at hd
  exact hab (string_eq_of_data (last_name_unique (plainElem_of_isPlainName ha).2.2.2
    (plainElem_of_isPlainName hb).2.2.2 hp1 hp2 hd))

theorem joinPath_ne_empty (a : String) {b : String} (hb : b ≠ "") : joinPath a b ≠ "" := by
  by_cases ha : a = ""
  · rw [ha, joinPath_empty_left, if_neg hb]; exact filepathClean_ne_empty b
  · rw [joinPath_of_ne ha]; exact filepathClean_ne_empty _

theorem string_length_pos {p : String} (h : p ≠ "") : 0 < p.length := by
  cases hd : p.data with
  | nil => exact absurd (string_eq_of_data (hd.trans rfl)) h
  | cons c t =>
    show 0 < p.data.length
    rw [hd]
    exact Nat.succ_pos _

theorem isCleanDir_iff (p : String) :
    isCleanDir p = true ↔ filepathClean p = p ∧ p ≠ "/" ∧ p ≠ "." := by
  unfold isCleanDir
  rw [decide_eq_true_iff]

/-- Joining a name that stands for itself to a clean directory path appends
a slash and the name, and the result is a clean directory path again. -/
theorem joinPath_cleanDir {p n : String} (hp : isCleanDir p = true)
    (hn : isPlainName n = true) :
    joinPath p n = p ++ "/" ++ n ∧ isCleanDir (p ++ "/" ++ n) = true := by
  obtain ⟨hc, h1, h2⟩ := (isCleanDir_iff p).mp hp
  have hne : p ≠ "" := by
    intro h
    rw [h] at hc
    exact absurd hc (by decide)
  have hpn := plainElem_of_isPlainName hn
  obtain ⟨r, kept, _, hcl, hform⟩ := joinPath_plain_form p
  have hren : renderPath r kept = p := (hcl hne).symm.trans hc
  have hk : kept ≠ [] := by
    intro hk
    rw [hk] at hren
    cases r with
    | true => exact h1 hren.symm
    | false => exact h2 hren.symm
  have hj : joinPath p n = p ++ "/" ++ n := by
    apply string_eq_of_data
    rw [hform n hpn, renderPath_cons_append n.data hk, hren]
    simp only [String.data_append, slash_data, List.append_assoc, List.singleton_append]
  refine ⟨hj, (isCleanDir_iff _).mpr ⟨?_, ?_, ?_⟩⟩
  · rw [← joinPath_of_ne hne, hj]
  · intro h
    have := congrArg String.length h
    simp only [String.length_append] at this
    have hl : ("/" : String).length = 1 := rfl
    have hp0 : 0 < p.length := string_length_pos hne
    omega
  · intro h
    have := congrArg String.length h
    simp only [String.length_append] at this
    have hl : ("/" : String).length = 1 := rfl
    have hd : (".": String).length = 1 := rfl
    have hp0 : 0 < p.length := string_length_pos hne
    omega

/-- The path of `live/<name>` under a clean directory path, as
`filepath.Join(root, filepath.Join("live", name))` makes it. -/
theorem joinPath_live {root name : String} (hr : isCleanDir root = true)
    (hn : isPlainName name = true) :
    joinPath "live" name = "live/" ++ name ∧
    joinPath root (joinPath "live" name) = root ++ "/" ++ ("live/" ++ name) := by
  have hl : joinPath "live" name = "live/" ++ name :=
    (joinPath_cleanDir (p := "live") (by decide) hn).1
  have hne : root ≠ "" := by
    intro h
    rw [h] at hr
    exact absurd hr (by decide)
  obtain ⟨h1, h2⟩ := joinPath_cleanDir hr (by decide : isPlainName "live" = true)
  have h3 := (joinPath_cleanDir h2 hn).1
  refine ⟨hl, ?_⟩
  rw [hl, joinPath_of_ne hne]
  have hs : root ++ "/" ++ ("live/" ++ name) = root ++ "/" ++ "live" ++ "/" ++ name := by
    apply string_eq_of_data
    simp only [String.data_append, List.append_assoc]
    rfl
  rw [hs, ← filepathJoin_three_of_ne hne, ← joinPath_nested, h1, h3]

/-! ## Executor: init_workspace on a filesystem state -/

theorem string_ne_empty_of_data {s : String} {c : Char} {l : List Char} (h : s.data = c :: l) :
    s ≠ "" := by
  intro hs
  rw [hs] at h
  cases h

theorem FS.lookup_append_new (fs : FS) (p q : String) (n : FsNode)
    (h : fs.lookup p = none) :
    FS.lookup (fs ++ [(p, n)]) q = if q = p then some n else fs.lookup q := by
  unfold FS.lookup at h ⊢
  rw [List.find?_append]
  by_cases hq : q = p
  · subst hq
    have hn : fs.find? (fun e => e.1 = q) = none := by
      cases hf : fs.find? (fun e => e.1 = q) with
      | none => rfl
      | some x => rw [hf] at h; cases h
    simp [hn]
  · rw [if_neg hq]
    cases hf : fs.find? (fun e => e.1 = q) with
    | some x => simp
    | none => simp [Ne.symm hq]

/-- What a path holds after a successful `MkdirAll`. -/
theorem FS.lookup_mkdirAll (fs : FS) (p q : String) :
    (fs.mkdirAll p).lookup q =
      if q = p then some ((fs.lookup p).getD .dir) else fs.lookup q := by
  unfold FS.mkdirAll
  cases h : fs.lookup p with
  | none =>
    simp only [Option.isSome_none, Bool.false_eq_true, if_false, Option.getD_none]
    exact FS.lookup_append_new fs p q .dir h
  | some n =>
    simp only [Option.isSome_some, if_true, Option.getD_some]
    by_cases hq : q = p
    · rw [if_pos hq, hq, h]
    · rw [if_neg hq]

/-- What a path holds after a successful `Symlink`. -/
theorem FS.lookup_symlink (fs : FS) (t p q : String) :
    (fs.symlink t p).lookup q =
      if q = p then some ((fs.lookup p).getD (.symlink t)) else fs.lookup q := by
  unfold FS.symlink
  cases h : fs.lookup p with
  | none =>
    simp only [Option.isSome_none, Bool.false_eq_true, if_false, Option.getD_none]
    exact FS.lookup_append_new fs p q (.symlink t) h
  | some n =>
    simp only [Option.isSome_some, if_true, Option.getD_some]
    by_cases hq : q = p
    · rw [if_pos hq, hq, h]
    · rw [if_neg hq]

theorem relTarget_eq : joinPath "live" "initial" = "live/initial" := by decide

/-- The directory `live/initial` of a workspace root is the path returned
as `current_path`: the root joined with the target of the link. -/
theorem livePath_eq (root : String) :
    joinPath (joinPath root "live") "initial" = joinPath root "live/initial" := by
  rw [joinPath_nested]
  by_cases hr : root = ""
  · rw [hr]; decide
  · rw [filepathJoin_three_of_ne hr, joinPath_of_ne hr]
    apply congrArg
    apply string_eq_of_data
    simp only [String.data_append, List.append_assoc]
    rfl

/-- The four paths `initWorkspace` writes are different paths. -/
theorem init_paths_distinct (root : String) :
    joinPath root "current" ≠ joinPath (joinPath root "live") "initial" ∧
    joinPath root "current" ≠ joinPath root "snapshots" ∧
    joinPath root "current" ≠ joinPath root ".wvs" ∧
    joinPath (joinPath root "live") "initial" ≠ joinPath root "snapshots" ∧
    joinPath (joinPath root "live") "initial" ≠ joinPath root ".wvs" ∧
    joinPath root "snapshots" ≠ joinPath root ".wvs" :=
  ⟨joinPath_last_ne _ _ (by decide) (by decide) (by decide),
   joinPath_last_ne _ _ (by decide) (by decide) (by decide),
   joinPath_last_ne _ _ (by decide) (by decide) (by decide),
   joinPath_last_ne _ _ (by decide) (by decide) (by decide),
   joinPath_last_ne _ _ (by decide) (by decide) (by decide),
   joinPath_last_ne _ _ (by decide) (by decide) (by decide)⟩

/-- The state after a run of `initWorkspace` in which every call
succeeded. -/
theorem afterInit_success (fs : FS) (root q : String)
    (hcur : fs.lookup (joinPath root "current") = none) :
    (FS.afterInit fs
      [.mkdirAll (joinPath (joinPath root "live") "initial") true,
       .mkdirAll (joinPath root "snapshots") true, .mkdirAll (joinPath root ".wvs") true,
       .symlink (joinPath "live" "initial") (joinPath root "current") true]).lookup q =
      if q = joinPath root "current" then some (.symlink "live/initial")
      else if q = joinPath root ".wvs" ∨ q = joinPath root "snapshots" ∨
          q = joinPath (joinPath root "live") "initial" then
        some ((fs.lookup q).getD .dir)
      else fs.lookup q := by
  obtain ⟨h1, h2, h3, h4, h5, h6⟩ := init_paths_distinct root
  simp only [FS.afterInit, List.foldl_cons, List.foldl_nil, FS.afterInitEvent,
    FS.lookup_symlink, FS.lookup_mkdirAll, relTarget_eq]
  by_cases hq : q = joinPath root "current"
  · subst hq
    simp [h1, h2, h3, hcur]
  · by_cases hw : q = joinPath root ".wvs"
    · subst hw
      simp [Ne.symm h3, Ne.symm h5, Ne.symm h6]
    · by_cases hs : q = joinPath root "snapshots"
      · subst hs
        simp [Ne.symm h2, Ne.symm h4, h6]
      · by_cases hl : q = joinPath (joinPath root "live") "initial"
        · subst hl
          simp [Ne.symm h1, h4, h5]
        · simp [hq, hw, hs, hl]

/-- A run of `initWorkspace` that finds no `current` and succeeds has made the
three directories and the link, in this order. -/
theorem initWorkspace_fresh (env : InitEnv) (mountPath wsid : String)
    (res : List (String × String)) (hl : env.lstatCurrent = false)
    (h : (initWorkspace env mountPath wsid).1 = .ok res) :
    res = [("current_path", joinPath (joinPath mountPath wsid) "live/initial")] ∧
    (initWorkspace env mountPath wsid).2 =
      [.mkdirAll (joinPath (joinPath (joinPath mountPath wsid) "live") "initial") true,
       .mkdirAll (joinPath (joinPath mountPath wsid) "snapshots") true,
       .mkdirAll (joinPath (joinPath mountPath wsid) ".wvs") true,
       .symlink (joinPath "live" "initial") (joinPath (joinPath mountPath wsid) "current")
         true] := by
  unfold initWorkspace at h ⊢
  simp only [hl, Bool.false_eq_true, if_false] at h ⊢
  cases h1 : env.mkdirLiveErr with
  | some e => simp [h1] at h
  | none =>
    cases h2 : env.mkdirSnapshotsErr with
    | some e => simp [h1, h2] at h
    | none =>
      cases h3 : env.mkdirWvsErr with
      | some e => simp [h1, h2, h3] at h
      | none =>
        cases h4 : env.symlinkErr with
        | some e => simp [h1, h2, h3, h4] at h
        | none =>
          simp only [h1, h2, h3, h4, Except.ok.injEq] at h ⊢
          rw [relTarget_eq] at h
          exact ⟨h.symm, trivial⟩

/-- A run of `initWorkspace` that finds `current` returns without an event. -/
theorem initWorkspace_replay (env : InitEnv) (mountPath wsid : String)
    (hl : env.lstatCurrent = true) :
    initWorkspace env mountPath wsid =
      (.ok [("current_path", joinPath (joinPath mountPath wsid)
        (match env.readlinkCurrent with
          | .ok t => t
          | .error _ => ""))], []) := by
  unfold initWorkspace
  simp only [hl, if_true]

/-- C20: on a filesystem state, with `os.Lstat` and `os.Readlink` answering
from the state, for every mount path and every `wsid`, the paths being those
`filepath.Join` makes.  (1) When `current` holds nothing and `initWorkspace`
succeeds, it returns `current_path` = `filepath.Join(wsRoot, "live/initial")`,
the paths live/initial, snapshots and .wvs of the workspace root hold
directories afterwards (what they held before, where they held something),
`current` holds a symbolic link with the relative target live/initial, and no
other path has changed.  (2) When `current` holds a symbolic link,
`initWorkspace` issues no event, so that the state is as it was, and returns
`filepath.Join(wsRoot, target)` for the target of the link.  (3) A second
run, on the state the first successful run has left, issues no event and
returns what the first returned.  (4) When the mount path is a clean
directory path and `wsid` a name that stands for itself, the path returned in
(1) reads <mount>/<wsid>/live/initial, and it is the directory made. -/
theorem initWorkspace_creates_or_replays (fs : FS) (env : InitEnv) (mountPath wsid : String)
    (hag : env.agrees fs (joinPath (joinPath mountPath wsid) "current")) :
    (fs.lookup (joinPath (joinPath mountPath wsid) "current") = none →
      ∀ res, (initWorkspace env mountPath wsid).1 = .ok res →
        res = [("current_path", joinPath (joinPath mountPath wsid) "live/initial")] ∧
        (∀ q, (FS.afterInit fs (initWorkspace env mountPath wsid).2).lookup q =
          if q = joinPath (joinPath mountPath wsid) "current" then
            some (.symlink "live/initial")
          else if q = joinPath (joinPath mountPath wsid) ".wvs" ∨
              q = joinPath (joinPath mountPath wsid) "snapshots" ∨
              q = joinPath (joinPath (joinPath mountPath wsid) "live") "initial" then
            some ((fs.lookup q).getD .dir)
          else fs.lookup q)) ∧
    (∀ t, fs.lookup (joinPath (joinPath mountPath wsid) "current") = some (.symlink t) →
      initWorkspace env mountPath wsid =
        (.ok [("current_path", joinPath (joinPath mountPath wsid) t)], []) ∧
      FS.afterInit fs (initWorkspace env mountPath wsid).2 = fs) ∧
    (∀ res env₂, (initWorkspace env mountPath wsid).1 = .ok res →
      env₂.agrees (FS.afterInit fs (initWorkspace env mountPath wsid).2)
        (joinPath (joinPath mountPath wsid) "current") →
      initWorkspace env₂ mountPath wsid = (.ok res, [])) ∧
    (joinPath (joinPath (joinPath mountPath wsid) "live") "initial"
        = joinPath (joinPath mountPath wsid) "live/initial" ∧
      (isCleanDir mountPath = true → isPlainName wsid = true →
        joinPath (joinPath mountPath wsid) "live/initial"
          = mountPath ++ "/" ++ wsid ++ "/live/initial")) := by
  obtain ⟨hls, hrl, hrn⟩ := hag
  have hfresh : fs.lookup (joinPath (joinPath mountPath wsid) "current") = none →
      ∀ res, (initWorkspace env mountPath wsid).1 = .ok res →
        res = [("current_path", joinPath (joinPath mountPath wsid) "live/initial")] ∧
        (∀ q, (FS.afterInit fs (initWorkspace env mountPath wsid).2).lookup q =
          if q = joinPath (joinPath mountPath wsid) "current" then
            some (.symlink "live/initial")
          else if q = joinPath (joinPath mountPath wsid) ".wvs" ∨
              q = joinPath (joinPath mountPath wsid) "snapshots" ∨
              q = joinPath (joinPath (joinPath mountPath wsid) "live") "initial" then
            some ((fs.lookup q).getD .dir)
          else fs.lookup q) := by
    intro hnone res hres
    have hl : env.lstatCurrent = false := by rw [hls, hnone]; rfl
    obtain ⟨hr, hev⟩ := initWorkspace_fresh env mountPath wsid res hl hres
    refine ⟨hr, ?_⟩
    intro q
    rw [hev]
    exact afterInit_success fs (joinPath mountPath wsid) q hnone
  refine ⟨hfresh, ?_, ?_, livePath_eq _, ?_⟩
  rotate_left 2
  · intro hm hw
    obtain ⟨hj, hc⟩ := joinPath_cleanDir hm hw
    have := (joinPath_live hc (by decide : isPlainName "initial" = true)).2
    rw [relTarget_eq] at this
    rw [hj, this]
    apply string_eq_of_data
    simp only [String.data_append, List.append_assoc]
    rfl
  · intro t ht
    have hl : env.lstatCurrent = true := by rw [hls, ht]; rfl
    rw [initWorkspace_replay env mountPath wsid hl, hrl t ht]
    exact ⟨rfl, rfl⟩
  · intro res env₂ hres hag₂
    obtain ⟨hls₂, hrl₂, hrn₂⟩ := hag₂
    cases hcur : fs.lookup (joinPath (joinPath mountPath wsid) "current") with
    | none =>
      obtain ⟨hr, hlook⟩ := hfresh hcur res hres
      have hnow := hlook (joinPath (joinPath mountPath wsid) "current")
      rw [if_pos rfl] at hnow
      have hl₂ : env₂.lstatCurrent = true := by rw [hls₂, hnow]; rfl
      rw [initWorkspace_replay env₂ mountPath wsid hl₂, hrl₂ _ hnow, hr]
    | some n =>
      have hl : env.lstatCurrent = true := by rw [hls, hcur]; rfl
      have hrun := initWorkspace_replay env mountPath wsid hl
      rw [hrun] at hres hls₂ hrl₂ hrn₂
      simp only [FS.afterInit, List.foldl_nil] at hls₂ hrl₂ hrn₂
      have hl₂ : env₂.lstatCurrent = true := by rw [hls₂, hcur]; rfl
      rw [initWorkspace_replay env₂ mountPath wsid hl₂]
      simp only [Except.ok.injEq] at hres
      rw [← hres]
      cases n with
      | symlink t =>
        rw [hrl t hcur, hrl₂ t hcur]
      | dir =>
        obtain ⟨e, he⟩ := hrn (by intro t ht; rw [hcur] at ht; cases ht)
        obtain ⟨e₂, he₂⟩ := hrn₂ (by intro t ht; rw [hcur] at ht; cases ht)
        rw [he, he₂]
      | file =>
        obtain ⟨e, he⟩ := hrn (by intro t ht; rw [hcur] at ht; cases ht)
        obtain ⟨e₂, he₂⟩ := hrn₂ (by intro t ht; rw [hcur] at ht; cases ht)
        rw [he, he₂]

/-- The answers read from a state agree with it. -/
theorem InitEnv.ofFS_agrees (fs : FS) (currentLink : String) :
    (InitEnv.ofFS fs currentLink).agrees fs currentLink := by
  refine ⟨rfl, ?_, ?_⟩
  · intro t ht
    simp only [InitEnv.ofFS, ht]
  · intro hn
    cases h : fs.lookup currentLink with
    | none => exact ⟨"invalid argument", by simp only [InitEnv.ofFS, h]⟩
    | some n =>
      cases n with
      | symlink t => exact absurd h (hn t)
      | dir => exact ⟨"invalid argument", by simp only [InitEnv.ofFS, h]⟩
      | file => exact ⟨"invalid argument", by simp only [InitEnv.ofFS, h]⟩

/-- C20, instances: on a workspace root without `current` the layout is
made, and a second run returns the same path without an event; on a workspace
whose `current` points at live/abcd1234 nothing is touched; and the path
returned is `/ws/w1/live/initial` also when the mount path is given as `/ws/`
and the `wsid` as `w1/`. -/
theorem initWorkspace_creates_or_replays_witness :
    (initWorkspace (InitEnv.ofFS fsBare "/ws/w1/current") "/ws" "w1").1 =
      .ok [("current_path", "/ws/w1/live/initial")] ∧
    FS.afterInit fsBare (initWorkspace (InitEnv.ofFS fsBare "/ws/w1/current") "/ws" "w1").2 =
      [("/ws/w1", .dir), ("/ws/w1/snapshots", .dir), ("/ws/w1/live/initial", .dir),
       ("/ws/w1/.wvs", .dir), ("/ws/w1/current", .symlink "live/initial")] ∧
    initWorkspace
      (InitEnv.ofFS
        (FS.afterInit fsBare
          (initWorkspace (InitEnv.ofFS fsBare "/ws/w1/current") "/ws" "w1").2)
        "/ws/w1/current") "/ws" "w1" =
      (.ok [("current_path", "/ws/w1/live/initial")], []) ∧
    initWorkspace (InitEnv.ofFS fsSwitched "/ws/w1/current") "/ws" "w1" =
      (.ok [("current_path", "/ws/w1/live/abcd1234")], []) ∧
    (isCleanDir "/ws" = true ∧ isPlainName "w1" = true ∧
      joinPath (joinPath "/ws" "w1") "live/initial" = "/ws/w1/live/initial") ∧
    (initWorkspace (InitEnv.ofFS fsBare "/ws/w1/current") "/ws/" "w1/").1 =
      .ok [("current_path", "/ws/w1/live/initial")] :=
  ⟨rfl, by decide,
   (initWorkspace_creates_or_replays fsBare (InitEnv.ofFS fsBare "/ws/w1/current") "/ws" "w1"
      (InitEnv.ofFS_agrees fsBare "/ws/w1/current")).2.2.1
      [("current_path", "/ws/w1/live/initial")] _ rfl (InitEnv.ofFS_agrees _ "/ws/w1/current"),
   ((initWorkspace_creates_or_replays fsSwitched (InitEnv.ofFS fsSwitched "/ws/w1/current")
      "/ws" "w1" (InitEnv.ofFS_agrees fsSwitched "/ws/w1/current")).2.1 "live/abcd1234"
      rfl).1,
   ⟨by decide, by decide,
    ((initWorkspace_creates_or_replays fsBare (InitEnv.ofFS fsBare "/ws/w1/current") "/ws" "w1"
      (InitEnv.ofFS_agrees fsBare "/ws/w1/current")).2.2.2.2 (by decide) (by decide)).trans
      (by decide)⟩,
   rfl⟩

/-! ## Error codes and `WriteError` -/

/-- C25: `HTTPStatus` maps bad-request to 400, not-found to 404, the four
conflict codes to 409, gone to 410, precondition-failed to 412,
executor-error to 502, executor-timeout to 504, internal to 500 and every
string `e` that is none of the ten codes before to 500; `WriteError` answers
with the status of the code of the error, the JSON content type and a body
that is the object with the members `code` and `message` holding the code and
the message of the error, followed by a newline. -/
theorem HTTPStatus_table_WriteError (e : ErrorCode) (err : AppError) :
    HTTPStatus ErrBadRequest = 400 ∧ HTTPStatus ErrNotFound = 404 ∧
    HTTPStatus ErrConflictLocked = 409 ∧ HTTPStatus ErrConflictIdempotent = 409 ∧
    HTTPStatus ErrConflictExists = 409 ∧ HTTPStatus ErrConflictSnapshotInUse = 409 ∧
    HTTPStatus ErrGone = 410 ∧ HTTPStatus ErrPreconditionFailed = 412 ∧
    HTTPStatus ErrExecutorError = 502 ∧ HTTPStatus ErrExecutorTimeout = 504 ∧
    HTTPStatus ErrInternal = 500 ∧
    (e ∉ [ErrBadRequest, ErrNotFound, ErrConflictLocked, ErrConflictIdempotent,
          ErrConflictExists, ErrConflictSnapshotInUse, ErrGone, ErrPreconditionFailed,
          ErrExecutorError, ErrExecutorTimeout] → HTTPStatus e = 500) ∧
    (WriteError err).status = HTTPStatus err.Code ∧
    (WriteError err).contentType = "application/json" ∧
    (WriteError err).body
      = (objNode [("code", err.Code), ("message", err.Message)]).marshal ++ "\n" := by
  refine ⟨by decide, by decide, by decide, by decide, by decide, by decide, by decide,
    by decide, by decide, by decide, by decide, ?_, rfl, rfl, ?_⟩
  · intro h
    simp only [List.mem_cons, List.mem_singleton, List.not_mem_nil, or_false, not_or] at h
    obtain ⟨h1, h2, h3, h4, h5, h6, h7, h8, h9, h10⟩ := h
    unfold HTTPStatus
    rw [if_neg h1, if_neg h2, if_neg (by simp only [h3, h4, h5, h6, or_self, not_false_eq_true]),
      if_neg h7, if_neg h8, if_neg h9, if_neg h10]
  · have hk : sortStrings (mapKeys [("code", quote err.Code), ("message", quote err.Message)])
        = ["code", "message"] := by
      have hm : mapKeys [("code", quote err.Code), ("message", quote err.Message)]
          = ["code", "message"] := by
        simp only [mapKeys, List.map]; decide
      rw [hm]; decide
    simp only [WriteError, encodeStruct, objNode, strNode, List.map, JSON.marshal,
      marshalMembers, encodeObject, hk]
    simp [mapGet, String.intercalate, String.append_assoc]

/-- Witness of C25 for a string that is no code of the vocabulary and the
error of `TestWriteError`: status 500 for the one, status 400 and the body
the test decodes for the other. -/
theorem HTTPStatus_table_WriteError_witness :
    HTTPStatus "WVS_TEAPOT" = 500 ∧ (WriteError testAppError).status = 400 ∧
    (WriteError testAppError).body
      = "\x7b\"code\":\"WVS_BAD_REQUEST\",\"message\":\"test error\"\x7d\n" :=
  have h := HTTPStatus_table_WriteError "WVS_TEAPOT" testAppError
  ⟨h.2.2.2.2.2.2.2.2.2.2.2.1 (by decide), h.2.2.2.2.2.2.2.2.2.2.2.2.1.trans (by decide),
    by decide⟩

/-! ## The context of the executor call -/

/-- Counterexample to C26: a task with `timeout_seconds = 300` leased by the
worker binary is dispatched under a context without any deadline, so nothing
bounds the call by 300 seconds; a context made with a timeout of 300 seconds
would. -/
theorem rpc_deadline_counterexample :
    (pendingTask 5).TimeoutSeconds = 300 ∧
    (Run.rpcContext workerMainContext (pendingTask 5)).deadline = none ∧
    (∀ now, (Run.rpcContext workerMainContext (pendingTask 5)).boundsBy now 300 = false) ∧
    (Context.WithTimeout workerMainContext 7 300).boundsBy 7 300 = true :=
  ⟨rfl, rfl, fun _ => rfl, by decide⟩

/-- C26 (amended): for every task, the executor call is issued under the very
context `Run` was given, whatever the `timeout_seconds` of the task: two
rows that differ in `timeout_seconds` are dispatched under the same context
and the worker issues the same store calls and the same executor request for
them; in the worker binary that context has no deadline. -/
theorem rpc_context_is_run_context (ctx : Context) (env : WorkerEnv) (db : DB)
    (task : WvsTask) (seconds : Int) :
    Run.rpcContext ctx task = ctx ∧
    Run.rpcContext ctx { task with TimeoutSeconds := seconds } = Run.rpcContext ctx task ∧
    runTask env db { task with TimeoutSeconds := seconds } = runTask env db task ∧
    (Run.rpcContext workerMainContext task).deadline = none :=
  ⟨rfl, rfl, rfl, rfl⟩

/-! ## The bytes of the request hash -/

theorem string_append_inj_left {a b c : String} (h : a ++ b = a ++ c) : b = c := by
  have hd := congrArg String.data h
  simp only [String.data_append] at hd
  exact string_eq_of_data (List.append_cancel_left hd)

theorem string_append_inj_right {a b c : String} (h : a ++ c = b ++ c) : a = b := by
  have hd := congrArg String.data h
  simp only [String.data_append] at hd
  exact string_eq_of_data (List.append_cancel_right hd)

theorem string_append_inj_of_length {a b c d : String} (hl : a.length = c.length)
    (h : a ++ b = c ++ d) : a = c ∧ b = d := by
  have hd := congrArg String.data h
  simp only [String.data_append] at hd
  have hl2 : a.data.length = c.data.length := hl
  obtain ⟨h1, h2⟩ := List.append_inj hd hl2
  exact ⟨string_eq_of_data h1, string_eq_of_data h2⟩

/-! ## Task-status writes of `executeWithLock` -/

theorem failTask_statusWrites (l : WvsTask) (err : String) :
    ∃ w, statusWrites (failTask l err) = [w] ∧ w.statusWriteTask = some l.TaskID := by
  unfold failTask
  by_cases h : l.Attempt ≥ l.MaxAttempts
  · rw [if_pos h]
    by_cases hop : l.Op = OpInitWorkspace
    · rw [if_pos hop]; exact ⟨_, rfl, rfl⟩
    · rw [if_neg hop]; exact ⟨_, rfl, rfl⟩
  · rw [if_neg h]; exact ⟨_, rfl, rfl⟩

theorem onSuccess_statusWrites (l : WvsTask) (results : Option (List (String × String))) :
    ∃ w, statusWrites (onSuccess l results) = [w] ∧ w.statusWriteTask = some l.TaskID := by
  unfold onSuccess
  by_cases h1 : l.Op = OpInitWorkspace
  · rw [if_pos h1]; exact ⟨_, rfl, rfl⟩
  · rw [if_neg h1]
    by_cases h2 : l.Op = OpSnapshotCreate
    · rw [if_pos h2]; exact ⟨_, rfl, rfl⟩
    · rw [if_neg h2]
      by_cases h3 : l.Op = OpSetCurrent
      · rw [if_pos h3]; exact ⟨_, rfl, rfl⟩
      · rw [if_neg h3]; exact ⟨_, rfl, rfl⟩

theorem callExecutor_statusWrites (env : WorkerEnv) (l : WvsTask)
    (params : List (String × String)) :
    ∃ w, statusWrites (callExecutor env l params) = [w] ∧
      w.statusWriteTask = some l.TaskID := by
  unfold callExecutor
  by_cases hop : opMapHas l.Op = true
  · simp only [hop, not_true_eq_false, if_false]
    have hcons : ∀ req rest, statusWrites (Effect.ExecuteTask req :: rest) = statusWrites rest :=
      fun _ _ => rfl
    rw [hcons]
    cases hrpc : env.rpc with
    | error err => exact failTask_statusWrites l _
    | ok resp =>
      by_cases hs : resp.Success = true
      · simp only [hs, not_true_eq_false, if_false]
        exact onSuccess_statusWrites l _
      · simp only [hs, not_false_eq_true, if_true]
        exact failTask_statusWrites l _
  · simp only [hop, not_false_eq_true, if_true]
    exact failTask_statusWrites l _

theorem dispatch_statusWrites (env : WorkerEnv) (db : DB) (l : WvsTask) :
    ∃ w, statusWrites (dispatch env db l) = [w] ∧ w.statusWriteTask = some l.TaskID := by
  unfold dispatch
  by_cases hop : l.Op = OpSetCurrent
  · simp only [hop, if_true]
    unfold checkSetCurrentNoop
    by_cases hg : env.getWorkspaceErr = true
    · simp only [hg, if_true, List.nil_append]
      exact callExecutor_statusWrites env l _
    · simp only [hg, Bool.false_eq_true, if_false]
      cases hw : GetWorkspace db l.Wsid with
      | none =>
        simp only [List.nil_append]
        exact callExecutor_statusWrites env l _
      | some ws =>
        by_cases hc : ws.CurrentSnapshotID
            = some (paramGet (paramSet l.Params "task_id" l.TaskID) "snapshot_id")
        · simp only [hc, if_true]
          exact ⟨_, rfl, rfl⟩
        · simp only [hc, if_false, List.nil_append]
          exact callExecutor_statusWrites env l _
  · simp only [hop, if_false]
    exact callExecutor_statusWrites env l _

/-- C29: whatever the surroundings decide (transaction begin failure, lock
failure, drop-guard failure, mark-deleted failure, commit failure,
set_current noop, unknown op, RPC transport error, executor-reported failure
or success) and whatever the store and the row, `executeWithLock` issues
exactly one task-status write (`CompleteTask`, `FailTask` or `MarkTaskDead`),
and it is addressed to the row. -/
theorem executeWithLock_one_status_write (env : WorkerEnv) (db : DB) (task : WvsTask) :
    ∃ w, statusWrites (executeWithLock env db task) = [w] ∧ w.isStatusWrite = true ∧
      w.statusWriteTask = some task.TaskID := by
  have key : ∃ w, statusWrites (executeWithLock env db task) = [w] ∧
      w.statusWriteTask = some task.TaskID := by
    unfold executeWithLock
    cases hb : env.beginErr with
    | some err => exact failTask_statusWrites task _
    | none =>
      cases hl : env.lockErr with
      | some err => exact failTask_statusWrites task _
      | none =>
        by_cases hop : task.Op = OpSnapshotDrop
        · simp only [hop, if_true]
          by_cases href : env.referencedErr = true ∨ IsSnapshotReferencedByTasks db task.TaskID
              task.Wsid (paramGet task.Params "snapshot_id") = true
          · rw [if_pos href]; exact failTask_statusWrites task _
          · rw [if_neg href]
            cases hm : env.markDeletedErr with
            | some err => exact failTask_statusWrites task _
            | none =>
              cases hc : env.commitErr with
              | some err => exact failTask_statusWrites task _
              | none =>
                have hcons : ∀ x rest,
                    statusWrites (Effect.MarkSnapshotDeleted x :: rest) = statusWrites rest :=
                  fun _ _ => rfl
                simp only [hcons]
                exact dispatch_statusWrites env db task
        · simp only [hop, if_false]
          cases hc : env.commitErr with
          | some err => exact failTask_statusWrites task _
          | none => exact dispatch_statusWrites env db task
  obtain ⟨w, hw, ht⟩ := key
  refine ⟨w, hw, ?_, ht⟩
  have hmem : w ∈ statusWrites (executeWithLock env db task) := by rw [hw]; exact List.mem_singleton.mpr rfl
  exact (List.mem_filter.mp hmem).2

/-! ## Several workers on one queue -/

/-- Counterexample to C27: two snapshots of the ACTIVE workspace `w1` are
requested and accepted, a worker leases the first task and another worker
leases the second before the first has ended; both tasks of `w1` are then
RUNNING in the store, each held by a worker. -/
theorem two_running_same_wsid_counterexample :
    Inv { db := dbOneSnapshot, leased := [] } ∧
    (run id { db := dbOneSnapshot, leased := [] } twoLeases).map
      (fun s => s.db.tasks.map (fun t => (t.TaskID, t.Wsid, t.Status)))
      = some [("t1", "w1", TaskRunning), ("t2", "w1", TaskRunning)] ∧
    (run id { db := dbOneSnapshot, leased := [] } twoLeases).map
      (fun s => runningOf s.db "w1") = some ["t1", "t2"] ∧
    (run id { db := dbOneSnapshot, leased := [] } twoLeases).map
      (fun s => s.leased.map (fun t => t.TaskID)) = some ["t2", "t1"] := by
  refine ⟨⟨List.nodup_nil, List.nodup_nil, fun l hl => absurd hl (List.not_mem_nil l)⟩, ?_, ?_, ?_⟩
    <;> decide

/-- C27 (amended): with any number of workers and handlers taking steps from
a state in which task ids are unique and no row is leased, in every reachable
state no task is held by two workers and every task a worker holds is RUNNING
in the store. -/
theorem no_task_leased_twice (sha256hex : String → String) (s₀ s : Sys) (tr : List Action)
    (hids : (s₀.db.tasks.map (fun t => t.TaskID)).Nodup) (hfree : s₀.leased = [])
    (hrun : run sha256hex s₀ tr = some s) :
    (s.leased.map (fun t => t.TaskID)).Nodup ∧
    ∀ l ∈ s.leased, statusOf s.db l.TaskID = some TaskRunning := by
  have h0 : Inv s₀ := by
    refine ⟨hids, ?_, ?_⟩
    · rw [hfree]; exact List.nodup_nil
    · intro l hl; rw [hfree] at hl; exact absurd hl (List.not_mem_nil l)
  obtain ⟨hn, hl, hr⟩ := inv_run sha256hex h0 hrun
  refine ⟨hl, fun l hlm => ?_⟩
  obtain ⟨t, ht, hid, hst, _, _⟩ := hr l hlm
  have hg : GetTask s.db t.TaskID = some t := GetTask_of_mem hn ht
  rw [hid] at hg
  simp only [statusOf, hg, Option.map_some', hst]

/-- Witness of C27 (amended): after the two leases of the counterexample the
two workers hold different tasks, both RUNNING. -/
theorem no_task_leased_twice_witness :
    ∃ s, run id { db := dbOneSnapshot, leased := [] } twoLeases = some s ∧
      (s.leased.map (fun t => t.TaskID)).Nodup ∧
      ∀ l ∈ s.leased, statusOf s.db l.TaskID = some TaskRunning :=
  ⟨(run id { db := dbOneSnapshot, leased := [] } twoLeases).getD { db := dbOneSnapshot, leased := [] },
    by decide,
    no_task_leased_twice id { db := dbOneSnapshot, leased := [] } _ twoLeases
      List.nodup_nil rfl (by decide)⟩

/-! ## Filesystem steps -/

theorem FS.lookup_put (fs : FS) (p q : String) (n : FsNode) :
    (fs.put p n).lookup q = if q = p then some n else fs.lookup q := by
  unfold FS.put FS.lookup
  by_cases h : q = p
  · subst h; simp
  · have h' : ¬ p = q := fun e => h e.symm
    simp [List.find?_cons, h, h']

theorem FS.lookup_filter (fs : FS) (keep : String → Bool) (q : String) :
    FS.lookup (fs.filter (fun e => keep e.1)) q = if keep q then fs.lookup q else none := by
  unfold FS.lookup
  induction fs with
  | nil => simp
  | cons e rest ih =>
    by_cases hk : keep e.1 = true
    · rw [List.filter_cons_of_pos (by simpa using hk)]
      by_cases he : e.1 = q
      · subst he; simp [List.find?_cons, hk]
      · simp only [List.find?_cons, he, decide_False]
        exact ih
    · rw [List.filter_cons_of_neg (by simpa using hk)]
      by_cases he : e.1 = q
      · subst he
        simp only [List.find?_cons, decide_True, Option.map_some']
        rw [ih]; simp [hk]
      · simp only [List.find?_cons, he, decide_False]
        exact ih

theorem FS.lookup_erase (fs : FS) (p q : String) :
    (fs.erase p).lookup q = if q = p then none else fs.lookup q := by
  unfold FS.erase
  have h := FS.lookup_filter fs (fun x => decide (x ≠ p)) q
  simp only [ne_eq, decide_not, Bool.not_eq_true', decide_eq_false_iff_not] at h
  rw [show (fun e : String × FsNode => decide (e.1 ≠ p)) = (fun e => !decide (e.1 = p)) from by
    funext e; simp]
  rw [h]
  by_cases hq : q = p <;> simp [hq]

theorem FS.lookup_eraseTree (fs : FS) (root q : String) :
    (fs.eraseTree root).lookup q = if isUnder root q = true then none else fs.lookup q := by
  unfold FS.eraseTree
  rw [FS.lookup_filter fs (fun x => ! isUnder root x) q]
  by_cases h : isUnder root q = true <;> simp [h]

theorem isUnder_self (p : String) : isUnder p p = true := by
  simp [isUnder]

theorem FS.Step_symlink_put {fs : FS} {target link : String} (h : fs.lookup link = none) :
    FS.Step fs (.symlink target link true) (fs.put link (.symlink target)) := by
  refine ⟨h, ?_, fun q hq => ?_⟩
  · rw [FS.lookup_put, if_pos rfl]
  · rw [FS.lookup_put, if_neg hq]

theorem FS.Step_rename_put {fs : FS} {oldPath newPath : String} {n : FsNode}
    (hne : oldPath ≠ newPath) (h : fs.lookup oldPath = some n) :
    FS.Step fs (.rename oldPath newPath true) ((fs.erase oldPath).put newPath n) := by
  refine ⟨fun he => absurd he hne, fun _ => ⟨⟨n, h, ?_⟩, ?_, fun q ho hn => ?_⟩⟩
  · rw [FS.lookup_put, if_pos rfl]
  · rw [FS.lookup_put, if_neg hne, FS.lookup_erase, if_pos rfl]
  · have h1 : q ≠ oldPath := fun e => by rw [e, isUnder_self] at ho; cases ho
    have h2 : q ≠ newPath := fun e => by rw [e, isUnder_self] at hn; cases hn
    rw [FS.lookup_put, if_neg h2, FS.lookup_erase, if_neg h1]

theorem FS.Step_removeAll_eraseTree (fs : FS) (path : String) :
    FS.Step fs (.removeAll path true) (fs.eraseTree path) := by
  refine ⟨fun q hq => ?_, fun q hq => ?_⟩
  · rw [FS.lookup_eraseTree, if_pos hq]
  · rw [FS.lookup_eraseTree, if_neg (by rw [hq]; decide)]

theorem FS.Step_remove_same (fs : FS) (path : String) : FS.Step fs (.remove path) fs :=
  ⟨fun _ _ => rfl, Or.inl rfl⟩

theorem FS.Step_write_put (fs : FS) (path : String) (state : QuiesceState) (taskID : String)
    (ok : Bool) : FS.Step fs (.writeControl path state taskID ok) (fs.put path .file) := by
  intro q hq
  rw [FS.lookup_put, if_neg hq]

theorem FS.Chain_append {fs : FS} {es₁ es₂ : List FsEvent} {states : List FS}
    (h : FS.Chain fs (es₁ ++ es₂) states) :
    ∃ s₁ s₂, states = s₁ ++ s₂ ∧ FS.Chain fs es₁ s₁ ∧ FS.Chain (FS.final fs s₁) es₂ s₂ := by
  induction es₁ generalizing fs states with
  | nil => exact ⟨[], states, rfl, trivial, h⟩
  | cons e es ih =>
    cases states with
    | nil => exact absurd h (by simp [FS.Chain])
    | cons st rest =>
      simp only [List.cons_append, FS.Chain] at h
      obtain ⟨s₁, s₂, hs, h1, h2⟩ := ih h.2
      refine ⟨st :: s₁, s₂, by rw [hs]; rfl, ⟨h.1, h1⟩, ?_⟩
      have hf : FS.final fs (st :: s₁) = FS.final st s₁ := by
        unfold FS.final
        cases s₁ with
        | nil => rfl
        | cons a l =>
          rw [List.getLast?_cons_cons]
          simp [List.getLast?_eq_getLast, List.cons_ne_nil]
      rw [hf]; exact h2

theorem FS.final_append (fs : FS) (s₁ s₂ : List FS) :
    FS.final fs (s₁ ++ s₂) = FS.final (FS.final fs s₁) s₂ := by
  unfold FS.final
  cases s₂ with
  | nil => simp
  | cons a l =>
    rw [List.getLast?_append_of_ne_nil _ (List.cons_ne_nil a l)]
    simp [List.getLast?_eq_getLast, List.cons_ne_nil]

theorem tmpLink_ne (p : String) : p ++ ".tmp" ≠ p := by
  intro h
  have hl := congrArg String.length h
  simp only [String.length_append] at hl
  have h4 : ".tmp".length = 4 := rfl
  omega

/-! ## `SwitchCurrent` on the filesystem -/

/-- C23: let `current` be a link to `old` when `SwitchCurrent` starts, and let
the filesystem go through `states` while the calls of `SwitchCurrent` happen
(remove `current.tmp`, create the link `current.tmp`, rename it onto
`current`, and on a failed rename remove `current.tmp` again).  In every one
of these states `current` is a link, to `old` or to `newTarget`; when
`SwitchCurrent` returns no error the last state has `current` pointing at
`newTarget` and nothing at `current.tmp`; when it returns an error `current`
points at `old` in every state, the last included. -/
theorem SwitchCurrent_current_old_or_new (wsRoot newTarget old : String)
    (symlinkErr renameErr : Option String) (fs : FS) (states : List FS)
    (hcur : fs.lookup (joinPath wsRoot "current") = some (.symlink old))
    (hchain : FS.Chain fs (SwitchCurrent wsRoot newTarget symlinkErr renameErr).2 states) :
    (∀ st ∈ states, st.lookup (joinPath wsRoot "current") = some (.symlink old) ∨
      st.lookup (joinPath wsRoot "current") = some (.symlink newTarget)) ∧
    ((SwitchCurrent wsRoot newTarget symlinkErr renameErr).1 = none →
      (FS.final fs states).lookup (joinPath wsRoot "current") = some (.symlink newTarget) ∧
      (FS.final fs states).lookup (joinPath wsRoot "current" ++ ".tmp") = none) ∧
    ((SwitchCurrent wsRoot newTarget symlinkErr renameErr).1 ≠ none →
      (∀ st ∈ states, st.lookup (joinPath wsRoot "current") = some (.symlink old)) ∧
      (FS.final fs states).lookup (joinPath wsRoot "current") = some (.symlink old)) := by
  have hne : joinPath wsRoot "current" ≠ joinPath wsRoot "current" ++ ".tmp" :=
    fun h => tmpLink_ne _ h.symm
  unfold SwitchCurrent at hchain ⊢
  cases symlinkErr with
  | some e =>
    match states, hchain with
    | [s₁, s₂], ⟨h1, h2, _⟩ =>
      have c1 : s₁.lookup (joinPath wsRoot "current") = some (.symlink old) :=
        (h1.1 _ hne).trans hcur
      have c2 : s₂.lookup (joinPath wsRoot "current") = some (.symlink old) :=
        (h2 _).trans c1
      refine ⟨?_, fun h => absurd h (by simp), fun _ => ⟨?_, c2⟩⟩
      · intro st hst
        simp only [List.mem_cons, List.mem_singleton, List.not_mem_nil, or_false] at hst
        rcases hst with rfl | rfl
        · exact Or.inl c1
        · exact Or.inl c2
      · intro st hst
        simp only [List.mem_cons, List.mem_singleton, List.not_mem_nil, or_false] at hst
        rcases hst with rfl | rfl
        · exact c1
        · exact c2
  | none =>
    cases renameErr with
    | some e =>
      match states, hchain with
      | [s₁, s₂, s₃, s₄], ⟨h1, h2, h3, h4, _⟩ =>
        have c1 : s₁.lookup (joinPath wsRoot "current") = some (.symlink old) :=
          (h1.1 _ hne).trans hcur
        have c2 : s₂.lookup (joinPath wsRoot "current") = some (.symlink old) :=
          (h2.2.2 _ hne).trans c1
        have c3 : s₃.lookup (joinPath wsRoot "current") = some (.symlink old) :=
          (h3 _).trans c2
        have c4 : s₄.lookup (joinPath wsRoot "current") = some (.symlink old) :=
          (h4.1 _ hne).trans c3
        refine ⟨?_, fun h => absurd h (by simp), fun _ => ⟨?_, c4⟩⟩
        · intro st hst
          simp only [List.mem_cons, List.mem_singleton, List.not_mem_nil, or_false] at hst
          rcases hst with rfl | rfl | rfl | rfl
          · exact Or.inl c1
          · exact Or.inl c2
          · exact Or.inl c3
          · exact Or.inl c4
        · intro st hst
          simp only [List.mem_cons, List.mem_singleton, List.not_mem_nil, or_false] at hst
          rcases hst with rfl | rfl | rfl | rfl
          · exact c1
          · exact c2
          · exact c3
          · exact c4
    | none =>
      match states, hchain with
      | [s₁, s₂, s₃], ⟨h1, h2, h3, _⟩ =>
        have c1 : s₁.lookup (joinPath wsRoot "current") = some (.symlink old) :=
          (h1.1 _ hne).trans hcur
        have c2 : s₂.lookup (joinPath wsRoot "current") = some (.symlink old) :=
          (h2.2.2 _ hne).trans c1
        obtain ⟨⟨n, hn, hnew⟩, hgone, _⟩ := h3.2 (fun h => hne h.symm)
        have hn' : n = .symlink newTarget := by
          have := h2.2.1
          rw [hn] at this
          exact Option.some.inj this
        have c3 : s₃.lookup (joinPath wsRoot "current") = some (.symlink newTarget) := by
          rw [hnew, hn']
        refine ⟨?_, fun _ => ⟨c3, hgone⟩, fun h => absurd rfl h⟩
        intro st hst
        simp only [List.mem_cons, List.mem_singleton, List.not_mem_nil, or_false] at hst
        rcases hst with rfl | rfl | rfl
        · exact Or.inl c1
        · exact Or.inl c2
        · exact Or.inr c3

/-- Witness of C23: `SwitchCurrent` moving `current` of the workspace `w1`
from `live/abcd1234` to `live/ef567890`, nothing failing. -/
theorem SwitchCurrent_current_old_or_new_witness :
    FS.Chain fsTwoSnapshots (SwitchCurrent "/ws/w1" "live/ef567890" none none).2 switchStates ∧
    (∀ st ∈ switchStates, st.lookup "/ws/w1/current" = some (.symlink "live/abcd1234") ∨
      st.lookup "/ws/w1/current" = some (.symlink "live/ef567890")) ∧
    (FS.final fsTwoSnapshots switchStates).lookup "/ws/w1/current"
      = some (.symlink "live/ef567890") ∧
    (FS.final fsTwoSnapshots switchStates).lookup "/ws/w1/current.tmp" = none :=
  have hc : FS.Chain fsTwoSnapshots (SwitchCurrent "/ws/w1" "live/ef567890" none none).2
      switchStates :=
    ⟨FS.Step_remove_same _ _, FS.Step_symlink_put (by decide),
      FS.Step_rename_put (by decide) (by decide), trivial⟩
  have h := SwitchCurrent_current_old_or_new "/ws/w1" "live/ef567890" "live/abcd1234" none none
    fsTwoSnapshots switchStates (by decide) hc
  ⟨hc, h.1, h.2.1 rfl⟩

/-! ## `setCurrent` on the filesystem -/

theorem current_ne_controlPath (wsRoot : String) :
    joinPath wsRoot "current" ≠ controlPathOf wsRoot := by
  unfold controlPathOf
  exact joinPath_last_ne _ _ (by decide) (by decide) (by decide)

/-- The trace of a `setCurrent` that succeeded without being a replay ends
with the creation of the link `current.tmp`, its renaming onto `current` and
the write of the deferred `Resume`. -/
theorem setCurrent_ok_trace (env : ExecEnv) (mountPath timeoutText wsid : String)
    (params res : List (String × String))
    (h : (setCurrent env mountPath timeoutText wsid params).1 = some (.ok res))
    (hm : env.readlink.toOption ≠ some (joinPath "live" (paramGet params "new_live_id"))) :
    res = [("current_path", joinPath (joinPath mountPath wsid)
        (joinPath "live" (paramGet params "new_live_id")))] ∧
    ∃ pre ok, (setCurrent env mountPath timeoutText wsid params).2 = pre ++
      [.symlink (joinPath "live" (paramGet params "new_live_id"))
          (joinPath (joinPath mountPath wsid) "current" ++ ".tmp") true,
       .rename (joinPath (joinPath mountPath wsid) "current" ++ ".tmp")
          (joinPath (joinPath mountPath wsid) "current") true,
       .writeControl (controlPathOf (joinPath mountPath wsid)) QuiesceRequestResume
          (paramGet params "task_id") ok] := by
  unfold setCurrent at h ⊢
  simp only [hm, if_false] at h ⊢
  by_cases hs : env.srcMissing = true
  · simp [hs] at h
  · simp only [hs, Bool.false_eq_true, if_false] at h ⊢
    cases hq : Quiesce env (joinPath mountPath wsid) (paramGet params "task_id") timeoutText with
    | mk r events =>
      rw [hq] at h
      cases r with
      | none => simp at h
      | some r =>
        cases r with
        | error e => simp at h
        | ok u =>
          simp only at h ⊢
          cases hc : env.cloneErr with
          | some e => simp [hc, Clone] at h
          | none =>
            simp only [hc, Clone, Option.map_none'] at h ⊢
            cases hsy : env.symlinkErr with
            | some e => simp [hsy, SwitchCurrent] at h
            | none =>
              cases hre : env.renameErr with
              | some e => simp [hsy, hre, SwitchCurrent] at h
              | none =>
                simp only [hsy, hre, SwitchCurrent, Option.some.injEq, Except.ok.injEq] at h ⊢
                refine ⟨h.symm,
                  events ++
                    [.clone (joinPath (joinPath (joinPath mountPath wsid) "snapshots")
                        (paramGet params "snapshot_id"))
                      (joinPath (joinPath (joinPath mountPath wsid) "live")
                        (paramGet params "new_live_id")) true] ++
                    [.remove (joinPath (joinPath mountPath wsid) "current" ++ ".tmp")],
                  env.resumeErr.isNone, ?_⟩
                simp [Resume, writeControl, Option.isNone]

theorem chain_switch_tail {fs : FS} {pre : List FsEvent} {states : List FS}
    {target tmp cur cp st tid : String} {ok : Bool} (h1 : tmp ≠ cur) (h2 : cur ≠ cp)
    (h : FS.Chain fs (pre ++ [.symlink target tmp true, .rename tmp cur true,
      .writeControl cp st tid ok]) states) :
    (FS.final fs states).lookup cur = some (.symlink target) := by
  obtain ⟨s₁, s₂, hs, _, hc⟩ := FS.Chain_append h
  match s₂, hc with
  | [a, b, c], ⟨ha, hb, hc, _⟩ =>
    obtain ⟨⟨n, hn, hnew⟩, _, _⟩ := hb.2 h1
    have hn' : n = .symlink target := by
      have := ha.2.1
      rw [hn] at this
      exact Option.some.inj this
    have hfin : FS.final fs states = c := by
      rw [hs, FS.final_append]; rfl
    rw [hfin, hc cur h2, hnew, hn']

theorem FS.Step_clone_put (fs : FS) (src dst : String) (ok : Bool) :
    FS.Step fs (.clone src dst ok) (fs.put dst .dir) := by
  intro q hq
  have h : q ≠ dst := fun e => by rw [e, isUnder_self] at hq; cases hq
  rw [FS.lookup_put, if_neg h]

/-- C21: for every mount path, `wsid` and params, the paths being those
`filepath.Join` makes: let the answers of `os.Readlink` and `os.Stat` be
those of the filesystem `fs` the call starts in, and let the filesystem go
through `states` while the calls of `setCurrent` happen.  (1) Whenever
`setCurrent` returns success, `current` is in the end a link whose target is
`filepath.Join("live", new_live_id)` and the result is `current_path` =
`filepath.Join(wsRoot, target)`.  (2) These read `live/<new_live_id>` and
`<mount>/<wsid>/live/<new_live_id>` when the mount path is a clean directory
path and `wsid` and `new_live_id` are names that stand for themselves.
(3) When `current` has that target at the start, `setCurrent` returns that
result without any call on the filesystem: no control-file write, no clone,
no switch.  (4) When it has not and nothing is at `snapshots/<snapshot_id>`,
`setCurrent` returns an error without any call on the filesystem. -/
theorem setCurrent_success_current (env : ExecEnv) (mountPath timeoutText wsid : String)
    (params : List (String × String)) (fs : FS) (states : List FS)
    (hagree : env.agrees fs (joinPath (joinPath mountPath wsid) "current")
      (joinPath (joinPath (joinPath mountPath wsid) "snapshots") (paramGet params "snapshot_id")))
    (hchain : FS.Chain fs (setCurrent env mountPath timeoutText wsid params).2 states) :
    (∀ results, (setCurrent env mountPath timeoutText wsid params).1 = some (.ok results) →
      (FS.final fs states).lookup (joinPath (joinPath mountPath wsid) "current")
        = some (.symlink (joinPath "live" (paramGet params "new_live_id"))) ∧
      results = [("current_path", joinPath (joinPath mountPath wsid)
        (joinPath "live" (paramGet params "new_live_id")))]) ∧
    (isCleanDir mountPath = true → isPlainName wsid = true →
      isPlainName (paramGet params "new_live_id") = true →
      joinPath "live" (paramGet params "new_live_id") = "live/" ++ paramGet params "new_live_id" ∧
      joinPath (joinPath mountPath wsid) (joinPath "live" (paramGet params "new_live_id"))
        = mountPath ++ "/" ++ wsid ++ "/" ++ ("live/" ++ paramGet params "new_live_id")) ∧
    (fs.lookup (joinPath (joinPath mountPath wsid) "current")
        = some (.symlink (joinPath "live" (paramGet params "new_live_id"))) →
      setCurrent env mountPath timeoutText wsid params
        = (some (.ok [("current_path", joinPath (joinPath mountPath wsid)
            (joinPath "live" (paramGet params "new_live_id")))]), [])) ∧
    (fs.lookup (joinPath (joinPath mountPath wsid) "current")
        ≠ some (.symlink (joinPath "live" (paramGet params "new_live_id"))) →
      fs.lookup (joinPath (joinPath (joinPath mountPath wsid) "snapshots")
        (paramGet params "snapshot_id")) = none →
      ∃ e, setCurrent env mountPath timeoutText wsid params = (some (.error e), [])) := by
  have hto : ∀ t, env.readlink.toOption = some t ↔ env.readlink = .ok t := by
    intro t
    cases env.readlink with
    | error e => simp [Except.toOption]
    | ok v => simp [Except.toOption]
  refine ⟨?_, ?_, ?_, ?_⟩
  · intro results hres
    by_cases hm : env.readlink.toOption = some (joinPath "live" (paramGet params "new_live_id"))
    · have hev : setCurrent env mountPath timeoutText wsid params
          = (some (.ok [("current_path", joinPath (joinPath mountPath wsid)
              (joinPath "live" (paramGet params "new_live_id")))]), []) := by
        unfold setCurrent
        simp only [hm, if_true]
      rw [hev] at hchain hres
      cases states with
      | nil =>
        refine ⟨(hagree.1 _).mp ((hto _).mp hm), ?_⟩
        simp only [Option.some.injEq, Except.ok.injEq] at hres
        exact hres.symm
      | cons a l => exact absurd hchain (by simp [FS.Chain])
    · obtain ⟨hr, pre, ok, htr⟩ := setCurrent_ok_trace env mountPath timeoutText wsid params
        results hres hm
      rw [htr] at hchain
      exact ⟨chain_switch_tail (tmpLink_ne _) (current_ne_controlPath _) hchain, hr⟩
  · intro h1 h2 h3
    obtain ⟨hw, hwc⟩ := joinPath_cleanDir h1 h2
    rw [hw]
    exact joinPath_live hwc h3
  · intro hcur
    have hm : env.readlink.toOption = some (joinPath "live" (paramGet params "new_live_id")) :=
      (hto _).mpr ((hagree.1 _).mpr hcur)
    unfold setCurrent
    simp only [hm, if_true]
  · intro hcur hsrc
    have hm : env.readlink.toOption ≠ some (joinPath "live" (paramGet params "new_live_id")) :=
      fun h => hcur ((hagree.1 _).mp ((hto _).mp h))
    have hs : env.srcMissing = true := hagree.2 hsrc
    refine ⟨"snapshot dir not found: " ++ joinPath (joinPath (joinPath mountPath wsid)
      "snapshots") (paramGet params "snapshot_id"), ?_⟩
    unfold setCurrent
    simp only [hm, if_false, hs, if_true]

/-- Witness of C21: a set_current of the workspace `w1` to the snapshot `s1`
with the new live id `ef567890`, nothing failing: `current` ends as a link to
`live/ef567890` and the path returned is `/ws/w1/live/ef567890`, also when the
mount path is given as `/ws/` and the `wsid` as `w1/`. -/
theorem setCurrent_success_current_witness :
    switchEnv.agrees fsTwoSnapshots "/ws/w1/current" "/ws/w1/snapshots/s1" ∧
    FS.Chain fsTwoSnapshots (setCurrent switchEnv "/ws" "30s" "w1" switchParams).2
      setCurrentStates ∧
    (setCurrent switchEnv "/ws" "30s" "w1" switchParams).1
      = some (.ok [("current_path", "/ws/w1/live/ef567890")]) ∧
    (FS.final fsTwoSnapshots setCurrentStates).lookup "/ws/w1/current"
      = some (.symlink "live/ef567890") ∧
    (isCleanDir "/ws" = true ∧ isPlainName "w1" = true ∧
      isPlainName (paramGet switchParams "new_live_id") = true ∧
      joinPath "live" (paramGet switchParams "new_live_id") = "live/ef567890" ∧
      joinPath (joinPath "/ws" "w1") (joinPath "live" (paramGet switchParams "new_live_id"))
        = "/ws/w1/live/ef567890") ∧
    (setCurrent switchEnv "/ws/" "30s" "w1/" switchParams).1
      = some (.ok [("current_path", "/ws/w1/live/ef567890")]) := by
  have ha : switchEnv.agrees fsTwoSnapshots "/ws/w1/current" "/ws/w1/snapshots/s1" := by
    refine ⟨fun t => ⟨fun h => ?_, fun h => ?_⟩, by decide⟩
    · have ht : t = "live/abcd1234" := by
        have h' : (Except.ok "live/abcd1234" : Except String String) = .ok t := h
        injection h' with h''
        exact h''.symm
      rw [ht]; decide
    · have h' : some (FsNode.symlink "live/abcd1234") = some (.symlink t) := h
      injection h' with h''
      injection h'' with h'''
      rw [← h''']; rfl
  have hc : FS.Chain fsTwoSnapshots (setCurrent switchEnv "/ws" "30s" "w1" switchParams).2
      setCurrentStates :=
    ⟨fun _ _ => rfl, FS.Step_write_put _ _ _ _ _, fun _ _ => rfl, fun _ _ => rfl,
      fun _ _ => rfl, FS.Step_clone_put _ _ _ _, FS.Step_remove_same _ _,
      FS.Step_symlink_put (by decide), FS.Step_rename_put (by decide) (by decide),
      fun _ _ => rfl, trivial⟩
  have h := (setCurrent_success_current switchEnv "/ws" "30s" "w1" switchParams
    fsTwoSnapshots setCurrentStates ha hc).1
    [("current_path", "/ws/w1/live/ef567890")] rfl
  have h2 := (setCurrent_success_current switchEnv "/ws" "30s" "w1" switchParams
    fsTwoSnapshots setCurrentStates ha hc).2.1 (by decide) (by decide) (by decide)
  exact ⟨ha, hc, rfl, h.1, ⟨by decide, by decide, by decide, h2.1.trans (by decide),
    h2.2.trans (by decide)⟩, rfl⟩

/-! ## `snapshotDrop` on the filesystem -/

theorem isUnder_iff (root q : String) :
    isUnder root q = true ↔
      ∃ rest, q.data = root.data ++ rest ∧ (rest = [] ∨ ∃ r, rest = '/' :: r) := by
  unfold isUnder
  rw [Bool.or_eq_true, decide_eq_true_iff, List.isPrefixOf_iff_prefix]
  constructor
  · rintro (h | ⟨t, ht⟩)
    · exact ⟨[], by rw [h, List.append_nil], Or.inl rfl⟩
    · exact ⟨'/' :: t, by rw [← ht, List.append_assoc]; rfl, Or.inr ⟨t, rfl⟩⟩
  · rintro ⟨rest, hq, hr | ⟨r, hr⟩⟩
    · left
      rw [hr, List.append_nil] at hq
      exact string_eq_of_data hq
    · right
      exact ⟨r, by rw [hq, hr, List.append_assoc]; rfl⟩

theorem isPlainName_iff (s : String) :
    isPlainName s = true ↔ s ≠ "" ∧ s ≠ "." ∧ s ≠ ".." ∧ '/' ∉ s.data := by
  unfold isPlainName
  rw [decide_eq_true_iff]

/-- The trees below two different plain names of one directory have no path
in common. -/
theorem isUnder_join_disjoint (root : String) {a b q : String} (ha : isPlainName a = true)
    (hb : isPlainName b = true) (hab : a ≠ b) (h1 : isUnder (joinPath root a) q = true) :
    isUnder (joinPath root b) q = false := by
  obtain ⟨ha0, _, _, has⟩ := (isPlainName_iff a).mp ha
  obtain ⟨hb0, _, _, hbs⟩ := (isPlainName_iff b).mp hb
  cases h2 : isUnder (joinPath root b) q with
  | false => rfl
  | true =>
    exfalso
    obtain ⟨ra, hqa, hra⟩ := (isUnder_iff _ _).mp h1
    obtain ⟨rb, hqb, hrb⟩ := (isUnder_iff _ _).mp h2
    obtain ⟨pre, _, hpre⟩ := joinPath_data root
    rw [hpre a ha] at hqa
    rw [hpre b hb] at hqb
    rw [hqa, List.append_assoc, List.append_assoc] at hqb
    have := name_split_unique has hbs hra hrb (List.append_cancel_left hqb)
    exact hab (string_eq_of_data this)

/-- What lies below an entry of a directory lies below the directory. -/
theorem isUnder_of_join (root : String) {dir name q : String} (hd : isPlainName dir = true)
    (hn : isPlainName name = true)
    (h : isUnder (joinPath (joinPath root dir) name) q = true) :
    isUnder (joinPath root dir) q = true := by
  obtain ⟨rest, hq, _⟩ := (isUnder_iff _ _).mp h
  rw [joinPath_plain_plain root hd hn] at hq
  refine (isUnder_iff _ _).mpr ⟨'/' :: (name.data ++ rest), ?_, Or.inr ⟨_, rfl⟩⟩
  rw [hq]
  simp [String.data_append]

/-- Counterexample to C22: with an empty `snapshot_id` the path
`filepath.Join(wsRoot, "snapshots", "")` is the directory `snapshots` itself,
which exists; `snapshotDrop` removes it with everything below, and every
snapshot directory of the workspace (`s1` and `s2` here) is gone in every
state the call can end in. -/
theorem snapshotDrop_empty_id_counterexample :
    dropOkEnv.agrees fsTwoSnapshots "/ws/w1/snapshots" ∧
    snapshotDrop dropOkEnv "/ws" "w1" [("snapshot_id", "")]
      = (.ok [], [.removeAll "/ws/w1/snapshots" true]) ∧
    FS.Chain fsTwoSnapshots (snapshotDrop dropOkEnv "/ws" "w1" [("snapshot_id", "")]).2
      [fsTwoSnapshots.eraseTree "/ws/w1/snapshots"] ∧
    fsTwoSnapshots.lookup "/ws/w1/snapshots/s1" = some .dir ∧
    fsTwoSnapshots.lookup "/ws/w1/snapshots/s2/data" = some .file ∧
    ∀ fs', FS.Chain fsTwoSnapshots
        (snapshotDrop dropOkEnv "/ws" "w1" [("snapshot_id", "")]).2 [fs'] →
      fs'.lookup "/ws/w1/snapshots/s1" = none ∧ fs'.lookup "/ws/w1/snapshots/s2/data" = none := by
  refine ⟨by unfold DropEnv.agrees; decide, rfl,
    ⟨FS.Step_removeAll_eraseTree _ _, trivial⟩, by decide, by decide, ?_⟩
  intro fs' h
  have hs : FS.Step fsTwoSnapshots (.removeAll "/ws/w1/snapshots" true) fs' := h.1
  exact ⟨hs.1 _ (by decide), hs.1 _ (by decide)⟩

/-- C22 (amended): let `snapshot_id` be a plain name (not empty, not `.` or
`..`, without a slash), let `os.Stat` answer as the filesystem `fs` has it,
and let the filesystem go through `states` while the calls of `snapshotDrop`
happen.  (1) When nothing is at `snapshots/<snapshot_id>` the call succeeds
with empty results and without any call on the filesystem.  (2) When
something is there and `os.RemoveAll` succeeds, the call succeeds with empty
results and in the end nothing is at `snapshots/<snapshot_id>` or below.
(3) On every path, what is not at `snapshots/<snapshot_id>` or below is left
as it was: in particular (4) every other snapshot directory with what is
below it, and (5) the live trees, `.wvs` and `current`.  (6) After a call
that succeeded, a second call, `os.Stat` answering as the filesystem then has
it, succeeds with empty results and without any call on the filesystem. -/
theorem snapshotDrop_removes_tree (env : DropEnv) (mountPath wsid : String)
    (params : List (String × String)) (fs : FS) (states : List FS)
    (hid : isPlainName (paramGet params "snapshot_id") = true)
    (hagree : env.agrees fs (joinPath (joinPath (joinPath mountPath wsid) "snapshots")
      (paramGet params "snapshot_id")))
    (hchain : FS.Chain fs (snapshotDrop env mountPath wsid params).2 states) :
    (fs.lookup (joinPath (joinPath (joinPath mountPath wsid) "snapshots")
        (paramGet params "snapshot_id")) = none →
      snapshotDrop env mountPath wsid params = (.ok [], [])) ∧
    (fs.lookup (joinPath (joinPath (joinPath mountPath wsid) "snapshots")
        (paramGet params "snapshot_id")) ≠ none → env.removeAllErr = none →
      (snapshotDrop env mountPath wsid params).1 = .ok [] ∧
      ∀ q, isUnder (joinPath (joinPath (joinPath mountPath wsid) "snapshots")
          (paramGet params "snapshot_id")) q = true → (FS.final fs states).lookup q = none) ∧
    (∀ q, isUnder (joinPath (joinPath (joinPath mountPath wsid) "snapshots")
        (paramGet params "snapshot_id")) q = false →
      (FS.final fs states).lookup q = fs.lookup q) ∧
    (∀ other q, isPlainName other = true → other ≠ paramGet params "snapshot_id" →
      isUnder (joinPath (joinPath (joinPath mountPath wsid) "snapshots") other) q = true →
      (FS.final fs states).lookup q = fs.lookup q) ∧
    (∀ q, isUnder (joinPath (joinPath mountPath wsid) "live") q = true ∨
        isUnder (joinPath (joinPath mountPath wsid) ".wvs") q = true ∨
        q = joinPath (joinPath mountPath wsid) "current" →
      (FS.final fs states).lookup q = fs.lookup q) ∧
    (∀ results, (snapshotDrop env mountPath wsid params).1 = .ok results →
      ∀ env' : DropEnv,
        env'.agrees (FS.final fs states) (joinPath (joinPath (joinPath mountPath wsid)
          "snapshots") (paramGet params "snapshot_id")) →
        snapshotDrop env' mountPath wsid params = (.ok [], [])) := by
  have hid0 : paramGet params "snapshot_id" ≠ "" := ((isPlainName_iff _).mp hid).1
  have hframe : ∀ q, isUnder (joinPath (joinPath (joinPath mountPath wsid) "snapshots")
      (paramGet params "snapshot_id")) q = false →
      (FS.final fs states).lookup q = fs.lookup q := by
    intro q hq
    unfold snapshotDrop at hchain
    by_cases hm : env.targetMissing = true
    · simp only [hm, if_true] at hchain
      cases states with
      | nil => rfl
      | cons a l => exact absurd hchain (by simp [FS.Chain])
    · simp only [hm, Bool.false_eq_true, if_false] at hchain
      cases hr : env.removeAllErr with
      | some e =>
        rw [hr] at hchain
        match states, hchain with
        | [a], ⟨h, _⟩ => exact h.2 q hq
      | none =>
        rw [hr] at hchain
        match states, hchain with
        | [a], ⟨h, _⟩ => exact h.2 q hq
  refine ⟨?_, ?_, hframe, ?_, ?_, ?_⟩
  · intro hnone
    have hm : env.targetMissing = true := hagree.mpr hnone
    unfold snapshotDrop
    simp only [hm, if_true]
  · intro hsome hr
    have hm : env.targetMissing = false := by
      cases h : env.targetMissing with
      | false => rfl
      | true => exact absurd (hagree.mp h) hsome
    unfold snapshotDrop at hchain ⊢
    simp only [hm, Bool.false_eq_true, if_false, hr] at hchain ⊢
    refine ⟨trivial, fun q hq => ?_⟩
    match states, hchain with
    | [a], ⟨h, _⟩ => exact h.1 q hq
  · intro other q ho hne hq
    exact hframe q (isUnder_join_disjoint _ ho hid hne hq)
  · intro q hq
    apply hframe q
    cases hu : isUnder (joinPath (joinPath (joinPath mountPath wsid) "snapshots")
        (paramGet params "snapshot_id")) q with
    | false => rfl
    | true =>
      exfalso
      have hs : isUnder (joinPath (joinPath mountPath wsid) "snapshots") q = true :=
        isUnder_of_join _ (by decide) hid hu
      rcases hq with hq | hq | hq
      · have := isUnder_join_disjoint (joinPath mountPath wsid) (a := "live")
          (b := "snapshots") (by decide) (by decide) (by decide) hq
        rw [hs] at this; cases this
      · have := isUnder_join_disjoint (joinPath mountPath wsid) (a := ".wvs")
          (b := "snapshots") (by decide) (by decide) (by decide) hq
        rw [hs] at this; cases this
      · have hc : isUnder (joinPath (joinPath mountPath wsid) "current") q = true := by
          rw [hq]; exact isUnder_self _
        have := isUnder_join_disjoint (joinPath mountPath wsid) (a := "current")
          (b := "snapshots") (by decide) (by decide) (by decide) hc
        rw [hs] at this; cases this
  · intro results hres env' hagree'
    have hnone : (FS.final fs states).lookup (joinPath (joinPath (joinPath mountPath wsid)
        "snapshots") (paramGet params "snapshot_id")) = none := by
      unfold snapshotDrop at hchain hres
      by_cases hm : env.targetMissing = true
      · simp only [hm, if_true] at hchain
        cases states with
        | nil => exact hagree.mp hm
        | cons a l => exact absurd hchain (by simp [FS.Chain])
      · simp only [hm, Bool.false_eq_true, if_false] at hchain hres
        cases hr : env.removeAllErr with
        | some e => rw [hr] at hres; cases hres
        | none =>
          rw [hr] at hchain
          match states, hchain with
          | [a], ⟨h, _⟩ => exact h.1 _ (isUnder_self _)
    have hm : env'.targetMissing = true := hagree'.mpr hnone
    unfold snapshotDrop
    simp only [hm, if_true]

/-- Witness of C22 (amended): the snapshot `s1` of the workspace `w1` is
dropped; `s1` and what is below it are gone, the snapshot `s2`, the live
tree, `.wvs` and `current` are as before, and a second call does nothing. -/
theorem snapshotDrop_removes_tree_witness :
    FS.Chain fsTwoSnapshots (snapshotDrop dropOkEnv "/ws" "w1" [("snapshot_id", "s1")]).2
      [fsTwoSnapshots.eraseTree "/ws/w1/snapshots/s1"] ∧
    (fsTwoSnapshots.eraseTree "/ws/w1/snapshots/s1").lookup "/ws/w1/snapshots/s1/data" = none ∧
    (fsTwoSnapshots.eraseTree "/ws/w1/snapshots/s1").lookup "/ws/w1/snapshots/s2/data"
      = some .file ∧
    (fsTwoSnapshots.eraseTree "/ws/w1/snapshots/s1").lookup "/ws/w1/current"
      = some (.symlink "live/abcd1234") ∧
    snapshotDrop dropGoneEnv "/ws" "w1" [("snapshot_id", "s1")] = (.ok [], []) :=
  have hc : FS.Chain fsTwoSnapshots (snapshotDrop dropOkEnv "/ws" "w1" [("snapshot_id", "s1")]).2
      [fsTwoSnapshots.eraseTree "/ws/w1/snapshots/s1"] :=
    ⟨FS.Step_removeAll_eraseTree _ _, trivial⟩
  have h := snapshotDrop_removes_tree dropOkEnv "/ws" "w1" [("snapshot_id", "s1")]
    fsTwoSnapshots [fsTwoSnapshots.eraseTree "/ws/w1/snapshots/s1"] (by decide)
    (by unfold DropEnv.agrees; decide) hc
  ⟨hc, (h.2.1 (by decide) rfl).2 "/ws/w1/snapshots/s1/data" (by decide),
    (h.2.2.2.1 "s2" "/ws/w1/snapshots/s2/data" (by decide) (by decide) (by decide)).trans
      (by decide),
    (h.2.2.2.2.1 "/ws/w1/current" (Or.inr (Or.inr rfl))).trans (by decide),
    h.2.2.2.2.2 [] rfl dropGoneEnv (by unfold DropEnv.agrees; decide)⟩

/-! ## `sortedJSON` on its own output -/

theorem mapGet_mem {α : Type} {ms : List (String × α)} {k : String} {v : α}
    (h : mapGet ms k = some v) : (k, v) ∈ ms := by
  unfold mapGet at h
  cases hf : List.find? (fun m => m.1 == k) ms.reverse with
  | none => rw [hf] at h; cases h
  | some x =>
    rw [hf] at h
    simp only [Option.map_some', Option.some.injEq] at h
    have hk : x.1 = k := by simpa using List.find?_some hf
    have hm : x ∈ ms := List.mem_reverse.mp (List.mem_of_find?_eq_some hf)
    have hx : x = (k, v) := by rw [← hk, ← h]
    rw [← hx]; exact hm

theorem mapGet_of_mem_keys {α : Type} {ms : List (String × α)} {k : String}
    (h : k ∈ ms.map Prod.fst) : ∃ v, mapGet ms k = some v := by
  unfold mapGet
  obtain ⟨m, hm, hk⟩ := List.mem_map.mp h
  cases hf : List.find? (fun m => m.1 == k) ms.reverse with
  | some x => exact ⟨x.2, rfl⟩
  | none =>
    exfalso
    rw [List.find?_eq_none] at hf
    exact hf m (List.mem_reverse.mpr hm) (by simp [hk])

theorem sortStrings_nodup {ks : List String} (h : ks.Nodup) : (sortStrings ks).Nodup :=
  (List.perm_insertionSort keyLE ks).nodup_iff.mpr h

theorem sortStrings_sortStrings (ks : List String) :
    sortStrings (sortStrings ks) = sortStrings ks := by
  haveI : IsTotal String keyLE := ⟨keyLE_total⟩
  haveI : IsTrans String keyLE := ⟨fun _ _ _ => keyLE_trans⟩
  unfold sortStrings
  exact List.Sorted.insertionSort_eq (List.sorted_insertionSort keyLE ks)

theorem mem_sortStrings {ks : List String} {k : String} : k ∈ sortStrings ks ↔ k ∈ ks :=
  (List.perm_insertionSort keyLE ks).mem_iff

/-- Reading back the text of a Go map and writing it again gives the same
text, when writing the value read back under a key gives what was written
under it. -/
theorem encodeObject_canon (ms : List (String × JSON)) (g : JSON → String) (c : JSON → JSON)
    (h : ∀ m ∈ ms, g (c m.2) = g m.2) :
    encodeObject ((canonMembers (ms.map (fun m => (m.1, c m.2)))).map (fun m => (m.1, g m.2)))
      = encodeObject (ms.map (fun m => (m.1, g m.2))) := by
  have hkeys : mapKeys (ms.map (fun m => (m.1, c m.2))) = mapKeys ms := by
    unfold mapKeys; simp [Function.comp_def]
  have hkeys' : mapKeys (ms.map (fun m => (m.1, g m.2))) = mapKeys ms := by
    unfold mapKeys; simp [Function.comp_def]
  have hnd : (sortStrings (mapKeys ms)).Nodup := sortStrings_nodup (List.nodup_dedup _)
  have hfst : ((canonMembers (ms.map (fun m => (m.1, c m.2)))).map
      (fun m => (m.1, g m.2))).map Prod.fst = sortStrings (mapKeys ms) := by
    unfold canonMembers
    rw [hkeys]
    simp [Function.comp_def]
  have hk2 : mapKeys ((canonMembers (ms.map (fun m => (m.1, c m.2)))).map
      (fun m => (m.1, g m.2))) = sortStrings (mapKeys ms) := by
    unfold mapKeys at hfst ⊢
    rw [hfst]
    exact List.Nodup.dedup hnd
  unfold encodeObject
  rw [hk2, hkeys', sortStrings_sortStrings]
  congr 3
  apply List.map_congr_left
  intro k hk
  have hkm : k ∈ ms.map Prod.fst := by
    have := mem_sortStrings.mp hk
    unfold mapKeys at this
    exact List.mem_dedup.mp this
  obtain ⟨v, hv⟩ := mapGet_of_mem_keys hkm
  have hmem : (k, v) ∈ ms := mapGet_mem hv
  have h1 : mapGet (ms.map (fun m => (m.1, g m.2))) k = some (g v) := by
    rw [mapGet_map, hv]; rfl
  have h2 : mapGet ((canonMembers (ms.map (fun m => (m.1, c m.2)))).map
      (fun m => (m.1, g m.2))) k = some (g (c v)) := by
    rw [mapGet_eq_some_iff (by rw [hfst]; exact hnd)]
    unfold canonMembers
    rw [hkeys]
    simp only [List.map_map, List.mem_map, Function.comp_apply, Prod.mk.injEq]
    refine ⟨k, hk, rfl, ?_⟩
    rw [mapGet_map, hv]; rfl
  rw [h1, h2, h (k, v) hmem]

theorem remarshalMembers_eq_map (ms : List (String × JSON)) :
    remarshalMembers ms = ms.map (fun m => (m.1, m.2.remarshal)) := by
  induction ms with
  | nil => rfl
  | cons m ms ih => obtain ⟨k, v⟩ := m; simp [remarshalMembers, ih]

theorem readBackMembers_eq_map (ms : List (String × JSON)) :
    readBackMembers ms = ms.map (fun m => (m.1, m.2.readBack)) := by
  induction ms with
  | nil => rfl
  | cons m ms ih => obtain ⟨k, v⟩ := m; simp [readBackMembers, ih]

/-- Every member read back is a member of the map, under its key. -/
theorem canonMembers_mem {ms : List (String × JSON)} {m : String × JSON}
    (h : m ∈ canonMembers ms) : m ∈ ms := by
  unfold canonMembers at h
  obtain ⟨k, hk, rfl⟩ := List.mem_map.mp h
  have hkm : k ∈ ms.map Prod.fst := by
    have := mem_sortStrings.mp hk
    unfold mapKeys at this
    exact List.mem_dedup.mp this
  obtain ⟨v, hv⟩ := mapGet_of_mem_keys hkm
  rw [hv]
  exact mapGet_mem hv

mutual
/-- What is read back from the text of `json.Marshal` decodes, and
`json.Marshal` writes the same text for it. -/
theorem remarshal_marshal :
    ∀ v : JSON, v.decodes = true → v.remarshal.decodes = true ∧ v.remarshal.marshal = v.marshal
  | .null _, _ => ⟨rfl, rfl⟩
  | .bool _ _, _ => ⟨rfl, rfl⟩
  | .num _ f, h => by
    cases f with
    | none => simp [JSON.decodes] at h
    | some t => exact ⟨rfl, rfl⟩
  | .str _ _, _ => ⟨rfl, rfl⟩
  | .arr s items, h => by
    have h' : decodesList items = true := by simpa [JSON.decodes] using h
    have ih := remarshalList_marshal items h'
    refine ⟨by simpa [JSON.remarshal, JSON.decodes] using ih.1, ?_⟩
    simp only [JSON.remarshal, JSON.marshal, ih.2]
  | .obj s members, h => by
    have h' : decodesMembers members = true := by simpa [JSON.decodes] using h
    have ih := remarshalMembers_marshal members h'
    constructor
    · simp only [JSON.remarshal, JSON.decodes, decodesMembers_eq_all, List.all_eq_true]
      intro m hm
      have hm' := canonMembers_mem hm
      rw [remarshalMembers_eq_map] at hm'
      obtain ⟨m₀, hm₀, rfl⟩ := List.mem_map.mp hm'
      exact (ih m₀ hm₀).1
    · simp only [JSON.remarshal, JSON.marshal]
      rw [marshalMembers_eq_map, marshalMembers_eq_map, remarshalMembers_eq_map]
      exact encodeObject_canon members JSON.marshal JSON.remarshal (fun m hm => (ih m hm).2)
/-- The same for the elements of an array. -/
theorem remarshalList_marshal :
    ∀ xs : List JSON, decodesList xs = true →
      decodesList (remarshalList xs) = true ∧ marshalList (remarshalList xs) = marshalList xs
  | [], _ => ⟨rfl, rfl⟩
  | x :: xs, h => by
    have h' : x.decodes = true ∧ decodesList xs = true := by
      simpa [decodesList] using h
    have i1 := remarshal_marshal x h'.1
    have i2 := remarshalList_marshal xs h'.2
    refine ⟨by simp [remarshalList, decodesList, i1.1, i2.1], ?_⟩
    simp only [remarshalList, marshalList, i1.2, i2.2]
/-- The same for the member values of an object. -/
theorem remarshalMembers_marshal :
    ∀ ms : List (String × JSON), decodesMembers ms = true →
      ∀ m ∈ ms, m.2.remarshal.decodes = true ∧ m.2.remarshal.marshal = m.2.marshal
  | [], _ => fun m hm => absurd hm (List.not_mem_nil m)
  | (k, v) :: ms, h => by
    have h' : v.decodes = true ∧ decodesMembers ms = true := by
      simpa [decodesMembers] using h
    intro m hm
    rcases List.mem_cons.mp hm with rfl | hm
    · exact remarshal_marshal v h'.1
    · exact remarshalMembers_marshal ms h'.2 m hm
end

mutual
/-- `sortedJSON` returns for the document read back from its output the
output itself. -/
theorem readBack_sorted : ∀ v : JSON, sortedJSONDoc v.readBack = sortedJSONDoc v
  | .null _ => rfl
  | .bool _ _ => by simp [JSON.readBack, JSON.remarshal, JSON.decodes, sortedJSONDoc, JSON.marshal]
  | .num s f => by
    cases f with
    | none => simp [JSON.readBack, JSON.decodes]
    | some t => simp [JSON.readBack, JSON.remarshal, JSON.decodes, sortedJSONDoc, JSON.marshal]
  | .str _ _ => by simp [JSON.readBack, JSON.remarshal, JSON.decodes, sortedJSONDoc, JSON.marshal]
  | .arr s items => by
    by_cases hd : (JSON.arr s items).decodes = true
    · have h := remarshal_marshal (.arr s items) hd
      simp only [JSON.readBack, hd, if_true]
      have hr : (JSON.arr s items).remarshal
          = .arr ((JSON.arr s items).marshal) (remarshalList items) := by
        simp only [JSON.remarshal]
      rw [hr] at h ⊢
      simp only [sortedJSONDoc, h.1, h.2, hd, if_true]
    · simp only [JSON.readBack, hd, Bool.false_eq_true, if_false]
  | .obj s members => by
    have ih := readBackMembers_sorted members
    simp only [JSON.readBack, sortedJSONDoc]
    rw [sortedMembers_eq_map, sortedMembers_eq_map, readBackMembers_eq_map]
    exact encodeObject_canon members sortedJSONDoc JSON.readBack ih
/-- The same for the member values of an object. -/
theorem readBackMembers_sorted :
    ∀ ms : List (String × JSON), ∀ m ∈ ms, sortedJSONDoc m.2.readBack = sortedJSONDoc m.2
  | [] => fun m hm => absurd hm (List.not_mem_nil m)
  | (k, v) :: ms => by
    intro m hm
    rcases List.mem_cons.mp hm with rfl | hm
    · exact readBack_sorted v
    · exact readBackMembers_sorted ms m hm
end

/-- The bytes of the document read back are the bytes `sortedJSON`
returned. -/
theorem readBack_src (v : JSON) : v.readBack.src = sortedJSONDoc v := by
  cases v with
  | null s => rfl
  | obj s ms => simp only [JSON.readBack, JSON.src, sortedJSONDoc]
  | bool s b => simp [JSON.readBack, JSON.remarshal, JSON.decodes, sortedJSONDoc, JSON.marshal, JSON.src]
  | num s f =>
    cases f with
    | none => simp [JSON.readBack, JSON.decodes, sortedJSONDoc, JSON.src]
    | some t => simp [JSON.readBack, JSON.remarshal, JSON.decodes, sortedJSONDoc, JSON.marshal, JSON.src]
  | str s x => simp [JSON.readBack, JSON.remarshal, JSON.decodes, sortedJSONDoc, JSON.marshal, JSON.src]
  | arr s items =>
    by_cases hd : (JSON.arr s items).decodes = true
    · simp only [JSON.readBack, hd, if_true, sortedJSONDoc, JSON.remarshal, JSON.src]
    · simp only [JSON.readBack, hd, Bool.false_eq_true, if_false, sortedJSONDoc, JSON.src]

/-- C30: for every body `b`, valid JSON or not, the body read back from the
bytes `sortedJSON b` has exactly these bytes, and `sortedJSON` returns them
again for it: `sortedJSON (sortedJSON b) = sortedJSON b`.  The request hash
of the canonicalised body is therefore the hash of the original, for every
method, path and digest. -/
theorem sortedJSON_idempotent (b : Body) (sha256hex : String → String) (method path : String) :
    b.readBack.data = sortedJSON b ∧
    sortedJSON b.readBack = sortedJSON b ∧
    hashInput b.readBack method path = hashInput b method path ∧
    ComputeRequestHash sha256hex b.readBack method path
      = ComputeRequestHash sha256hex b method path := by
  have h1 : b.readBack.data = sortedJSON b := by
    cases b with
    | invalid d => rfl
    | valid doc => exact readBack_src doc
  have h2 : sortedJSON b.readBack = sortedJSON b := by
    cases b with
    | invalid d => rfl
    | valid doc => exact readBack_sorted doc
  refine ⟨h1, h2, ?_, ?_⟩
  · simp only [hashInput, h2]
  · simp only [ComputeRequestHash, hashInput, h2]

/-- The body `unsortedBody` and what is read back from its canonical bytes:
the keys in order, the second value of the key given twice, the empty object
for `null` under a key, the object inside the array with its keys sorted. -/
theorem readBack_unsortedBody :
    sortedJSON unsortedBody
      = "\x7b\"a\":[\x7b\"y\":2,\"z\":1\x7d],\"b\":1,\"c\":\x7b\x7d\x7d" ∧
    unsortedBody.readBack.data = sortedJSON unsortedBody ∧
    unsortedBody.readBack.membersText
      = [("a", "[\x7b\"y\":2,\"z\":1\x7d]"), ("b", "1"), ("c", "\x7b\x7d")] ∧
    sortedJSON unsortedBody.readBack = sortedJSON unsortedBody := by
  refine ⟨by decide, by decide, by decide, by decide⟩

/-! ## DISABLED is final -/

theorem stateOf_of_workspaces_eq {db db' : DB} (h : db'.workspaces = db.workspaces)
    (w : String) : stateOf db' w = stateOf db w := by
  unfold stateOf GetWorkspace
  rw [h]

theorem stateOf_map {db db' : DB} {f : WvsWorkspace → WvsWorkspace}
    (hws : db'.workspaces = db.workspaces.map f) (hf : ∀ x, (f x).Wsid = x.Wsid)
    (w : String) : stateOf db' w = ((GetWorkspace db w).map f).map (fun x => x.State) := by
  unfold stateOf GetWorkspace
  rw [hws, find?_map_pred _ f]
  intro a; rw [hf a]

theorem stateOf_UpdateWorkspaceState (db : DB) (now : Nat) (wsid : String)
    (st : WorkspaceState) (w : String) :
    stateOf (UpdateWorkspaceState db now wsid st) w
      = if w = wsid then (stateOf db w).map (fun _ => st) else stateOf db w := by
  rw [stateOf_map (f := fun x =>
    if x.Wsid = wsid then { x with State := st, UpdatedAt := now } else x) rfl
    (fun x => by by_cases hx : x.Wsid = wsid <;> simp [hx])]
  unfold stateOf
  cases hg : GetWorkspace db w with
  | none => simp
  | some x =>
    have hxw : x.Wsid = w := by
      unfold GetWorkspace at hg
      simpa using List.find?_some hg
    by_cases hw : w = wsid
    · simp [hw, hxw ▸ hw]
    · have : ¬ x.Wsid = wsid := fun h => hw (hxw ▸ h)
      simp [hw, this]

theorem stateOf_UpdateWorkspaceCurrent (db : DB) (now : Nat) (wsid : String)
    (sid : Option String) (path : String) (w : String) :
    stateOf (UpdateWorkspaceCurrent db now wsid sid path) w = stateOf db w := by
  rw [stateOf_map (f := fun x =>
    if x.Wsid = wsid then
      { x with CurrentSnapshotID := sid, CurrentPath := path, UpdatedAt := now }
    else x) rfl (fun x => by by_cases hx : x.Wsid = wsid <;> simp [hx])]
  unfold stateOf
  cases hg : GetWorkspace db w with
  | none => simp
  | some x => by_cases hx : x.Wsid = wsid <;> simp [hx]

/-- The workspace whose state an effect writes, if it writes one. -/
theorem stateOf_applyEffect (now delay : Nat) (db : DB) (e : Effect) (w : String)
    (he : ∀ st, e ≠ .UpdateWorkspaceState w st) :
    stateOf (applyEffect now delay db e) w = stateOf db w := by
  cases e with
  | CompleteTask taskID status result error => exact stateOf_of_workspaces_eq rfl w
  | FailTask taskID error => exact stateOf_of_workspaces_eq rfl w
  | MarkTaskDead taskID error => exact stateOf_of_workspaces_eq rfl w
  | UpdateWorkspaceState w' st =>
    have hne : w ≠ w' := fun h => he st (by rw [h])
    simp only [applyEffect]
    rw [stateOf_UpdateWorkspaceState, if_neg hne]
  | CreateSnapshot snapshotID w' fsPath message =>
    refine stateOf_of_workspaces_eq ?_ w
    simp only [applyEffect, CreateSnapshotRow]
    split <;> rfl
  | UpdateWorkspaceCurrent w' sid path => exact stateOf_UpdateWorkspaceCurrent db now w' sid path w
  | MarkSnapshotDeleted snapshotID => exact stateOf_of_workspaces_eq rfl w
  | ExecuteTask req => exact stateOf_of_workspaces_eq rfl w

theorem stateOf_applyEffects (now delay : Nat) (effects : List Effect) (db : DB) (w : String)
    (he : ∀ e ∈ effects, ∀ st, e ≠ .UpdateWorkspaceState w st) :
    stateOf (applyEffects now delay db effects) w = stateOf db w := by
  induction effects generalizing db with
  | nil => rfl
  | cons e es ih =>
    simp only [applyEffects, List.foldl_cons]
    have h1 := ih (applyEffect now delay db e) (fun x hx => he x (List.mem_cons_of_mem _ hx))
    simp only [applyEffects] at h1
    rw [h1]
    exact stateOf_applyEffect now delay db e w (he e (List.mem_cons_self _ _))

/-- A worker sets the state of no workspace to DISABLED. -/
theorem stateOf_applyEffects_disabled (now delay : Nat) (effects : List Effect) (db : DB)
    (w : String) (he : ∀ e ∈ effects, e.disables = false)
    (h : stateOf (applyEffects now delay db effects) w = some WorkspaceDisabled) :
    stateOf db w = some WorkspaceDisabled := by
  induction effects generalizing db with
  | nil => exact h
  | cons e es ih =>
    simp only [applyEffects, List.foldl_cons] at h
    have h1 := ih (applyEffect now delay db e) (fun x hx => he x (List.mem_cons_of_mem _ hx)) h
    have hd := he e (List.mem_cons_self _ _)
    by_cases hc : ∃ st, e = .UpdateWorkspaceState w st
    · obtain ⟨st, rfl⟩ := hc
      simp only [Effect.disables, decide_eq_false_iff_not] at hd
      simp only [applyEffect] at h1
      rw [stateOf_UpdateWorkspaceState, if_pos rfl] at h1
      cases hs : stateOf db w with
      | none => rw [hs] at h1; cases h1
      | some x =>
        rw [hs] at h1
        simp only [Option.map_some', Option.some.injEq] at h1
        exact absurd h1 hd
    · rw [stateOf_applyEffect now delay db e w (fun st hst => hc ⟨st, hst⟩)] at h1
      exact h1

/-- A property of effects that holds of what `failTask` and `onSuccess`
issue, of the executor call, of a completion of the row and of the marking
of a snapshot holds of everything the loop body of the worker issues. -/
theorem runTask_effects (P : Effect → Prop) (env : WorkerEnv) (db : DB) (l : WvsTask)
    (hfail : ∀ err, ∀ e ∈ failTask l err, P e)
    (hsucc : ∀ results, ∀ e ∈ onSuccess l results, P e)
    (hexec : ∀ req, P (.ExecuteTask req))
    (hcomplete : ∀ st result error, P (.CompleteTask l.TaskID st result error))
    (hmark : ∀ sid, P (.MarkSnapshotDeleted sid)) :
    ∀ e ∈ runTask env db l, P e := by
  have hd : ∀ e ∈ dispatch env db l, P e :=
    dispatch_effects P env db l hfail hsucc hexec (fun result => hcomplete _ result none)
  intro e he
  unfold runTask at he
  by_cases hc : l.CancelRequested = true
  · simp only [hc, if_true, List.mem_singleton] at he
    subst he; exact hcomplete _ _ _
  · simp only [hc, Bool.false_eq_true, if_false] at he
    unfold executeWithLock at he
    cases hb : env.beginErr with
    | some err => rw [hb] at he; exact hfail _ e he
    | none =>
      rw [hb] at he
      cases hl : env.lockErr with
      | some err => rw [hl] at he; exact hfail _ e he
      | none =>
        rw [hl] at he
        simp only at he
        split at he
        · split at he
          · exact hfail _ e he
          · cases hm : env.markDeletedErr with
            | some err => rw [hm] at he; exact hfail _ e he
            | none =>
              rw [hm] at he
              cases hcm : env.commitErr with
              | some err => rw [hcm] at he; exact hfail _ e he
              | none =>
                rw [hcm] at he
                simp only [List.mem_cons] at he
                rcases he with rfl | he
                · exact hmark _
                · exact hd e he
        · cases hcm : env.commitErr with
          | some err => rw [hcm] at he; exact hfail _ e he
          | none => rw [hcm] at he; exact hd e he

/-- The only workspace whose state the loop body of a worker writes is the
one of the row it holds. -/
theorem runTask_state_target (env : WorkerEnv) (db : DB) (l : WvsTask) :
    ∀ e ∈ runTask env db l, ∀ w st, e = .UpdateWorkspaceState w st → w = l.Wsid := by
  apply runTask_effects (fun e => ∀ w st, e = .UpdateWorkspaceState w st → w = l.Wsid)
  · intro err e he w st hw
    subst hw
    unfold failTask at he
    by_cases h : l.Attempt ≥ l.MaxAttempts
    · rw [if_pos h] at he
      by_cases hop : l.Op = OpInitWorkspace
      · rw [if_pos hop] at he
        simp only [List.mem_cons, List.mem_singleton, List.not_mem_nil, or_false] at he
        rcases he with he | he
        · cases he
        · exact (Effect.UpdateWorkspaceState.inj he).1
      · rw [if_neg hop] at he
        simp only [List.mem_singleton] at he
        cases he
    · rw [if_neg h] at he
      simp only [List.mem_singleton] at he
      cases he
  · intro results e he w st hw
    subst hw
    unfold onSuccess at he
    rw [List.mem_append] at he
    rcases he with he | he
    · by_cases h1 : l.Op = OpInitWorkspace
      · rw [if_pos h1] at he; simp only [List.mem_singleton] at he
        exact (Effect.UpdateWorkspaceState.inj he).1
      · rw [if_neg h1] at he
        by_cases h2 : l.Op = OpSnapshotCreate
        · rw [if_pos h2] at he; simp only [List.mem_singleton] at he; cases he
        · rw [if_neg h2] at he
          by_cases h3 : l.Op = OpSetCurrent
          · rw [if_pos h3] at he; simp only [List.mem_singleton] at he; cases he
          · rw [if_neg h3] at he; cases he
    · simp only [List.mem_singleton] at he; cases he
  · intro req w st h; cases h
  · intro st result error w st' h; cases h
  · intro sid w st h; cases h

theorem stateStep_refl (db : DB) : StateStep db db :=
  ⟨rfl, fun _ h => h, fun _ h => Or.inl h⟩

theorem handlerStep_of_stateStep {db db' : DB} (h : StateStep db db') : HandlerStep db db' :=
  ⟨h.2.1, h.2.2, Or.inl h.1⟩

theorem stateStep_of_eq {db db₁ db' : DB} (h : StateStep db db₁) (ht : db'.tasks = db₁.tasks)
    (hw : db'.workspaces = db₁.workspaces) : StateStep db db' := by
  refine ⟨ht.trans h.1, fun w hd => ?_, fun w hd => ?_⟩
  · rw [stateOf_of_workspaces_eq hw]; exact h.2.1 w hd
  · rw [stateOf_of_workspaces_eq hw] at hd; exact h.2.2 w hd

/-- A change of workspace rows followed by the insertion of a task for a
workspace that is not DISABLED. -/
theorem handlerStep_of_CreateTask {db db₁ db₂ db' : DB} {now : Nat} {p : CreateTaskParams}
    {t : WvsTask} (h : StateStep db db₁) (hc : CreateTask db₁ now p = some (db₂, t))
    (hnd : stateOf db₁ p.Wsid ≠ some WorkspaceDisabled) (ht : db'.tasks = db₂.tasks)
    (hw : db'.workspaces = db₂.workspaces) : HandlerStep db db' := by
  obtain ⟨h1, h2, _, _, _, h6, h7, _, _, _, h11, _⟩ := CreateTask_spec hc
  have hst : ∀ w, stateOf db' w = stateOf db₁ w := fun w =>
    (stateOf_of_workspaces_eq hw w).trans (stateOf_of_workspaces_eq h2 w)
  refine ⟨fun w hd => ?_, fun w hd => ?_, Or.inr ⟨t, ?_, ?_, ?_⟩⟩
  · rw [hst]; exact h.2.1 w hd
  · rw [hst] at hd; exact h.2.2 w hd
  · rw [ht, h1, h.1]
  · rw [h6]
    unfold GetTask at h11 ⊢
    rw [← h.1]; exact h11
  · rw [hst, h7]; exact hnd

theorem handlerStep_of_CreateTask_audit {db db₁ db₂ : DB} {now : Nat} {p : CreateTaskParams}
    {t : WvsTask} (h : StateStep db db₁) (hc : CreateTask db₁ now p = some (db₂, t))
    (hnd : stateOf db₁ p.Wsid ≠ some WorkspaceDisabled) (wsid action : String)
    (taskID : Option String) (r : Response) :
    HandlerStep db (writeAudit db₂ wsid action taskID, r).1 :=
  handlerStep_of_CreateTask h hc hnd rfl rfl

theorem stateOf_ne_of {db : DB} {wsid : String} {ws : WvsWorkspace}
    (hg : GetWorkspace db wsid = some ws) (hs : ¬ ws.State = WorkspaceDisabled) :
    stateOf db wsid ≠ some WorkspaceDisabled := by
  unfold stateOf
  rw [hg]
  intro h
  exact hs (Option.some.inj h)

theorem handlerStep_CreateSnapshot (sha256hex : String → String) (db : DB) (now : Nat)
    (taskID snapshotID wsid key message : String) :
    HandlerStep db (CreateSnapshot sha256hex db now taskID snapshotID wsid key message).1 := by
  unfold CreateSnapshot
  repeat' (first | split | (dsimp only; split))
  all_goals first
    | exact handlerStep_of_stateStep (stateStep_refl db)
    | exact handlerStep_of_CreateTask_audit (stateStep_refl db) (by assumption)
        (stateOf_ne_of (by assumption) (by assumption)) _ _ _ _

theorem handlerStep_DropSnapshot (sha256hex : String → String) (db : DB) (now : Nat)
    (taskID wsid snapshotID key : String) :
    HandlerStep db (DropSnapshot sha256hex db now taskID wsid snapshotID key).1 := by
  unfold DropSnapshot
  repeat' (first | split | (dsimp only; split))
  all_goals first
    | exact handlerStep_of_stateStep (stateStep_refl db)
    | exact handlerStep_of_CreateTask_audit (stateStep_refl db) (by assumption)
        (stateOf_ne_of (by assumption) (by assumption)) _ _ _ _

theorem handlerStep_SetCurrent (sha256hex : String → String) (db : DB) (now : Nat)
    (taskID newLiveID wsid key : String) (body : Option String) :
    HandlerStep db (SetCurrent sha256hex db now taskID newLiveID wsid key body).1 := by
  unfold SetCurrent
  repeat' (first | split | (dsimp only; split))
  all_goals first
    | exact handlerStep_of_stateStep (stateStep_refl db)
    | exact handlerStep_of_CreateTask_audit (stateStep_refl db) (by assumption)
        (stateOf_ne_of (by assumption) (by assumption)) _ _ _ _

theorem stateOf_CreateWorkspaceRow {db db₁ : DB} {now : Nat} {a b c d : String}
    {w₁ : WvsWorkspace} (h : CreateWorkspaceRow db now a b c d = some (db₁, w₁)) :
    db₁.tasks = db.tasks ∧ stateOf db a = none ∧
    ∀ w, stateOf db₁ w = if w = a then some WorkspaceProvisioning else stateOf db w := by
  unfold CreateWorkspaceRow at h
  split at h
  · cases h
  · rename_i hany
    simp only [Option.some.injEq, Prod.mk.injEq] at h
    obtain ⟨h1, _⟩ := h
    subst h1
    have hnone : List.find? (fun x : WvsWorkspace => decide (x.Wsid = a)) db.workspaces = none := by
      rw [List.find?_eq_none]
      intro x hx hxa
      apply hany
      rw [List.any_eq_true]
      exact ⟨x, hx, by simpa using Or.inl (by simpa using hxa)⟩
    refine ⟨rfl, ?_, fun w => ?_⟩
    · unfold stateOf GetWorkspace; rw [hnone]; rfl
    · unfold stateOf GetWorkspace
      simp only [List.find?_append]
      by_cases hw : w = a
      · subst hw
        simp [hnone]
      · cases hf : List.find? (fun x : WvsWorkspace => decide (x.Wsid = w)) db.workspaces with
        | some x => simp [hw]
        | none =>
          have : ¬ a = w := fun e => hw e.symm
          simp [hw, this]

theorem stateStep_CreateWorkspaceRow {db db₁ : DB} {now : Nat} {a b c d : String}
    {w₁ : WvsWorkspace} (h : CreateWorkspaceRow db now a b c d = some (db₁, w₁)) :
    StateStep db db₁ ∧ stateOf db₁ a ≠ some WorkspaceDisabled := by
  obtain ⟨h1, h2, h3⟩ := stateOf_CreateWorkspaceRow h
  refine ⟨⟨h1, fun w hd => ?_, fun w hd => ?_⟩, ?_⟩
  · have hw : w ≠ a := fun e => by rw [e, h2] at hd; cases hd
    rw [h3, if_neg hw]; exact hd
  · rw [h3] at hd
    by_cases hw : w = a
    · rw [if_pos hw] at hd; cases hd
    · rw [if_neg hw] at hd; exact Or.inl hd
  · rw [h3, if_pos rfl]; decide

theorem handlerStep_CreateWorkspace (sha256hex : String → String) (db : DB) (now : Nat)
    (taskID key : String) (body : Option CreateWorkspaceRequest) :
    HandlerStep db (CreateWorkspace sha256hex db now taskID key body).1 := by
  unfold CreateWorkspace
  repeat' (first | split | (dsimp only; split))
  all_goals first
    | exact handlerStep_of_stateStep (stateStep_refl db)
    | exact handlerStep_of_stateStep (stateStep_CreateWorkspaceRow (by assumption)).1
    | (rename_i hrow _ _ _ _ hc
       exact handlerStep_of_CreateTask_audit (stateStep_CreateWorkspaceRow hrow).1 hc
         (stateStep_CreateWorkspaceRow hrow).2 _ _ _ _)

theorem stateStep_retry (db : DB) (now : Nat) (wsid : String)
    (hs : stateOf db wsid ≠ some WorkspaceDisabled) :
    StateStep db (UpdateWorkspaceState db now wsid WorkspaceProvisioning) ∧
    stateOf (UpdateWorkspaceState db now wsid WorkspaceProvisioning) wsid
      ≠ some WorkspaceDisabled := by
  have hp : stateOf (UpdateWorkspaceState db now wsid WorkspaceProvisioning) wsid
      ≠ some WorkspaceDisabled := by
    rw [stateOf_UpdateWorkspaceState, if_pos rfl]
    cases stateOf db wsid <;> simp
  refine ⟨⟨rfl, fun w hd => ?_, fun w hd => ?_⟩, hp⟩
  · have hw : w ≠ wsid := fun e => hs (e ▸ hd)
    rw [stateOf_UpdateWorkspaceState, if_neg hw]; exact hd
  · by_cases hw : w = wsid
    · subst hw; exact absurd hd hp
    · rw [stateOf_UpdateWorkspaceState, if_neg hw] at hd; exact Or.inl hd

theorem stateOf_ne_of_initFailed {db : DB} {wsid : String} {ws : WvsWorkspace}
    (hg : GetWorkspace db wsid = some ws) (hs : ¬ ws.State ≠ WorkspaceInitFailed) :
    stateOf db wsid ≠ some WorkspaceDisabled := by
  apply stateOf_ne_of hg
  have : ws.State = WorkspaceInitFailed := not_not.mp hs
  rw [this]; decide

theorem handlerStep_RetryInit (sha256hex : String → String) (db : DB) (now : Nat)
    (key taskID wsid : String) :
    HandlerStep db (RetryInit sha256hex db now key taskID wsid).1 := by
  unfold RetryInit
  repeat' (first | split | (dsimp only; split))
  all_goals first
    | exact handlerStep_of_stateStep (stateStep_refl db)
    | exact handlerStep_of_stateStep
        (stateStep_retry db now wsid (stateOf_ne_of_initFailed (by assumption) (by assumption))).1
    | exact handlerStep_of_CreateTask
        (stateStep_retry db now wsid (stateOf_ne_of_initFailed (by assumption) (by assumption))).1
        (by assumption)
        (stateStep_retry db now wsid
          (stateOf_ne_of_initFailed (by assumption) (by assumption))).2 rfl rfl

theorem stateStep_DisableWorkspaceRow {db db₁ : DB} {now : Nat} {wsid : String}
    {w₁ : WvsWorkspace} (h : DisableWorkspaceRow db now wsid = some (db₁, w₁)) :
    StateStep db db₁ := by
  have ht := DisableWorkspaceRow_tasks h
  unfold DisableWorkspaceRow at h
  cases hg : GetWorkspace db wsid with
  | none => simp [hg] at h
  | some ws =>
    simp only [hg] at h
    split at h
    · rename_i hcount
      simp only [Option.some.injEq, Prod.mk.injEq] at h
      obtain ⟨h1, _⟩ := h
      subst h1
      refine ⟨ht, fun w hd => ?_, fun w hd => ?_⟩
      · rw [stateOf_UpdateWorkspaceState]
        by_cases hw : w = wsid
        · rw [if_pos hw, hd]; rfl
        · rw [if_neg hw]; exact hd
      · by_cases hw : w = wsid
        · right
          intro t htm htw
          unfold CountActiveTasks at hcount
          rw [List.length_eq_zero, List.filter_eq_nil_iff] at hcount
          have := hcount t htm
          simp only [Bool.not_eq_true, Bool.decide_and, Bool.decide_eq_true, Bool.and_eq_true,
            decide_eq_true_eq, not_and] at this
          cases hterm : isTerminalStatus t.Status with
          | true => rfl
          | false => exact absurd hterm (by simpa using this (htw.trans hw))
        · rw [stateOf_UpdateWorkspaceState, if_neg hw] at hd; exact Or.inl hd
    · cases h

theorem handlerStep_DisableWorkspace (db : DB) (now : Nat) (wsid : String) :
    HandlerStep db (DisableWorkspace db now wsid).1 := by
  unfold DisableWorkspace
  repeat' split
  all_goals first
    | exact handlerStep_of_stateStep (stateStep_refl db)
    | (rename_i h
       exact handlerStep_of_stateStep
        (stateStep_of_eq (stateStep_DisableWorkspaceRow h) rfl rfl))

/-- `CancelTask` keeps the id and the workspace of every task row and changes
a status only into CANCELED; it touches no workspace row. -/
theorem CancelTask_rows (db : DB) (now : Nat) (taskID : String) :
    (∃ f : WvsTask → WvsTask,
      (∀ u, (f u).TaskID = u.TaskID ∧ (f u).Wsid = u.Wsid ∧
        ((f u).Status = u.Status ∨ (f u).Status = TaskCanceled)) ∧
      (CancelTask db now taskID).1.tasks = db.tasks.map f) ∧
    (CancelTask db now taskID).1.workspaces = db.workspaces := by
  have hid : (∃ f : WvsTask → WvsTask,
      (∀ u, (f u).TaskID = u.TaskID ∧ (f u).Wsid = u.Wsid ∧
        ((f u).Status = u.Status ∨ (f u).Status = TaskCanceled)) ∧
      db.tasks = db.tasks.map f) ∧ db.workspaces = db.workspaces :=
    ⟨⟨fun u => u, fun _ => ⟨rfl, rfl, Or.inl rfl⟩, (map_eq_self _ _ (fun _ => rfl)).symm⟩, rfl⟩
  unfold CancelTask
  cases hg : GetTask db taskID with
  | none => exact hid
  | some task =>
    simp only
    split
    · exact hid
    · split
      · cases hc : CancelPendingTask db now taskID with
        | none => exact hid
        | some db₁ =>
          unfold CancelPendingTask at hc
          split at hc
          · simp only [Option.some.injEq] at hc
            subst hc
            refine ⟨⟨_, ?_, rfl⟩, rfl⟩
            intro u
            by_cases hu : u.TaskID = taskID ∧ u.Status = TaskPending
            · dsimp only; rw [if_pos hu]; exact ⟨rfl, rfl, Or.inr rfl⟩
            · dsimp only; rw [if_neg hu]; exact ⟨rfl, rfl, Or.inl rfl⟩
          · cases hc
      · cases hc : RequestCancelRunningTask db taskID with
        | none => exact hid
        | some db₁ =>
          unfold RequestCancelRunningTask at hc
          split at hc
          · simp only [Option.some.injEq] at hc
            subst hc
            refine ⟨⟨_, ?_, rfl⟩, rfl⟩
            intro u
            by_cases hu : u.TaskID = taskID ∧ u.Status = TaskRunning
            · dsimp only; rw [if_pos hu]; exact ⟨rfl, rfl, Or.inl rfl⟩
            · dsimp only; rw [if_neg hu]; exact ⟨rfl, rfl, Or.inl rfl⟩
          · cases hc

/-- A step that rewrites the task rows keeps `WsInv`. -/
theorem wsInv_of_map {s : Sys} {db' : DB} {leased' : List WvsTask} {f : WvsTask → WvsTask}
    (hinv : Inv s) (hws : WsInv s) (htasks : db'.tasks = s.db.tasks.map f)
    (hid : ∀ u, (f u).TaskID = u.TaskID) (hwsid : ∀ u, (f u).Wsid = u.Wsid)
    (hterm : ∀ u ∈ s.db.tasks, isTerminalStatus (f u).Status = false →
      isTerminalStatus u.Status = false)
    (hst : ∀ w, stateOf db' w = some WorkspaceDisabled → stateOf s.db w = some WorkspaceDisabled)
    (hleased : ∀ l ∈ leased', l ∈ s.leased ∨
      ∃ t ∈ s.db.tasks, t.TaskID = l.TaskID ∧ t.Wsid = l.Wsid) :
    WsInv { db := db', leased := leased' } := by
  refine ⟨fun l hl u' hu' hidl => ?_, fun u' hu' hnt => ?_⟩
  · simp only at hu'
    rw [htasks, List.mem_map] at hu'
    obtain ⟨u, hu, rfl⟩ := hu'
    rw [hid] at hidl
    rw [hwsid]
    rcases hleased l hl with hl' | ⟨t, ht, htid, htw⟩
    · exact hws.1 l hl' u hu hidl
    · have : u = t := eq_of_mem_nodup hinv.1 hu ht (hidl.trans htid.symm)
      rw [this]; exact htw
  · simp only at hu' ⊢
    rw [htasks, List.mem_map] at hu'
    obtain ⟨u, hu, rfl⟩ := hu'
    rw [hwsid]
    intro hd
    exact hws.2 u hu (hterm u hu hnt) (hst _ hd)

/-- A step of a handler keeps `WsInv`. -/
theorem wsInv_of_handlerStep {s : Sys} {db' : DB} (hinv : Inv s) (hws : WsInv s)
    (h : HandlerStep s.db db') : WsInv { db := db', leased := s.leased } := by
  obtain ⟨_, h2, h3⟩ := h
  have hold : ∀ u ∈ s.db.tasks, isTerminalStatus u.Status = false →
      stateOf db' u.Wsid ≠ some WorkspaceDisabled := by
    intro u hu hnt hd
    rcases h2 _ hd with h | h
    · exact hws.2 u hu hnt h
    · rw [h u hu rfl] at hnt; cases hnt
  rcases h3 with h3 | ⟨t, ht, hfresh, hnd⟩
  · refine ⟨fun l hl u hu hidl => ?_, fun u hu hnt => ?_⟩
    · simp only at hu; rw [h3] at hu
      exact hws.1 l hl u hu hidl
    · simp only at hu ⊢; rw [h3] at hu
      exact hold u hu hnt
  · refine ⟨fun l hl u hu hidl => ?_, fun u hu hnt => ?_⟩
    · simp only at hu; rw [ht, List.mem_append, List.mem_singleton] at hu
      rcases hu with hu | rfl
      · exact hws.1 l hl u hu hidl
      · exfalso
        obtain ⟨t₀, ht₀, hid₀, _⟩ := hinv.2.2 l hl
        have := GetTask_of_mem hinv.1 ht₀
        rw [hid₀, ← hidl, hfresh] at this
        cases this
    · simp only at hu ⊢; rw [ht, List.mem_append, List.mem_singleton] at hu
      rcases hu with hu | rfl
      · exact hold u hu hnt
      · exact hnd

/-- Every step keeps `WsInv` and keeps a DISABLED workspace DISABLED. -/
theorem wsInv_step (sha256hex : String → String) {s s' : Sys} {a : Action} (hinv : Inv s)
    (hws : WsInv s) (h : step sha256hex s a = some s') :
    WsInv s' ∧ ∀ w, stateOf s.db w = some WorkspaceDisabled →
      stateOf s'.db w = some WorkspaceDisabled := by
  have hhandler : ∀ db', HandlerStep s.db db' → s' = { s with db := db' } →
      WsInv s' ∧ ∀ w, stateOf s.db w = some WorkspaceDisabled →
        stateOf s'.db w = some WorkspaceDisabled := by
    intro db' hh hs
    subst hs
    exact ⟨wsInv_of_handlerStep hinv hws hh, hh.1⟩
  cases a with
  | dequeue now =>
    simp only [step] at h
    cases hd : DequeueTask s.db now with
    | none => simp [hd] at h
    | some r =>
      obtain ⟨db', l⟩ := r
      simp only [hd, Option.some.injEq] at h
      subst h
      obtain ⟨t, ht, hel, hl, hdb⟩ := DequeueTask_spec hd
      subst hdb
      refine ⟨wsInv_of_map (f := fun u => if u.TaskID = t.TaskID then leaseRow now u else u)
        hinv hws rfl (lease_fun_id now t.TaskID) ?_ ?_ ?_ ?_, fun w hd => ?_⟩
      · intro u; dsimp only; split <;> rfl
      · intro u hu hnt
        by_cases hut : u.TaskID = t.TaskID
        · have : u = t := eq_of_mem_nodup hinv.1 hu ht hut
          rw [this]
          rcases eligible_status hel with h1 | h1
          · rw [h1]; rfl
          · rw [h1.1]; rfl
        · dsimp only at hnt; rw [if_neg hut] at hnt; exact hnt
      · intro w hd; exact hd
      · intro l' hl'
        rcases List.mem_cons.mp hl' with rfl | hl'
        · exact Or.inr ⟨t, ht, by rw [hl]; rfl, by rw [hl]; rfl⟩
        · exact Or.inl hl'
      · exact hd
  | work taskID env now delay =>
    simp only [step] at h
    cases hf : s.leased.find? (fun t => t.TaskID = taskID) with
    | none => simp [hf] at h
    | some l =>
      simp only [hf, Option.some.injEq] at h
      subst h
      obtain ⟨st, _, hend⟩ := endsAttempt_runTask now delay env s.db l
      have hlm : l ∈ s.leased := List.mem_of_find?_eq_some hf
      obtain ⟨t₀, ht₀, hid₀, hrun₀, _⟩ := hinv.2.2 l hlm
      have hlw : stateOf s.db l.Wsid ≠ some WorkspaceDisabled := by
        rw [← hws.1 l hlm t₀ ht₀ hid₀]
        exact hws.2 t₀ ht₀ (by rw [hrun₀]; rfl)
      refine ⟨wsInv_of_map (f := effectsOnTask now delay (runTask env s.db l)) hinv hws
        (applyEffects_tasks now delay _ s.db) (fun u => (hend u).1)
        (fun u => (hend u).2.2.2.1) ?_ ?_ ?_, fun w hd => ?_⟩
      · intro u hu hnt
        by_cases hul : u.TaskID = l.TaskID
        · have : u = t₀ := eq_of_mem_nodup hinv.1 hu ht₀ (hul.trans hid₀.symm)
          rw [this, hrun₀]; rfl
        · rw [(hend u).2.2.2.2.2.2.2.2 hul] at hnt; exact hnt
      · intro w hd
        exact stateOf_applyEffects_disabled now delay _ s.db w (runTask_no_disable env s.db l) hd
      · intro l' hl'
        exact Or.inl (List.mem_of_mem_filter hl')
      · have hw : w ≠ l.Wsid := fun e => hlw (e ▸ hd)
        simp only
        rw [stateOf_applyEffects now delay _ s.db w
          (fun e he st hst => hw (runTask_state_target env s.db l e he w st hst))]
        exact hd
  | createWorkspace now taskID key body =>
    simp only [step, Option.some.injEq] at h
    exact hhandler _ (handlerStep_CreateWorkspace sha256hex s.db now taskID key body) h.symm
  | retryInit now key taskID wsid =>
    simp only [step, Option.some.injEq] at h
    exact hhandler _ (handlerStep_RetryInit sha256hex s.db now key taskID wsid) h.symm
  | disableWorkspace now wsid =>
    simp only [step, Option.some.injEq] at h
    exact hhandler _ (handlerStep_DisableWorkspace s.db now wsid) h.symm
  | createSnapshot now taskID snapshotID wsid key message =>
    simp only [step, Option.some.injEq] at h
    exact hhandler _
      (handlerStep_CreateSnapshot sha256hex s.db now taskID snapshotID wsid key message) h.symm
  | dropSnapshot now taskID wsid snapshotID key =>
    simp only [step, Option.some.injEq] at h
    exact hhandler _ (handlerStep_DropSnapshot sha256hex s.db now taskID wsid snapshotID key)
      h.symm
  | setCurrent now taskID newLiveID wsid key body =>
    simp only [step, Option.some.injEq] at h
    exact hhandler _
      (handlerStep_SetCurrent sha256hex s.db now taskID newLiveID wsid key body) h.symm
  | cancelTask now taskID =>
    simp only [step, Option.some.injEq] at h
    subst h
    obtain ⟨⟨f, hf, htasks⟩, hwsp⟩ := CancelTask_rows s.db now taskID
    refine ⟨wsInv_of_map (f := f) hinv hws htasks (fun u => (hf u).1) (fun u => (hf u).2.1)
      ?_ ?_ (fun l hl => Or.inl hl), fun w hd => ?_⟩
    · intro u _ hnt
      rcases (hf u).2.2 with h1 | h1
      · rw [h1] at hnt; exact hnt
      · rw [h1] at hnt; cases hnt
    · intro w hd
      rw [stateOf_of_workspaces_eq hwsp] at hd; exact hd
    · simp only
      rw [stateOf_of_workspaces_eq hwsp]; exact hd

/-- Every run keeps `Inv` and `WsInv` and keeps a DISABLED workspace
DISABLED. -/
theorem wsInv_run (sha256hex : String → String) {s s' : Sys} {tr : List Action}
    (hinv : Inv s) (hws : WsInv s) (h : run sha256hex s tr = some s') :
    Inv s' ∧ WsInv s' ∧ ∀ w, stateOf s.db w = some WorkspaceDisabled →
      stateOf s'.db w = some WorkspaceDisabled := by
  induction tr generalizing s with
  | nil =>
    simp only [run, Option.some.injEq] at h
    subst h
    exact ⟨hinv, hws, fun _ hd => hd⟩
  | cons a as ih =>
    simp only [run] at h
    cases hs : step sha256hex s a with
    | none => simp [hs] at h
    | some s₁ =>
      simp only [hs] at h
      obtain ⟨h1, h2⟩ := wsInv_step sha256hex hinv hws hs
      obtain ⟨i1, i2, i3⟩ := ih (inv_step sha256hex hinv hs) h1 h
      exact ⟨i1, i2, fun w hd => i3 w (h2 w hd)⟩

theorem CreateSnapshot_gone (sha256hex : String → String) {db : DB} {wsid : String}
    (h : stateOf db wsid = some WorkspaceDisabled) (now : Nat)
    (taskID snapshotID key message : String) :
    CreateSnapshot sha256hex db now taskID snapshotID wsid key message
      = (db, .error ErrGone "workspace is disabled") := by
  unfold stateOf at h
  cases hg : GetWorkspace db wsid with
  | none => rw [hg] at h; cases h
  | some ws =>
    rw [hg] at h
    have hs : ws.State = WorkspaceDisabled := Option.some.inj h
    unfold CreateSnapshot
    rw [hg]
    exact if_pos hs

theorem DropSnapshot_gone (sha256hex : String → String) {db : DB} {wsid : String}
    (h : stateOf db wsid = some WorkspaceDisabled) (now : Nat)
    (taskID snapshotID key : String) :
    DropSnapshot sha256hex db now taskID wsid snapshotID key
      = (db, .error ErrGone "workspace is disabled") := by
  unfold stateOf at h
  cases hg : GetWorkspace db wsid with
  | none => rw [hg] at h; cases h
  | some ws =>
    rw [hg] at h
    have hs : ws.State = WorkspaceDisabled := Option.some.inj h
    unfold DropSnapshot
    rw [hg]
    exact if_pos hs

theorem SetCurrent_gone (sha256hex : String → String) {db : DB} {wsid : String}
    (h : stateOf db wsid = some WorkspaceDisabled) (now : Nat)
    (taskID newLiveID key : String) (body : Option String) :
    SetCurrent sha256hex db now taskID newLiveID wsid key body
      = (db, .error ErrGone "workspace is disabled") := by
  unfold stateOf at h
  cases hg : GetWorkspace db wsid with
  | none => rw [hg] at h; cases h
  | some ws =>
    rw [hg] at h
    have hs : ws.State = WorkspaceDisabled := Option.some.inj h
    unfold SetCurrent
    rw [hg]
    exact if_pos hs

/-- With every request and every loop body of a worker taken as one step
(the relation `step`): let the system start without tasks and without
leases, and let the workspace `wsid` be DISABLED after the steps `pre`.  Then
after any further steps `post` the workspace is still DISABLED, and in that
state `CreateSnapshot`, `DropSnapshot` and `SetCurrent` answer 410
`WVS_GONE` and leave the store as it is.  The calls of a loop body are in
fact separate statements; the last theorem of this section shows what a
request served between two of them does. -/
theorem disabled_is_final (sha256hex : String → String) (s₀ s₁ s₂ : Sys)
    (pre post : List Action) (wsid : String)
    (htasks : s₀.db.tasks = []) (hfree : s₀.leased = [])
    (hpre : run sha256hex s₀ pre = some s₁)
    (hdis : stateOf s₁.db wsid = some WorkspaceDisabled)
    (hpost : run sha256hex s₁ post = some s₂) :
    stateOf s₂.db wsid = some WorkspaceDisabled ∧
    (∀ now taskID snapshotID key message,
      CreateSnapshot sha256hex s₂.db now taskID snapshotID wsid key message
        = (s₂.db, .error ErrGone "workspace is disabled")) ∧
    (∀ now taskID snapshotID key,
      DropSnapshot sha256hex s₂.db now taskID wsid snapshotID key
        = (s₂.db, .error ErrGone "workspace is disabled")) ∧
    (∀ now taskID newLiveID key body,
      SetCurrent sha256hex s₂.db now taskID newLiveID wsid key body
        = (s₂.db, .error ErrGone "workspace is disabled")) ∧
    (Response.error ErrGone "workspace is disabled").status = 410 := by
  have h0 : Inv s₀ := by
    refine ⟨by rw [htasks]; exact List.nodup_nil, by rw [hfree]; exact List.nodup_nil, ?_⟩
    intro l hl; rw [hfree] at hl; exact absurd hl (List.not_mem_nil l)
  have w0 : WsInv s₀ := by
    refine ⟨fun l hl => ?_, fun t ht => ?_⟩
    · rw [hfree] at hl; exact absurd hl (List.not_mem_nil l)
    · rw [htasks] at ht; exact absurd ht (List.not_mem_nil t)
  obtain ⟨h1, w1, _⟩ := wsInv_run sha256hex h0 w0 hpre
  obtain ⟨_, _, hkeep⟩ := wsInv_run sha256hex h1 w1 hpost
  have hd := hkeep wsid hdis
  exact ⟨hd, fun now taskID snapshotID key message =>
      CreateSnapshot_gone sha256hex hd now taskID snapshotID key message,
    fun now taskID snapshotID key => DropSnapshot_gone sha256hex hd now taskID snapshotID key,
    fun now taskID newLiveID key body =>
      SetCurrent_gone sha256hex hd now taskID newLiveID key body,
    by decide⟩

/-- Instance of `disabled_is_final`: the workspace `w1` is disabled, then a
retry of the initialisation, a snapshot, a drop, a set_current, a second
disable and a second creation of the workspace are requested; the workspace
is DISABLED in the end and the store is the one the disable left. -/
theorem disabled_is_final_witness :
    run id { db := dbOneSnapshot, leased := [] } disableW1
      = some { db := writeAudit dbDisabled "w1" "workspace.disable" none, leased := [] } ∧
    run id { db := writeAudit dbDisabled "w1" "workspace.disable" none, leased := [] }
      afterDisable
      = some { db := writeAudit dbDisabled "w1" "workspace.disable" none, leased := [] } ∧
    stateOf (writeAudit dbDisabled "w1" "workspace.disable" none) "w1"
      = some WorkspaceDisabled ∧
    (CreateSnapshot id (writeAudit dbDisabled "w1" "workspace.disable" none) 12 "t5" "s3" "w1"
      "k5" "m").2.status = 410 :=
  have hpre : run id { db := dbOneSnapshot, leased := [] } disableW1
      = some { db := writeAudit dbDisabled "w1" "workspace.disable" none, leased := [] } := by
    decide
  have hpost : run id { db := writeAudit dbDisabled "w1" "workspace.disable" none, leased := [] }
      afterDisable
      = some { db := writeAudit dbDisabled "w1" "workspace.disable" none, leased := [] } := by
    decide
  have h := disabled_is_final id { db := dbOneSnapshot, leased := [] }
    { db := writeAudit dbDisabled "w1" "workspace.disable" none, leased := [] }
    { db := writeAudit dbDisabled "w1" "workspace.disable" none, leased := [] }
    disableW1 afterDisable "w1" rfl rfl hpre (by decide) hpost
  ⟨hpre, hpost, h.1, by rw [h.2.1 12 "t5" "s3" "k5" "m"]; exact h.2.2.2.2⟩

/-- C24, failing input: the workspace `w1` is created and the executor fails
its `init_workspace` task on all five attempts.  On the last attempt
`failTask` issues `MarkTaskDead` and then, as a separate call,
`UpdateWorkspaceState(INIT_FAILED)`.  After the first call the workspace is
still PROVISIONING and has no active task, so a request to disable it, served
at that moment, is answered 200 and the workspace is DISABLED; the second
call of the worker then writes INIT_FAILED over DISABLED.  The state of a
DISABLED workspace has changed, `RetryInit` is accepted again and
`CreateSnapshot` answers 202 instead of 410.  (`onSuccess`, the sibling of
`failTask`, writes the state of the workspace before it ends the task.) -/
theorem disabled_overwritten_between_calls :
    (callRun id sysFresh overwriteCalls).isSome = true ∧
    ((callStateAfter initFailsCalls).running
        = [("t1", [.UpdateWorkspaceState "w1" WorkspaceInitFailed])] ∧
      stateOf (callStateAfter initFailsCalls).db "w1" = some WorkspaceProvisioning ∧
      statusOf (callStateAfter initFailsCalls).db "t1" = some TaskDead ∧
      CountActiveTasks (callStateAfter initFailsCalls).db "w1" = 0) ∧
    ((DisableWorkspace (callStateAfter initFailsCalls).db 7 "w1").2.status = 200 ∧
      stateOf (callStateAfter disableBetweenCalls).db "w1" = some WorkspaceDisabled) ∧
    stateOf (callStateAfter overwriteCalls).db "w1" = some WorkspaceInitFailed ∧
    ((RetryInit id (callStateAfter overwriteCalls).db 9 "k2" "t2" "w1").2 = .accepted "t2" ∧
      (CreateSnapshot id (callStateAfter overwriteCalls).db 9 "t3" "s1" "w1" "k3" "m").2.status
        = 202) ∧
    (failTask lastInitAttempt "EXECUTOR_ERROR: clone failed"
        = [.MarkTaskDead "t1" (errorJSON "EXECUTOR_ERROR: clone failed"),
           .UpdateWorkspaceState "w1" WorkspaceInitFailed] ∧
      onSuccess lastInitAttempt none
        = [.UpdateWorkspaceState "w1" WorkspaceActive,
           .CompleteTask "t1" TaskSucceeded (some "null") none]) := by
  decide
/-! ## Key order: what `sortedJSON` undoes -/

theorem mapGet_cons {α : Type} (k : String) (v : α) (ms : List (String × α)) (k' : String) :
    mapGet ((k, v) :: ms) k' =
      match mapGet ms k' with
      | some x => some x
      | none => if k = k' then some v else none := by
  unfold mapGet
  rw [List.reverse_cons, List.find?_append]
  cases h : List.find? (fun m => m.1 == k') ms.reverse with
  | some x => simp
  | none =>
    by_cases hk : k = k'
    · simp [hk]
    · simp [hk]

theorem mem_mapKeys_iff {α : Type} (ms : List (String × α)) (k : String) :
    k ∈ mapKeys ms ↔ (mapGet ms k).isSome = true := by
  unfold mapKeys
  rw [List.mem_dedup]
  constructor
  · intro h
    obtain ⟨v, hv⟩ := mapGet_of_mem_keys h
    rw [hv]; rfl
  · intro h
    cases hg : mapGet ms k with
    | none => rw [hg] at h; cases h
    | some v => exact List.mem_map_of_mem Prod.fst (mapGet_mem hg)

/-- The text of an object depends on the Go map only. -/
theorem encodeObject_congr {ms ns : List (String × String)}
    (h : ∀ k, mapGet ms k = mapGet ns k) : encodeObject ms = encodeObject ns := by
  have hp : (mapKeys ms).Perm (mapKeys ns) := by
    apply (List.perm_ext_iff_of_nodup (List.nodup_dedup _) (List.nodup_dedup _)).mpr
    intro k
    exact (mem_mapKeys_iff ms k).trans (by rw [h k]; exact (mem_mapKeys_iff ns k).symm)
  unfold encodeObject
  rw [sortStrings_perm hp]
  congr 3
  apply List.map_congr_left
  intro k _
  rw [h k]

/-- What a key permutation of the kind `KeyPermSortable` preserves, stated so
that it passes through the rules of the relation. -/
theorem keyPermSortable_preserves {a b : JSON} (h : KeyPermSortable a b) :
    sortedJSONDoc a = sortedJSONDoc b ∧
    (∀ k, mapGet (sortedMembers a.membersOf) k = mapGet (sortedMembers b.membersOf) k) ∧
    (a.decodes = true →
      b.decodes = true ∧ a.marshal = b.marshal ∧
      marshalList a.elems = marshalList b.elems ∧
      ∀ k, mapGet (marshalMembers a.membersOf) k = mapGet (marshalMembers b.membersOf) k) := by
  induction h with
  | same a => exact ⟨rfl, fun _ => rfl, fun hd => ⟨hd, rfl, rfl, fun _ => rfl⟩⟩
  | @arrCons a b xs ys s t u v hdec _ _ ih₁ ih₂ =>
    have hd := hdec
    simp only [JSON.decodes, decodesList, Bool.and_eq_true] at hd
    obtain ⟨d1, m1, _, _⟩ := ih₁.2.2 hd.1
    obtain ⟨d2, _, e2, _⟩ := ih₂.2.2 (by simpa [JSON.decodes] using hd.2)
    simp only [JSON.decodes] at d2
    simp only [JSON.elems] at e2
    have hdb : (JSON.arr v (b :: ys)).decodes = true := by
      simp [JSON.decodes, decodesList, d1, d2]
    have hm : (JSON.arr u (a :: xs)).marshal = (JSON.arr v (b :: ys)).marshal := by
      simp [JSON.marshal, marshalList, m1, e2]
    refine ⟨?_, fun _ => rfl, fun _ => ⟨hdb, hm, ?_, fun _ => rfl⟩⟩
    · simp only [sortedJSONDoc]
      rw [if_pos hdec, if_pos hdb]
      exact hm
    · simp [JSON.elems, marshalList, m1, e2]
  | @objCons a b ms ns s t u v k _ _ ih₁ ih₂ =>
    have hs : ∀ k', mapGet (sortedMembers ((k, a) :: ms)) k'
        = mapGet (sortedMembers ((k, b) :: ns)) k' := by
      intro k'
      have := ih₂.2.1 k'
      simp only [JSON.membersOf] at this
      simp only [sortedMembers, mapGet_cons, this, ih₁.1]
    refine ⟨?_, hs, ?_⟩
    · simp only [sortedJSONDoc]
      exact encodeObject_congr hs
    · intro hd
      simp only [JSON.decodes, decodesMembers, Bool.and_eq_true] at hd
      obtain ⟨d1, m1, _, _⟩ := ih₁.2.2 hd.1
      obtain ⟨d2, _, _, g2⟩ := ih₂.2.2 (by simpa [JSON.decodes] using hd.2)
      simp only [JSON.decodes] at d2
      simp only [JSON.membersOf] at g2
      have hm : ∀ k', mapGet (marshalMembers ((k, a) :: ms)) k'
          = mapGet (marshalMembers ((k, b) :: ns)) k' := by
        intro k'
        simp only [marshalMembers, mapGet_cons, g2 k', m1]
      refine ⟨by simp [JSON.decodes, decodesMembers, d1, d2], ?_, by simp [JSON.elems, marshalList],
        hm⟩
      simp only [JSON.marshal]
      exact encodeObject_congr hm
  | @objPerm ms ns s t hnd hp =>
    have ps : (sortedMembers ms).Perm (sortedMembers ns) := by
      rw [sortedMembers_eq_map, sortedMembers_eq_map]; exact hp.map _
    have pm : (marshalMembers ms).Perm (marshalMembers ns) := by
      rw [marshalMembers_eq_map, marshalMembers_eq_map]; exact hp.map _
    have hs : ∀ k, mapGet (sortedMembers ms) k = mapGet (sortedMembers ns) k :=
      fun k => mapGet_perm ps (by rw [sortedMembers_keys]; exact hnd) k
    have hm : ∀ k, mapGet (marshalMembers ms) k = mapGet (marshalMembers ns) k :=
      fun k => mapGet_perm pm (by rw [marshalMembers_keys]; exact hnd) k
    refine ⟨?_, hs, ?_⟩
    · simp only [sortedJSONDoc]
      exact encodeObject_congr hs
    · intro hd
      simp only [JSON.decodes] at hd
      refine ⟨?_, ?_, by simp [JSON.elems, marshalList], hm⟩
      · simp only [JSON.decodes]
        rw [decodesMembers_eq_all] at hd ⊢
        exact all_perm _ hp hd
      · simp only [JSON.marshal]
        exact encodeObject_congr hm
  | trans _ _ ih₁ ih₂ =>
    refine ⟨ih₁.1.trans ih₂.1, fun k => (ih₁.2.1 k).trans (ih₂.2.1 k), ?_⟩
    intro hd
    obtain ⟨d1, m1, e1, g1⟩ := ih₁.2.2 hd
    obtain ⟨d2, m2, e2, g2⟩ := ih₂.2.2 d1
    exact ⟨d2, m1.trans m2, e1.trans e2, fun k => (g1 k).trans (g2 k)⟩

/-- What a key permutation preserves, stated so that it passes through the
rules of `KeyPerm`. -/
theorem keyPerm_preserves {a b : JSON} (h : KeyPerm a b) :
    a.distinctKeys = true → a.decodes = true →
      b.distinctKeys = true ∧ b.decodes = true ∧ a.marshal = b.marshal ∧
      sortedJSONDoc a = sortedJSONDoc b ∧
      marshalList a.elems = marshalList b.elems ∧
      (marshalMembers a.membersOf).Perm (marshalMembers b.membersOf) ∧
      (sortedMembers a.membersOf).Perm (sortedMembers b.membersOf) := by
  induction h with
  | null s t => intro _ _; simp [JSON.distinctKeys, JSON.decodes, JSON.marshal, sortedJSONDoc, JSON.elems, JSON.membersOf]
  | bool s t b => intro _ _; simp [JSON.distinctKeys, JSON.decodes, JSON.marshal, sortedJSONDoc, JSON.elems, JSON.membersOf]
  | num s t f =>
    intro _ hd
    simp only [JSON.decodes] at hd
    simp [JSON.distinctKeys, JSON.decodes, JSON.marshal, sortedJSONDoc, JSON.elems, JSON.membersOf, hd]
  | str s t x => intro _ _; simp [JSON.distinctKeys, JSON.decodes, JSON.marshal, sortedJSONDoc, JSON.elems, JSON.membersOf]
  | arrNil s t => intro _ _; simp [JSON.distinctKeys, JSON.decodes, JSON.marshal, sortedJSONDoc, JSON.elems, JSON.membersOf, distinctKeysList, decodesList, marshalList]
  | @arrCons a b xs ys s t u v _ _ ih₁ ih₂ =>
    intro hk hd
    simp only [JSON.distinctKeys, distinctKeysList, Bool.and_eq_true] at hk
    simp only [JSON.decodes, decodesList, Bool.and_eq_true] at hd
    obtain ⟨k1, d1, m1, _, _, _, _⟩ := ih₁ hk.1 hd.1
    obtain ⟨k2, d2, _, _, e2, _, _⟩ := ih₂ (by simpa [JSON.distinctKeys] using hk.2) (by simpa [JSON.decodes] using hd.2)
    simp only [JSON.distinctKeys] at k2
    simp only [JSON.decodes] at d2
    simp only [JSON.elems] at e2
    have hm : (JSON.arr u (a :: xs)).marshal = (JSON.arr v (b :: ys)).marshal := by
      simp [JSON.marshal, marshalList, m1, e2]
    refine ⟨by simp [JSON.distinctKeys, distinctKeysList, k1, k2], by simp [JSON.decodes, decodesList, d1, d2], hm, ?_, ?_, ?_, ?_⟩
    · simp only [sortedJSONDoc]
      rw [if_pos (by simp [JSON.decodes, decodesList, hd.1, hd.2]), if_pos (by simp [JSON.decodes, decodesList, d1, d2])]
      exact hm
    · simp [JSON.elems, marshalList, m1, e2]
    · simp [JSON.membersOf, marshalMembers]
    · simp [JSON.membersOf, sortedMembers]
  | objNil s t => intro _ _; simp [JSON.distinctKeys, JSON.decodes, JSON.marshal, sortedJSONDoc, JSON.elems, JSON.membersOf, distinctKeysMembers, decodesMembers, marshalMembers, sortedMembers]
  | @objCons a b ms ns s t u v k _ _ ih₁ ih₂ =>
    intro hk hd
    simp only [JSON.distinctKeys, distinctKeysMembers, Bool.and_eq_true, decide_eq_true_eq, List.map_cons, List.nodup_cons] at hk
    simp only [JSON.decodes, decodesMembers, Bool.and_eq_true] at hd
    obtain ⟨k1, d1, m1, s1, _, _, _⟩ := ih₁ hk.2.1 hd.1
    obtain ⟨k2, d2, _, _, _, p2, q2⟩ := ih₂ (by simp [JSON.distinctKeys, hk.1.2, hk.2.2]) (by simpa [JSON.decodes] using hd.2)
    simp only [JSON.distinctKeys, Bool.and_eq_true, decide_eq_true_eq] at k2
    simp only [JSON.decodes] at d2
    simp only [JSON.membersOf] at p2 q2
    have hkeys : (ms.map Prod.fst).Perm (ns.map Prod.fst) := by
      have := q2.map Prod.fst
      rwa [sortedMembers_keys, sortedMembers_keys] at this
    have hkn : k ∉ ns.map Prod.fst := fun hmem => hk.1.1 (hkeys.mem_iff.mpr hmem)
    have pm : (marshalMembers ((k, a) :: ms)).Perm (marshalMembers ((k, b) :: ns)) := by
      simp only [marshalMembers, m1]; exact p2.cons _
    have ps : (sortedMembers ((k, a) :: ms)).Perm (sortedMembers ((k, b) :: ns)) := by
      simp only [sortedMembers, s1]; exact q2.cons _
    have ndm : ((marshalMembers ((k, a) :: ms)).map Prod.fst).Nodup := by
      rw [marshalMembers_keys]; simp [hk.1.1, hk.1.2]
    have nds : ((sortedMembers ((k, a) :: ms)).map Prod.fst).Nodup := by
      rw [sortedMembers_keys]; simp [hk.1.1, hk.1.2]
    refine ⟨?_, by simp [JSON.decodes, decodesMembers, d1, d2], ?_, ?_, by simp [JSON.elems, marshalList], pm, ps⟩
    · simp only [JSON.distinctKeys, distinctKeysMembers, Bool.and_eq_true, decide_eq_true_eq, List.map_cons, List.nodup_cons]
      exact ⟨⟨hkn, k2.1⟩, k1, k2.2⟩
    · simp only [JSON.marshal]; exact encodeObject_perm pm ndm
    · simp only [sortedJSONDoc]; exact encodeObject_perm ps nds
  | @objPerm ms ns s t hp =>
    intro hk hd
    simp only [JSON.distinctKeys, Bool.and_eq_true, decide_eq_true_eq] at hk
    simp only [JSON.decodes] at hd
    have pm : (marshalMembers ms).Perm (marshalMembers ns) := by
      rw [marshalMembers_eq_map, marshalMembers_eq_map]; exact hp.map _
    have ps : (sortedMembers ms).Perm (sortedMembers ns) := by
      rw [sortedMembers_eq_map, sortedMembers_eq_map]; exact hp.map _
    refine ⟨?_, ?_, ?_, ?_, by simp [JSON.elems, marshalList], pm, ps⟩
    · simp only [JSON.distinctKeys, Bool.and_eq_true, decide_eq_true_eq]
      refine ⟨(hp.map Prod.fst).nodup_iff.mp hk.1, ?_⟩
      rw [distinctKeysMembers_eq_all] at hk ⊢
      exact all_perm _ hp hk.2
    · simp only [JSON.decodes]
      rw [decodesMembers_eq_all] at hd ⊢
      exact all_perm _ hp hd
    · simp only [JSON.marshal]
      exact encodeObject_perm pm (by rw [marshalMembers_keys]; exact hk.1)
    · simp only [sortedJSONDoc]
      exact encodeObject_perm ps (by rw [sortedMembers_keys]; exact hk.1)
  | trans _ _ ih₁ ih₂ =>
    intro hk hd
    obtain ⟨k1, d1, m1, s1, e1, p1, q1⟩ := ih₁ hk hd
    obtain ⟨k2, d2, m2, s2, e2, p2, q2⟩ := ih₂ k1 d1
    exact ⟨k2, d2, m1.trans m2, s1.trans s2, e1.trans e2, p1.trans p2, q1.trans q2⟩


/-- C1 (amended): (1) for every valid JSON body `a`, an object body in
particular, and every body `b` obtained from it by permuting the members of
objects that repeat no key, at any nesting depth, inside an array as long as
the array holds no number literal beyond the `float64` range (the relation
`KeyPermSortable`), `sortedJSON` returns the same bytes for both and
therefore `ComputeRequestHash` the same hash, for every method and path.
(2) In particular, when no object of the body repeats a key and every number
literal is within the `float64` range, as in every body a handler marshals,
this holds of every permutation of keys at any depth (the relation
`KeyPerm`, which also leaves the source bytes of the values free). -/
theorem sortedJSON_keyPerm_invariant :
    (∀ a b : JSON, KeyPermSortable a b →
      sortedJSON (.valid a) = sortedJSON (.valid b) ∧
      ∀ (sha256hex : String → String) (method path : String),
        ComputeRequestHash sha256hex (.valid a) method path =
          ComputeRequestHash sha256hex (.valid b) method path) ∧
    (∀ a b : JSON, KeyPerm a b → a.distinctKeys = true → a.decodes = true →
      sortedJSON (.valid a) = sortedJSON (.valid b) ∧
      ∀ (sha256hex : String → String) (method path : String),
        ComputeRequestHash sha256hex (.valid a) method path =
          ComputeRequestHash sha256hex (.valid b) method path) := by
  have hash : ∀ a b : JSON, sortedJSON (.valid a) = sortedJSON (.valid b) →
      ∀ (sha256hex : String → String) (method path : String),
        ComputeRequestHash sha256hex (.valid a) method path =
          ComputeRequestHash sha256hex (.valid b) method path := by
    intro a b hs sha256hex method path
    simp only [ComputeRequestHash, hashInput, hs]
  refine ⟨fun a b h => ?_, fun a b h hk hd => ?_⟩
  · have hs : sortedJSON (.valid a) = sortedJSON (.valid b) := (keyPermSortable_preserves h).1
    exact ⟨hs, hash a b hs⟩
  · have hs : sortedJSON (.valid a) = sortedJSON (.valid b) :=
      (keyPerm_preserves h hk hd).2.2.2.1
    exact ⟨hs, hash a b hs⟩

/-- The keys of `bodyRawNumberYX` permuted at both levels. -/
theorem keyPermSortable_rawNumber : KeyPermSortable bodyRawNumberYX bodyRawNumberXY :=
  KeyPermSortable.trans
    (KeyPermSortable.objCons "" "" _ "" "a" (KeyPermSortable.same _)
      (KeyPermSortable.objCons "" "" "" "" "b"
        (KeyPermSortable.objPerm _ _ (by decide) (List.Perm.swap _ _ _))
        (KeyPermSortable.same (.obj "" []))))
    (KeyPermSortable.objPerm _ _ (by decide) (List.Perm.swap _ _ _))

/-- C1, instances: the two bodies of the key-order test are key
permutations of each other and hash alike; so do `bodyRawNumberYX` and
`bodyRawNumberXY`, whose number literal beyond the `float64` range stands
directly under a key and is copied as it is while the object next to it is
sorted; and so do the body a handler marshals for a workspace request and the
same members in another order. -/
theorem sortedJSON_keyPerm_invariant_witness :
    (KeyPermSortable bodyWsidFirst bodyMessageFirst ∧
      sortedJSON (.valid bodyWsidFirst) = sortedJSON (.valid bodyMessageFirst) ∧
      ∀ (sha256hex : String → String) (method path : String),
        ComputeRequestHash sha256hex (.valid bodyWsidFirst) method path =
          ComputeRequestHash sha256hex (.valid bodyMessageFirst) method path) ∧
    (KeyPermSortable bodyRawNumberYX bodyRawNumberXY ∧
      sortedJSON (.valid bodyRawNumberYX)
        = "\x7b\"a\":1e999,\"b\":\x7b\"x\":2,\"y\":1\x7d\x7d" ∧
      (sortedJSON (.valid bodyRawNumberYX) = sortedJSON (.valid bodyRawNumberXY) ∧
       ∀ (sha256hex : String → String) (method path : String),
        ComputeRequestHash sha256hex (.valid bodyRawNumberYX) method path =
          ComputeRequestHash sha256hex (.valid bodyRawNumberXY) method path)) ∧
    (KeyPerm (objNode [("wsid", "w1"), ("root_path", "/ws/w1"), ("owner", "a")])
        (objNode [("owner", "a"), ("root_path", "/ws/w1"), ("wsid", "w1")]) ∧
      (objNode [("wsid", "w1"), ("root_path", "/ws/w1"), ("owner", "a")]).distinctKeys = true ∧
      (objNode [("wsid", "w1"), ("root_path", "/ws/w1"), ("owner", "a")]).decodes = true ∧
      sortedJSON reqW1.marshal
        = sortedJSON (.valid (objNode [("owner", "a"), ("root_path", "/ws/w1"), ("wsid", "w1")]))) :=
  have hp : KeyPerm (objNode [("wsid", "w1"), ("root_path", "/ws/w1"), ("owner", "a")])
      (objNode [("owner", "a"), ("root_path", "/ws/w1"), ("wsid", "w1")]) :=
    KeyPerm.objPerm _ _
      (((List.Perm.swap _ _ _).cons _).trans ((List.Perm.swap _ _ _).trans
        ((List.Perm.swap _ _ _).cons _)))
  ⟨⟨KeyPermSortable.objPerm _ _ (by decide) (List.Perm.swap _ _ _),
    sortedJSON_keyPerm_invariant.1 bodyWsidFirst bodyMessageFirst
      (KeyPermSortable.objPerm _ _ (by decide) (List.Perm.swap _ _ _))⟩,
   ⟨keyPermSortable_rawNumber, by decide,
    sortedJSON_keyPerm_invariant.1 bodyRawNumberYX bodyRawNumberXY keyPermSortable_rawNumber⟩,
   ⟨hp, by decide, by decide,
    (sortedJSON_keyPerm_invariant.2 _ _ hp (by decide) (by decide)).1⟩⟩

/-- C1 as stated fails on object bodies: an object that repeats a key keeps
the last value, so swapping the two members changes the sorted bytes; and an
array that holds a number literal beyond the `float64` range is returned as
it is, the keys of the objects inside it unsorted, also when the array is the
value an object holds under a key. -/
theorem sortedJSON_keyPerm_counterexample :
    (KeyPerm bodyDupKeyOneTwo bodyDupKeyTwoOne ∧
      sortedJSON (.valid bodyDupKeyOneTwo) = "\x7b\"a\":2\x7d" ∧
      sortedJSON (.valid bodyDupKeyTwoOne) = "\x7b\"a\":1\x7d" ∧
      hashInput (.valid bodyDupKeyOneTwo) "POST" "/v1/workspaces" ≠
        hashInput (.valid bodyDupKeyTwoOne) "POST" "/v1/workspaces") ∧
    (KeyPerm bodyRawArrayAB bodyRawArrayBA ∧ bodyRawArrayAB.distinctKeys = true ∧
      sortedJSON (.valid bodyRawArrayAB) = "\x7b\"k\":[\x7b\"a\":1,\"b\":2\x7d,1e999]\x7d" ∧
      sortedJSON (.valid bodyRawArrayBA) = "\x7b\"k\":[\x7b\"b\":2,\"a\":1\x7d,1e999]\x7d" ∧
      hashInput (.valid bodyRawArrayAB) "POST" "/v1/workspaces" ≠
        hashInput (.valid bodyRawArrayBA) "POST" "/v1/workspaces") := by
  refine ⟨⟨KeyPerm.objPerm _ _ (List.Perm.swap _ _ _), by decide, by decide, by decide⟩,
    ⟨?_, by decide, by decide, by decide, by decide⟩⟩
  exact KeyPerm.objCons "" "" _ _ "k"
    (KeyPerm.arrCons "" "" _ _ (KeyPerm.objPerm _ _ (List.Perm.swap _ _ _))
      (KeyPerm.arrCons "" "" "" "" (KeyPerm.num _ _ _) (KeyPerm.arrNil "" "")))
    (KeyPerm.objNil "" "")
/-! ## The text of a Go string is readable in one way only -/

theorem hexValue_hexDigit :
    ∀ n, n < 64 → hexValue (hexDigit (n / 16)) * 16 + hexValue (hexDigit (n % 16)) = n := by
  decide

theorem char_eq_of_toNat {c d : Char} (h : c.toNat = d.toNat) : c = d := by
  apply Char.ext
  apply UInt32.ext
  exact h

theorem unescapeHead_escapeChar (c : Char) (x : List Char) :
    unescapeHead ((escapeChar c).data ++ x) = some (c, x) := by
  unfold escapeChar
  by_cases h1 : c = '"'
  · subst h1; rfl
  · rw [if_neg h1]
    by_cases h2 : c = '\\'
    · subst h2; rfl
    · rw [if_neg h2]
      by_cases h3 : c = '\n'
      · subst h3; rfl
      · rw [if_neg h3]
        by_cases h4 : c = '\r'
        · subst h4; rfl
        · rw [if_neg h4]
          by_cases h5 : c = '\t'
          · subst h5; rfl
          · rw [if_neg h5]
            by_cases h6 : c.toNat = 8
            · rw [if_pos h6]
              have : c = Char.ofNat 8 := char_eq_of_toNat h6
              subst this; rfl
            · rw [if_neg h6]
              by_cases h7 : c.toNat = 12
              · rw [if_pos h7]
                have : c = Char.ofNat 12 := char_eq_of_toNat h7
                subst this; rfl
              · rw [if_neg h7]
                by_cases h8 : c.toNat < 32 ∨ c = '<' ∨ c = '>' ∨ c = '&'
                · rw [if_pos h8]
                  have hn : c.toNat < 64 := by
                    rcases h8 with h | h | h | h
                    · omega
                    · subst h; decide
                    · subst h; decide
                    · subst h; decide
                  have hv := hexValue_hexDigit c.toNat hn
                  have hc : Char.ofNat c.toNat = c := Char.ofNat_toNat c
                  show unescapeHead ('\\' :: 'u' :: '0' :: '0' :: hexDigit (c.toNat / 16) ::
                    hexDigit (c.toNat % 16) :: x) = some (c, x)
                  simp only [unescapeHead]
                  simp [hv, hc]
                · rw [if_neg h8]
                  by_cases h9 : c.toNat = 8232
                  · rw [if_pos h9]
                    have : c = Char.ofNat 8232 := char_eq_of_toNat h9
                    subst this; rfl
                  · rw [if_neg h9]
                    by_cases h10 : c.toNat = 8233
                    · rw [if_pos h10]
                      have : c = Char.ofNat 8233 := char_eq_of_toNat h10
                      subst this; rfl
                    · rw [if_neg h10]
                      show unescapeHead (c :: x) = some (c, x)
                      simp only [unescapeHead]
                      rw [if_neg h1, if_pos h2]

/-- The escapes of the characters of a Go string, one after another. -/
theorem string_join_data (l : List String) :
    (String.join l).data = l.flatMap String.data := by
  have h : ∀ (acc : String) (l : List String),
      (List.foldl (fun r s => r ++ s) acc l).data = acc.data ++ l.flatMap String.data := by
    intro acc l
    induction l generalizing acc with
    | nil => simp
    | cons a as ih => rw [List.foldl_cons, ih]; simp [List.flatMap_cons, List.append_assoc]
  unfold String.join
  rw [h]
  rfl

theorem quote_data (s : String) :
    (quote s).data = '"' :: ((s.data.flatMap fun c => (escapeChar c).data) ++ ['"']) := by
  unfold quote
  simp only [String.data_append, string_join_data, List.flatMap_map]
  rfl

/-- Two texts of escaped characters, each closed by a quote and followed by
anything, are the same text only when they escape the same characters and
are followed by the same. -/
theorem escaped_unique :
    ∀ (cs ds r r' : List Char),
      (cs.flatMap fun c => (escapeChar c).data) ++ '"' :: r
        = (ds.flatMap fun c => (escapeChar c).data) ++ '"' :: r' →
      cs = ds ∧ r = r' := by
  intro cs
  induction cs with
  | nil =>
    intro ds r r' h
    cases ds with
    | nil =>
      simp only [List.flatMap_nil, List.nil_append, List.cons.injEq, true_and] at h
      exact ⟨rfl, h⟩
    | cons d ds =>
      exfalso
      have := congrArg unescapeHead h
      rw [List.flatMap_cons, List.append_assoc, unescapeHead_escapeChar] at this
      simp [unescapeHead] at this
  | cons c cs ih =>
    intro ds r r' h
    cases ds with
    | nil =>
      exfalso
      have := congrArg unescapeHead h
      rw [List.flatMap_cons, List.append_assoc, unescapeHead_escapeChar] at this
      simp [unescapeHead] at this
    | cons d ds =>
      have := congrArg unescapeHead h
      rw [List.flatMap_cons, List.append_assoc, unescapeHead_escapeChar,
        List.flatMap_cons, List.append_assoc, unescapeHead_escapeChar] at this
      simp only [Option.some.injEq, Prod.mk.injEq] at this
      obtain ⟨hcd, hrest⟩ := this
      obtain ⟨h1, h2⟩ := ih ds r r' hrest
      exact ⟨by rw [hcd, h1], h2⟩

/-- The text of a Go string followed by anything is read in one way only. -/
theorem quote_unique {a b : String} {r r' : List Char}
    (h : (quote a).data ++ r = (quote b).data ++ r') : a = b ∧ r = r' := by
  rw [quote_data, quote_data] at h
  simp only [List.cons_append, List.append_assoc, List.singleton_append, List.cons.injEq,
    true_and] at h
  obtain ⟨h1, h2⟩ := escaped_unique _ _ _ _ h
  exact ⟨string_eq_of_data h1, h2⟩

theorem intercalate_go_data (sep : String) (l : List String) :
    ∀ acc : String, (String.intercalate.go acc sep l).data
      = acc.data ++ l.flatMap (fun s => sep.data ++ s.data) := by
  induction l with
  | nil => intro acc; simp [String.intercalate.go]
  | cons a as ih =>
    intro acc
    rw [String.intercalate.go, ih]
    simp [List.flatMap_cons, List.append_assoc]

theorem intercalate_data_single (sep a : String) : (sep.intercalate [a]).data = a.data := by
  simp [String.intercalate, intercalate_go_data]

theorem intercalate_data_cons (sep a b : String) (l : List String) :
    (sep.intercalate (a :: b :: l)).data
      = a.data ++ (sep.data ++ (sep.intercalate (b :: l)).data) := by
  simp [String.intercalate, intercalate_go_data, List.flatMap_cons, List.append_assoc]

/-- The text of a member, key and value Go strings, followed by anything is
read in one way only. -/
theorem member_unique {p q : String × String} {x y : List Char}
    (h : (quote p.1 ++ ":" ++ quote p.2).data ++ x = (quote q.1 ++ ":" ++ quote q.2).data ++ y) :
    p = q ∧ x = y := by
  simp only [String.data_append, List.append_assoc] at h
  obtain ⟨h1, h2⟩ := quote_unique h
  have h3 : (quote p.2).data ++ x = (quote q.2).data ++ y := List.append_cancel_left h2
  obtain ⟨h4, h5⟩ := quote_unique h3
  exact ⟨Prod.ext h1 h4, h5⟩

theorem member_data_head (p : String × String) :
    ∃ t, (quote p.1 ++ ":" ++ quote p.2).data = '"' :: t := by
  exact ⟨_, by simp only [String.data_append, quote_data, List.cons_append]; rfl⟩

/-- The members of an object text, closed by the brace and followed by
anything, are read in one way only. -/
theorem members_unique :
    ∀ (ps qs : List (String × String)) (r r' : List Char),
      (",".intercalate (ps.map fun m => quote m.1 ++ ":" ++ quote m.2)).data ++ '\x7d' :: r
        = (",".intercalate (qs.map fun m => quote m.1 ++ ":" ++ quote m.2)).data
            ++ '\x7d' :: r' →
      ps = qs ∧ r = r' := by
  have hnil : (",".intercalate ([] : List String)).data = [] := rfl
  have hcomma : (",": String).data = [','] := rfl
  have hhead : ∀ (p : String × String) (l : List (String × String)),
      ∃ t, (",".intercalate ((p :: l).map fun m => quote m.1 ++ ":" ++ quote m.2)).data
        = '"' :: t := by
    intro p l
    obtain ⟨t, ht⟩ := member_data_head p
    cases l with
    | nil => exact ⟨t, by rw [List.map_cons, List.map_nil, intercalate_data_single, ht]⟩
    | cons q l =>
      exact ⟨_, by rw [List.map_cons, List.map_cons, intercalate_data_cons, ht]; rfl⟩
  intro ps
  induction ps with
  | nil =>
    intro qs r r' h
    cases qs with
    | nil =>
      simp only [List.map_nil, hnil, List.nil_append, List.cons.injEq, true_and] at h
      exact ⟨rfl, h⟩
    | cons q qs =>
      exfalso
      obtain ⟨t, ht⟩ := hhead q qs
      rw [ht] at h
      simp only [List.map_nil, hnil, List.nil_append, List.cons_append, List.cons.injEq] at h
      exact absurd h.1 (by decide)
  | cons p ps ih =>
    intro qs r r' h
    cases qs with
    | nil =>
      exfalso
      obtain ⟨t, ht⟩ := hhead p ps
      rw [ht] at h
      simp only [List.map_nil, hnil, List.nil_append, List.cons_append, List.cons.injEq] at h
      exact absurd h.1 (by decide)
    | cons q qs =>
      cases ps with
      | nil =>
        cases qs with
        | nil =>
          simp only [List.map_cons, List.map_nil, intercalate_data_single] at h
          obtain ⟨h1, h2⟩ := member_unique h
          simp only [List.cons.injEq, true_and] at h2
          exact ⟨by rw [h1], h2⟩
        | cons q₂ qs =>
          exfalso
          simp only [List.map_cons, List.map_nil, intercalate_data_single,
            intercalate_data_cons, List.append_assoc, hcomma] at h
          obtain ⟨_, h2⟩ := member_unique h
          simp only [List.cons_append, List.nil_append, List.cons.injEq] at h2
          exact absurd h2.1 (by decide)
      | cons p₂ ps =>
        cases qs with
        | nil =>
          exfalso
          simp only [List.map_cons, List.map_nil, intercalate_data_single,
            intercalate_data_cons, List.append_assoc, hcomma] at h
          obtain ⟨_, h2⟩ := member_unique h
          simp only [List.cons_append, List.nil_append, List.cons.injEq] at h2
          exact absurd h2.1 (by decide)
        | cons q₂ qs =>
          simp only [List.map_cons, intercalate_data_cons, List.append_assoc, hcomma] at h
          obtain ⟨h1, h2⟩ := member_unique h
          simp only [List.cons_append, List.nil_append, List.cons.injEq, true_and] at h2
          have h3 := ih (q₂ :: qs) r r' (by simpa only [List.map_cons] using h2)
          exact ⟨by rw [h1, h3.1], h3.2⟩

/-- The bytes `sortedJSON` returns for an object of strings as `json.Marshal`
wrote it: the members of the Go map in key order. -/
theorem sortedJSON_objNode (ms : List (String × String)) :
    sortedJSON (.valid (objNode ms))
      = "\x7b" ++ ",".intercalate
          (((sortStrings (mapKeys ms)).map fun k => (k, (mapGet ms k).getD "")).map
            fun m => quote m.1 ++ ":" ++ quote m.2) ++ "\x7d" := by
  have hs : sortedMembers (ms.map fun m => (m.1, strNode m.2))
      = ms.map fun m => (m.1, quote m.2) := by
    rw [sortedMembers_eq_map, List.map_map]
    apply List.map_congr_left
    intro m _
    simp [strNode, sortedJSONDoc, JSON.decodes, JSON.marshal]
  have hk : mapKeys (ms.map fun m => (m.1, quote m.2)) = mapKeys ms := by
    unfold mapKeys; simp [Function.comp_def]
  simp only [sortedJSON, objNode, sortedJSONDoc, hs]
  unfold encodeObject
  rw [hk, List.map_map]
  congr 3
  apply List.map_congr_left
  intro k hkm
  have hmem : k ∈ ms.map Prod.fst := by
    have := mem_sortStrings.mp hkm
    unfold mapKeys at this
    exact List.mem_dedup.mp this
  obtain ⟨v, hv⟩ := mapGet_of_mem_keys hmem
  simp only [Function.comp_apply, mapGet_map (fun v => quote v) ms k, hv, Option.map_some',
    Option.getD_some]

/-- The sorted bytes of an object of strings, followed by anything, are read
in one way only: they fix the Go map and what follows. -/
theorem sortedJSON_objNode_unique {ms ns : List (String × String)} {r r' : List Char}
    (h : (sortedJSON (.valid (objNode ms))).data ++ r
      = (sortedJSON (.valid (objNode ns))).data ++ r') :
    (∀ k, mapGet ms k = mapGet ns k) ∧ r = r' := by
  rw [sortedJSON_objNode, sortedJSON_objNode] at h
  have hb : ("\x7b" : String).data = ['\x7b'] := rfl
  have he : ("\x7d" : String).data = ['\x7d'] := rfl
  simp only [String.data_append, hb, he, List.append_assoc, List.singleton_append,
    List.cons_append] at h
  obtain ⟨hp, hr⟩ := members_unique _ _ _ _ (List.cons.inj h).2
  refine ⟨?_, hr⟩
  have hkeys : sortStrings (mapKeys ms) = sortStrings (mapKeys ns) := by
    have := congrArg (List.map Prod.fst) hp
    simpa [Function.comp_def] using this
  intro k
  by_cases hk : k ∈ sortStrings (mapKeys ms)
  · have hk' : k ∈ sortStrings (mapKeys ns) := hkeys ▸ hk
    rw [hkeys] at hp
    have hv := (List.map_inj_left.mp hp) k hk'
    simp only [Prod.mk.injEq, true_and] at hv
    have h1 := (mem_mapKeys_iff ms k).mp (mem_sortStrings.mp hk)
    have h2 := (mem_mapKeys_iff ns k).mp (mem_sortStrings.mp hk')
    cases ha : mapGet ms k with
    | none => rw [ha] at h1; cases h1
    | some a =>
      cases hb' : mapGet ns k with
      | none => rw [hb'] at h2; cases h2
      | some b =>
        rw [ha, hb'] at hv
        simp only [Option.getD_some] at hv
        rw [hv]
  · have hk' : k ∉ sortStrings (mapKeys ns) := hkeys ▸ hk
    have h1 : mapGet ms k = none := by
      cases ha : mapGet ms k with
      | none => rfl
      | some a =>
        exact absurd (mem_sortStrings.mpr ((mem_mapKeys_iff ms k).mpr (by rw [ha]; rfl))) hk
    have h2 : mapGet ns k = none := by
      cases ha : mapGet ns k with
      | none => rfl
      | some a =>
        exact absurd (mem_sortStrings.mpr ((mem_mapKeys_iff ns k).mpr (by rw [ha]; rfl))) hk'
    rw [h1, h2]

theorem hashInput_objNode_ne {ms ns : List (String × String)} (h : ∃ k, mapGet ms k ≠ mapGet ns k)
    (m p m' p' : String) :
    hashInput (.valid (objNode ms)) m p ≠ hashInput (.valid (objNode ns)) m' p' := by
  intro heq
  obtain ⟨k, hk⟩ := h
  have hd := congrArg String.data heq
  simp only [hashInput, String.data_append, List.append_assoc] at hd
  exact hk ((sortedJSON_objNode_unique hd).1 k)

/-- C10: the request bodies the handlers hash are objects of strings as
`json.Marshal` writes them for a struct or a map of Go strings.  For every
two of them that denote different JSON values (some key has a member in one
and none in the other, or another string), `sortedJSON` returns different
bytes, and `ComputeRequestHash` different hashes for every method, every path
and every injective digest.  In particular two different
`CreateWorkspaceRequest`s, two different snapshot ids and two different
messages are told apart. -/
theorem ComputeRequestHash_body_differs :
    (∀ ms ns : List (String × String), (∃ k, mapGet ms k ≠ mapGet ns k) →
      sortedJSON (.valid (objNode ms)) ≠ sortedJSON (.valid (objNode ns)) ∧
      ∀ sha256hex : String → String, Function.Injective sha256hex →
        ∀ method path : String,
          ComputeRequestHash sha256hex (.valid (objNode ms)) method path ≠
            ComputeRequestHash sha256hex (.valid (objNode ns)) method path) ∧
    (∀ req req' : CreateWorkspaceRequest, req ≠ req' →
      ∀ sha256hex : String → String, Function.Injective sha256hex →
        ∀ method path : String,
          ComputeRequestHash sha256hex req.marshal method path ≠
            ComputeRequestHash sha256hex req'.marshal method path) ∧
    (∀ a b : String, a ≠ b →
      ∀ sha256hex : String → String, Function.Injective sha256hex →
        ∀ method path : String,
          ComputeRequestHash sha256hex (marshalSnapshotID a) method path ≠
            ComputeRequestHash sha256hex (marshalSnapshotID b) method path) ∧
    (∀ a b : String, a ≠ b →
      ∀ sha256hex : String → String, Function.Injective sha256hex →
        ∀ method path : String,
          ComputeRequestHash sha256hex (marshalCreateSnapshotRequest a) method path ≠
            ComputeRequestHash sha256hex (marshalCreateSnapshotRequest b) method path) := by
  have hgen : ∀ ms ns : List (String × String), (∃ k, mapGet ms k ≠ mapGet ns k) →
      ∀ sha256hex : String → String, Function.Injective sha256hex →
        ∀ method path : String,
          ComputeRequestHash sha256hex (.valid (objNode ms)) method path ≠
            ComputeRequestHash sha256hex (.valid (objNode ns)) method path :=
    fun ms ns h sha hinj m p heq => hashInput_objNode_ne h m p m p (hinj heq)
  refine ⟨fun ms ns h => ⟨?_, hgen ms ns h⟩, ?_, ?_, ?_⟩
  · intro heq
    exact hashInput_objNode_ne h "" "" "" "" (by simp only [hashInput, heq])
  · intro req req' hne
    apply hgen
    by_cases h1 : req.WSID = req'.WSID
    · by_cases h2 : req.RootPath = req'.RootPath
      · by_cases h3 : req.Owner = req'.Owner
        · exfalso
          apply hne
          cases req; cases req'
          simp_all
        · exact ⟨"owner", by simpa [mapGet] using h3⟩
      · exact ⟨"root_path", by simpa [mapGet] using h2⟩
    · exact ⟨"wsid", by simpa [mapGet] using h1⟩
  · intro a b hab
    apply hgen
    exact ⟨"snapshot_id", by simpa [mapGet] using hab⟩
  · intro a b hab
    unfold marshalCreateSnapshotRequest
    apply hgen
    refine ⟨"message", ?_⟩
    by_cases ha : a = ""
    · have hb : b ≠ "" := fun hb => hab (ha.trans hb.symm)
      simp [ha, hb, mapGet]
    · by_cases hb : b = ""
      · simp [ha, hb, mapGet]
      · simpa [ha, hb, mapGet] using hab

/-- C10, instances: the two bodies of `TestComputeRequestHash_DifferentBody`
(messages `hello` and `world`), a body with and a body without the member
`message`, and the requests for `w1` of two owners; the digest is the
identity. -/
theorem ComputeRequestHash_body_differs_witness :
    (∃ k, mapGet [("message", "hello")] k ≠ mapGet [("message", "world")] k) ∧
    sortedJSON (.valid (objNode [("message", "hello")]))
      ≠ sortedJSON (.valid (objNode [("message", "world")])) ∧
    ComputeRequestHash id (.valid (objNode [("message", "hello")])) "POST"
        "/v1/workspaces/ws-1/snapshots"
      ≠ ComputeRequestHash id (.valid (objNode [("message", "world")])) "POST"
        "/v1/workspaces/ws-1/snapshots" ∧
    ComputeRequestHash id (marshalCreateSnapshotRequest "") "POST" "/v1/workspaces/w1/snapshots"
      ≠ ComputeRequestHash id (marshalCreateSnapshotRequest "m") "POST"
        "/v1/workspaces/w1/snapshots" ∧
    ComputeRequestHash id reqW1.marshal "POST" "/v1/workspaces"
      ≠ ComputeRequestHash id { reqW1 with Owner := "b" }.marshal "POST" "/v1/workspaces" ∧
    ComputeRequestHash id (marshalSnapshotID "s1") "POST" "/v1/workspaces/w1/current:set"
      ≠ ComputeRequestHash id (marshalSnapshotID "s3") "POST" "/v1/workspaces/w1/current:set" :=
  have h : ∃ k, mapGet [("message", "hello")] k ≠ mapGet [("message", "world")] k :=
    ⟨"message", by decide⟩
  ⟨h, (ComputeRequestHash_body_differs.1 _ _ h).1,
   (ComputeRequestHash_body_differs.1 _ _ h).2 id Function.injective_id _ _,
   ComputeRequestHash_body_differs.2.2.2 "" "m" (by decide) id Function.injective_id _ _,
   ComputeRequestHash_body_differs.2.1 reqW1 { reqW1 with Owner := "b" } (by decide) id
     Function.injective_id _ _,
   ComputeRequestHash_body_differs.2.2.1 "s1" "s3" (by decide) id Function.injective_id _ _⟩

/-- C28: the bytes fed to SHA-256 fix the whole triple of a submission.  A
submission has the body a handler marshals (an object of strings), a method
without a slash (the handlers pass `POST` and `DELETE`) and a path that
begins with a slash (the handlers pass `/v1/workspaces` and what follows it).
For every two submissions whose triples (`sortedJSON(body)`, method, path)
differ in any component, in one alone or in several together, the bytes
differ, and so do the hashes for every injective digest. -/
theorem hashInput_fingerprints_triple (ms ns : List (String × String)) (m m' p p' : String)
    (hm : '/' ∉ m.data) (hm' : '/' ∉ m'.data)
    (hp : ∃ r, p.data = '/' :: r) (hp' : ∃ r, p'.data = '/' :: r)
    (hne : (sortedJSON (.valid (objNode ms)), m, p)
      ≠ (sortedJSON (.valid (objNode ns)), m', p')) :
    hashInput (.valid (objNode ms)) m p ≠ hashInput (.valid (objNode ns)) m' p' ∧
    ∀ sha256hex : String → String, Function.Injective sha256hex →
      ComputeRequestHash sha256hex (.valid (objNode ms)) m p ≠
        ComputeRequestHash sha256hex (.valid (objNode ns)) m' p' := by
  have hin : hashInput (.valid (objNode ms)) m p ≠ hashInput (.valid (objNode ns)) m' p' := by
    intro heq
    apply hne
    have hd := congrArg String.data heq
    simp only [hashInput, String.data_append, List.append_assoc] at hd
    obtain ⟨hmap, hrest⟩ := sortedJSON_objNode_unique hd
    have hbody : sortedJSON (.valid (objNode ms)) = sortedJSON (.valid (objNode ns)) := by
      rw [hrest] at hd
      exact string_eq_of_data (List.append_cancel_right hd)
    have hmm : m = m' := string_eq_of_data (name_split_unique hm hm' (Or.inr hp) (Or.inr hp') hrest)
    have hpp : p = p' := by
      rw [hmm] at hrest
      exact string_eq_of_data (List.append_cancel_left hrest)
    rw [hbody, hmm, hpp]
  exact ⟨hin, fun sha hinj heq => hin (hinj heq)⟩

/-- C28, instances: the drop of `s1` against the set_current to `s1` (same
body, method and path both different), and the snapshot of `w1` against the
snapshot of `w2` with another message (body and path different). -/
theorem hashInput_fingerprints_triple_witness :
    ('/' ∉ "DELETE".data ∧ '/' ∉ "POST".data ∧
      (∃ r, "/v1/workspaces/w1/snapshots/s1".data = '/' :: r) ∧
      (∃ r, "/v1/workspaces/w1/current:set".data = '/' :: r)) ∧
    (hashInput (marshalSnapshotID "s1") "DELETE" "/v1/workspaces/w1/snapshots/s1"
        ≠ hashInput (marshalSnapshotID "s1") "POST" "/v1/workspaces/w1/current:set" ∧
      ∀ sha256hex : String → String, Function.Injective sha256hex →
        ComputeRequestHash sha256hex (marshalSnapshotID "s1") "DELETE"
            "/v1/workspaces/w1/snapshots/s1"
          ≠ ComputeRequestHash sha256hex (marshalSnapshotID "s1") "POST"
            "/v1/workspaces/w1/current:set") ∧
    hashInput (marshalCreateSnapshotRequest "a") "POST" "/v1/workspaces/w1/snapshots"
      ≠ hashInput (marshalCreateSnapshotRequest "b") "POST" "/v1/workspaces/w2/snapshots" :=
  ⟨⟨by decide, by decide, ⟨_, rfl⟩, ⟨_, rfl⟩⟩,
   hashInput_fingerprints_triple [("snapshot_id", "s1")] [("snapshot_id", "s1")] "DELETE" "POST"
     "/v1/workspaces/w1/snapshots/s1" "/v1/workspaces/w1/current:set" (by decide) (by decide)
     ⟨_, rfl⟩ ⟨_, rfl⟩ (by decide),
   (hashInput_fingerprints_triple [("message", "a")] [("message", "b")] "POST" "POST"
     "/v1/workspaces/w1/snapshots" "/v1/workspaces/w2/snapshots" (by decide) (by decide)
     ⟨_, rfl⟩ ⟨_, rfl⟩ (by decide)).1⟩

end Wvs
